import Mathlib

/-!
# Activity Manager scheduler

A shallow embedding of `src/ActivityManager.cpp`: the nine run-queues, admission
under the two concurrency levels, the interactive yield timeout, the enable mask
and focus tracking.

Modelling conventions.

* An `Activity` object is referred to by its address (`ActivityPtr`).  The members
  of the object that the manager reads or writes live in `ActivityManager.heap`.
* The run-queues and the focused list are boost intrusive lists threaded through
  a hook inside each Activity (`m_runQueueItem`, `m_focusedListItem`).  A queue is
  modelled as the list of the objects linked on it, front first; `unlink` takes
  the object off whatever queue holds it.
* Calls that the manager makes on its collaborators (the Activity itself, the
  resource manager, the timeout object) are appended to `ActivityManager.calls`
  in program order; the callee's code is not part of this file.
* `unsigned` is 32 bits wide; the places where the source narrows or complements
  an `unsigned` carry an explicit `% 2 ^ 32`.
* Log statements are not modelled.
-/

/-- The type of activity ids (`activityId_t`, an unsigned 64-bit integer). -/
abbrev activityId_t := Nat

/-- The address of an `Activity` object; two pointers are equal exactly when they
refer to the same object. -/
abbrev ActivityPtr := Nat

/-- The width of `unsigned`. -/
def UINT_WIDTH : Nat := 2 ^ 32

/-- The width of `activityId_t` (`unsigned long long`). -/
def ID_WIDTH : Nat := 2 ^ 64

/-- The indices of `m_runQueue`, in the order of `RunQueueNames`. -/
inductive RunQueueId
  | RunQueueInitialized
  | RunQueueScheduled
  | RunQueueReady
  | RunQueueReadyInteractive
  | RunQueueBackground
  | RunQueueBackgroundInteractive
  | RunQueueLongBackground
  | RunQueueImmediate
  | RunQueueEnded
  deriving DecidableEq, Repr

open RunQueueId

/-- All run-queue indices, `0 .. RunQueueMax - 1`. -/
def RunQueueId.all : List RunQueueId :=
  [RunQueueInitialized, RunQueueScheduled, RunQueueReady, RunQueueReadyInteractive,
   RunQueueBackground, RunQueueBackgroundInteractive, RunQueueLongBackground,
   RunQueueImmediate, RunQueueEnded]

/-- The two `MojErr` codes that the manager returns. -/
inductive MojErr
  | MojErrNone
  | MojErrInvalidArg
  deriving DecidableEq, Repr

/-- The kind of a bus identity. -/
inductive BusIdType
  | BusNamed
  | BusAnon
  deriving DecidableEq, Repr

/-- Modelled from the spec: the class `BusId` is not among the sources; the spec
describes the creator of an activity as an identity tagged either named (a string)
or anonymous. -/
structure BusId where
  type : BusIdType
  id : String
  deriving DecidableEq, Repr

/-- The members of an `Activity` object that the manager reads (`GetId`,
`IsImmediate`, `IsUserInitiated`, `IsYielding`, `IsFocused`, `GetName`,
`GetCreator`) or writes (`SetFocus`). -/
structure Activity where
  id : activityId_t
  focused : Bool
  immediate : Bool
  userInitiated : Bool
  yielding : Bool
  name : String := ""
  creator : BusId := { type := BusIdType.BusAnon, id := "" }
  deriving DecidableEq, Repr

/-- A call made by the manager on one of its collaborators. -/
inductive Call
  | ScheduleActivity (act : ActivityPtr)
  | RunActivity (act : ActivityPtr)
  | YieldActivity (act : ActivityPtr)
  | Associate (act : ActivityPtr)
  | Dissociate (act : ActivityPtr)
  | UpdateAssociations (act : ActivityPtr)
  | ArmTimeout (seconds : Nat)
  deriving DecidableEq, Repr

/-- The class constants of `ActivityManager.h`.  The header is not among the
sources, so the constants are a parameter of every operation that uses one.
`idTableUnique` stands for the declaration of `ActivityIdTable`, which is in the
header as well: whether the id table is a `boost::intrusive::set`, which refuses
an activity whose id it already holds, or a multiset, which takes it. -/
structure Constants where
  EXTERNAL_ENABLE : Nat
  UI_ENABLE : Nat
  ENABLE_MASK : Nat
  UnlimitedBackgroundConcurrency : Nat
  DefaultBackgroundConcurrencyLevel : Nat
  DefaultBackgroundInteractiveConcurrencyLevel : Nat
  DefaultBackgroundInteractiveYieldSeconds : Nat
  idTableUnique : Bool := true
  deriving DecidableEq, Repr

/-- The outcome of a function that can throw `std::runtime_error`; `outOfFuel` is
the outcome of a model that was given too little fuel for its recursion. -/
inductive Checked (α : Type)
  | ok (value : α)
  | thrown (what : String)
  | outOfFuel
  deriving DecidableEq, Repr

/-- The data members of `ActivityManager`, together with the Activity objects
(`heap`) and the record of outgoing calls (`calls`).  `m_activities` is the
`std::map` from id to activity, `m_idTable` and `m_nameTable` are the intrusive
tables; each is modelled as the list of its entries in iteration order. -/
structure ActivityManager where
  m_enabled : Nat
  m_backgroundConcurrencyLevel : Nat
  m_backgroundInteractiveConcurrencyLevel : Nat
  m_yieldTimeoutSeconds : Nat
  m_runQueue : RunQueueId → List ActivityPtr
  m_focusedActivities : List ActivityPtr
  m_interactiveYieldTimeout : Bool
  m_activities : List (activityId_t × ActivityPtr)
  heap : ActivityPtr → Activity
  calls : List Call
  m_idTable : List ActivityPtr := []
  m_nameTable : List ActivityPtr := []
  m_nextActivityId : activityId_t := 1

namespace ActivityManager

/-- The constructor `ActivityManager::ActivityManager`: every container is empty
and no timeout is armed. -/
def new (K : Constants) (heap : ActivityPtr → Activity) : ActivityManager where
  m_enabled := K.EXTERNAL_ENABLE
  m_backgroundConcurrencyLevel := K.DefaultBackgroundConcurrencyLevel
  m_backgroundInteractiveConcurrencyLevel := K.DefaultBackgroundInteractiveConcurrencyLevel
  m_yieldTimeoutSeconds := K.DefaultBackgroundInteractiveYieldSeconds
  m_runQueue := fun _ => []
  m_focusedActivities := []
  m_interactiveYieldTimeout := false
  m_activities := []
  heap := heap
  calls := []
  m_idTable := []
  m_nameTable := []
  m_nextActivityId := 1

/-- Records a call on a collaborator. -/
def call (s : ActivityManager) (c : Call) : ActivityManager :=
  { s with calls := s.calls ++ [c] }

/-- The test `act->m_runQueueItem.is_linked()`. -/
def is_linked (s : ActivityManager) (act : ActivityPtr) : Bool :=
  RunQueueId.all.any (fun q => decide (act ∈ s.m_runQueue q))

/-- The hook operation `act->m_runQueueItem.unlink()`: the object leaves the queue
it is linked on. -/
def unlink (s : ActivityManager) (act : ActivityPtr) : ActivityManager :=
  { s with m_runQueue := fun q => (s.m_runQueue q).filter (fun x => x != act) }

/-- The list operation `m_runQueue[q].push_back(*act)`. -/
def push_back (s : ActivityManager) (q : RunQueueId) (act : ActivityPtr) : ActivityManager :=
  { s with m_runQueue := fun r => if r = q then s.m_runQueue r ++ [act] else s.m_runQueue r }

/-- The member function `Activity::SetFocus`. -/
def SetFocus (s : ActivityManager) (act : ActivityPtr) (focus : Bool) : ActivityManager :=
  { s with heap := fun p => if p = act then { s.heap p with focused := focus } else s.heap p }

/-- `ActivityManager::IsEnabled`: all bits of the mask must be set. -/
def IsEnabled (K : Constants) (s : ActivityManager) : Bool :=
  (s.m_enabled &&& K.ENABLE_MASK) == K.ENABLE_MASK

/-- `ActivityManager::EvictQueue`. -/
def EvictQueue (s : ActivityManager) (act : ActivityPtr) : ActivityManager :=
  if s.is_linked act then s.unlink act else s

/-- `ActivityManager::RunActivity`. -/
def RunActivity (s : ActivityManager) (act : ActivityPtr) : ActivityManager :=
  (s.call (Call.Associate act)).call (Call.RunActivity act)

/-- `ActivityManager::RunReadyBackgroundActivity(Activity&)`. -/
def RunReadyBackgroundActivity (s : ActivityManager) (act : ActivityPtr) : ActivityManager :=
  let s1 := if s.is_linked act then s.unlink act else s
  let s2 := s1.push_back RunQueueBackground act
  s2.RunActivity act

/-- `ActivityManager::RunReadyBackgroundInteractiveActivity`. -/
def RunReadyBackgroundInteractiveActivity (s : ActivityManager) (act : ActivityPtr) :
    ActivityManager :=
  let s1 := if s.is_linked act then s.unlink act else s
  let s2 := s1.push_back RunQueueBackgroundInteractive act
  s2.RunActivity act

/-- `ActivityManager::GetRunningBackgroundActivitiesCount`, with its cast to
`unsigned`. -/
def GetRunningBackgroundActivitiesCount (s : ActivityManager) : Nat :=
  ((s.m_runQueue RunQueueBackground).length +
    (s.m_runQueue RunQueueBackgroundInteractive).length) % UINT_WIDTH

/-- `ActivityManager::UpdateYieldTimeout`: a fresh timeout object replaces the old
one and is armed. -/
def UpdateYieldTimeout (s : ActivityManager) : ActivityManager :=
  { s with m_interactiveYieldTimeout := true,
           calls := s.calls ++ [Call.ArmTimeout s.m_yieldTimeoutSeconds] }

/-- `ActivityManager::CancelYieldTimeout`. -/
def CancelYieldTimeout (s : ActivityManager) : ActivityManager :=
  { s with m_interactiveYieldTimeout := false }

/-- The first `while` loop of `CheckReadyQueue`; the Boolean is `ranInteractive`.
Each pass takes the front of `readyInteractive` off that queue, so the loop is
given one unit of fuel per queued activity. -/
def runReadyInteractiveLoop (K : Constants) :
    Nat → ActivityManager → Bool → ActivityManager × Bool
  | 0, s, ranInteractive => (s, ranInteractive)
  | fuel + 1, s, ranInteractive =>
    if s.GetRunningBackgroundActivitiesCount < s.m_backgroundInteractiveConcurrencyLevel
        ∨ s.m_backgroundInteractiveConcurrencyLevel = K.UnlimitedBackgroundConcurrency then
      match s.m_runQueue RunQueueReadyInteractive with
      | [] => (s, ranInteractive)
      | front :: _ =>
        runReadyInteractiveLoop K fuel (s.RunReadyBackgroundInteractiveActivity front) true
    else (s, ranInteractive)

/-- The second `while` loop of `CheckReadyQueue`, fuelled like the first. -/
def runReadyLoop (K : Constants) : Nat → ActivityManager → ActivityManager
  | 0, s => s
  | fuel + 1, s =>
    if s.GetRunningBackgroundActivitiesCount < s.m_backgroundConcurrencyLevel
        ∨ s.m_backgroundConcurrencyLevel = K.UnlimitedBackgroundConcurrency then
      match s.m_runQueue RunQueueReady with
      | [] => s
      | front :: _ => runReadyLoop K fuel (s.RunReadyBackgroundActivity front)
    else s

/-- `ActivityManager::CheckReadyQueue`. -/
def CheckReadyQueue (K : Constants) (s : ActivityManager) : ActivityManager :=
  let r := runReadyInteractiveLoop K (s.m_runQueue RunQueueReadyInteractive).length s false
  let s1 := r.1
  let ranInteractive := r.2
  let s2 :=
    if s1.m_runQueue RunQueueReadyInteractive ≠ [] then
      if ranInteractive then s1.UpdateYieldTimeout
      else if !s1.m_interactiveYieldTimeout then s1.UpdateYieldTimeout
      else s1
    else
      if s1.m_interactiveYieldTimeout then s1.CancelYieldTimeout else s1
  runReadyLoop K (s2.m_runQueue RunQueueReady).length s2

/-- `ActivityManager::ReleaseActivity`. -/
def ReleaseActivity (K : Constants) (s : ActivityManager) (act : ActivityPtr) :
    ActivityManager :=
  let s1 := s.EvictQueue act
  let s2 :=
    match s1.m_activities.find? (fun e => e.1 == (s1.heap act).id) with
    | none => s1
    | some e =>
      if e.2 = act then { s1 with m_activities := s1.m_activities.erase e } else s1
  s2.CheckReadyQueue K

/-- The loop of `FocusActivity` that takes the focus from the activities of
`oldFocused`, front first. -/
def removeOldFocus : List ActivityPtr → ActivityManager → ActivityManager
  | [], s => s
  | focusedActivity :: oldFocused, s =>
    removeOldFocus oldFocused
      ((s.SetFocus focusedActivity false).call (Call.UpdateAssociations focusedActivity))

/-- `ActivityManager::FocusActivity`. -/
def FocusActivity (s : ActivityManager) (act : ActivityPtr) : MojErr × ActivityManager :=
  if (s.heap act).focused then (MojErr.MojErrNone, s)
  else
    let s1 := (s.SetFocus act true).call (Call.UpdateAssociations act)
    let oldFocused := s1.m_focusedActivities
    let s2 := { s1 with m_focusedActivities := [] }
    let s3 := { s2 with m_focusedActivities := s2.m_focusedActivities ++ [act] }
    (MojErr.MojErrNone, removeOldFocus oldFocused s3)

/-- `ActivityManager::UnfocusActivity`. -/
def UnfocusActivity (s : ActivityManager) (act : ActivityPtr) : MojErr × ActivityManager :=
  if !(s.heap act).focused then (MojErr.MojErrInvalidArg, s)
  else
    let s1 := (s.SetFocus act false).call (Call.UpdateAssociations act)
    let s2 :=
      if act ∈ s1.m_focusedActivities then
        { s1 with m_focusedActivities := s1.m_focusedActivities.filter (fun x => x != act) }
      else s1
    (MojErr.MojErrNone, s2)

/-- `ActivityManager::AddFocus`. -/
def AddFocus (s : ActivityManager) (source target : ActivityPtr) : MojErr × ActivityManager :=
  if !(s.heap source).focused then (MojErr.MojErrInvalidArg, s)
  else if (s.heap target).focused then (MojErr.MojErrNone, s)
  else
    let s1 := (s.SetFocus target true).call (Call.UpdateAssociations target)
    (MojErr.MojErrNone, { s1 with m_focusedActivities := s1.m_focusedActivities ++ [target] })

/-- The loop of `ScheduleAllActivities`, with one unit of fuel per activity on
the initialized queue. -/
def scheduleAllLoop : Nat → ActivityManager → ActivityManager
  | 0, s => s
  | fuel + 1, s =>
    match s.m_runQueue RunQueueInitialized with
    | [] => s
    | act :: _ =>
      scheduleAllLoop fuel
        (((s.unlink act).push_back RunQueueScheduled act).call (Call.ScheduleActivity act))

/-- `ActivityManager::ScheduleAllActivities`. -/
def ScheduleAllActivities (s : ActivityManager) : ActivityManager :=
  scheduleAllLoop (s.m_runQueue RunQueueInitialized).length s

/-- `ActivityManager::Enable`. -/
def Enable (K : Constants) (s : ActivityManager) (mask : Nat) : ActivityManager :=
  let s1 := { s with m_enabled := s.m_enabled ||| (mask &&& K.ENABLE_MASK) }
  if s1.IsEnabled K then s1.ScheduleAllActivities else s1

/-- `ActivityManager::Disable`; `~mask` is the 32-bit complement. -/
def Disable (s : ActivityManager) (mask : Nat) : ActivityManager :=
  { s with m_enabled := s.m_enabled &&& ((UINT_WIDTH - 1) ^^^ (mask % UINT_WIDTH)) }

/-- `ActivityManager::InformActivityInitialized`. -/
def InformActivityInitialized (K : Constants) (s : ActivityManager) (act : ActivityPtr) :
    ActivityManager :=
  let s1 := if s.is_linked act then s.unlink act else s
  if s1.IsEnabled K then
    (s1.push_back RunQueueScheduled act).call (Call.ScheduleActivity act)
  else
    s1.push_back RunQueueInitialized act

/-- `ActivityManager::InformActivityReady`. -/
def InformActivityReady (K : Constants) (s : ActivityManager) (act : ActivityPtr) :
    ActivityManager :=
  let s1 := if s.is_linked act then s.unlink act else s
  if (s1.heap act).immediate then
    (s1.push_back RunQueueImmediate act).RunActivity act
  else
    let s2 :=
      if (s1.heap act).userInitiated then s1.push_back RunQueueReadyInteractive act
      else s1.push_back RunQueueReady act
    s2.CheckReadyQueue K

/-- `ActivityManager::InformActivityNotReady`. -/
def InformActivityNotReady (s : ActivityManager) (act : ActivityPtr) : ActivityManager :=
  let s1 := if s.is_linked act then s.unlink act else s
  s1.push_back RunQueueScheduled act

/-- `ActivityManager::InformActivityEnd`. -/
def InformActivityEnd (K : Constants) (s : ActivityManager) (act : ActivityPtr) :
    ActivityManager :=
  let s1 := if s.is_linked act then s.unlink act else s
  let s2 := s1.push_back RunQueueEnded act
  let s3 := s2.call (Call.Dissociate act)
  s3.CheckReadyQueue K

/-- The `for` loop of `InteractiveYieldTimeout` over the rest of
`backgroundInteractive`.  The result is whether the iterator reached the end of
the queue (no `break`) and the victim found so far. -/
def yieldScan (s : ActivityManager) (waiting : Nat) :
    List ActivityPtr → Nat → Option ActivityPtr → Bool × Option ActivityPtr
  | [], _, victim => (true, victim)
  | a :: rest, yielding, victim =>
    if (s.heap a).yielding then
      if (yielding + 1) % UINT_WIDTH ≥ waiting then (false, victim)
      else yieldScan s waiting rest ((yielding + 1) % UINT_WIDTH) victim
    else
      yieldScan s waiting rest yielding (if victim.isNone then some a else victim)

/-- `ActivityManager::InteractiveYieldTimeout`. -/
def InteractiveYieldTimeout (s : ActivityManager) : ActivityManager :=
  if s.m_runQueue RunQueueReadyInteractive = [] then s.CancelYieldTimeout
  else
    let waiting := (s.m_runQueue RunQueueReadyInteractive).length % UINT_WIDTH
    let r := yieldScan s waiting (s.m_runQueue RunQueueBackgroundInteractive) 0 none
    let s1 :=
      if r.1 then
        match r.2 with
        | some victim => s.call (Call.YieldActivity victim)
        | none => s
      else s
    s1.UpdateYieldTimeout

/-! ## Operations as a transition system -/

/-- The lifecycle operations of the manager, and `activityChanged`, by which an
Activity changes the flags that it owns between two calls of the manager. -/
inductive Op
  | InformActivityInitialized (act : ActivityPtr)
  | InformActivityReady (act : ActivityPtr)
  | InformActivityNotReady (act : ActivityPtr)
  | InformActivityEnd (act : ActivityPtr)
  | ReleaseActivity (act : ActivityPtr)
  | Enable (mask : Nat)
  | Disable (mask : Nat)
  | InteractiveYieldTimeout
  | FocusActivity (act : ActivityPtr)
  | UnfocusActivity (act : ActivityPtr)
  | AddFocus (source target : ActivityPtr)
  | activityChanged (act : ActivityPtr) (immediate userInitiated yielding : Bool)
  deriving DecidableEq, Repr

/-- One operation applied to a manager state. -/
def step (K : Constants) (s : ActivityManager) : Op → ActivityManager
  | Op.InformActivityInitialized act => s.InformActivityInitialized K act
  | Op.InformActivityReady act => s.InformActivityReady K act
  | Op.InformActivityNotReady act => s.InformActivityNotReady act
  | Op.InformActivityEnd act => s.InformActivityEnd K act
  | Op.ReleaseActivity act => s.ReleaseActivity K act
  | Op.Enable mask => s.Enable K mask
  | Op.Disable mask => s.Disable mask
  | Op.InteractiveYieldTimeout => s.InteractiveYieldTimeout
  | Op.FocusActivity act => (s.FocusActivity act).2
  | Op.UnfocusActivity act => (s.UnfocusActivity act).2
  | Op.AddFocus source target => (s.AddFocus source target).2
  | Op.activityChanged act immediate userInitiated yielding =>
    { s with heap := fun p =>
        if p = act then
          { s.heap p with immediate := immediate, userInitiated := userInitiated,
                          yielding := yielding }
        else s.heap p }

/-- The state after a sequence of operations on a freshly constructed manager. -/
def run (K : Constants) (heap : ActivityPtr → Activity) (ops : List Op) : ActivityManager :=
  ops.foldl (step K) (new K heap)

/-! ## Predicates and functions used to state the properties -/

/-- The run-queue invariant: no queue holds an activity twice, and no activity is
on two queues.  The intrusive hook `m_runQueueItem` of an Activity can be linked
at one position only, so the states of the program all satisfy it. -/
def RunQueueInv (s : ActivityManager) : Prop :=
  (∀ q ∈ RunQueueId.all, (s.m_runQueue q).Nodup) ∧
  (∀ q ∈ RunQueueId.all, ∀ r ∈ RunQueueId.all, q ≠ r →
    ∀ a ∈ s.m_runQueue q, a ∉ s.m_runQueue r)

instance (s : ActivityManager) : Decidable (RunQueueInv s) := by
  unfold RunQueueInv; infer_instance

/-- The focus invariant: the focused list has no repetition and holds exactly the
activities whose focused flag is set. -/
def FocusInv (s : ActivityManager) : Prop :=
  s.m_focusedActivities.Nodup ∧
  ∀ a, (s.heap a).focused = true ↔ a ∈ s.m_focusedActivities

/-- The number of activities on the two running queues, before the cast to
`unsigned`. -/
def running (s : ActivityManager) : Nat :=
  (s.m_runQueue RunQueueBackground).length +
    (s.m_runQueue RunQueueBackgroundInteractive).length

/-- The number of activities that a limit `level` lets in when `count` are running
and `waiting` are queued: `min(waiting, max(0, level - count))`, and all of them
when the level is the unlimited one. -/
def admitted (level unlimited count waiting : Nat) : Nat :=
  if level = unlimited then waiting else min waiting (level - count)

/-- The queues after the first `k` activities of `src` have moved, in order, to the
tail of `dst`. -/
def moveFront (rq : RunQueueId → List ActivityPtr) (src dst : RunQueueId) (k : Nat) :
    RunQueueId → List ActivityPtr :=
  fun q => if q = src then (rq src).drop k
    else if q = dst then rq dst ++ (rq src).take k else rq q

/-- The part of a state that bounds the running count: the invariant of the
run-queues, the two levels and a bound on the running count. -/
def Bounded (lb li bound : Nat) (s : ActivityManager) : Prop :=
  RunQueueInv s ∧ s.m_backgroundConcurrencyLevel = lb ∧
    s.m_backgroundInteractiveConcurrencyLevel = li ∧ s.running ≤ bound

/-- The queues when the activities of `pre` have become ready under the level
`n`: the first `n` run on background and the others wait on ready. -/
def readyQueues (n : Nat) (pre : List ActivityPtr) : RunQueueId → List ActivityPtr :=
  fun q => if q = RunQueueBackground then pre.take n
    else if q = RunQueueReady then pre.drop n else []

/-! ## The id table, the name table and the map of live activities -/

/-- Insertion into an ordered container: the new element goes in front of the first
element at which `stop` holds, and to the end when there is none. -/
def insertBefore {α : Type} (stop : α → Bool) (x : α) : List α → List α
  | [] => [x]
  | y :: l => if stop y then x :: y :: l else y :: insertBefore stop x l

/-- `ActivityManager::ActivityIdComp::operator()(const Activity&, const Activity&)`. -/
def ActivityIdComp (s : ActivityManager) (act1 act2 : ActivityPtr) : Bool :=
  decide ((s.heap act1).id < (s.heap act2).id)

/-- `ActivityManager::ActivityNameComp::operator()(const Activity&, const Activity&)`;
`busLess` is `BusId::operator<`, whose code is not among the sources. -/
def ActivityNameComp (busLess : BusId → BusId → Bool) (s : ActivityManager)
    (act1 act2 : ActivityPtr) : Bool :=
  if (s.heap act1).name ≠ (s.heap act2).name then
    decide ((s.heap act1).name < (s.heap act2).name)
  else busLess (s.heap act1).creator (s.heap act2).creator

/-- The call `m_idTable.lower_bound(id, ActivityIdComp())`: the first activity of the
table whose id is not less than `id`. -/
def idTableLowerBound (s : ActivityManager) (id : activityId_t) : Option ActivityPtr :=
  s.m_idTable.find? (fun e => !decide ((s.heap e).id < id))

/-- The expression `boost::make_shared<Activity>(id, shared_from_this())`: the
allocator hands out the address `p`, and the constructor of Activity, which is not
among the sources, leaves the members `init` in the object, with the id `id`. -/
def makeActivity (s : ActivityManager) (p : ActivityPtr) (init : Activity)
    (id : activityId_t) : ActivityManager :=
  { s with heap := fun q => if q = p then { init with id := id } else s.heap q }

/-- The loop of `ActivityManager::GetNewActivity()` under the sequential id policy.
A pass that does not allocate has found the counter among the ids of the table, so
the loop is given one unit of fuel per activity of the table and one more; `none`
is the result of a loop that ran out of fuel. -/
def getNewActivityLoop (p : ActivityPtr) (init : Activity) :
    Nat → ActivityManager → Option (ActivityPtr × ActivityManager)
  | 0, _ => none
  | fuel + 1, s =>
    let hint := s.idTableLowerBound s.m_nextActivityId
    if hint = none ∨ hint.map (fun e => (s.heap e).id) ≠ some s.m_nextActivityId then
      let s1 := s.makeActivity p init s.m_nextActivityId
      let s2 := { s1 with m_nextActivityId := (s.m_nextActivityId + 1) % ID_WIDTH }
      let table :=
        insertBefore (fun e => !decide ((s2.heap e).id < s.m_nextActivityId)) p s2.m_idTable
      some (p, { s2 with m_idTable := table })
    else
      getNewActivityLoop p init fuel
        { s with m_nextActivityId := (s.m_nextActivityId + 1) % ID_WIDTH }

/-- `ActivityManager::GetNewActivity()`. -/
def GetNewActivity (s : ActivityManager) (p : ActivityPtr) (init : Activity) :
    Option (ActivityPtr × ActivityManager) :=
  getNewActivityLoop p init (s.m_idTable.length + 1) s

/-- The call `m_idTable.insert(*act)`: a table with unique keys keeps its content
when it holds an activity with the same id; otherwise the activity goes behind the
activities whose id is not greater. -/
def idTableInsert (K : Constants) (s : ActivityManager) (act : ActivityPtr) :
    List ActivityPtr :=
  if K.idTableUnique ∧
      s.m_idTable.any (fun e => !s.ActivityIdComp act e && !s.ActivityIdComp e act) then
    s.m_idTable
  else insertBefore (fun e => s.ActivityIdComp act e) act s.m_idTable

/-- `ActivityManager::GetNewActivity(activityId_t)`.  The lookup in `m_activities`
only decides whether a warning is logged. -/
def GetNewActivity_id (K : Constants) (s : ActivityManager) (id : activityId_t)
    (p : ActivityPtr) (init : Activity) : ActivityPtr × ActivityManager :=
  let s1 := s.makeActivity p init id
  (p, { s1 with m_idTable := idTableInsert K s1 p })

/-- `ActivityManager::RegisterActivityId`. -/
def RegisterActivityId (s : ActivityManager) (act : ActivityPtr) :
    Checked Unit × ActivityManager :=
  match s.m_activities.find? (fun e => e.1 == (s.heap act).id) with
  | some _ => (Checked.thrown "Activity ID is already registered", s)
  | none =>
    let entries :=
      insertBefore (fun e => decide ((s.heap act).id < e.1)) ((s.heap act).id, act)
        s.m_activities
    (Checked.ok (), { s with m_activities := entries })

/-- `ActivityManager::RegisterActivityName`: the insertion into the name table, a
container with unique keys, fails when the table holds an activity that the
comparison puts neither before nor behind `act`. -/
def RegisterActivityName (busLess : BusId → BusId → Bool) (s : ActivityManager)
    (act : ActivityPtr) : Checked Unit × ActivityManager :=
  if s.m_nameTable.any (fun e =>
      !ActivityNameComp busLess s act e && !ActivityNameComp busLess s e act) then
    (Checked.thrown "Activity name is already registed", s)
  else
    let table := insertBefore (fun e => ActivityNameComp busLess s act e) act s.m_nameTable
    (Checked.ok (), { s with m_nameTable := table })

/-- `ActivityManager::UnregisterActivityName`. -/
def UnregisterActivityName (s : ActivityManager) (act : ActivityPtr) :
    Checked Unit × ActivityManager :=
  if act ∈ s.m_nameTable then
    (Checked.ok (), { s with m_nameTable := s.m_nameTable.filter (fun x => x != act) })
  else (Checked.thrown "Activity name is not registered", s)

/-- `ActivityManager::GetActivity(activityId_t)`. -/
def GetActivity (s : ActivityManager) (id : activityId_t) :
    Checked ActivityPtr × ActivityManager :=
  match s.m_activities.find? (fun e => e.1 == id) with
  | some e => (Checked.ok e.2, s)
  | none => (Checked.thrown "activityId not found", s)

/-- The operations on the tables of activities. -/
inductive RegistryOp
  | GetNewActivity (p : ActivityPtr) (init : Activity)
  | GetNewActivity_id (id : activityId_t) (p : ActivityPtr) (init : Activity)
  | RegisterActivityId (act : ActivityPtr)
  | RegisterActivityName (act : ActivityPtr)
  | ReleaseActivity (act : ActivityPtr)

/-- One operation on the tables applied to a manager state; an operation that
throws, or an allocation without result, leaves the state that it reached. -/
def registryStep (K : Constants) (busLess : BusId → BusId → Bool) (s : ActivityManager) :
    RegistryOp → ActivityManager
  | RegistryOp.GetNewActivity p init =>
    match s.GetNewActivity p init with
    | some r => r.2
    | none => s
  | RegistryOp.GetNewActivity_id id p init => (s.GetNewActivity_id K id p init).2
  | RegistryOp.RegisterActivityId act => (s.RegisterActivityId act).2
  | RegistryOp.RegisterActivityName act => (s.RegisterActivityName busLess act).2
  | RegistryOp.ReleaseActivity act => s.ReleaseActivity K act

/-- The ids of the activities of the id table, in table order. -/
def idTableIds (s : ActivityManager) : List activityId_t :=
  s.m_idTable.map (fun e => (s.heap e).id)

/-- The id table is ordered by id, as the search tree behind it is. -/
def IdTableSorted (s : ActivityManager) : Prop :=
  s.idTableIds.Pairwise (fun a b => a ≤ b)

/-- The map of live activities holds each id once, as a `std::map` does. -/
def MapInv (s : ActivityManager) : Prop :=
  (s.m_activities.map Prod.fst).Nodup

/-- The calls by which `RunActivity` starts each activity of a list in turn. -/
def runCalls : List ActivityPtr → List Call
  | [] => []
  | a :: l => Call.Associate a :: Call.RunActivity a :: runCalls l

end ActivityManager

/-- Modelled from the spec: values for the constants of the missing header
`ActivityManager.h`, used where a concrete manager is evaluated.  The spec gives
the enable mask as the two bits EXTERNAL and UI, a concurrency level as a
positive integer or unlimited (which leaves 0 for unlimited), and the default
levels 1 and 3; the default yield timeout is device-specific. -/
def specConstants : Constants where
  EXTERNAL_ENABLE := 1
  UI_ENABLE := 2
  ENABLE_MASK := 3
  UnlimitedBackgroundConcurrency := 0
  DefaultBackgroundConcurrencyLevel := 1
  DefaultBackgroundInteractiveConcurrencyLevel := 3
  DefaultBackgroundInteractiveYieldSeconds := 2

/-- A heap for examples: the activity at address `p` has id `p`, is user-initiated
when `10 ≤ p < 20`, immediate when `20 ≤ p < 30`, yielding when `p` is 15, and
nothing is focused. -/
def exampleHeap : ActivityPtr → Activity :=
  fun p =>
    { id := p, focused := false, immediate := decide (20 ≤ p ∧ p < 30),
      userInitiated := decide (10 ≤ p ∧ p < 20), yielding := decide (p = 15) }

/-- An example state: levels 4 (background) and 3 (interactive), activity 10
running on backgroundInteractive, 11, 12, 13 waiting on readyInteractive and 1, 2
waiting on ready. -/
def admissionExample : ActivityManager :=
  { ActivityManager.new specConstants exampleHeap with
    m_backgroundConcurrencyLevel := 4
    m_runQueue := fun q =>
      match q with
      | RunQueueReady => [1, 2]
      | RunQueueReadyInteractive => [11, 12, 13]
      | RunQueueBackgroundInteractive => [10]
      | _ => [] }

/-- Constants with both default levels equal to 3. -/
def equalLevelConstants : Constants :=
  { specConstants with DefaultBackgroundConcurrencyLevel := 3 }

/-- The state of a fresh manager with the default levels 1 (background) and 3
(interactive) after the user-initiated activities 10 and 11 have become ready. -/
def twoInteractiveReady : ActivityManager :=
  ActivityManager.run specConstants exampleHeap
    [ActivityManager.Op.InformActivityReady 10, ActivityManager.Op.InformActivityReady 11]

/-- A manager with empty run-queues and background level 2 (scenario S1). -/
def levelTwoManager : ActivityManager :=
  { ActivityManager.new specConstants exampleHeap with m_backgroundConcurrencyLevel := 2 }

/-- Scenario S2: interactive level 1, the user-initiated activities 10 and 11 have
become ready in turn, so 10 runs on backgroundInteractive and 11 waits on
readyInteractive. -/
def yieldExample : ActivityManager :=
  ({ ActivityManager.new specConstants exampleHeap with
      m_backgroundInteractiveConcurrencyLevel := 1 }.InformActivityReady
        specConstants 10).InformActivityReady specConstants 11

/-- A manager that was enabled while activity 3 was initialized and disabled again
before activities 1 and 2 were: 3 is on scheduled, 1 and 2 are on initialized. -/
def parkedExample : ActivityManager :=
  ActivityManager.run specConstants exampleHeap
    [ActivityManager.Op.Enable 2, ActivityManager.Op.InformActivityInitialized 3,
     ActivityManager.Op.Disable 2, ActivityManager.Op.InformActivityInitialized 1,
     ActivityManager.Op.InformActivityInitialized 2]

/-- A manager with background level 1 that admitted activity 1, queued activity 2
on ready, and was disabled afterwards by clearing the UI bit. -/
def disabledExample : ActivityManager :=
  ActivityManager.run specConstants exampleHeap
    [ActivityManager.Op.Enable 2, ActivityManager.Op.InformActivityReady 1,
     ActivityManager.Op.InformActivityReady 2, ActivityManager.Op.Disable 2]

/-- Scenario S6 after its first two steps: activity 1, then activity 2 was given the
exclusive focus. -/
def focusExample : ActivityManager :=
  ActivityManager.run specConstants exampleHeap
    [ActivityManager.Op.FocusActivity 1, ActivityManager.Op.FocusActivity 2]

/-- Activity 1 has the focus and has passed it on to activity 2 as well. -/
def sharedFocusExample : ActivityManager :=
  ActivityManager.run specConstants exampleHeap
    [ActivityManager.Op.FocusActivity 1, ActivityManager.Op.AddFocus 1 2]

/-- Modelled from the spec: an order on bus identities for examples, the named
ones before the anonymous ones and identities of one kind by their string. -/
def exampleBusLess (a b : BusId) : Bool :=
  match a.type, b.type with
  | BusIdType.BusNamed, BusIdType.BusAnon => true
  | BusIdType.BusAnon, BusIdType.BusNamed => false
  | _, _ => decide (a.id < b.id)

/-- The members of a newly constructed activity in the examples. -/
def freshActivity : Activity :=
  { id := 0, focused := false, immediate := false, userInitiated := false, yielding := false }

/-- A manager on which activity 1 was given the focus. -/
def focusedOne : ActivityManager :=
  ActivityManager.run specConstants exampleHeap [ActivityManager.Op.FocusActivity 1]

/-- A manager whose id table holds the activities at the addresses 101, 102 and 104
with the ids 1, 2 and 4, the first two of them registered by id. -/
def registryExample : ActivityManager :=
  (((((ActivityManager.new specConstants exampleHeap).GetNewActivity_id specConstants 1 101
    freshActivity).2.GetNewActivity_id specConstants 2 102
    freshActivity).2.GetNewActivity_id specConstants 4 104
    freshActivity).2.RegisterActivityId 101).2.RegisterActivityId 102 |>.2

/-- The members of a newly constructed activity with a name and a creator. -/
def namedActivity : Activity :=
  { freshActivity with name := "sync", creator := { type := BusIdType.BusNamed, id := "com.example" } }

/-- A fresh manager on which the activity at the address 101 was allocated with the
id 1 and registered by id and by name. -/
def namedExample : ActivityManager :=
  (((ActivityManager.new specConstants exampleHeap).GetNewActivity_id specConstants 1 101
    namedActivity).2.RegisterActivityId 101).2.RegisterActivityName exampleBusLess 101 |>.2

/-! ## The where-matcher (`WhereMatcher.cpp`) -/

/-- A value of the JSON-like library type `MojObject`: its type tag and its content.
An object is the list of its entries; a key is looked up from the front. -/
inductive MojObject where
  | undefined
  | null
  | bool (b : Bool)
  | int (n : Int)
  | decimal (d : Int)
  | str (s : String)
  | array (xs : List MojObject)
  | object (kv : List (String × MojObject))

/-- The enumeration `WhereMatcher::MatchMode`. -/
inductive MatchMode where
  | AndMode
  | OrMode
  deriving DecidableEq, Repr

/-- The enumeration `WhereMatcher::MatchResult`. -/
inductive MatchResult where
  | NoProperty
  | Matched
  | NotMatched
  deriving DecidableEq, Repr

/-- What the matcher takes from headers that are not among the sources: the
comparison operators of `MojObject`, the string conversion of a `MojObject` that is
not a string, and the values of the enumerators of `MatchResult`.  The connection
manager proxy takes the conversion of a `MojObject` that is not a boolean to `bool`
from the same library. -/
structure MojEnv where
  lt : MojObject → MojObject → Bool
  le : MojObject → MojObject → Bool
  eq : MojObject → MojObject → Bool
  ne : MojObject → MojObject → Bool
  ge : MojObject → MojObject → Bool
  gt : MojObject → MojObject → Bool
  stringValue : MojObject → Option String
  resultValue : MatchResult → Nat
  boolValue : MojObject → Bool := fun _ => false

namespace MojObject

/-- `MojObject::get(key, valOut)`: the value of the entry `key` of an object, and
`none` (the call returns false) when there is no such entry or the value is not an
object. -/
def get : MojObject → String → Option MojObject
  | object kv, key => (kv.find? (fun e => e.1 == key)).map Prod.snd
  | _, _ => none

/-- `MojObject::contains(key)`. -/
def contains (o : MojObject) (key : String) : Bool :=
  (o.get key).isSome

/-- `MojObject::stringValue(strOut)`: the string of a string value; the conversion
of every other value is left to the library. -/
def stringValue (E : MojEnv) : MojObject → Option String
  | str s => some s
  | o => E.stringValue o

end MojObject

namespace Checked

/-- Sequencing of two steps of which the first may throw. -/
def bind {α β : Type} : Checked α → (α → Checked β) → Checked β
  | ok a, f => f a
  | thrown what, _ => thrown what
  | outOfFuel, _ => outOfFuel

end Checked

namespace WhereMatcher

/-- The loops of `checkClauses` and of the seven-argument `checkProperty` over the
results of the elements in turn: in and-mode the first result that is not `Matched`
ends the loop with `NotMatched`, in or-mode the first `Matched` ends it with
`Matched`; an element that throws ends the loop with its exception. -/
def loopResults (mode : MatchMode) : List (Checked MatchResult) → Checked MatchResult
  | [] => Checked.ok (if mode = MatchMode.AndMode then MatchResult.Matched else MatchResult.NotMatched)
  | Checked.ok result :: rest =>
    if mode = MatchMode.AndMode then
      if result ≠ MatchResult.Matched then Checked.ok MatchResult.NotMatched
      else loopResults mode rest
    else
      if result = MatchResult.Matched then Checked.ok MatchResult.Matched
      else loopResults mode rest
  | Checked.thrown what :: _ => Checked.thrown what
  | Checked.outOfFuel :: _ => Checked.outOfFuel

/-- Where the loop over the keys of a path in the six-argument `checkProperty` ends:
past the last key, at an array with keys left, at a key that is absent, or at a key
that has no string value. -/
inductive Descent where
  | atEnd (onion : MojObject)
  | atArray (keys : List MojObject) (xs : List MojObject)
  | noProperty
  | thrown (what : String)

/-- The loop over the keys of a path in the six-argument `checkProperty`, from the
key `keyIter` points at (the head of the list) and with the response as `onion`. -/
def descend (E : MojEnv) : List MojObject → MojObject → Descent
  | [], onion => Descent.atEnd onion
  | key :: keys, MojObject.array xs => Descent.atArray (key :: keys) xs
  | key :: keys, MojObject.object kv =>
    match key.stringValue E with
    | none => Descent.thrown "Failed to convert property lookup key to string"
    | some keyStr =>
      match (MojObject.object kv).get keyStr with
      | none => Descent.noProperty
      | some next => descend E keys next
  | _ :: _, _ => Descent.noProperty

/-- The end of `checkMatch`: `Matched` for a true `result`, `NotMatched` otherwise. -/
def ofResult (result : Bool) : Checked MatchResult :=
  Checked.ok (if result then MatchResult.Matched else MatchResult.NotMatched)

mutual

/-- `WhereMatcher::checkClauses(clauses, response, mode)`. -/
def checkClauses (E : MojEnv) :
    Nat → MojObject → MojObject → MatchMode → Checked MatchResult
  | 0, _, _, _ => Checked.outOfFuel
  | fuel + 1, clauses, response, mode =>
    match clauses with
    | MojObject.object _ => checkClause E fuel clauses response mode
    | MojObject.array xs =>
      loopResults mode (xs.map (fun clause => checkClause E fuel clause response mode))
    | _ => Checked.thrown "Multiple clauses must be specified as an array of clauses"

/-- `WhereMatcher::checkClause(clause, response, mode)`. -/
def checkClause (E : MojEnv) :
    Nat → MojObject → MojObject → MatchMode → Checked MatchResult
  | 0, _, _, _ => Checked.outOfFuel
  | fuel + 1, clause, response, mode =>
    match clause with
    | MojObject.array _ => checkClauses E fuel clause response mode
    | MojObject.object _ =>
      if clause.contains "and" then
        checkClause E fuel ((clause.get "and").getD MojObject.undefined) response
          MatchMode.AndMode
      else if clause.contains "or" then
        checkClause E fuel ((clause.get "or").getD MojObject.undefined) response
          MatchMode.OrMode
      else
        match clause.get "prop" with
        | none =>
          Checked.thrown "Clauses must contain \"and\", \"or\", or a comparison to make"
        | some prop =>
          match clause.get "op" with
          | none => Checked.thrown "Clauses must specify a comparison operation to perform"
          | some op =>
            match clause.get "val" with
            | none => Checked.thrown "Clauses must specify a value to compare against"
            | some val => checkProperty E fuel prop response op val mode
    | _ => Checked.thrown "Clauses must be either an object or array of objects"

/-- `WhereMatcher::checkProperty(keyArray, keyIter, responseArray, responseIter, op,
val, mode)`: `keys` are the keys from `keyIter` on and `xs` the elements from
`responseIter` on. -/
def checkProperty_responseIter (E : MojEnv) :
    Nat → List MojObject → List MojObject → MojObject → MojObject → MatchMode →
      Checked MatchResult
  | 0, _, _, _, _, _ => Checked.outOfFuel
  | fuel + 1, keys, xs, op, val, mode =>
    loopResults mode (xs.map (fun x => checkProperty_keyIter E fuel keys x op val mode))

/-- `WhereMatcher::checkProperty(keyArray, keyIter, response, op, val, mode)`: `keys`
are the keys from `keyIter` on. -/
def checkProperty_keyIter (E : MojEnv) :
    Nat → List MojObject → MojObject → MojObject → MojObject → MatchMode →
      Checked MatchResult
  | 0, _, _, _, _, _ => Checked.outOfFuel
  | fuel + 1, keys, response, op, val, mode =>
    match descend E keys response with
    | Descent.atArray rest xs => checkProperty_responseIter E fuel rest xs op val mode
    | Descent.thrown what => Checked.thrown what
    | Descent.noProperty => Checked.ok MatchResult.NoProperty
    | Descent.atEnd onion => checkMatch E fuel onion op val

/-- `WhereMatcher::checkProperty(key, response, op, val, mode)`. -/
def checkProperty (E : MojEnv) :
    Nat → MojObject → MojObject → MojObject → MojObject → MatchMode → Checked MatchResult
  | 0, _, _, _, _, _ => Checked.outOfFuel
  | fuel + 1, key, response, op, val, mode =>
    match key with
    | MojObject.str _ =>
      match key.stringValue E with
      | none => Checked.thrown "Failed to convert property lookup key to string"
      | some keyStr =>
        match response.get keyStr with
        | none => Checked.ok MatchResult.NoProperty
        | some propVal => checkMatch E fuel propVal op val
    | MojObject.array keys => checkProperty_keyIter E fuel keys response op val mode
    | _ => Checked.thrown "Key specified was neither a string or array of strings"

/-- `WhereMatcher::checkMatch(rhs, op, val)`.  For the operation `where` the
`MatchResult` of the nested clause is assigned to the `bool result`, which is true
exactly when the value of the enumerator is not 0. -/
def checkMatch (E : MojEnv) : Nat → MojObject → MojObject → MojObject → Checked MatchResult
  | 0, _, _, _ => Checked.outOfFuel
  | fuel + 1, rhs, op, val =>
    match op.stringValue E with
    | none => Checked.thrown "Failed to convert operation to string value"
    | some opStr =>
      if opStr = "<" then ofResult (E.lt rhs val)
      else if opStr = "<=" then ofResult (E.le rhs val)
      else if opStr = "=" then ofResult (E.eq rhs val)
      else if opStr = "!=" then ofResult (E.ne rhs val)
      else if opStr = ">=" then ofResult (E.ge rhs val)
      else if opStr = ">" then ofResult (E.gt rhs val)
      else if opStr = "where" then
        (checkClause E fuel val rhs MatchMode.AndMode).bind
          (fun nested => ofResult (decide (E.resultValue nested ≠ 0)))
      else Checked.thrown "Unknown comparison operator in where clause"

end

/-- The loop of `validateClauses` over the clauses of an array: the first clause
that throws ends it. -/
def firstThrown : List (Checked Unit) → Checked Unit
  | [] => Checked.ok ()
  | Checked.ok _ :: rest => firstThrown rest
  | Checked.thrown what :: _ => Checked.thrown what
  | Checked.outOfFuel :: _ => Checked.outOfFuel

/-- `WhereMatcher::validateKey(key)`. -/
def validateKey : MojObject → Checked Unit
  | MojObject.array xs =>
    if xs.all (fun keyObj => match keyObj with
      | MojObject.str _ => true
      | _ => false) then Checked.ok ()
    else
      Checked.thrown "Something other than a string found in the key array of property names"
  | MojObject.str _ => Checked.ok ()
  | _ =>
    Checked.thrown
      "Property keys must be specified as a property name, or array of property names"

/-- The exception of `validateClause` for a clause with more than one of `and`, `or`
and `prop`. -/
def onlyOneOf : String :=
  "Only one of \"and\", \"or\", or a valid clause including \"prop\", \"op\", and a \"val\"ue to compare against must be present in a clause"

mutual

/-- `WhereMatcher::validateOp(op, val)`. -/
def validateOp (E : MojEnv) : Nat → MojObject → MojObject → Checked Unit
  | 0, _, _ => Checked.outOfFuel
  | fuel + 1, op, val =>
    match op with
    | MojObject.str _ =>
      match op.stringValue E with
      | none => Checked.thrown "Failed to convert operation to string value"
      | some opStr =>
        if opStr ≠ "<" ∧ opStr ≠ "<=" ∧ opStr ≠ "=" ∧ opStr ≠ ">=" ∧ opStr ≠ ">" ∧
            opStr ≠ "!=" ∧ opStr ≠ "where" then
          Checked.thrown
            "Operation must be one of '<', '<=', '=', '>=', '>', '!=', and 'where'"
        else if opStr = "where" then validateClauses E fuel val
        else Checked.ok ()
    | _ => Checked.thrown "Operation must be specified as a string property"

/-- `WhereMatcher::validateClause(clause)`. -/
def validateClause (E : MojEnv) : Nat → MojObject → Checked Unit
  | 0, _ => Checked.outOfFuel
  | fuel + 1, clause =>
    (if clause.contains "and" then
      validateClauses E fuel ((clause.get "and").getD MojObject.undefined)
    else Checked.ok ()).bind (fun _ =>
    (if clause.contains "or" then
      if clause.contains "and" then Checked.thrown onlyOneOf
      else validateClauses E fuel ((clause.get "or").getD MojObject.undefined)
    else Checked.ok ()).bind (fun _ =>
    let found := clause.contains "and" || clause.contains "or"
    if !clause.contains "prop" then
      if !found then
        Checked.thrown
          "Each where clause must contain \"or\", \"and\", or a \"prop\"erty to compare against"
      else Checked.ok ()
    else if found then Checked.thrown onlyOneOf
    else
      (validateKey ((clause.get "prop").getD MojObject.undefined)).bind (fun _ =>
      if !clause.contains "val" then
        Checked.thrown "Each where clause must contain a value to test against"
      else if !clause.contains "op" then
        Checked.thrown "Each where clause must contain a test operation to perform"
      else
        validateOp E fuel ((clause.get "op").getD MojObject.undefined)
          ((clause.get "val").getD MojObject.undefined))))

/-- `WhereMatcher::validateClauses(where)`. -/
def validateClauses (E : MojEnv) : Nat → MojObject → Checked Unit
  | 0, _ => Checked.outOfFuel
  | fuel + 1, whereClause =>
    match whereClause with
    | MojObject.object _ => validateClause E fuel whereClause
    | MojObject.array xs =>
      firstThrown (xs.map (fun clause =>
        match clause with
        | MojObject.object _ => validateClause E fuel clause
        | _ => Checked.thrown "where statement array must consist of valid clauses"))
    | _ =>
      Checked.thrown
        "where statement should consist of a single clause or array of valid clauses"

end

end WhereMatcher

/-- The members of a `WhereMatcher`. -/
structure WhereMatcher where
  m_where : MojObject

namespace WhereMatcher

/-- `WhereMatcher::WhereMatcher(where)`: the constructor validates the clauses. -/
def new (E : MojEnv) (fuel : Nat) (whereClause : MojObject) : Checked WhereMatcher :=
  (validateClauses E fuel whereClause).bind (fun _ => Checked.ok { m_where := whereClause })

/-- `WhereMatcher::match(response)`. -/
def matchResponse (E : MojEnv) (fuel : Nat) (m : WhereMatcher) (response : MojObject) :
    Checked Bool :=
  (checkClause E fuel m.m_where response MatchMode.AndMode).bind
    (fun result => Checked.ok (decide (result = MatchResult.Matched)))

end WhereMatcher

/-- The order of two scalars of the same type, for the sample library: numbers by
value, strings lexicographically, false before true. -/
def scalarCompare : MojObject → MojObject → Option Ordering
  | MojObject.int a, MojObject.int b => some (compare a b)
  | MojObject.decimal a, MojObject.decimal b => some (compare a b)
  | MojObject.str a, MojObject.str b => some (compare a b)
  | MojObject.bool a, MojObject.bool b => some (compare a b)
  | MojObject.null, MojObject.null => some Ordering.eq
  | _, _ => none

/-- A sample of what the headers fix, for evaluating examples: scalars of the same
type are compared by `scalarCompare` and all other pairs of values are unequal and
unordered, only strings have a string value, and the enumerators `NoProperty`,
`Matched` and `NotMatched` have the values 0, 1 and 2. -/
def exampleEnv : MojEnv :=
  { lt := fun a b => scalarCompare a b == some Ordering.lt
    le := fun a b => scalarCompare a b == some Ordering.lt || scalarCompare a b == some Ordering.eq
    eq := fun a b => scalarCompare a b == some Ordering.eq
    ne := fun a b => !(scalarCompare a b == some Ordering.eq)
    ge := fun a b => scalarCompare a b == some Ordering.gt || scalarCompare a b == some Ordering.eq
    gt := fun a b => scalarCompare a b == some Ordering.gt
    stringValue := fun _ => none
    resultValue := fun r =>
      match r with
      | MatchResult.NoProperty => 0
      | MatchResult.Matched => 1
      | MatchResult.NotMatched => 2 }

/-- The clause of the scenario S5: the path `items`, `state` is compared with `done`. -/
def s5Clause : MojObject :=
  MojObject.object [("prop", MojObject.array [MojObject.str "items", MojObject.str "state"]),
    ("op", MojObject.str "="), ("val", MojObject.str "done")]

/-- The payload of the scenario S5: two items, of which the first is done. -/
def s5Response : MojObject :=
  MojObject.object [("items", MojObject.array [MojObject.object [("state", MojObject.str "done")],
    MojObject.object [("state", MojObject.str "pending")]])]

/-- The clause of the scenario S5 wrapped in `or`. -/
def s5OrClause : MojObject :=
  MojObject.object [("or", s5Clause)]

/-- A payload in which the items have no state: the path of the scenario S5 ends at
an absent key. -/
def noStateResponse : MojObject :=
  MojObject.object [("items", MojObject.object [("name", MojObject.str "n")])]

/-- The comparison clause that applies the nested clause `val` to the property `x`. -/
def whereClause (val : MojObject) : MojObject :=
  MojObject.object [("prop", MojObject.str "x"), ("op", MojObject.str "where"), ("val", val)]

/-- The nested clause with an empty disjunction, which no response matches. -/
def emptyOrClause : MojObject :=
  MojObject.object [("or", MojObject.array [])]

/-- The nested clause that compares the property `a` with 1. -/
def propAClause : MojObject :=
  MojObject.object [("prop", MojObject.str "a"), ("op", MojObject.str "="),
    ("val", MojObject.int 1)]

/-- A payload whose property `x` is an object without the property `a`. -/
def wherePayload : MojObject :=
  MojObject.object [("x", MojObject.object [("b", MojObject.int 1)])]

/-! ## The connection manager proxy (`ConnectionManagerProxy.cpp`) -/

/-- The outcome of `MojObject::get(key, MojString& valOut, bool& foundOut)`: the
string conversion of the entry failed (an error is returned), there is no entry, or
the entry has the string `s`. -/
inductive StringEntry where
  | failed
  | absent
  | found (s : String)
  deriving DecidableEq, Repr

/-- The `MojString` that the caller holds after the call: the string found, or the
empty string of a default-constructed `MojString`. -/
def StringEntry.value : StringEntry → String
  | StringEntry.found s => s
  | _ => ""

namespace MojObject

/-- `MojObject::boolValue()`: the value of a boolean; the conversion of every other
value is left to the library. -/
def boolValue (E : MojEnv) : MojObject → Bool
  | MojObject.bool b => b
  | o => E.boolValue o

/-- `MojObject::get(key, MojString& valOut, bool& foundOut)`. -/
def getString (E : MojEnv) (o : MojObject) (key : String) : StringEntry :=
  match o.get key with
  | none => StringEntry.absent
  | some v =>
    match v.stringValue E with
    | none => StringEntry.failed
    | some s => StringEntry.found s

/-- `MojObject::put(key, val)`: the entry `key` of an object is replaced or added at
the end; a value that is not an object becomes the object of the one entry. -/
def put : MojObject → String → MojObject → MojObject
  | MojObject.object kv, key, val =>
    if kv.any (fun e => e.1 == key) then
      MojObject.object (kv.map (fun e => if e.1 == key then (key, val) else e))
    else MojObject.object (kv ++ [(key, val)])
  | _, key, val => MojObject.object [(key, val)]

end MojObject

/-- The constants of the header `ConnectionManagerProxy.h`, which is not among the
sources: the number of confidence levels and the value that stands for an unknown
confidence. -/
structure ProxyConstants where
  ConnectionConfidenceMax : Nat
  ConnectionConfidenceUnknown : Int
  deriving DecidableEq, Repr

/-- The requirement cores of the proxy: `internet`, `wifi` and `wan` stand for
`m_internetRequirementCore`, `m_wifiRequirementCore` and `m_wanRequirementCore`,
and `internetConfidence i`, `wanConfidence i` and `wifiConfidence i` for the
elements `i` of `m_internetConfidenceCores`, `m_wanConfidenceCores` and
`m_wifiConfidenceCores`.  The requirement list of a core has the same index. -/
inductive CoreId where
  | internet
  | wifi
  | wan
  | internetConfidence (i : Nat)
  | wanConfidence (i : Nat)
  | wifiConfidence (i : Nat)
  deriving DecidableEq, Repr

/-- Modelled from the spec: the class `RequirementCore` is not among the sources; the
spec describes it as the cell of a name, the current value and the met state, which
a provider changes with `setCurrentValue`, `Met` and `Unmet`.  `value` is the value
that the core is constructed with. -/
structure RequirementCore where
  name : String
  value : MojObject
  current : MojObject
  met : Bool

namespace RequirementCore

/-- Modelled from the spec: `RequirementCore::SetCurrentValue(current)` stores the
value and returns whether the value changed. -/
def SetCurrentValue (E : MojEnv) (core : RequirementCore) (current : MojObject) :
    Bool × RequirementCore :=
  if E.ne core.current current then (true, { core with current := current })
  else (false, core)

/-- Modelled from the spec: `RequirementCore::IsMet()`. -/
def IsMet (core : RequirementCore) : Bool :=
  core.met

/-- Modelled from the spec: `RequirementCore::Met()`. -/
def Met (core : RequirementCore) : RequirementCore :=
  { core with met := true }

/-- Modelled from the spec: `RequirementCore::Unmet()`. -/
def Unmet (core : RequirementCore) : RequirementCore :=
  { core with met := false }

end RequirementCore

/-- The three member functions of `Requirement` that a provider calls on its
bindings. -/
inductive Broadcast where
  | Met
  | Unmet
  | Updated
  deriving DecidableEq, Repr

/-- Modelled from the spec: the class `BasicCoreListedRequirement` is not among the
sources; the spec describes a binding as attached to one activity, referring to a
core and holding the met state as last observed. -/
structure Requirement where
  activity : activityId_t
  core : CoreId
  met : Bool
  deriving DecidableEq, Repr

/-- Modelled from the spec: a binding is met exactly when its core was met at the
last broadcast it received; `Met` and `Unmet` set the state and `Updated` keeps it. -/
def Requirement.receive (kind : Broadcast) (r : Requirement) : Requirement :=
  match kind with
  | Broadcast.Met => { r with met := true }
  | Broadcast.Unmet => { r with met := false }
  | Broadcast.Updated => r

/-- The calls of the proxy on its collaborators: a member function of `Requirement`
called on a binding (named by the list it is on and its activity), and `Call` and
`reset` on the subscription `m_call`. -/
inductive ProxyCall where
  | notify (kind : Broadcast) (list : CoreId) (activity : activityId_t)
  | Call
  | reset
  deriving DecidableEq, Repr

/-- A call is a member function of `Requirement` called on a binding of the list
`list`. -/
def ProxyCall.onList (list : CoreId) : ProxyCall → Bool
  | ProxyCall.notify _ l _ => decide (l = list)
  | _ => false

/-- The core and the list of the internet requirement. -/
def CoreId.ofInternet : CoreId → Bool
  | CoreId.internet => true
  | _ => false

/-- The cores and the lists that `UpdateWifiStatus` works on: those of the wifi
requirement and of the wifi confidence levels. -/
def CoreId.ofWifi : CoreId → Bool
  | CoreId.wifi => true
  | CoreId.wifiConfidence _ => true
  | _ => false

/-- The cores and the lists that `UpdateWANStatus` works on: those of the wan
requirement and of the wan confidence levels. -/
def CoreId.ofWan : CoreId → Bool
  | CoreId.wan => true
  | CoreId.wanConfidence _ => true
  | _ => false

/-- The cores and the lists of the internet confidence levels. -/
def CoreId.ofInternetConfidence : CoreId → Bool
  | CoreId.internetConfidence _ => true
  | _ => false

/-- The data members of `ConnectionManagerProxy`, with the cores (`cores`) that the
shared pointers of the members refer to, the requirement lists (`requirements`) and
the record of outgoing calls (`calls`); `m_call` tells whether the subscription
exists. -/
structure ConnectionManagerProxy where
  m_internetConfidence : Int
  m_wifiConfidence : Int
  m_wanConfidence : Int
  cores : CoreId → RequirementCore
  requirements : CoreId → List Requirement
  m_call : Bool
  calls : List ProxyCall

namespace ConnectionManagerProxy

/-- The array `nameStrings` of the constructor. -/
def nameStrings : List String :=
  ["none", "poor", "fair", "excellent"]

/-- The array `ConnectionConfidenceNames` as the constructor fills it: element `i`
is `nameStrings[i]`. -/
def ConnectionConfidenceNames (K : ProxyConstants) : List String :=
  (List.range K.ConnectionConfidenceMax).map (fun i => nameStrings.getD i "")

/-- The string `ConnectionConfidenceUnknownName` as the constructor assigns it. -/
def ConnectionConfidenceUnknownName : String :=
  "unknown"

/-- `ConnectionManagerProxy::ConnectionManagerProxy(service)`.  A core is constructed
unmet and without a current value. -/
def new (K : ProxyConstants) : ConnectionManagerProxy :=
  { m_internetConfidence := K.ConnectionConfidenceUnknown
    m_wifiConfidence := K.ConnectionConfidenceUnknown
    m_wanConfidence := K.ConnectionConfidenceUnknown
    cores := fun id =>
      match id with
      | CoreId.internet =>
        { name := "internet", value := MojObject.bool true, current := MojObject.undefined,
          met := false }
      | CoreId.wifi =>
        { name := "wifi", value := MojObject.bool true, current := MojObject.undefined,
          met := false }
      | CoreId.wan =>
        { name := "wan", value := MojObject.bool true, current := MojObject.undefined,
          met := false }
      | CoreId.internetConfidence i =>
        { name := "internetConfidence",
          value := MojObject.str ((ConnectionConfidenceNames K).getD i ""),
          current := MojObject.undefined, met := false }
      | CoreId.wanConfidence i =>
        { name := "wanConfidence",
          value := MojObject.str ((ConnectionConfidenceNames K).getD i ""),
          current := MojObject.undefined, met := false }
      | CoreId.wifiConfidence i =>
        { name := "wifiConfidence",
          value := MojObject.str ((ConnectionConfidenceNames K).getD i ""),
          current := MojObject.undefined, met := false }
    requirements := fun _ => []
    m_call := false
    calls := [] }

/-- The assignment through the shared pointer of the core `id`. -/
def setCore (s : ConnectionManagerProxy) (id : CoreId) (core : RequirementCore) :
    ConnectionManagerProxy :=
  { s with cores := Function.update s.cores id core }

/-- `push_back` of a binding on the requirement list `list`. -/
def push_back (s : ConnectionManagerProxy) (list : CoreId) (req : Requirement) :
    ConnectionManagerProxy :=
  { s with requirements := Function.update s.requirements list (s.requirements list ++ [req]) }

/-- `std::for_each` over the requirement list `list` with a member function of
`Requirement`: every binding of the list receives the call, in the order of the
list. -/
def forEach (s : ConnectionManagerProxy) (list : CoreId) (kind : Broadcast) :
    ConnectionManagerProxy :=
  let received := (s.requirements list).map (Requirement.receive kind)
  let sent := (s.requirements list).map (fun r => ProxyCall.notify kind list r.activity)
  { s with requirements := Function.update s.requirements list received, calls := s.calls ++ sent }

/-- `ConnectionManagerProxy::ConfidenceToInt(confidenceObj)`. -/
def ConfidenceToInt (K : ProxyConstants) (E : MojEnv) (confidenceObj : MojObject) : Int :=
  match confidenceObj with
  | MojObject.str _ =>
    match confidenceObj.stringValue E with
    | none => K.ConnectionConfidenceUnknown
    | some confidenceStr =>
      let i := (ConnectionConfidenceNames K).indexOf confidenceStr
      if i < K.ConnectionConfidenceMax then (i : Int) else K.ConnectionConfidenceUnknown
  | _ => K.ConnectionConfidenceUnknown

/-- `ConnectionManagerProxy::GetConfidence(spec)`. -/
def GetConfidence (K : ProxyConstants) (E : MojEnv) (spec : MojObject) : Int :=
  match spec.get "networkConfidenceLevel" with
  | none => K.ConnectionConfidenceUnknown
  | some confidenceObj => ConfidenceToInt K E confidenceObj

/-- `ConnectionManagerProxy::InstantiateConfidenceRequirement(activity,
confidenceCores, confidenceLists, confidenceDesc)`: `confidenceCores` names the cores
of the array, and the lists of `confidenceLists` have the same indices. -/
def InstantiateConfidenceRequirement (K : ProxyConstants) (E : MojEnv)
    (s : ConnectionManagerProxy) (activity : activityId_t) (confidenceCores : Nat → CoreId)
    (confidenceDesc : MojObject) : Checked Requirement × ConnectionManagerProxy :=
  let confidence := ConfidenceToInt K E confidenceDesc
  if confidence = K.ConnectionConfidenceUnknown then
    (Checked.thrown "Invalid connection confidence level specified", s)
  else if confidence < 0 ∨ confidence ≥ (K.ConnectionConfidenceMax : Int) then
    (Checked.thrown "Confidence out of range", s)
  else
    let id := confidenceCores confidence.toNat
    let req : Requirement := { activity := activity, core := id, met := (s.cores id).IsMet }
    (Checked.ok req, s.push_back id req)

/-- The branch of `InstantiateRequirement` for the cores `internet`, `wan` and
`wifi`: the only legal value is the boolean true. -/
def instantiateBasic (s : ConnectionManagerProxy) (activity : activityId_t) (id : CoreId)
    (value : MojObject) (what : String) : Checked Requirement × ConnectionManagerProxy :=
  match value with
  | MojObject.bool true =>
    let req : Requirement := { activity := activity, core := id, met := (s.cores id).IsMet }
    (Checked.ok req, s.push_back id req)
  | _ => (Checked.thrown what, s)

/-- `ConnectionManagerProxy::InstantiateRequirement(activity, name, value)`. -/
def InstantiateRequirement (K : ProxyConstants) (E : MojEnv) (s : ConnectionManagerProxy)
    (activity : activityId_t) (name : String) (value : MojObject) :
    Checked Requirement × ConnectionManagerProxy :=
  if name = "internet" then
    s.instantiateBasic activity CoreId.internet value
      "If an 'internet' requirement is specified, the only legal value is 'true'"
  else if name = "internetConfidence" then
    InstantiateConfidenceRequirement K E s activity CoreId.internetConfidence value
  else if name = "wan" then
    s.instantiateBasic activity CoreId.wan value
      "If an 'wan' requirement is specified, the only legal value is 'true'"
  else if name = "wanConfidence" then
    InstantiateConfidenceRequirement K E s activity CoreId.wanConfidence value
  else if name = "wifi" then
    s.instantiateBasic activity CoreId.wifi value
      "If an 'wifi' requirement is specified, the only legal value is 'true'"
  else if name = "wifiConfidence" then
    InstantiateConfidenceRequirement K E s activity CoreId.wifiConfidence value
  else (Checked.thrown "Attempt to instantiate unknown requirement", s)

/-- The body of the loop of `UpdateConfidenceRequirements` for the level `i`. -/
def updateConfidenceLevel (E : MojEnv) (confidenceCores : Nat → CoreId) (confidence : Int)
    (confidenceName : String) (s : ConnectionManagerProxy) (i : Nat) : ConnectionManagerProxy :=
  let id := confidenceCores i
  let s1 := s.setCore id ((s.cores id).SetCurrentValue E (MojObject.str confidenceName)).2
  if confidence < (i : Int) then
    if (s1.cores id).IsMet then (s1.setCore id (s1.cores id).Unmet).forEach id Broadcast.Unmet
    else s1.forEach id Broadcast.Updated
  else
    if !(s1.cores id).IsMet then (s1.setCore id (s1.cores id).Met).forEach id Broadcast.Met
    else s1.forEach id Broadcast.Updated

/-- `ConnectionManagerProxy::UpdateConfidenceRequirements(confidenceCores,
confidenceLists, confidence)`. -/
def UpdateConfidenceRequirements (K : ProxyConstants) (E : MojEnv) (s : ConnectionManagerProxy)
    (confidenceCores : Nat → CoreId) (confidence : Int) : ConnectionManagerProxy :=
  if (confidence < 0 ∨ confidence ≥ (K.ConnectionConfidenceMax : Int)) ∧
      confidence ≠ K.ConnectionConfidenceUnknown then s
  else
    let confidenceName :=
      if confidence = K.ConnectionConfidenceUnknown then ConnectionConfidenceUnknownName
      else (ConnectionConfidenceNames K).getD confidence.toNat ""
    (List.range K.ConnectionConfidenceMax).foldl
      (updateConfidenceLevel E confidenceCores confidence confidenceName) s

/-- The block that `ConnectionManagerUpdate`, `UpdateWifiStatus` and
`UpdateWANStatus` each apply to their requirement core and requirement list: a core
that becomes available is met and its bindings receive `Met`, a met core whose
value was updated has its bindings receive `Updated`, and a met core that is no
longer available is unmet and its bindings receive `Unmet`. -/
def updateRequirement (s : ConnectionManagerProxy) (id : CoreId) (available updated : Bool) :
    ConnectionManagerProxy :=
  if available then
    if !(s.cores id).IsMet then (s.setCore id (s.cores id).Met).forEach id Broadcast.Met
    else if updated then s.forEach id Broadcast.Updated
    else s
  else
    if (s.cores id).IsMet then (s.setCore id (s.cores id).Unmet).forEach id Broadcast.Unmet
    else s

/-- The local `wifi` of `UpdateWifiStatus` when it is found: the `wifi` entry of the
response, and the `wired` entry when there is no `wifi` entry. -/
def wifiDescription (response : MojObject) : Option MojObject :=
  match response.get "wifi" with
  | some wifi => some wifi
  | none => response.get "wired"

/-- The local `wan` of `UpdateWANStatus` when it is found: the `wan` entry of the
response, and the `cellular` entry when there is no `wan` entry. -/
def wanDescription (response : MojObject) : Option MojObject :=
  match response.get "wan" with
  | some wan => some wan
  | none => response.get "cellular"

/-- The end of `UpdateWifiStatus`, from the test of `wifiAvailable` on. -/
def finishWifiStatus (K : ProxyConstants) (E : MojEnv) (s : ConnectionManagerProxy)
    (wifiAvailable updated : Bool) (confidence : Int) : Bool × ConnectionManagerProxy :=
  let s1 := s.updateRequirement CoreId.wifi wifiAvailable updated
  if s1.m_wifiConfidence ≠ confidence then
    let s2 := { s1 with m_wifiConfidence := confidence }
    (true, UpdateConfidenceRequirements K E s2 CoreId.wifiConfidence s2.m_wifiConfidence)
  else (true, s1)

/-- `ConnectionManagerProxy::UpdateWifiStatus(response)`; the first component tells
whether the call returns `MojErrNone`. -/
def UpdateWifiStatus (K : ProxyConstants) (E : MojEnv) (s : ConnectionManagerProxy)
    (response : MojObject) : Bool × ConnectionManagerProxy :=
  match wifiDescription response with
  | some wifi =>
    let r := (s.cores CoreId.wifi).SetCurrentValue E wifi
    let s1 := s.setCore CoreId.wifi r.2
    match wifi.getString E "state" with
    | StringEntry.failed => (false, s1)
    | StringEntry.absent => finishWifiStatus K E s1 false r.1 K.ConnectionConfidenceUnknown
    | StringEntry.found wifiConnected =>
      if wifiConnected = "connected" then
        match wifi.getString E "onInternet" with
        | StringEntry.failed => (false, s1)
        | onInternet =>
          if onInternet.value = "yes" then finishWifiStatus K E s1 true r.1 (GetConfidence K E wifi)
          else finishWifiStatus K E s1 false r.1 K.ConnectionConfidenceUnknown
      else finishWifiStatus K E s1 false r.1 K.ConnectionConfidenceUnknown
  | none => finishWifiStatus K E s false false K.ConnectionConfidenceUnknown

/-- The end of `UpdateWANStatus`, from the test of `wanAvailable` on. -/
def finishWANStatus (K : ProxyConstants) (E : MojEnv) (s : ConnectionManagerProxy)
    (wanAvailable updated : Bool) (confidence : Int) : Bool × ConnectionManagerProxy :=
  let s1 := s.updateRequirement CoreId.wan wanAvailable updated
  if s1.m_wanConfidence ≠ confidence then
    let s2 := { s1 with m_wanConfidence := confidence }
    (true, UpdateConfidenceRequirements K E s2 CoreId.wanConfidence s2.m_wanConfidence)
  else (true, s1)

/-- `ConnectionManagerProxy::UpdateWANStatus(response)`; the first component tells
whether the call returns `MojErrNone`. -/
def UpdateWANStatus (K : ProxyConstants) (E : MojEnv) (s : ConnectionManagerProxy)
    (response : MojObject) : Bool × ConnectionManagerProxy :=
  match wanDescription response with
  | some wan =>
    let r := (s.cores CoreId.wan).SetCurrentValue E wan
    let s1 := s.setCore CoreId.wan r.2
    match wan.getString E "state" with
    | StringEntry.failed => (false, s1)
    | StringEntry.absent => finishWANStatus K E s1 false r.1 K.ConnectionConfidenceUnknown
    | StringEntry.found wanConnected =>
      if wanConnected = "connected" then
        match wan.getString E "network" with
        | StringEntry.failed => (false, s1)
        | StringEntry.absent => finishWANStatus K E s1 false r.1 K.ConnectionConfidenceUnknown
        | StringEntry.found wanNetwork =>
          if wanNetwork ≠ "unusable" then
            match wan.getString E "onInternet" with
            | StringEntry.failed => (false, s1)
            | onInternet =>
              if onInternet.value = "yes" then
                finishWANStatus K E s1 true r.1 (GetConfidence K E wan)
              else finishWANStatus K E s1 false r.1 K.ConnectionConfidenceUnknown
          else finishWANStatus K E s1 false r.1 K.ConnectionConfidenceUnknown
      else finishWANStatus K E s1 false r.1 K.ConnectionConfidenceUnknown
  | none => finishWANStatus K E s false false K.ConnectionConfidenceUnknown

/-- The local `isInternetConnectionAvailable` of `ConnectionManagerUpdate` after
`response.get(key, bool&)`: false when the response has no such entry, and the
boolean value of the entry otherwise. -/
def isInternetConnectionAvailable (E : MojEnv) (response : MojObject) : Bool :=
  match response.get "isInternetConnectionAvailable" with
  | some b => b.boolValue E
  | none => false

/-- The object `internetObj` that `ConnectionManagerUpdate` builds from the
response: the flag, the `cellular` entry under the key `wan`, and under the key
`wifi` the `wifi` entry when it is connected or there is no `wired` entry, and the
`wired` entry otherwise. -/
def internetObj (E : MojEnv) (response : MojObject) (isInternetConnectionAvailable : Bool) :
    MojObject :=
  let cellularObj := (response.get "cellular").getD MojObject.undefined
  let wifiObj := (response.get "wifi").getD MojObject.undefined
  let wiredObj := (response.get "wired").getD MojObject.undefined
  let foundCellular := (response.get "cellular").isSome
  let foundWifi := (response.get "wifi").isSome
  let foundWired := (response.get "wired").isSome
  let o1 := MojObject.undefined.put "isInternetConnectionAvailable"
    (MojObject.bool isInternetConnectionAvailable)
  let o2 := if foundCellular then o1.put "wan" cellularObj else o1
  if foundWifi ∨ foundWired then
    let wifiConnected := if foundWifi then (wifiObj.getString E "state").value else ""
    if foundWifi ∧ (wifiConnected = "connected" ∨ ¬ foundWired) then o2.put "wifi" wifiObj
    else if foundWired ∧ wifiConnected ≠ "connected" then o2.put "wifi" wiredObj
    else o2
  else o2

/-- `ConnectionManagerProxy::ConnectionManagerUpdate(msg, response, err)`;
`permanent` is what `MojoCall::IsPermanentFailure(msg, response, err)` returns. -/
def ConnectionManagerUpdate (K : ProxyConstants) (E : MojEnv) (s : ConnectionManagerProxy)
    (response : MojObject) (err : MojErr) (permanent : Bool) : ConnectionManagerProxy :=
  if err ≠ MojErr.MojErrNone then
    if permanent then { s with m_call := false, calls := s.calls ++ [ProxyCall.reset] }
    else { s with calls := s.calls ++ [ProxyCall.Call] }
  else
    let isInternetConnectionAvailable := isInternetConnectionAvailable E response
    let r := (s.cores CoreId.internet).SetCurrentValue E
      (internetObj E response isInternetConnectionAvailable)
    let s1 := s.setCore CoreId.internet r.2
    let s2 := s1.updateRequirement CoreId.internet isInternetConnectionAvailable r.1
    let s3 := (UpdateWifiStatus K E s2 response).2
    let s4 := (UpdateWANStatus K E s3 response).2
    let maxConfidence :=
      if s4.m_wifiConfidence > s4.m_wanConfidence then s4.m_wifiConfidence
      else s4.m_wanConfidence
    if s4.m_internetConfidence ≠ maxConfidence then
      let s5 := { s4 with m_internetConfidence := maxConfidence }
      UpdateConfidenceRequirements K E s5 CoreId.internetConfidence s5.m_internetConfidence
    else s4

/-- `ConnectionManagerProxy::Enable()`: the subscription is created and called. -/
def Enable (s : ConnectionManagerProxy) : ConnectionManagerProxy :=
  { s with m_call := true, calls := s.calls ++ [ProxyCall.Call] }

/-- `ConnectionManagerProxy::Disable()`. -/
def Disable (s : ConnectionManagerProxy) : ConnectionManagerProxy :=
  { s with m_call := false, calls := s.calls ++ [ProxyCall.reset] }

/-- The operations on the proxy: an update from the connection manager, the
instantiation of a requirement, and `Enable` and `Disable`. -/
inductive Op where
  | ConnectionManagerUpdate (response : MojObject) (err : MojErr) (permanent : Bool)
  | InstantiateRequirement (activity : activityId_t) (name : String) (value : MojObject)
  | Enable
  | Disable

/-- The state after one operation. -/
def step (K : ProxyConstants) (E : MojEnv) (s : ConnectionManagerProxy) :
    Op → ConnectionManagerProxy
  | Op.ConnectionManagerUpdate response err permanent =>
    ConnectionManagerUpdate K E s response err permanent
  | Op.InstantiateRequirement activity name value =>
    (InstantiateRequirement K E s activity name value).2
  | Op.Enable => s.Enable
  | Op.Disable => s.Disable

/-- The state that a sequence of operations leads to from the constructed proxy. -/
def run (K : ProxyConstants) (E : MojEnv) (ops : List Op) : ConnectionManagerProxy :=
  ops.foldl (step K E) (new K)

/-- The place of a confidence in the order unknown, none, poor, fair, excellent of
the spec. -/
def specRank (K : ProxyConstants) (confidence : Int) : Nat :=
  if confidence = K.ConnectionConfidenceUnknown then 0 else confidence.toNat + 1

/-- The calls that were made between the state `s` and the later state `s1` on the
bindings of the requirement list `list`. -/
def received (s s1 : ConnectionManagerProxy) (list : CoreId) : List ProxyCall :=
  (s1.calls.drop s.calls.length).filter (ProxyCall.onList list)

/-- A confidence is the value for unknown or the index of a level. -/
def ValidConfidence (K : ProxyConstants) (confidence : Int) : Prop :=
  confidence = K.ConnectionConfidenceUnknown ∨
    (0 ≤ confidence ∧ confidence < (K.ConnectionConfidenceMax : Int))

/-- The calls that tell every binding of the list `list` of the state `s` the
broadcast `kind`, in the order of the list. -/
def toAll (s : ConnectionManagerProxy) (list : CoreId) (kind : Broadcast) : List ProxyCall :=
  (s.requirements list).map (fun r => ProxyCall.notify kind list r.activity)

end ConnectionManagerProxy

/-- Modelled from the spec: the four requestable levels none, poor, fair and
excellent have the values 0 to 3, and unknown is below none. -/
def specProxyConstants : ProxyConstants :=
  { ConnectionConfidenceMax := 4, ConnectionConfidenceUnknown := -1 }

/-- A wifi description: connected, on the internet, confidence fair. -/
def wifiFair : MojObject :=
  MojObject.object [("state", MojObject.str "connected"), ("onInternet", MojObject.str "yes"),
    ("networkConfidenceLevel", MojObject.str "fair")]

/-- The proxy of the scenario S4: the activity 1 requires the wifi confidence poor
and the activity 2 requires the wifi confidence excellent. -/
def s4Proxy : ConnectionManagerProxy :=
  (ConnectionManagerProxy.InstantiateRequirement specProxyConstants exampleEnv
    (ConnectionManagerProxy.InstantiateRequirement specProxyConstants exampleEnv
      (ConnectionManagerProxy.new specProxyConstants) 1 "wifiConfidence"
      (MojObject.str "poor")).2 2 "wifiConfidence" (MojObject.str "excellent")).2

namespace WhereMatcher

/-- The operations that the grammar of the spec allows in a comparison. -/
def grammarOps : List String :=
  ["<", "<=", "=", "!=", ">=", ">", "where"]

/-- The grammar of the spec for a key: a string or an array of strings only. -/
def GrammarKey : MojObject → Prop
  | MojObject.str _ => True
  | MojObject.array xs => ∀ k ∈ xs, ∃ s, k = MojObject.str s
  | _ => False

mutual

/-- The grammar of the spec for a clause: an object that contains exactly one of
`and`, `or` and `prop`; the value of `and` or `or` follows the grammar of clauses;
a clause with `prop` has a key, a `val` and an `op` that is a string among the
operations, and when the operation is `where` its `val` follows the grammar of
clauses. -/
inductive GrammarClause : MojObject → Prop
  | and (kv : List (String × MojObject)) (clauses : MojObject) :
    (MojObject.object kv).get "and" = some clauses →
    (MojObject.object kv).contains "or" = false →
    (MojObject.object kv).contains "prop" = false →
    GrammarClauses clauses → GrammarClause (MojObject.object kv)
  | or (kv : List (String × MojObject)) (clauses : MojObject) :
    (MojObject.object kv).contains "and" = false →
    (MojObject.object kv).get "or" = some clauses →
    (MojObject.object kv).contains "prop" = false →
    GrammarClauses clauses → GrammarClause (MojObject.object kv)
  | prop (kv : List (String × MojObject)) (key val : MojObject) (op : String) :
    (MojObject.object kv).contains "and" = false →
    (MojObject.object kv).contains "or" = false →
    (MojObject.object kv).get "prop" = some key → GrammarKey key →
    (MojObject.object kv).get "val" = some val →
    (MojObject.object kv).get "op" = some (MojObject.str op) → op ∈ grammarOps →
    (op = "where" → GrammarClauses val) → GrammarClause (MojObject.object kv)

/-- The grammar of the spec for a predicate and for the value of `and`, `or` and
`where`: a clause object or an array of clause objects. -/
inductive GrammarClauses : MojObject → Prop
  | single (kv : List (String × MojObject)) :
    GrammarClause (MojObject.object kv) → GrammarClauses (MojObject.object kv)
  | many (xs : List MojObject) :
    (∀ c, c ∈ xs → GrammarClause c) → GrammarClauses (MojObject.array xs)

end

end WhereMatcher

mutual

/-- The number of constructors of a value, which bounds the depth of the recursion
of the matcher on it. -/
def MojObject.size : MojObject → Nat
  | MojObject.array xs => MojObject.sizeList xs + 1
  | MojObject.object kv => MojObject.sizeEntries kv + 1
  | _ => 1

/-- The sum of the sizes of the elements of an array. -/
def MojObject.sizeList : List MojObject → Nat
  | [] => 0
  | x :: xs => MojObject.size x + MojObject.sizeList xs

/-- The sum of the sizes of the values of the entries of an object. -/
def MojObject.sizeEntries : List (String × MojObject) → Nat
  | [] => 0
  | (_, x) :: kv => MojObject.size x + MojObject.sizeEntries kv

end

/-- A step from `s` to `s1` touches only what `S` names: the cores and the
requirement lists outside `S` are those of `s`, the calls of `s1` are the calls of
`s` followed by calls on bindings of lists in `S`, and the subscription is that of
`s`. -/
def ConnectionManagerProxy.FrameOn (S : CoreId → Bool) (s s1 : ConnectionManagerProxy) : Prop :=
  (∀ id, S id = false → s1.cores id = s.cores id ∧ s1.requirements id = s.requirements id) ∧
  (∃ d, s1.calls = s.calls ++ d ∧
    ∀ c ∈ d, ∃ kind list activity, c = ProxyCall.notify kind list activity ∧ S list = true) ∧
  s1.m_call = s.m_call

mutual

/-- Two values have the same structure: the same type and the same content. -/
def MojObject.same : MojObject → MojObject → Bool
  | MojObject.undefined, MojObject.undefined => true
  | MojObject.null, MojObject.null => true
  | MojObject.bool a, MojObject.bool b => a == b
  | MojObject.int a, MojObject.int b => a == b
  | MojObject.decimal a, MojObject.decimal b => a == b
  | MojObject.str a, MojObject.str b => a == b
  | MojObject.array xs, MojObject.array ys => MojObject.sameList xs ys
  | MojObject.object a, MojObject.object b => MojObject.sameEntries a b
  | _, _ => false

/-- Two arrays have the same elements in the same order. -/
def MojObject.sameList : List MojObject → List MojObject → Bool
  | [], [] => true
  | x :: xs, y :: ys => MojObject.same x y && MojObject.sameList xs ys
  | _, _ => false

/-- Two objects have the same entries in the same order. -/
def MojObject.sameEntries : List (String × MojObject) → List (String × MojObject) → Bool
  | [], [] => true
  | (k, x) :: xs, (l, y) :: ys => k == l && MojObject.same x y && MojObject.sameEntries xs ys
  | _, _ => false

end

/-- Modelled from the spec: a second sample of the library, in which two values are
equal exactly when they have the same structure and the string conversion never
fails (a value that is not a string converts to the empty string). -/
def structuralEnv : MojEnv :=
  { exampleEnv with
    eq := fun a b => a.same b
    ne := fun a b => !a.same b
    stringValue := fun _ => some "" }

/-- A wan description: connected to a usable network, on the internet, confidence
excellent. -/
def wanGood : MojObject :=
  MojObject.object [("state", MojObject.str "connected"), ("network", MojObject.str "umts"),
    ("onInternet", MojObject.str "yes"), ("networkConfidenceLevel", MojObject.str "excellent")]

/-- A wan description that is connected on an unusable network, although it says
that it is on the internet with the confidence excellent. -/
def wanUnusable : MojObject :=
  MojObject.object [("state", MojObject.str "connected"), ("network", MojObject.str "unusable"),
    ("onInternet", MojObject.str "yes"), ("networkConfidenceLevel", MojObject.str "excellent")]

/-- A wifi description that is connected with the confidence fair and does not say
that it is on the internet. -/
def wifiFairOffline : MojObject :=
  MojObject.object [("state", MojObject.str "connected"),
    ("networkConfidenceLevel", MojObject.str "fair")]

/-- An update that carries the wan description under the key `cellular`. -/
def cellularPayload : MojObject :=
  MojObject.object [("isInternetConnectionAvailable", MojObject.bool true),
    ("cellular", wanGood)]

/-- The same update with the wan description under the key `wan`. -/
def wanPayload : MojObject :=
  MojObject.object [("isInternetConnectionAvailable", MojObject.bool true), ("wan", wanGood)]

/-- An update whose wan description is connected on an unusable network. -/
def unusablePayload : MojObject :=
  MojObject.object [("isInternetConnectionAvailable", MojObject.bool true),
    ("wan", wanUnusable)]

/-- An update that carries a wifi description under the key `wired`. -/
def wiredPayload : MojObject :=
  MojObject.object [("isInternetConnectionAvailable", MojObject.bool true), ("wired", wifiFair)]

/-- The same update with the description under the key `wifi`. -/
def wifiPayload : MojObject :=
  MojObject.object [("isInternetConnectionAvailable", MojObject.bool true), ("wifi", wifiFair)]

/-- An update that reports no internet connection. -/
def offlinePayload : MojObject :=
  MojObject.object [("isInternetConnectionAvailable", MojObject.bool false)]

/-- A proxy on which the activity 1 requires internet and the activity 2 requires
wan. -/
def internetWaiting : ConnectionManagerProxy :=
  (ConnectionManagerProxy.InstantiateRequirement specProxyConstants structuralEnv
    (ConnectionManagerProxy.InstantiateRequirement specProxyConstants structuralEnv
      (ConnectionManagerProxy.new specProxyConstants) 1 "internet" (MojObject.bool true)).2
    2 "wan" (MojObject.bool true)).2

/-- The proxy `internetWaiting` after a first update with the wan description under
the key `wan`: the internet and the wan requirement are met. -/
def internetReady : ConnectionManagerProxy :=
  ConnectionManagerProxy.ConnectionManagerUpdate specProxyConstants structuralEnv
    internetWaiting wanPayload MojErr.MojErrNone false

/-- The result `r` of a validation decides the property `G`: when it is `ok` the
property holds, when it is thrown the property does not hold, and with enough fuel
(`enough`) it is one of the two. -/
def Checked.Decides (r : Checked Unit) (G : Prop) (enough : Prop) : Prop :=
  (r = Checked.ok () → G) ∧ (∀ what, r = Checked.thrown what → ¬ G) ∧
    (enough → r ≠ Checked.outOfFuel)

/-- A comparison clause with an operation that the grammar does not have. -/
def unknownOpClause : MojObject :=
  MojObject.object [("prop", MojObject.str "x"), ("op", MojObject.str "~"),
    ("val", MojObject.int 1)]

/-- A clause that contains both `and` and `prop`. -/
def mixedClause : MojObject :=
  MojObject.object [("and", MojObject.array []), ("prop", MojObject.str "x"),
    ("op", MojObject.str "="), ("val", MojObject.int 1)]

/-- A wifi description that is not connected. -/
def wifiDown : MojObject :=
  MojObject.object [("state", MojObject.str "disconnected")]

/-- A wifi description: connected, on the internet, confidence poor. -/
def wifiPoor : MojObject :=
  MojObject.object [("state", MojObject.str "connected"), ("onInternet", MojObject.str "yes"),
    ("networkConfidenceLevel", MojObject.str "poor")]

/-- A wired description: connected, on the internet, confidence excellent. -/
def wiredExcellent : MojObject :=
  MojObject.object [("state", MojObject.str "connected"), ("onInternet", MojObject.str "yes"),
    ("networkConfidenceLevel", MojObject.str "excellent")]

/-- An update with a wifi entry that is not connected and a wired entry that is
connected with the confidence excellent. -/
def wifiDownWiredUp : MojObject :=
  MojObject.object [("isInternetConnectionAvailable", MojObject.bool true), ("wifi", wifiDown),
    ("wired", wiredExcellent)]

/-- An update with a wifi entry of the confidence poor and a wired entry of the
confidence excellent, both connected. -/
def wifiPoorWiredUp : MojObject :=
  MojObject.object [("isInternetConnectionAvailable", MojObject.bool true), ("wifi", wifiPoor),
    ("wired", wiredExcellent)]

/-- An update with the connected wired entry of the confidence excellent only. -/
def wiredOnly : MojObject :=
  MojObject.object [("isInternetConnectionAvailable", MojObject.bool true),
    ("wired", wiredExcellent)]

namespace ActivityManager

/-- No activity waits on a ready queue while the running count is below the level
of that queue. -/
def WorkConserving (s : ActivityManager) : Prop :=
  (s.m_runQueue RunQueueReady ≠ [] → s.m_backgroundConcurrencyLevel ≤ s.running) ∧
  (s.m_runQueue RunQueueReadyInteractive ≠ [] →
    s.m_backgroundInteractiveConcurrencyLevel ≤ s.running)

instance (s : ActivityManager) : Decidable (WorkConserving s) := by
  unfold WorkConserving; infer_instance

end ActivityManager

/-- The pass of `std::set_difference` for the element `x` of the first range: the
elements of the second range that are less than `x` are skipped; when the front of
the second range is greater than `x`, or the second range has ended, `x` is written
to the output, and when it is equivalent to `x` both are passed over.  `rest` is the
algorithm on what follows `x` in the first range. -/
def set_difference_step {α : Type} (less : α → α → Bool) (x : α)
    (rest : List α → List α) : List α → List α
  | [] => x :: rest []
  | y :: ys =>
    if less x y then x :: rest (y :: ys)
    else if less y x then set_difference_step less x rest ys
    else rest ys

/-- The algorithm `std::set_difference(first1, last1, first2, last2, out)` of the C++
standard library with the comparison `less`; the result is what was written to
`out`. -/
def set_difference {α : Type} (less : α → α → Bool) : List α → List α → List α
  | [], _ => []
  | x :: xs, ys => set_difference_step less x (set_difference less xs) ys

namespace ActivityManager

/-- The array `RunQueueNames`. -/
def RunQueueNames : RunQueueId → String
  | RunQueueInitialized => "initialized"
  | RunQueueScheduled => "scheduled"
  | RunQueueReady => "ready"
  | RunQueueReadyInteractive => "readyInteractive"
  | RunQueueBackground => "background"
  | RunQueueBackgroundInteractive => "backgroundInteractive"
  | RunQueueLongBackground => "longBackground"
  | RunQueueImmediate => "immediate"
  | RunQueueEnded => "ended"

/-- The vector `leaked` of `InfoToJson`: `std::set_difference` of the activities of
the id table, in the order of the table, and the activities of `m_activities`, in the
order of the map.  The elements of both ranges are shared pointers, which the
algorithm compares with the `operator<` of `boost::shared_ptr`; `ptrLess` is that
operator, an order on the addresses of the objects that own the activities. -/
def leaked (ptrLess : ActivityPtr → ActivityPtr → Bool) (s : ActivityManager) :
    List ActivityPtr :=
  set_difference ptrLess s.m_idTable (s.m_activities.map Prod.snd)

/-- The object that `InfoToJson` pushes for the run-queue `q` when it is not empty. -/
def queueJson (identity : ActivityPtr → MojObject) (s : ActivityManager) (q : RunQueueId) :
    MojObject :=
  (MojObject.undefined.put "name" (MojObject.str (RunQueueNames q))).put "activities"
    (MojObject.array ((s.m_runQueue q).map identity))

/-- `ActivityManager::InfoToJson(rep)`, with the calls of the library taken to
succeed.  `identity` is what `Activity::PushIdentityJson`, whose code is not among
the sources, pushes for an activity. -/
def InfoToJson (ptrLess : ActivityPtr → ActivityPtr → Bool)
    (identity : ActivityPtr → MojObject) (s : ActivityManager) (rep : MojObject) : MojObject :=
  let queues := (RunQueueId.all.filter (fun q => !(s.m_runQueue q).isEmpty)).map
    (queueJson identity s)
  let rep1 := if !queues.isEmpty then rep.put "queues" (MojObject.array queues) else rep
  if !(leaked ptrLess s).isEmpty then
    rep1.put "leakedActivities" (MojObject.array ((leaked ptrLess s).map identity))
  else rep1

end ActivityManager

/-- The order of two shared pointers in the examples: the order of the addresses. -/
def addressLess (a b : ActivityPtr) : Bool :=
  decide (a < b)

/-- The identity of an activity in the examples: its address. -/
def addressJson (a : ActivityPtr) : MojObject :=
  MojObject.int a

/-- A manager on which the activity with the id 1 was allocated at the address 200
and the activity with the id 2 at the lower address 100, and only the second was
registered by id: the first is leaked and the second is live. -/
def leakExample : ActivityManager :=
  (((ActivityManager.new specConstants exampleHeap).GetNewActivity_id specConstants 1 200
    freshActivity).2.GetNewActivity_id specConstants 2 100
    freshActivity).2.RegisterActivityId 100 |>.2

/-- The same allocations at the addresses 100 and 200, in the order of the ids. -/
def leakOrdered : ActivityManager :=
  (((ActivityManager.new specConstants exampleHeap).GetNewActivity_id specConstants 1 100
    freshActivity).2.GetNewActivity_id specConstants 2 200
    freshActivity).2.RegisterActivityId 200 |>.2

namespace WhereMatcher

/-- An amount of fuel that is enough for matching a clause of the size `clauseSize`
against a response of the size `responseSize`: every call of the matcher goes to a
smaller clause or to a part of the response. -/
def matchFuel (clauseSize responseSize : Nat) : Nat :=
  3 * clauseSize * (responseSize + 2)

/-- The comparison clause `{prop: key, op: op, val: val}`. -/
def comparison (key op val : MojObject) : MojObject :=
  MojObject.object [("prop", key), ("op", op), ("val", val)]

end WhereMatcher

namespace ActivityManager

/-- The seconds of the `ArmTimeout` calls in a list of calls, in the order of the
calls. -/
def armedSeconds : List Call → List Nat
  | [] => []
  | Call.ArmTimeout seconds :: l => seconds :: armedSeconds l
  | _ :: l => armedSeconds l

/-- The calls that the manager has recorded on the way from the state `s` to the
state `s1`. -/
def callsSince (s s1 : ActivityManager) : List Call :=
  s1.calls.drop s.calls.length

/-- The yield timer is armed in the state `s1` that an operation has reached from
the state `s`: the timeout object exists, and either the operation has created it,
which shows in the `ArmTimeout` call that `UpdateYieldTimeout` makes on the new
object, or the operation has made no such call and the object is the one of `s`,
which was armed then (`before`). -/
def yieldTimerArmed (before : Bool) (s s1 : ActivityManager) : Bool :=
  s1.m_interactiveYieldTimeout &&
    (!(armedSeconds (callsSince s s1)).isEmpty || (s.m_interactiveYieldTimeout && before))

/-- Whether the yield timer is armed after a sequence of operations that starts in
the state `s`, in which the timer is armed or not as `before` says: the reading of
`yieldTimerArmed` carried along the operations. -/
def armedAfter (K : Constants) : Bool → ActivityManager → List Op → Bool
  | before, _, [] => before
  | before, s, op :: ops =>
    armedAfter K (yieldTimerArmed before s (step K s op)) (step K s op) ops

/-- The operations on the tables of activities, `UnregisterActivityName` among
them. -/
inductive TableOp
  | GetNewActivity (p : ActivityPtr) (init : Activity)
  | GetNewActivity_id (id : activityId_t) (p : ActivityPtr) (init : Activity)
  | RegisterActivityId (act : ActivityPtr)
  | RegisterActivityName (act : ActivityPtr)
  | UnregisterActivityName (act : ActivityPtr)
  | ReleaseActivity (act : ActivityPtr)

/-- One operation on the tables applied to a manager state; an operation that
throws, or an allocation without result, leaves the state that it reached. -/
def tableStep (K : Constants) (busLess : BusId → BusId → Bool) (s : ActivityManager) :
    TableOp → ActivityManager
  | TableOp.GetNewActivity p init =>
    match s.GetNewActivity p init with
    | some r => r.2
    | none => s
  | TableOp.GetNewActivity_id id p init => (s.GetNewActivity_id K id p init).2
  | TableOp.RegisterActivityId act => (s.RegisterActivityId act).2
  | TableOp.RegisterActivityName act => (s.RegisterActivityName busLess act).2
  | TableOp.UnregisterActivityName act => (s.UnregisterActivityName act).2
  | TableOp.ReleaseActivity act => s.ReleaseActivity K act

/-- The caller pairs the calls on the two tables: it registers the name of an
activity that the map of live activities holds under its id, and it releases an
activity that is not in the name table, since its name was never registered or was
unregistered before.  The address of a new object is not the address of an activity
of the name table, which is a live object. -/
def TableOp.paired (s : ActivityManager) : TableOp → Bool
  | TableOp.GetNewActivity p _ => decide (p ∉ s.m_nameTable)
  | TableOp.GetNewActivity_id _ p _ => decide (p ∉ s.m_nameTable)
  | TableOp.RegisterActivityId _ => true
  | TableOp.RegisterActivityName act => decide (((s.heap act).id, act) ∈ s.m_activities)
  | TableOp.UnregisterActivityName _ => true
  | TableOp.ReleaseActivity act => decide (act ∉ s.m_nameTable)

/-- The state after a sequence of operations on the tables, when each of them is
paired in the state in which it is called, and `none` otherwise. -/
def pairedRun (K : Constants) (busLess : BusId → BusId → Bool) :
    List TableOp → ActivityManager → Option ActivityManager
  | [], s => some s
  | op :: ops, s =>
    if op.paired s then pairedRun K busLess ops (tableStep K busLess s op) else none

/-- Every activity of the name table is in the map of live activities, under its
id. -/
def NamedAreLive (s : ActivityManager) : Prop :=
  ∀ a ∈ s.m_nameTable, ((s.heap a).id, a) ∈ s.m_activities

instance (s : ActivityManager) : Decidable (NamedAreLive s) := by
  unfold NamedAreLive; infer_instance

end ActivityManager

/-- The operations by which the activity at 101 is allocated with the id 1,
registered by id and by name, and released after its name was unregistered. -/
def pairedExample : List ActivityManager.TableOp :=
  [ActivityManager.TableOp.GetNewActivity_id 1 101 namedActivity,
   ActivityManager.TableOp.RegisterActivityId 101,
   ActivityManager.TableOp.RegisterActivityName 101,
   ActivityManager.TableOp.UnregisterActivityName 101,
   ActivityManager.TableOp.ReleaseActivity 101]

/-- A state with a timeout in which the user-initiated activity 11 waits while the
interactive level 1 is taken by activity 10: `CheckReadyQueue` admits nobody and
keeps the timeout. -/
def waitingExample : ActivityManager :=
  { ActivityManager.new specConstants exampleHeap with
    m_backgroundInteractiveConcurrencyLevel := 1
    m_interactiveYieldTimeout := true
    m_runQueue := fun q =>
      match q with
      | RunQueueReadyInteractive => [11]
      | RunQueueBackgroundInteractive => [10]
      | _ => [] }

/-! ## Lemmas on the run-queues -/

namespace ActivityManager

theorem mem_all_runQueues (q : RunQueueId) : q ∈ RunQueueId.all := by
  cases q <;> decide

theorem runQueueInv_iff (s : ActivityManager) :
    RunQueueInv s ↔ (∀ q, (s.m_runQueue q).Nodup) ∧
      (∀ q r a, a ∈ s.m_runQueue q → a ∈ s.m_runQueue r → q = r) := by
  constructor
  · rintro ⟨h1, h2⟩
    refine ⟨fun q => h1 q (mem_all_runQueues q), fun q r a hq hr => ?_⟩
    by_contra hne
    exact h2 q (mem_all_runQueues q) r (mem_all_runQueues r) hne a hq hr
  · rintro ⟨h1, h2⟩
    exact ⟨fun q _ => h1 q, fun q _ r _ hne a hq hr => hne (h2 q r a hq hr)⟩

theorem is_linked_iff (s : ActivityManager) (act : ActivityPtr) :
    s.is_linked act = true ↔ ∃ q, act ∈ s.m_runQueue q := by
  unfold is_linked
  rw [List.any_eq_true]
  constructor
  · rintro ⟨q, _, hq⟩
    exact ⟨q, by simpa using hq⟩
  · rintro ⟨q, hq⟩
    exact ⟨q, mem_all_runQueues q, by simpa using hq⟩

theorem filter_ne_eq_self (l : List ActivityPtr) (a : ActivityPtr) (h : a ∉ l) :
    l.filter (fun x => x != a) = l := by
  rw [List.filter_eq_self]
  intro x hx
  have : x ≠ a := fun e => h (e ▸ hx)
  simpa using this

theorem evict_eq_unlink (s : ActivityManager) (act : ActivityPtr) :
    (if s.is_linked act then s.unlink act else s) = s.unlink act := by
  split
  · rfl
  · rename_i h
    have hn : ∀ q, act ∉ s.m_runQueue q := by
      intro q hq
      exact h ((is_linked_iff s act).2 ⟨q, hq⟩)
    have : (fun q => (s.m_runQueue q).filter (fun x => x != act)) = s.m_runQueue := by
      funext q
      exact filter_ne_eq_self _ _ (hn q)
    unfold unlink
    rw [this]

theorem unlink_front (s : ActivityManager) (h : RunQueueInv s) (q0 : RunQueueId)
    (a : ActivityPtr) (rest : List ActivityPtr) (h0 : s.m_runQueue q0 = a :: rest) :
    (s.unlink a).m_runQueue = fun q => if q = q0 then rest else s.m_runQueue q := by
  rw [runQueueInv_iff] at h
  funext q
  show (s.m_runQueue q).filter (fun x => x != a) = _
  split
  · rename_i hq
    subst hq
    have hnd := h.1 q
    rw [h0] at hnd ⊢
    have : a ∉ rest := (List.nodup_cons.1 hnd).1
    simp [filter_ne_eq_self _ _ this]
  · rename_i hq
    apply filter_ne_eq_self
    intro hmem
    exact hq (h.2 q q0 a hmem (by rw [h0]; simp))


theorem runQueueInv_congr (s t : ActivityManager) (h : t.m_runQueue = s.m_runQueue) :
    RunQueueInv t ↔ RunQueueInv s := by
  unfold RunQueueInv
  rw [h]

theorem runQueueInv_unlink (s : ActivityManager) (h : RunQueueInv s) (a : ActivityPtr) :
    RunQueueInv (s.unlink a) := by
  rw [runQueueInv_iff] at h ⊢
  refine ⟨fun q => (h.1 q).filter _, fun q r x hq hr => ?_⟩
  exact h.2 q r x (List.mem_of_mem_filter hq) (List.mem_of_mem_filter hr)

theorem not_mem_unlink (s : ActivityManager) (a : ActivityPtr) (q : RunQueueId) :
    a ∉ (s.unlink a).m_runQueue q := by
  show a ∉ (s.m_runQueue q).filter (fun x => x != a)
  simp [List.mem_filter]

theorem runQueueInv_push_back (s : ActivityManager) (h : RunQueueInv s) (q : RunQueueId)
    (a : ActivityPtr) (hn : ∀ r, a ∉ s.m_runQueue r) : RunQueueInv (s.push_back q a) := by
  rw [runQueueInv_iff] at h ⊢
  constructor
  · intro r
    show (if r = q then s.m_runQueue r ++ [a] else s.m_runQueue r).Nodup
    split
    · rw [List.nodup_append]
      refine ⟨h.1 r, List.nodup_singleton a, ?_⟩
      intro x hx hx2
      rw [List.mem_singleton] at hx2
      exact hn r (hx2 ▸ hx)
    · exact h.1 r
  · intro r1 r2 x h1 h2
    have h1 : x ∈ (if r1 = q then s.m_runQueue r1 ++ [a] else s.m_runQueue r1) := h1
    have h2 : x ∈ (if r2 = q then s.m_runQueue r2 ++ [a] else s.m_runQueue r2) := h2
    by_cases hxa : x = a
    · subst hxa
      split at h1 <;> split at h2
      · rename_i e1 e2; rw [e1, e2]
      · exact absurd h2 (hn r2)
      · exact absurd h1 (hn r1)
      · exact absurd h1 (hn r1)
    · have h1 : x ∈ s.m_runQueue r1 := by
        split at h1
        · simpa [hxa] using h1
        · exact h1
      have h2 : x ∈ s.m_runQueue r2 := by
        split at h2
        · simpa [hxa] using h2
        · exact h2
      exact h.2 r1 r2 x h1 h2

theorem runQueueInv_relink (s : ActivityManager) (h : RunQueueInv s) (q : RunQueueId)
    (a : ActivityPtr) : RunQueueInv ((s.unlink a).push_back q a) :=
  runQueueInv_push_back _ (runQueueInv_unlink s h a) q a (not_mem_unlink s a)

theorem relink_front (s : ActivityManager) (h : RunQueueInv s) (src dst : RunQueueId)
    (hne : src ≠ dst) (a : ActivityPtr) (rest : List ActivityPtr)
    (h0 : s.m_runQueue src = a :: rest) :
    ((s.unlink a).push_back dst a).m_runQueue = moveFront s.m_runQueue src dst 1 := by
  funext q
  show (if q = dst then (s.unlink a).m_runQueue q ++ [a] else (s.unlink a).m_runQueue q) = _
  rw [unlink_front s h src a rest h0]
  unfold moveFront
  by_cases h1 : q = src
  · subst h1
    simp [hne, h0]
  · by_cases h2 : q = dst
    · subst h2
      simp [h1, h0]
    · simp [h1, h2]

theorem moveFront_succ (rq : RunQueueId → List ActivityPtr) (src dst : RunQueueId)
    (hne : src ≠ dst) (k : Nat) :
    moveFront (moveFront rq src dst 1) src dst k = moveFront rq src dst (k + 1) := by
  funext q
  unfold moveFront
  by_cases h1 : q = src
  · subst h1
    simp [Nat.add_comm]
  · by_cases h2 : q = dst
    · subst h2
      have hne2 : ¬ src = q := hne
      simp only [h1, hne2, if_true, if_false, List.append_assoc]
      congr 1
      cases rq src with
      | nil => simp
      | cons x xs => simp
    · simp [h1, h2]

theorem moveFront_zero (rq : RunQueueId → List ActivityPtr) (src dst : RunQueueId) :
    moveFront rq src dst 0 = rq := by
  funext q
  unfold moveFront
  by_cases h1 : q = src
  · subst h1; simp
  · by_cases h2 : q = dst
    · subst h2; simp [h1]
    · simp [h1, h2]

theorem runReadyBackgroundInteractive_front (s : ActivityManager) (h : RunQueueInv s)
    (a : ActivityPtr) (rest : List ActivityPtr)
    (h0 : s.m_runQueue RunQueueReadyInteractive = a :: rest) :
    s.RunReadyBackgroundInteractiveActivity a =
      { s with m_runQueue := moveFront s.m_runQueue RunQueueReadyInteractive
                               RunQueueBackgroundInteractive 1,
               calls := s.calls ++ runCalls [a] } := by
  have hq := relink_front s h RunQueueReadyInteractive RunQueueBackgroundInteractive
    (by decide) a rest h0
  unfold RunReadyBackgroundInteractiveActivity
  simp only [evict_eq_unlink]
  unfold RunActivity call
  rw [← hq]
  simp [runCalls, push_back, unlink]


theorem count_eq_running (s : ActivityManager) (h : s.running < UINT_WIDTH) :
    s.GetRunningBackgroundActivitiesCount = s.running := by
  unfold GetRunningBackgroundActivitiesCount running at *
  exact Nat.mod_eq_of_lt h

theorem runCalls_append (l1 l2 : List ActivityPtr) :
    runCalls (l1 ++ l2) = runCalls l1 ++ runCalls l2 := by
  induction l1 with
  | nil => rfl
  | cons a l ih => simp [runCalls, ih]

theorem admitted_zero (level unlimited count : Nat) : admitted level unlimited count 0 = 0 := by
  unfold admitted; split <;> simp

theorem admitted_succ (level unlimited count waiting : Nat)
    (h : count < level ∨ level = unlimited) :
    admitted level unlimited count (waiting + 1) =
      admitted level unlimited (count + 1) waiting + 1 := by
  unfold admitted
  split
  · rfl
  · rename_i hne
    have hlt : count < level := h.resolve_right hne
    omega

theorem admitted_stop (level unlimited count waiting : Nat)
    (h : ¬ (count < level ∨ level = unlimited)) :
    admitted level unlimited count waiting = 0 := by
  unfold admitted
  rw [not_or] at h
  rw [if_neg h.2]
  omega

theorem admitted_le (level unlimited count waiting : Nat) :
    admitted level unlimited count waiting ≤ waiting := by
  unfold admitted
  split
  · exact Nat.le_refl _
  · exact Nat.min_le_left _ _

theorem runQueueInv_runReadyBackgroundInteractive (s : ActivityManager) (h : RunQueueInv s)
    (a : ActivityPtr) : RunQueueInv (s.RunReadyBackgroundInteractiveActivity a) := by
  unfold RunReadyBackgroundInteractiveActivity
  simp only [evict_eq_unlink]
  exact (runQueueInv_congr _ _ rfl).2 (runQueueInv_relink s h RunQueueBackgroundInteractive a)

theorem runReadyInteractiveLoop_eq (K : Constants) (fuel : Nat) :
    ∀ (s : ActivityManager) (ran : Bool), RunQueueInv s →
      (s.m_runQueue RunQueueReadyInteractive).length ≤ fuel →
      (s.m_backgroundInteractiveConcurrencyLevel = K.UnlimitedBackgroundConcurrency ∨
        s.running + admitted s.m_backgroundInteractiveConcurrencyLevel
          K.UnlimitedBackgroundConcurrency s.running
          (s.m_runQueue RunQueueReadyInteractive).length < UINT_WIDTH) →
      runReadyInteractiveLoop K fuel s ran =
        ({ s with
            m_runQueue := moveFront s.m_runQueue RunQueueReadyInteractive
              RunQueueBackgroundInteractive
              (admitted s.m_backgroundInteractiveConcurrencyLevel
                K.UnlimitedBackgroundConcurrency s.running
                (s.m_runQueue RunQueueReadyInteractive).length),
            calls := s.calls ++ runCalls ((s.m_runQueue RunQueueReadyInteractive).take
              (admitted s.m_backgroundInteractiveConcurrencyLevel
                K.UnlimitedBackgroundConcurrency s.running
                (s.m_runQueue RunQueueReadyInteractive).length)) },
          ran || decide (0 < admitted s.m_backgroundInteractiveConcurrencyLevel
                K.UnlimitedBackgroundConcurrency s.running
                (s.m_runQueue RunQueueReadyInteractive).length)) := by
  induction fuel with
  | zero =>
    intro s ran _ hlen _
    have hnil : s.m_runQueue RunQueueReadyInteractive = [] :=
      List.length_eq_zero.1 (Nat.le_zero.1 hlen)
    simp [runReadyInteractiveLoop, hnil, admitted_zero, moveFront_zero, runCalls]
  | succ fuel ih =>
    intro s ran hinv hlen hfit
    unfold runReadyInteractiveLoop
    cases hq : s.m_runQueue RunQueueReadyInteractive with
    | nil =>
      simp [admitted_zero, moveFront_zero, runCalls]
    | cons a rest =>
      rw [hq] at hlen hfit
      have hcount : (s.GetRunningBackgroundActivitiesCount
            < s.m_backgroundInteractiveConcurrencyLevel
          ∨ s.m_backgroundInteractiveConcurrencyLevel = K.UnlimitedBackgroundConcurrency) ↔
          (s.running < s.m_backgroundInteractiveConcurrencyLevel
          ∨ s.m_backgroundInteractiveConcurrencyLevel = K.UnlimitedBackgroundConcurrency) := by
        rcases hfit with hU | hlt
        · simp [hU]
        · rw [count_eq_running s (by omega)]
      by_cases hc : s.running < s.m_backgroundInteractiveConcurrencyLevel
          ∨ s.m_backgroundInteractiveConcurrencyLevel = K.UnlimitedBackgroundConcurrency
      · rw [if_pos (hcount.2 hc)]
        have hk := admitted_succ _ _ _ rest.length hc
        have hstep := runReadyBackgroundInteractive_front s hinv a rest hq
        have hinv1 := runQueueInv_runReadyBackgroundInteractive s hinv a
        have hrq1 : (s.RunReadyBackgroundInteractiveActivity a).m_runQueue
            RunQueueReadyInteractive = rest := by
          rw [hstep]; simp [moveFront, hq]
        have hrun1 : (s.RunReadyBackgroundInteractiveActivity a).running = s.running + 1 := by
          rw [hstep]; simp [running, moveFront, hq]; omega
        have hlev1 : (s.RunReadyBackgroundInteractiveActivity a).m_backgroundInteractiveConcurrencyLevel
            = s.m_backgroundInteractiveConcurrencyLevel := by
          rw [hstep]
        have hih := ih (s.RunReadyBackgroundInteractiveActivity a) true hinv1
          (by rw [hrq1]; simpa using hlen)
          (by
            rw [hrq1, hrun1, hlev1]
            rcases hfit with hU | hlt
            · exact Or.inl hU
            · right
              simp only [List.length_cons] at hlt
              omega)
        simp only [hih, hrq1, hrun1, hlev1, List.length_cons, hk]
        rw [hstep]
        simp only [moveFront_succ _ _ _ (show RunQueueReadyInteractive ≠
          RunQueueBackgroundInteractive by decide), List.take_succ_cons, runCalls,
          Nat.zero_lt_succ, decide_True, Bool.or_true, List.append_assoc, hq]
        rfl
      · rw [if_neg (fun h => hc (hcount.1 h))]
        simp [admitted_stop _ _ _ _ hc, moveFront_zero, runCalls]


theorem runReadyBackground_front (s : ActivityManager) (h : RunQueueInv s)
    (a : ActivityPtr) (rest : List ActivityPtr)
    (h0 : s.m_runQueue RunQueueReady = a :: rest) :
    s.RunReadyBackgroundActivity a =
      { s with m_runQueue := moveFront s.m_runQueue RunQueueReady RunQueueBackground 1,
               calls := s.calls ++ runCalls [a] } := by
  have hq := relink_front s h RunQueueReady RunQueueBackground (by decide) a rest h0
  unfold RunReadyBackgroundActivity
  simp only [evict_eq_unlink]
  unfold RunActivity call
  rw [← hq]
  simp [runCalls, push_back, unlink]

theorem runQueueInv_runReadyBackground (s : ActivityManager) (h : RunQueueInv s)
    (a : ActivityPtr) : RunQueueInv (s.RunReadyBackgroundActivity a) := by
  unfold RunReadyBackgroundActivity
  simp only [evict_eq_unlink]
  exact (runQueueInv_congr _ _ rfl).2 (runQueueInv_relink s h RunQueueBackground a)

theorem runReadyLoop_eq (K : Constants) (fuel : Nat) :
    ∀ (s : ActivityManager), RunQueueInv s →
      (s.m_runQueue RunQueueReady).length ≤ fuel →
      (s.m_backgroundConcurrencyLevel = K.UnlimitedBackgroundConcurrency ∨
        s.running + admitted s.m_backgroundConcurrencyLevel
          K.UnlimitedBackgroundConcurrency s.running
          (s.m_runQueue RunQueueReady).length < UINT_WIDTH) →
      runReadyLoop K fuel s =
        { s with
            m_runQueue := moveFront s.m_runQueue RunQueueReady RunQueueBackground
              (admitted s.m_backgroundConcurrencyLevel
                K.UnlimitedBackgroundConcurrency s.running
                (s.m_runQueue RunQueueReady).length),
            calls := s.calls ++ runCalls ((s.m_runQueue RunQueueReady).take
              (admitted s.m_backgroundConcurrencyLevel
                K.UnlimitedBackgroundConcurrency s.running
                (s.m_runQueue RunQueueReady).length)) } := by
  induction fuel with
  | zero =>
    intro s _ hlen _
    have hnil : s.m_runQueue RunQueueReady = [] :=
      List.length_eq_zero.1 (Nat.le_zero.1 hlen)
    simp [runReadyLoop, hnil, admitted_zero, moveFront_zero, runCalls]
  | succ fuel ih =>
    intro s hinv hlen hfit
    unfold runReadyLoop
    cases hq : s.m_runQueue RunQueueReady with
    | nil =>
      simp [admitted_zero, moveFront_zero, runCalls]
    | cons a rest =>
      rw [hq] at hlen hfit
      have hcount : (s.GetRunningBackgroundActivitiesCount < s.m_backgroundConcurrencyLevel
          ∨ s.m_backgroundConcurrencyLevel = K.UnlimitedBackgroundConcurrency) ↔
          (s.running < s.m_backgroundConcurrencyLevel
          ∨ s.m_backgroundConcurrencyLevel = K.UnlimitedBackgroundConcurrency) := by
        rcases hfit with hU | hlt
        · simp [hU]
        · rw [count_eq_running s (by omega)]
      by_cases hc : s.running < s.m_backgroundConcurrencyLevel
          ∨ s.m_backgroundConcurrencyLevel = K.UnlimitedBackgroundConcurrency
      · rw [if_pos (hcount.2 hc)]
        have hk := admitted_succ _ _ _ rest.length hc
        have hstep := runReadyBackground_front s hinv a rest hq
        have hinv1 := runQueueInv_runReadyBackground s hinv a
        have hrq1 : (s.RunReadyBackgroundActivity a).m_runQueue RunQueueReady = rest := by
          rw [hstep]; simp [moveFront, hq]
        have hrun1 : (s.RunReadyBackgroundActivity a).running = s.running + 1 := by
          rw [hstep]; simp [running, moveFront, hq]; omega
        have hlev1 : (s.RunReadyBackgroundActivity a).m_backgroundConcurrencyLevel
            = s.m_backgroundConcurrencyLevel := by
          rw [hstep]
        have hih := ih (s.RunReadyBackgroundActivity a) hinv1
          (by rw [hrq1]; simpa using hlen)
          (by
            rw [hrq1, hrun1, hlev1]
            rcases hfit with hU | hlt
            · exact Or.inl hU
            · right
              simp only [List.length_cons] at hlt
              omega)
        simp only [hih, hrq1, hrun1, hlev1, List.length_cons, hk]
        rw [hstep]
        simp only [moveFront_succ _ _ _ (show RunQueueReady ≠
          RunQueueBackground by decide), List.take_succ_cons, runCalls,
          List.append_assoc, hq]
        rfl
      · rw [if_neg (fun h => hc (hcount.1 h))]
        simp [admitted_stop _ _ _ _ hc, moveFront_zero, runCalls]

theorem runQueueInv_moveFront (s : ActivityManager) (h : RunQueueInv s) (src dst : RunQueueId)
    (hne : src ≠ dst) (k : Nat) (t : ActivityManager)
    (ht : t.m_runQueue = moveFront s.m_runQueue src dst k) : RunQueueInv t := by
  rw [runQueueInv_iff] at h ⊢
  have hmem : ∀ q x, x ∈ t.m_runQueue q →
      (x ∈ s.m_runQueue q ∧ (q = src → x ∈ (s.m_runQueue src).drop k)) ∨
      (q = dst ∧ x ∈ (s.m_runQueue src).take k) := by
    intro q x hx
    rw [ht] at hx
    unfold moveFront at hx
    by_cases h1 : q = src
    · subst h1
      rw [if_pos rfl] at hx
      exact Or.inl ⟨List.mem_of_mem_drop hx, fun _ => hx⟩
    · rw [if_neg h1] at hx
      by_cases h2 : q = dst
      · subst h2
        rw [if_pos rfl, List.mem_append] at hx
        rcases hx with hx | hx
        · exact Or.inl ⟨hx, fun e => absurd e h1⟩
        · exact Or.inr ⟨rfl, hx⟩
      · rw [if_neg h2] at hx
        exact Or.inl ⟨hx, fun e => absurd e h1⟩
  have hsplit : ∀ x, x ∈ (s.m_runQueue src).take k → x ∉ (s.m_runQueue src).drop k := by
    intro x h1 h2
    have hnd := h.1 src
    rw [← List.take_append_drop k (s.m_runQueue src), List.nodup_append] at hnd
    exact hnd.2.2 h1 h2
  constructor
  · intro q
    rw [ht]
    unfold moveFront
    by_cases h1 : q = src
    · subst h1
      rw [if_pos rfl]
      exact (h.1 q).sublist (List.drop_sublist _ _)
    · rw [if_neg h1]
      by_cases h2 : q = dst
      · subst h2
        rw [if_pos rfl, List.nodup_append]
        refine ⟨h.1 q, (h.1 src).sublist (List.take_sublist _ _), ?_⟩
        intro x hx1 hx2
        exact h1 (h.2 q src x hx1 (List.mem_of_mem_take hx2))
      · rw [if_neg h2]
        exact h.1 q
  · intro q r x hq hr
    rcases hmem q x hq with ⟨hq1, hq2⟩ | ⟨hq1, hq2⟩ <;>
      rcases hmem r x hr with ⟨hr1, hr2⟩ | ⟨hr1, hr2⟩
    · exact h.2 q r x hq1 hr1
    · have := h.2 q src x hq1 (List.mem_of_mem_take hr2)
      exact absurd (hq2 this) (hsplit x hr2)
    · have := h.2 r src x hr1 (List.mem_of_mem_take hq2)
      exact absurd (hr2 this) (hsplit x hq2)
    · rw [hq1, hr1]


theorem checkReadyQueue_eq (K : Constants) (s : ActivityManager) (hinv : RunQueueInv s)
    (ki kb : Nat)
    (hki : ki = admitted s.m_backgroundInteractiveConcurrencyLevel
      K.UnlimitedBackgroundConcurrency s.running (s.m_runQueue RunQueueReadyInteractive).length)
    (hkb : kb = admitted s.m_backgroundConcurrencyLevel
      K.UnlimitedBackgroundConcurrency (s.running + ki) (s.m_runQueue RunQueueReady).length)
    (hfit1 : s.m_backgroundInteractiveConcurrencyLevel = K.UnlimitedBackgroundConcurrency ∨
      s.running + ki < UINT_WIDTH)
    (hfit2 : s.m_backgroundConcurrencyLevel = K.UnlimitedBackgroundConcurrency ∨
      s.running + ki + kb < UINT_WIDTH) :
    s.CheckReadyQueue K =
      { s with
          m_runQueue := moveFront (moveFront s.m_runQueue RunQueueReadyInteractive
            RunQueueBackgroundInteractive ki) RunQueueReady RunQueueBackground kb,
          m_interactiveYieldTimeout :=
            decide (ki < (s.m_runQueue RunQueueReadyInteractive).length),
          calls := s.calls ++ runCalls ((s.m_runQueue RunQueueReadyInteractive).take ki) ++
            (if ki < (s.m_runQueue RunQueueReadyInteractive).length ∧
                (0 < ki ∨ s.m_interactiveYieldTimeout = false)
              then [Call.ArmTimeout s.m_yieldTimeoutSeconds] else []) ++
            runCalls ((s.m_runQueue RunQueueReady).take kb) } := by
  have hkile : ki ≤ (s.m_runQueue RunQueueReadyInteractive).length := by
    rw [hki]; exact admitted_le _ _ _ _
  unfold CheckReadyQueue
  rw [runReadyInteractiveLoop_eq K _ s false hinv (Nat.le_refl _) (by rw [← hki]; exact hfit1)]
  rw [← hki]
  simp only [Bool.false_or]
  -- the state between the two loops
  have hmid : ∀ t : ActivityManager,
      t = { s with
        m_runQueue := moveFront s.m_runQueue RunQueueReadyInteractive
          RunQueueBackgroundInteractive ki,
        calls := s.calls ++ runCalls ((s.m_runQueue RunQueueReadyInteractive).take ki) } →
      (if t.m_runQueue RunQueueReadyInteractive ≠ [] then
        if decide (0 < ki) = true then t.UpdateYieldTimeout
        else if (!t.m_interactiveYieldTimeout) = true then t.UpdateYieldTimeout
        else t
      else
        if t.m_interactiveYieldTimeout = true then t.CancelYieldTimeout else t) =
      { s with
        m_runQueue := moveFront s.m_runQueue RunQueueReadyInteractive
          RunQueueBackgroundInteractive ki,
        m_interactiveYieldTimeout :=
            decide (ki < (s.m_runQueue RunQueueReadyInteractive).length),
        calls := s.calls ++ runCalls ((s.m_runQueue RunQueueReadyInteractive).take ki) ++
            (if ki < (s.m_runQueue RunQueueReadyInteractive).length ∧
                (0 < ki ∨ s.m_interactiveYieldTimeout = false)
              then [Call.ArmTimeout s.m_yieldTimeoutSeconds] else []) } := by
    intro t ht
    subst ht
    have hne : (moveFront s.m_runQueue RunQueueReadyInteractive
          RunQueueBackgroundInteractive ki RunQueueReadyInteractive ≠ []) ↔
        ki < (s.m_runQueue RunQueueReadyInteractive).length := by
      simp [moveFront]
    simp only [hne]
    by_cases h1 : ki < (s.m_runQueue RunQueueReadyInteractive).length
    · by_cases h2 : 0 < ki
      · simp [h1, h2, UpdateYieldTimeout]
      · cases h3 : s.m_interactiveYieldTimeout
        · simp [h1, h2, h3, UpdateYieldTimeout]
        · have hk0 : ki = 0 := by omega
          subst hk0
          simp [h1, h3]
    · cases h3 : s.m_interactiveYieldTimeout
      · simp [h1, h3]
      · simp [h1, h3, CancelYieldTimeout]
  rw [hmid _ rfl]
  have hinv2 : RunQueueInv { s with
        m_runQueue := moveFront s.m_runQueue RunQueueReadyInteractive
          RunQueueBackgroundInteractive ki,
        m_interactiveYieldTimeout :=
            decide (ki < (s.m_runQueue RunQueueReadyInteractive).length),
        calls := s.calls ++ runCalls ((s.m_runQueue RunQueueReadyInteractive).take ki) ++
            (if ki < (s.m_runQueue RunQueueReadyInteractive).length ∧
                (0 < ki ∨ s.m_interactiveYieldTimeout = false)
              then [Call.ArmTimeout s.m_yieldTimeoutSeconds] else []) } :=
    runQueueInv_moveFront s hinv _ _ (by decide) ki _ rfl
  have hready : moveFront s.m_runQueue RunQueueReadyInteractive
      RunQueueBackgroundInteractive ki RunQueueReady = s.m_runQueue RunQueueReady := by
    simp [moveFront]
  have hrun : running { s with
        m_runQueue := moveFront s.m_runQueue RunQueueReadyInteractive
          RunQueueBackgroundInteractive ki,
        m_interactiveYieldTimeout :=
            decide (ki < (s.m_runQueue RunQueueReadyInteractive).length),
        calls := s.calls ++ runCalls ((s.m_runQueue RunQueueReadyInteractive).take ki) ++
            (if ki < (s.m_runQueue RunQueueReadyInteractive).length ∧
                (0 < ki ∨ s.m_interactiveYieldTimeout = false)
              then [Call.ArmTimeout s.m_yieldTimeoutSeconds] else []) } = s.running + ki := by
    simp [running, moveFront, Nat.min_eq_left hkile]
    omega
  rw [runReadyLoop_eq K _ _ hinv2 (Nat.le_refl _)
    (by
      rw [hrun]
      simp only [hready]
      rw [← hkb]
      exact hfit2)]
  rw [hrun]
  simp only [hready]
  rw [← hkb]

theorem runQueueInv_enqueue (s : ActivityManager) (h : RunQueueInv s) (q : RunQueueId)
    (a : ActivityPtr) :
    RunQueueInv ((if s.is_linked a then s.unlink a else s).push_back q a) := by
  rw [evict_eq_unlink]
  exact runQueueInv_relink s h q a

theorem runQueueInv_runReadyInteractiveLoop (K : Constants) (fuel : Nat) :
    ∀ (s : ActivityManager) (ran : Bool), RunQueueInv s →
      RunQueueInv (runReadyInteractiveLoop K fuel s ran).1 := by
  induction fuel with
  | zero => intro s ran h; exact h
  | succ fuel ih =>
    intro s ran h
    unfold runReadyInteractiveLoop
    split
    · split
      · exact h
      · exact ih _ _ (runQueueInv_runReadyBackgroundInteractive s h _)
    · exact h

theorem runQueueInv_runReadyLoop (K : Constants) (fuel : Nat) :
    ∀ (s : ActivityManager), RunQueueInv s → RunQueueInv (runReadyLoop K fuel s) := by
  induction fuel with
  | zero => intro s h; exact h
  | succ fuel ih =>
    intro s h
    unfold runReadyLoop
    split
    · split
      · exact h
      · exact ih _ (runQueueInv_runReadyBackground s h _)
    · exact h

theorem runQueueInv_checkReadyQueue (K : Constants) (s : ActivityManager) (h : RunQueueInv s) :
    RunQueueInv (s.CheckReadyQueue K) := by
  unfold CheckReadyQueue
  apply runQueueInv_runReadyLoop
  have h1 := runQueueInv_runReadyInteractiveLoop K
    (s.m_runQueue RunQueueReadyInteractive).length s false h
  split
  · split
    · exact (runQueueInv_congr _ _ rfl).2 h1
    · split
      · exact (runQueueInv_congr _ _ rfl).2 h1
      · exact h1
  · split
    · exact (runQueueInv_congr _ _ rfl).2 h1
    · exact h1

theorem runQueueInv_scheduleAllLoop (fuel : Nat) :
    ∀ (s : ActivityManager), RunQueueInv s → RunQueueInv (scheduleAllLoop fuel s) := by
  induction fuel with
  | zero => intro s h; exact h
  | succ fuel ih =>
    intro s h
    unfold scheduleAllLoop
    split
    · exact h
    · exact ih _ ((runQueueInv_congr _ _ rfl).2 (runQueueInv_relink s h RunQueueScheduled _))

theorem runQueueInv_scheduleAllActivities (s : ActivityManager) (h : RunQueueInv s) :
    RunQueueInv s.ScheduleAllActivities :=
  runQueueInv_scheduleAllLoop _ s h

theorem runQueueInv_informActivityInitialized (K : Constants) (s : ActivityManager)
    (h : RunQueueInv s) (act : ActivityPtr) :
    RunQueueInv (s.InformActivityInitialized K act) := by
  unfold InformActivityInitialized
  simp only [evict_eq_unlink]
  split
  · exact (runQueueInv_congr _ _ rfl).2 (runQueueInv_relink s h _ act)
  · exact runQueueInv_relink s h _ act

theorem runQueueInv_informActivityReady (K : Constants) (s : ActivityManager)
    (h : RunQueueInv s) (act : ActivityPtr) :
    RunQueueInv (s.InformActivityReady K act) := by
  unfold InformActivityReady
  simp only [evict_eq_unlink]
  split
  · exact (runQueueInv_congr _ _ rfl).2 (runQueueInv_relink s h _ act)
  · apply runQueueInv_checkReadyQueue
    split
    · exact runQueueInv_relink s h _ act
    · exact runQueueInv_relink s h _ act

theorem runQueueInv_informActivityNotReady (s : ActivityManager)
    (h : RunQueueInv s) (act : ActivityPtr) :
    RunQueueInv (s.InformActivityNotReady act) :=
  runQueueInv_enqueue s h _ act

theorem runQueueInv_informActivityEnd (K : Constants) (s : ActivityManager)
    (h : RunQueueInv s) (act : ActivityPtr) :
    RunQueueInv (s.InformActivityEnd K act) := by
  unfold InformActivityEnd
  apply runQueueInv_checkReadyQueue
  exact (runQueueInv_congr _ _ rfl).2 (runQueueInv_enqueue s h _ act)

theorem runQueueInv_releaseActivity (K : Constants) (s : ActivityManager)
    (h : RunQueueInv s) (act : ActivityPtr) :
    RunQueueInv (s.ReleaseActivity K act) := by
  unfold ReleaseActivity
  apply runQueueInv_checkReadyQueue
  have h1 : RunQueueInv (s.EvictQueue act) := by
    unfold EvictQueue
    rw [evict_eq_unlink]
    exact runQueueInv_unlink s h act
  split
  · exact h1
  · split
    · exact (runQueueInv_congr _ _ rfl).2 h1
    · exact h1

theorem runQueueInv_new (K : Constants) (heap : ActivityPtr → Activity) :
    RunQueueInv (new K heap) := by
  rw [runQueueInv_iff]
  exact ⟨fun _ => List.nodup_nil, fun _ _ a h _ => absurd h (List.not_mem_nil a)⟩

theorem focusActivity_runQueue (s : ActivityManager) (act : ActivityPtr) :
    (s.FocusActivity act).2.m_runQueue = s.m_runQueue := by
  have hloop : ∀ (l : List ActivityPtr) (t : ActivityManager),
      (removeOldFocus l t).m_runQueue = t.m_runQueue := by
    intro l
    induction l with
    | nil => intro t; rfl
    | cons a l ih => intro t; unfold removeOldFocus; rw [ih]; rfl
  unfold FocusActivity
  split
  · rfl
  · simp only [hloop]; rfl

theorem unfocusActivity_runQueue (s : ActivityManager) (act : ActivityPtr) :
    (s.UnfocusActivity act).2.m_runQueue = s.m_runQueue := by
  unfold UnfocusActivity
  split
  · rfl
  · simp only
    split <;> rfl

theorem addFocus_runQueue (s : ActivityManager) (source target : ActivityPtr) :
    (s.AddFocus source target).2.m_runQueue = s.m_runQueue := by
  unfold AddFocus
  split
  · rfl
  · split <;> rfl

theorem interactiveYieldTimeout_runQueue (s : ActivityManager) :
    s.InteractiveYieldTimeout.m_runQueue = s.m_runQueue := by
  unfold InteractiveYieldTimeout
  split
  · rfl
  · simp only
    split
    · split <;> rfl
    · rfl

theorem enable_runQueueInv (K : Constants) (s : ActivityManager) (h : RunQueueInv s)
    (mask : Nat) : RunQueueInv (s.Enable K mask) := by
  unfold Enable
  simp only
  split
  · exact runQueueInv_scheduleAllActivities _ ((runQueueInv_congr _ _ rfl).2 h)
  · exact (runQueueInv_congr _ _ rfl).2 h

theorem runQueueInv_step (K : Constants) (s : ActivityManager) (h : RunQueueInv s) (op : Op) :
    RunQueueInv (step K s op) := by
  cases op with
  | InformActivityInitialized act => exact runQueueInv_informActivityInitialized K s h act
  | InformActivityReady act => exact runQueueInv_informActivityReady K s h act
  | InformActivityNotReady act => exact runQueueInv_informActivityNotReady s h act
  | InformActivityEnd act => exact runQueueInv_informActivityEnd K s h act
  | ReleaseActivity act => exact runQueueInv_releaseActivity K s h act
  | Enable mask => exact enable_runQueueInv K s h mask
  | Disable mask => exact (runQueueInv_congr _ _ rfl).2 h
  | InteractiveYieldTimeout =>
    exact (runQueueInv_congr _ _ (interactiveYieldTimeout_runQueue s)).2 h
  | FocusActivity act => exact (runQueueInv_congr _ _ (focusActivity_runQueue s act)).2 h
  | UnfocusActivity act => exact (runQueueInv_congr _ _ (unfocusActivity_runQueue s act)).2 h
  | AddFocus source target =>
    exact (runQueueInv_congr _ _ (addFocus_runQueue s source target)).2 h
  | activityChanged act i u y => exact (runQueueInv_congr _ _ rfl).2 h

theorem foldl_step_induction (K : Constants) (P : ActivityManager → Prop)
    (hstep : ∀ s op, P s → P (step K s op)) :
    ∀ (ops : List Op) (s : ActivityManager), P s → P (ops.foldl (step K) s) := by
  intro ops
  induction ops with
  | nil => intro s h; exact h
  | cons op ops ih => intro s h; exact ih _ (hstep s op h)

theorem runQueueInv_run (K : Constants) (heap : ActivityPtr → Activity) (ops : List Op) :
    RunQueueInv (run K heap ops) :=
  foldl_step_induction K RunQueueInv (fun s op h => runQueueInv_step K s h op) ops _
    (runQueueInv_new K heap)

theorem running_unlink_le (s : ActivityManager) (a : ActivityPtr) :
    (s.unlink a).running ≤ s.running := by
  unfold running unlink
  exact Nat.add_le_add (List.length_filter_le _ _) (List.length_filter_le _ _)

theorem running_push_back (s : ActivityManager) (q : RunQueueId) (a : ActivityPtr)
    (h1 : q ≠ RunQueueBackground) (h2 : q ≠ RunQueueBackgroundInteractive) :
    (s.push_back q a).running = s.running := by
  unfold running push_back
  simp [Ne.symm h1, Ne.symm h2]

theorem bounded_congr (lb li bound : Nat) (s t : ActivityManager)
    (hq : t.m_runQueue = s.m_runQueue)
    (h1 : t.m_backgroundConcurrencyLevel = s.m_backgroundConcurrencyLevel)
    (h2 : t.m_backgroundInteractiveConcurrencyLevel = s.m_backgroundInteractiveConcurrencyLevel)
    (h : Bounded lb li bound s) : Bounded lb li bound t := by
  obtain ⟨a, b, c, d⟩ := h
  refine ⟨(runQueueInv_congr _ _ hq).2 a, h1.trans b, h2.trans c, ?_⟩
  unfold running at d ⊢
  rw [hq]
  exact d

theorem bounded_relink (lb li bound : Nat) (s : ActivityManager) (q : RunQueueId)
    (a : ActivityPtr) (h1 : q ≠ RunQueueBackground) (h2 : q ≠ RunQueueBackgroundInteractive)
    (h : Bounded lb li bound s) : Bounded lb li bound ((s.unlink a).push_back q a) := by
  obtain ⟨ha, hb, hc, hd⟩ := h
  refine ⟨runQueueInv_relink s ha q a, hb, hc, ?_⟩
  rw [running_push_back _ _ _ h1 h2]
  exact Nat.le_trans (running_unlink_le s a) hd

theorem bounded_unlink (lb li bound : Nat) (s : ActivityManager) (a : ActivityPtr)
    (h : Bounded lb li bound s) : Bounded lb li bound (s.unlink a) := by
  obtain ⟨ha, hb, hc, hd⟩ := h
  exact ⟨runQueueInv_unlink s ha a, hb, hc, Nat.le_trans (running_unlink_le s a) hd⟩

theorem bounded_checkReadyQueue (K : Constants) (lb li bound : Nat)
    (hlb : lb ≠ K.UnlimitedBackgroundConcurrency) (hli : li ≠ K.UnlimitedBackgroundConcurrency)
    (hlb2 : lb ≤ bound) (hli2 : li ≤ bound) (hbound : bound < UINT_WIDTH)
    (s : ActivityManager) (h : Bounded lb li bound s) :
    Bounded lb li bound (s.CheckReadyQueue K) := by
  obtain ⟨ha, hb, hc, hd⟩ := h
  have hki : admitted s.m_backgroundInteractiveConcurrencyLevel
      K.UnlimitedBackgroundConcurrency s.running
      (s.m_runQueue RunQueueReadyInteractive).length ≤
        s.m_backgroundInteractiveConcurrencyLevel - s.running := by
    unfold admitted
    rw [if_neg (by rw [hc]; exact hli)]
    exact Nat.min_le_right _ _
  have hki2 := admitted_le s.m_backgroundInteractiveConcurrencyLevel
      K.UnlimitedBackgroundConcurrency s.running
      (s.m_runQueue RunQueueReadyInteractive).length
  generalize hkie : admitted s.m_backgroundInteractiveConcurrencyLevel
      K.UnlimitedBackgroundConcurrency s.running
      (s.m_runQueue RunQueueReadyInteractive).length = ki at hki hki2
  have hkb : admitted s.m_backgroundConcurrencyLevel
      K.UnlimitedBackgroundConcurrency (s.running + ki)
      (s.m_runQueue RunQueueReady).length ≤
        s.m_backgroundConcurrencyLevel - (s.running + ki) := by
    unfold admitted
    rw [if_neg (by rw [hb]; exact hlb)]
    exact Nat.min_le_right _ _
  have hkb2 := admitted_le s.m_backgroundConcurrencyLevel
      K.UnlimitedBackgroundConcurrency (s.running + ki)
      (s.m_runQueue RunQueueReady).length
  generalize hkbe : admitted s.m_backgroundConcurrencyLevel
      K.UnlimitedBackgroundConcurrency (s.running + ki)
      (s.m_runQueue RunQueueReady).length = kb at hkb hkb2
  have heq := checkReadyQueue_eq K s ha ki kb hkie.symm hkbe.symm
    (Or.inr (by omega)) (Or.inr (by omega))
  refine ⟨runQueueInv_checkReadyQueue K s ha, by rw [heq]; exact hb, by rw [heq]; exact hc, ?_⟩
  rw [heq]
  have : running { s with
      m_runQueue := moveFront (moveFront s.m_runQueue RunQueueReadyInteractive
        RunQueueBackgroundInteractive ki) RunQueueReady RunQueueBackground kb,
      m_interactiveYieldTimeout :=
        decide (ki < (s.m_runQueue RunQueueReadyInteractive).length),
      calls := s.calls ++ runCalls ((s.m_runQueue RunQueueReadyInteractive).take ki) ++
        (if ki < (s.m_runQueue RunQueueReadyInteractive).length ∧
            (0 < ki ∨ s.m_interactiveYieldTimeout = false)
          then [Call.ArmTimeout s.m_yieldTimeoutSeconds] else []) ++
        runCalls ((s.m_runQueue RunQueueReady).take kb) } = s.running + ki + kb := by
    simp [running, moveFront, Nat.min_eq_left hki2, Nat.min_eq_left hkb2]
    omega
  rw [this]
  omega

theorem bounded_scheduleAllLoop (lb li bound : Nat) (fuel : Nat) :
    ∀ (s : ActivityManager), Bounded lb li bound s →
      Bounded lb li bound (scheduleAllLoop fuel s) := by
  induction fuel with
  | zero => intro s h; exact h
  | succ fuel ih =>
    intro s h
    unfold scheduleAllLoop
    split
    · exact h
    · exact ih _ (bounded_congr _ _ _ _ _ rfl rfl rfl
        (bounded_relink lb li bound s RunQueueScheduled _ (by decide) (by decide) h))

theorem bounded_step (K : Constants) (lb li bound : Nat)
    (hlb : lb ≠ K.UnlimitedBackgroundConcurrency) (hli : li ≠ K.UnlimitedBackgroundConcurrency)
    (hlb2 : lb ≤ bound) (hli2 : li ≤ bound) (hbound : bound < UINT_WIDTH)
    (s : ActivityManager) (op : Op) (h : Bounded lb li bound s) :
    Bounded lb li bound (step K s op) := by
  have hcheck := bounded_checkReadyQueue K lb li bound hlb hli hlb2 hli2 hbound
  cases op with
  | InformActivityInitialized act =>
    show Bounded lb li bound (s.InformActivityInitialized K act)
    unfold InformActivityInitialized
    simp only [evict_eq_unlink]
    split
    · exact bounded_congr _ _ _ _ _ rfl rfl rfl
        (bounded_relink lb li bound s _ act (by decide) (by decide) h)
    · exact bounded_relink lb li bound s _ act (by decide) (by decide) h
  | InformActivityReady act =>
    show Bounded lb li bound (s.InformActivityReady K act)
    unfold InformActivityReady
    simp only [evict_eq_unlink]
    split
    · exact bounded_congr _ _ _ _ _ rfl rfl rfl
        (bounded_relink lb li bound s _ act (by decide) (by decide) h)
    · apply hcheck
      split
      · exact bounded_relink lb li bound s _ act (by decide) (by decide) h
      · exact bounded_relink lb li bound s _ act (by decide) (by decide) h
  | InformActivityNotReady act =>
    show Bounded lb li bound (s.InformActivityNotReady act)
    unfold InformActivityNotReady
    simp only [evict_eq_unlink]
    exact bounded_relink lb li bound s _ act (by decide) (by decide) h
  | InformActivityEnd act =>
    show Bounded lb li bound (s.InformActivityEnd K act)
    unfold InformActivityEnd
    simp only [evict_eq_unlink]
    apply hcheck
    exact bounded_congr _ _ _ _ _ rfl rfl rfl
        (bounded_relink lb li bound s _ act (by decide) (by decide) h)
  | ReleaseActivity act =>
    show Bounded lb li bound (s.ReleaseActivity K act)
    unfold ReleaseActivity EvictQueue
    simp only [evict_eq_unlink]
    apply hcheck
    have h1 := bounded_unlink lb li bound s act h
    split
    · exact h1
    · split
      · exact bounded_congr _ _ _ _ _ rfl rfl rfl h1
      · exact h1
  | Enable mask =>
    show Bounded lb li bound (s.Enable K mask)
    unfold Enable
    simp only
    split
    · exact bounded_scheduleAllLoop lb li bound _ _ (bounded_congr _ _ _ _ _ rfl rfl rfl h)
    · exact bounded_congr _ _ _ _ _ rfl rfl rfl h
  | Disable mask => exact bounded_congr _ _ _ _ _ rfl rfl rfl h
  | InteractiveYieldTimeout =>
    refine bounded_congr _ _ _ _ _ (interactiveYieldTimeout_runQueue s) ?_ ?_ h
    · show s.InteractiveYieldTimeout.m_backgroundConcurrencyLevel = _
      unfold InteractiveYieldTimeout
      split
      · rfl
      · simp only
        split
        · split <;> rfl
        · rfl
    · show s.InteractiveYieldTimeout.m_backgroundInteractiveConcurrencyLevel = _
      unfold InteractiveYieldTimeout
      split
      · rfl
      · simp only
        split
        · split <;> rfl
        · rfl
  | FocusActivity act =>
    have hloop : ∀ (l : List ActivityPtr) (t : ActivityManager),
        (removeOldFocus l t).m_backgroundConcurrencyLevel = t.m_backgroundConcurrencyLevel ∧
        (removeOldFocus l t).m_backgroundInteractiveConcurrencyLevel =
          t.m_backgroundInteractiveConcurrencyLevel := by
      intro l
      induction l with
      | nil => intro t; exact ⟨rfl, rfl⟩
      | cons a l ih => intro t; unfold removeOldFocus; rw [(ih _).1, (ih _).2]; exact ⟨rfl, rfl⟩
    refine bounded_congr _ _ _ _ _ (focusActivity_runQueue s act) ?_ ?_ h
    · show (s.FocusActivity act).2.m_backgroundConcurrencyLevel = _
      unfold FocusActivity
      split
      · rfl
      · simp only [(hloop _ _).1]; rfl
    · show (s.FocusActivity act).2.m_backgroundInteractiveConcurrencyLevel = _
      unfold FocusActivity
      split
      · rfl
      · simp only [(hloop _ _).2]; rfl
  | UnfocusActivity act =>
    refine bounded_congr _ _ _ _ _ (unfocusActivity_runQueue s act) ?_ ?_ h
    · show (s.UnfocusActivity act).2.m_backgroundConcurrencyLevel = _
      unfold UnfocusActivity
      split
      · rfl
      · simp only
        split <;> rfl
    · show (s.UnfocusActivity act).2.m_backgroundInteractiveConcurrencyLevel = _
      unfold UnfocusActivity
      split
      · rfl
      · simp only
        split <;> rfl
  | AddFocus source target =>
    refine bounded_congr _ _ _ _ _ (addFocus_runQueue s source target) ?_ ?_ h
    · show (s.AddFocus source target).2.m_backgroundConcurrencyLevel = _
      unfold AddFocus
      split
      · rfl
      · split <;> rfl
    · show (s.AddFocus source target).2.m_backgroundInteractiveConcurrencyLevel = _
      unfold AddFocus
      split
      · rfl
      · split <;> rfl
  | activityChanged act i u y => exact bounded_congr _ _ _ _ _ rfl rfl rfl h

theorem bounded_run (K : Constants) (heap : ActivityPtr → Activity)
    (hlb : K.DefaultBackgroundConcurrencyLevel ≠ K.UnlimitedBackgroundConcurrency)
    (hli : K.DefaultBackgroundInteractiveConcurrencyLevel ≠ K.UnlimitedBackgroundConcurrency)
    (bound : Nat) (hlb2 : K.DefaultBackgroundConcurrencyLevel ≤ bound)
    (hli2 : K.DefaultBackgroundInteractiveConcurrencyLevel ≤ bound)
    (hbound : bound < UINT_WIDTH) (ops : List Op) :
    Bounded K.DefaultBackgroundConcurrencyLevel K.DefaultBackgroundInteractiveConcurrencyLevel
      bound (run K heap ops) := by
  apply foldl_step_induction K _
    (fun s op h => bounded_step K _ _ bound hlb hli hlb2 hli2 hbound s op h)
  exact ⟨runQueueInv_new K heap, rfl, rfl, Nat.zero_le _⟩

theorem runQueueInv_readyQueues (n : Nat) (pre : List ActivityPtr) (hnd : pre.Nodup)
    (s : ActivityManager) (hs : s.m_runQueue = readyQueues n pre) : RunQueueInv s := by
  rw [runQueueInv_iff, hs]
  have hdisj : ∀ x, x ∈ pre.take n → x ∉ pre.drop n := by
    intro x h1 h2
    have h := hnd
    rw [← List.take_append_drop n pre, List.nodup_append] at h
    exact h.2.2 h1 h2
  constructor
  · intro q
    unfold readyQueues
    split
    · exact hnd.sublist (List.take_sublist _ _)
    · split
      · exact hnd.sublist (List.drop_sublist _ _)
      · exact List.nodup_nil
  · intro q r x hq hr
    unfold readyQueues at hq hr
    by_cases h1 : q = RunQueueBackground <;> by_cases h2 : r = RunQueueBackground
    · rw [h1, h2]
    · rw [if_pos h1] at hq
      rw [if_neg h2] at hr
      split at hr
      · exact absurd hr (hdisj x hq)
      · exact absurd hr (List.not_mem_nil x)
    · rw [if_pos h2] at hr
      rw [if_neg h1] at hq
      split at hq
      · exact absurd hq (hdisj x hr)
      · exact absurd hq (List.not_mem_nil x)
    · rw [if_neg h1] at hq
      rw [if_neg h2] at hr
      split at hq
      · split at hr
        · rename_i e1 e2; rw [e1, e2]
        · exact absurd hr (List.not_mem_nil x)
      · exact absurd hq (List.not_mem_nil x)

theorem unlink_of_not_mem (s : ActivityManager) (a : ActivityPtr)
    (h : ∀ q, a ∉ s.m_runQueue q) : s.unlink a = s := by
  have : (fun q => (s.m_runQueue q).filter (fun x => x != a)) = s.m_runQueue := by
    funext q
    exact filter_ne_eq_self _ _ (h q)
  unfold unlink
  rw [this]

theorem not_mem_readyQueues (n : Nat) (pre : List ActivityPtr) (a : ActivityPtr)
    (ha : a ∉ pre) (q : RunQueueId) : a ∉ readyQueues n pre q := by
  unfold readyQueues
  split
  · exact fun h => ha (List.mem_of_mem_take h)
  · split
    · exact fun h => ha (List.mem_of_mem_drop h)
    · exact List.not_mem_nil a

theorem informActivityReady_readyQueues (K : Constants) (s : ActivityManager)
    (pre : List ActivityPtr) (a : ActivityPtr)
    (hs : s.m_runQueue = readyQueues s.m_backgroundConcurrencyLevel pre)
    (hfin : s.m_backgroundConcurrencyLevel ≠ K.UnlimitedBackgroundConcurrency)
    (hfit : s.m_backgroundConcurrencyLevel < UINT_WIDTH)
    (hnd : (pre ++ [a]).Nodup)
    (h1 : (s.heap a).immediate = false) (h2 : (s.heap a).userInitiated = false) :
    (s.InformActivityReady K a).m_runQueue =
        readyQueues s.m_backgroundConcurrencyLevel (pre ++ [a]) ∧
      (s.InformActivityReady K a).m_backgroundConcurrencyLevel =
        s.m_backgroundConcurrencyLevel ∧
      (s.InformActivityReady K a).heap = s.heap := by
  have hpre : pre.Nodup := (List.nodup_append.1 hnd).1
  have ha : a ∉ pre := by
    intro h
    exact (List.nodup_append.1 hnd).2.2 h (List.mem_singleton.2 rfl)
  have hun : s.unlink a = s :=
    unlink_of_not_mem s a (fun q => by rw [hs]; exact not_mem_readyQueues _ _ _ ha q)
  unfold InformActivityReady
  simp only [evict_eq_unlink]
  simp only [hun, h1, h2, Bool.false_eq_true, if_false]
  generalize hn : s.m_backgroundConcurrencyLevel = n at *
  have hinvt : RunQueueInv (s.push_back RunQueueReady a) := by
    have := runQueueInv_push_back s (runQueueInv_readyQueues n pre hpre s hs) RunQueueReady a
      (fun q => by rw [hs]; exact not_mem_readyQueues _ _ _ ha q)
    exact this
  have hqI : (s.push_back RunQueueReady a).m_runQueue RunQueueReadyInteractive = [] := by
    simp [push_back, hs, readyQueues]
  have hqR : (s.push_back RunQueueReady a).m_runQueue RunQueueReady = pre.drop n ++ [a] := by
    simp [push_back, hs, readyQueues]
  have hrun : (s.push_back RunQueueReady a).running = min n pre.length := by
    simp [running, push_back, hs, readyQueues]
  have hlev : (s.push_back RunQueueReady a).m_backgroundConcurrencyLevel = n := hn
  have hkb := admitted_le n K.UnlimitedBackgroundConcurrency (min n pre.length)
    ((pre.drop n).length + 1)
  have hkbv : admitted n K.UnlimitedBackgroundConcurrency (min n pre.length)
    ((pre.drop n).length + 1) = if pre.length < n then 1 else 0 := by
    unfold admitted
    rw [if_neg hfin, List.length_drop]
    split <;> omega
  have heq := checkReadyQueue_eq K (s.push_back RunQueueReady a) hinvt 0
    (if pre.length < n then 1 else 0)
    (by rw [hqI]; exact (admitted_zero _ _ _).symm)
    (by rw [hqR, hrun, hlev, List.length_append, List.length_singleton, Nat.add_zero, hkbv])
    (Or.inr (by rw [hrun]; omega))
    (Or.inr (by rw [hrun]; split <;> omega))
  rw [heq]
  refine ⟨?_, hn, rfl⟩
  simp only [moveFront_zero]
  funext q
  simp only [moveFront, hqR]
  by_cases hlt : pre.length < n
  · have hd : pre.drop n = [] := List.drop_eq_nil_of_le (Nat.le_of_lt hlt)
    have ht : pre.take n = pre := List.take_of_length_le (Nat.le_of_lt hlt)
    have ht2 : (pre ++ [a]).take n = pre ++ [a] :=
      List.take_of_length_le (by simp; omega)
    have hd2 : (pre ++ [a]).drop n = [] := List.drop_eq_nil_of_le (by simp; omega)
    simp only [hlt, if_true, hd, List.nil_append, readyQueues, ht2, hd2]
    by_cases hq1 : q = RunQueueReady
    · subst hq1; simp
    · by_cases hq2 : q = RunQueueBackground
      · subst hq2; simp [push_back, hs, readyQueues, ht]
      · simp [hq1, hq2, push_back, hs, readyQueues]
  · have hge : n ≤ pre.length := Nat.le_of_not_lt hlt
    have ht2 : (pre ++ [a]).take n = pre.take n := List.take_append_of_le_length hge
    have hd2 : (pre ++ [a]).drop n = pre.drop n ++ [a] := List.drop_append_of_le_length hge
    simp only [hlt, if_false, readyQueues, ht2, hd2, List.drop_zero, List.take_zero,
      List.append_nil]
    by_cases hq1 : q = RunQueueReady
    · subst hq1; simp
    · by_cases hq2 : q = RunQueueBackground
      · subst hq2; simp [push_back, hs, readyQueues]
      · simp [hq1, hq2, push_back, hs, readyQueues]

theorem foldl_informActivityReady_readyQueues (K : Constants) (acts : List ActivityPtr) :
    ∀ (s : ActivityManager) (pre : List ActivityPtr),
      s.m_runQueue = readyQueues s.m_backgroundConcurrencyLevel pre →
      s.m_backgroundConcurrencyLevel ≠ K.UnlimitedBackgroundConcurrency →
      s.m_backgroundConcurrencyLevel < UINT_WIDTH →
      (pre ++ acts).Nodup →
      (∀ a ∈ acts, (s.heap a).immediate = false ∧ (s.heap a).userInitiated = false) →
      (acts.foldl (fun t a => t.InformActivityReady K a) s).m_runQueue =
          readyQueues s.m_backgroundConcurrencyLevel (pre ++ acts) ∧
        (acts.foldl (fun t a => t.InformActivityReady K a) s).m_backgroundConcurrencyLevel =
          s.m_backgroundConcurrencyLevel ∧
        (acts.foldl (fun t a => t.InformActivityReady K a) s).heap = s.heap := by
  induction acts with
  | nil =>
    intro s pre hs _ _ _ _
    simp [hs]
  | cons a acts ih =>
    intro s pre hs hfin hfit hnd hflags
    have hnd1 : (pre ++ [a]).Nodup := by
      have : (pre ++ [a] ++ acts).Nodup := by simpa using hnd
      exact (List.nodup_append.1 this).1
    obtain ⟨e1, e2, e3⟩ := informActivityReady_readyQueues K s pre a hs hfin hfit hnd1
      (hflags a (List.mem_cons_self _ _)).1 (hflags a (List.mem_cons_self _ _)).2
    have := ih (s.InformActivityReady K a) (pre ++ [a]) (by rw [e2]; exact e1)
      (by rw [e2]; exact hfin) (by rw [e2]; exact hfit) (by simpa using hnd)
      (fun b hb => by rw [e3]; exact hflags b (List.mem_cons_of_mem _ hb))
    simp only [List.foldl_cons]
    rw [e2, e3] at this
    simpa using this


theorem checkReadyQueue_after_release (K : Constants) (t : ActivityManager)
    (B R : List ActivityPtr) (hinv : RunQueueInv t)
    (ht : t.m_runQueue = fun q => if q = RunQueueBackground then B
      else if q = RunQueueReady then R else [])
    (hfin : t.m_backgroundConcurrencyLevel ≠ K.UnlimitedBackgroundConcurrency)
    (hfit : t.m_backgroundConcurrencyLevel < UINT_WIDTH)
    (hB : B.length < t.m_backgroundConcurrencyLevel)
    (hR : R ≠ [] → B.length + 1 = t.m_backgroundConcurrencyLevel) :
    (t.CheckReadyQueue K).m_runQueue RunQueueBackground = B ++ R.take 1 ∧
      (t.CheckReadyQueue K).m_runQueue RunQueueReady = R.drop 1 := by
  have hqI : t.m_runQueue RunQueueReadyInteractive = [] := by simp [ht]
  have hqR : t.m_runQueue RunQueueReady = R := by simp [ht]
  have hqB : t.m_runQueue RunQueueBackground = B := by simp [ht]
  have hrun : t.running = B.length := by simp [running, ht]
  have hkbv : admitted t.m_backgroundConcurrencyLevel K.UnlimitedBackgroundConcurrency
      (B.length + 0) R.length = min R.length 1 := by
    unfold admitted
    rw [if_neg hfin]
    cases R with
    | nil => simp
    | cons r R =>
      have := hR (List.cons_ne_nil _ _)
      simp only [List.length_cons]
      omega
  have heq := checkReadyQueue_eq K t hinv 0 (min R.length 1)
    (by rw [hqI]; exact (admitted_zero _ _ _).symm)
    (by rw [hqR, hrun, hkbv])
    (Or.inr (by rw [hrun]; omega))
    (Or.inr (by rw [hrun]; omega))
  rw [heq]
  simp only [moveFront_zero, moveFront, hqR, hqB]
  have htake : R.take (min R.length 1) = R.take 1 := by
    cases R with
    | nil => rfl
    | cons r R => simp
  have hdrop : R.drop (min R.length 1) = R.drop 1 := by
    cases R with
    | nil => rfl
    | cons r R => simp
  simp [htake, hdrop]

theorem releaseActivity_readyQueues (K : Constants) (s : ActivityManager)
    (acts : List ActivityPtr) (x : ActivityPtr)
    (hs : s.m_runQueue = readyQueues s.m_backgroundConcurrencyLevel acts)
    (hfin : s.m_backgroundConcurrencyLevel ≠ K.UnlimitedBackgroundConcurrency)
    (hfit : s.m_backgroundConcurrencyLevel < UINT_WIDTH)
    (hnd : acts.Nodup) (hx : x ∈ acts.take s.m_backgroundConcurrencyLevel) :
    (s.ReleaseActivity K x).m_runQueue RunQueueBackground =
        (acts.take s.m_backgroundConcurrencyLevel).erase x ++
          (acts.drop s.m_backgroundConcurrencyLevel).take 1 ∧
      (s.ReleaseActivity K x).m_runQueue RunQueueReady =
        (acts.drop s.m_backgroundConcurrencyLevel).drop 1 := by
  generalize hn : s.m_backgroundConcurrencyLevel = n at *
  have hinv : RunQueueInv s := runQueueInv_readyQueues n acts hnd s hs
  have hndT : (acts.take n).Nodup := hnd.sublist (List.take_sublist _ _)
  have hxR : x ∉ acts.drop n := by
    intro h2
    have h := hnd
    rw [← List.take_append_drop n acts, List.nodup_append] at h
    exact h.2.2 hx h2
  have hq1 : (s.unlink x).m_runQueue = fun q => if q = RunQueueBackground
      then (acts.take n).erase x else if q = RunQueueReady then acts.drop n else [] := by
    funext q
    show (s.m_runQueue q).filter (fun y => y != x) = _
    rw [hs]
    unfold readyQueues
    split
    · exact (hndT.erase_eq_filter x).symm
    · split
      · exact filter_ne_eq_self _ _ hxR
      · rfl
  have hlenT : ((acts.take n).erase x).length + 1 = (acts.take n).length := by
    rw [List.length_erase_of_mem hx]
    have : 0 < (acts.take n).length := List.length_pos_of_mem hx
    omega
  have hlenT2 : (acts.take n).length = min n acts.length := List.length_take _ _
  have hmain : ∀ t : ActivityManager, t.m_runQueue = (s.unlink x).m_runQueue →
      t.m_backgroundConcurrencyLevel = n →
      (t.CheckReadyQueue K).m_runQueue RunQueueBackground =
        (acts.take n).erase x ++ (acts.drop n).take 1 ∧
      (t.CheckReadyQueue K).m_runQueue RunQueueReady = (acts.drop n).drop 1 := by
    intro t ht htn
    apply checkReadyQueue_after_release K t _ _
      ((runQueueInv_congr _ _ ht).2 (runQueueInv_unlink s hinv x))
      (ht.trans hq1) (by rw [htn]; exact hfin) (by rw [htn]; exact hfit)
    · rw [htn]; omega
    · intro hne
      rw [htn]
      have : n < acts.length := by
        by_contra hcon
        exact hne (List.drop_eq_nil_of_le (Nat.le_of_not_lt hcon))
      omega
  unfold ReleaseActivity EvictQueue
  simp only [evict_eq_unlink]
  split
  · exact hmain _ rfl hn
  · split
    · exact hmain _ rfl hn
    · exact hmain _ rfl hn

theorem informActivityReady_immediate (K : Constants) (s : ActivityManager) (act : ActivityPtr)
    (h : (s.heap act).immediate = true) :
    s.InformActivityReady K act =
      { s with
          m_runQueue := fun q =>
            if q = RunQueueImmediate
              then (s.m_runQueue q).filter (fun x => x != act) ++ [act]
              else (s.m_runQueue q).filter (fun x => x != act),
          calls := s.calls ++ [Call.Associate act, Call.RunActivity act] } := by
  unfold InformActivityReady
  simp only [evict_eq_unlink]
  have : ((s.unlink act).heap act).immediate = true := h
  rw [if_pos this]
  simp [RunActivity, call, push_back, unlink]

theorem yieldScan_eq (s : ActivityManager) (waiting : Nat) (hw : waiting < UINT_WIDTH)
    (l : List ActivityPtr) :
    ∀ (yielding : Nat) (victim : Option ActivityPtr), yielding < waiting →
      (yieldScan s waiting l yielding victim).1 =
        decide (yielding + l.countP (fun a => (s.heap a).yielding) < waiting) ∧
      ((yieldScan s waiting l yielding victim).1 = true →
        (yieldScan s waiting l yielding victim).2 =
          if victim.isNone then l.find? (fun a => !(s.heap a).yielding) else victim) := by
  induction l with
  | nil =>
    intro y v hy
    cases v <;> simp [yieldScan, hy]
  | cons a rest ih =>
    intro y v hy
    unfold yieldScan
    have hmod : (y + 1) % UINT_WIDTH = y + 1 := Nat.mod_eq_of_lt (by omega)
    by_cases hya : (s.heap a).yielding = true
    · rw [if_pos hya, hmod]
      by_cases hge : y + 1 ≥ waiting
      · rw [if_pos hge]
        have : ¬ (y + (List.countP (fun a => (s.heap a).yielding) rest + 1) < waiting) := by omega
        simp [List.countP_cons, hya, this]
      · rw [if_neg hge]
        have hlt : y + 1 < waiting := by omega
        obtain ⟨h1, h2⟩ := ih (y + 1) v hlt
        refine ⟨?_, ?_⟩
        · rw [h1]
          simp [List.countP_cons, hya]
          omega
        · intro h
          rw [h2 h]
          simp [List.find?_cons, hya]
    · rw [if_neg hya]
      have hya2 : (s.heap a).yielding = false := by simpa using hya
      obtain ⟨h1, h2⟩ := ih y (if v.isNone then some a else v) hy
      refine ⟨?_, ?_⟩
      · rw [h1]
        simp [List.countP_cons, hya2]
      · intro h
        rw [h2 h]
        cases v <;> simp [List.find?_cons, hya2]

theorem scheduleAllLoop_eq (fuel : Nat) :
    ∀ (s : ActivityManager), RunQueueInv s →
      (s.m_runQueue RunQueueInitialized).length ≤ fuel →
      scheduleAllLoop fuel s =
        { s with
            m_runQueue := moveFront s.m_runQueue RunQueueInitialized RunQueueScheduled
              (s.m_runQueue RunQueueInitialized).length,
            calls := s.calls ++ (s.m_runQueue RunQueueInitialized).map Call.ScheduleActivity } := by
  induction fuel with
  | zero =>
    intro s _ hlen
    have hnil : s.m_runQueue RunQueueInitialized = [] :=
      List.length_eq_zero.1 (Nat.le_zero.1 hlen)
    simp [scheduleAllLoop, hnil, moveFront_zero]
  | succ fuel ih =>
    intro s hinv hlen
    unfold scheduleAllLoop
    cases hq : s.m_runQueue RunQueueInitialized with
    | nil => simp [moveFront_zero]
    | cons a rest =>
      rw [hq] at hlen
      have hrq := relink_front s hinv RunQueueInitialized RunQueueScheduled (by decide) a rest hq
      have hinv1 : RunQueueInv (((s.unlink a).push_back RunQueueScheduled a).call
          (Call.ScheduleActivity a)) :=
        (runQueueInv_congr _ _ rfl).2 (runQueueInv_relink s hinv RunQueueScheduled a)
      have hrq1 : (((s.unlink a).push_back RunQueueScheduled a).call
          (Call.ScheduleActivity a)).m_runQueue =
          moveFront s.m_runQueue RunQueueInitialized RunQueueScheduled 1 := hrq
      have hq1 : (((s.unlink a).push_back RunQueueScheduled a).call
          (Call.ScheduleActivity a)).m_runQueue RunQueueInitialized = rest := by
        rw [hrq1]; simp [moveFront, hq]
      have hih := ih _ hinv1 (by rw [hq1]; simpa using hlen)
      simp only
      rw [hih, hq1, hrq1, moveFront_succ _ _ _ (by decide)]
      simp [call, push_back, unlink]

theorem scheduleAllActivities_eq (s : ActivityManager) (hinv : RunQueueInv s) :
    s.ScheduleAllActivities =
      { s with
          m_runQueue := moveFront s.m_runQueue RunQueueInitialized RunQueueScheduled
            (s.m_runQueue RunQueueInitialized).length,
          calls := s.calls ++ (s.m_runQueue RunQueueInitialized).map Call.ScheduleActivity } :=
  scheduleAllLoop_eq _ s hinv (Nat.le_refl _)

theorem isEnabled_scheduleAllActivities (K : Constants) (s : ActivityManager) :
    IsEnabled K s.ScheduleAllActivities = IsEnabled K s := by
  have h : ∀ (fuel : Nat) (t : ActivityManager),
      (scheduleAllLoop fuel t).m_enabled = t.m_enabled := by
    intro fuel
    induction fuel with
    | zero => intro t; rfl
    | succ fuel ih =>
      intro t
      unfold scheduleAllLoop
      split
      · rfl
      · rw [ih]; rfl
  unfold IsEnabled ScheduleAllActivities
  rw [h]

theorem isEnabled_disable (K : Constants) (s : ActivityManager) (mask : Nat)
    (hE : K.ENABLE_MASK < UINT_WIDTH) (hbit : mask &&& K.ENABLE_MASK ≠ 0) :
    IsEnabled K (s.Disable mask) = false := by
  obtain ⟨i, hi⟩ := Nat.ne_zero_implies_bit_true hbit
  rw [Nat.testBit_and, Bool.and_eq_true] at hi
  have hi32 : i < 32 := by
    by_contra hge
    have h1 : 2 ^ 32 ≤ 2 ^ i := Nat.pow_le_pow_right (by decide) (Nat.le_of_not_lt hge)
    have h2 := Nat.testBit_lt_two_pow (Nat.lt_of_lt_of_le hE h1)
    rw [hi.2] at h2
    exact absurd h2 (by decide)
  unfold IsEnabled Disable
  simp only [beq_eq_false_iff_ne, ne_eq]
  intro heq
  have hb := congrArg (fun x => x.testBit i) heq
  simp only [Nat.testBit_and, Nat.testBit_xor, UINT_WIDTH, Nat.testBit_two_pow_sub_one,
    Nat.testBit_mod_two_pow, hi32, hi.1, hi.2, decide_True, Bool.true_and,
    Bool.and_true] at hb
  simp at hb

theorem informActivityInitialized_not_enabled (K : Constants) (s : ActivityManager)
    (act : ActivityPtr) (h : IsEnabled K s = false) :
    s.InformActivityInitialized K act =
      { s with m_runQueue := fun q =>
          if q = RunQueueInitialized
            then (s.m_runQueue q).filter (fun x => x != act) ++ [act]
            else (s.m_runQueue q).filter (fun x => x != act) } := by
  unfold InformActivityInitialized
  simp only [evict_eq_unlink]
  have : IsEnabled K (s.unlink act) = false := h
  rw [this]
  simp [push_back, unlink]

theorem removeOldFocus_eq (l : List ActivityPtr) :
    ∀ s : ActivityManager, removeOldFocus l s =
      { s with
          heap := fun p => if p ∈ l then { s.heap p with focused := false } else s.heap p,
          calls := s.calls ++ l.map Call.UpdateAssociations } := by
  induction l with
  | nil => intro s; simp [removeOldFocus]
  | cons a l ih =>
    intro s
    unfold removeOldFocus
    rw [ih]
    simp only [SetFocus, call, List.map_cons, List.append_assoc, List.singleton_append,
      ActivityManager.mk.injEq, true_and, and_true]
    funext p
    by_cases h1 : p ∈ l <;> by_cases h2 : p = a <;> simp [h1, h2]

theorem focusActivity_focused (s : ActivityManager) (act : ActivityPtr)
    (h : (s.heap act).focused = true) : s.FocusActivity act = (MojErr.MojErrNone, s) := by
  unfold FocusActivity
  rw [if_pos h]

theorem focusActivity_not_focused (s : ActivityManager) (act : ActivityPtr)
    (h : (s.heap act).focused = false) :
    s.FocusActivity act =
      (MojErr.MojErrNone,
        { s with
            heap := fun p =>
              if p ∈ s.m_focusedActivities then
                { (if p = act then { s.heap p with focused := true } else s.heap p)
                  with focused := false }
              else if p = act then { s.heap p with focused := true } else s.heap p,
            m_focusedActivities := [act],
            calls := s.calls ++ [Call.UpdateAssociations act] ++
              s.m_focusedActivities.map Call.UpdateAssociations }) := by
  unfold FocusActivity
  rw [if_neg (by rw [h]; decide)]
  simp only [removeOldFocus_eq]
  simp [SetFocus, call]

theorem focusInv_focusActivity (s : ActivityManager) (act : ActivityPtr) (hinv : FocusInv s) :
    FocusInv (s.FocusActivity act).2 := by
  cases h : (s.heap act).focused with
  | true => rw [focusActivity_focused s act h]; exact hinv
  | false =>
    rw [focusActivity_not_focused s act h]
    have hnot : act ∉ s.m_focusedActivities := by
      intro hm
      have := (hinv.2 act).2 hm
      rw [h] at this
      exact absurd this (by decide)
    refine ⟨List.nodup_singleton act, ?_⟩
    intro a
    simp only [List.mem_singleton]
    by_cases h1 : a ∈ s.m_focusedActivities
    · have hne : a ≠ act := fun e => hnot (e ▸ h1)
      simp [h1, hne]
    · by_cases h2 : a = act
      · subst h2
        simp [h1]
      · have : (s.heap a).focused = false := by
          cases hf : (s.heap a).focused with
          | false => rfl
          | true => exact absurd ((hinv.2 a).1 hf) h1
        simp [h1, h2, this]

theorem focusInv_addFocus (s : ActivityManager) (source target : ActivityPtr)
    (hinv : FocusInv s) : FocusInv (s.AddFocus source target).2 := by
  unfold AddFocus
  split
  · exact hinv
  · split
    · exact hinv
    · rename_i _ ht
      have htf : (s.heap target).focused = false := by simpa using ht
      have hnot : target ∉ s.m_focusedActivities := by
        intro hm
        exact ht ((hinv.2 target).2 hm)
      constructor
      · show (s.m_focusedActivities ++ [target]).Nodup
        rw [List.nodup_append]
        refine ⟨hinv.1, List.nodup_singleton _, ?_⟩
        intro x hx hx2
        rw [List.mem_singleton] at hx2
        exact hnot (hx2 ▸ hx)
      · intro a
        show ((if a = target then { s.heap a with focused := true } else s.heap a).focused = true)
          ↔ a ∈ s.m_focusedActivities ++ [target]
        by_cases h2 : a = target
        · simp [h2]
        · simp [h2, hinv.2 a]

theorem focusInv_unfocusActivity (s : ActivityManager) (act : ActivityPtr)
    (hinv : FocusInv s) : FocusInv (s.UnfocusActivity act).2 := by
  unfold UnfocusActivity
  split
  · exact hinv
  · rename_i hf
    have hf2 : (s.heap act).focused = true := by simpa using hf
    have hmem : act ∈ s.m_focusedActivities := (hinv.2 act).1 hf2
    have hmem2 : act ∈ ((s.SetFocus act false).call
        (Call.UpdateAssociations act)).m_focusedActivities := hmem
    simp only [if_pos hmem2]
    constructor
    · exact hinv.1.filter _
    · intro a
      show ((if a = act then { s.heap a with focused := false } else s.heap a).focused = true)
        ↔ a ∈ s.m_focusedActivities.filter (fun x => x != act)
      by_cases h2 : a = act
      · simp [h2]
      · simp [h2, hinv.2 a, List.mem_filter]

theorem focusInv_congr (s t : ActivityManager) (h1 : t.m_focusedActivities = s.m_focusedActivities)
    (h2 : ∀ a, (t.heap a).focused = (s.heap a).focused) (hinv : FocusInv s) : FocusInv t := by
  refine ⟨by rw [h1]; exact hinv.1, fun a => ?_⟩
  rw [h1, h2]
  exact hinv.2 a

theorem focusInv_new (K : Constants) (heap : ActivityPtr → Activity)
    (h : ∀ a, (heap a).focused = false) : FocusInv (new K heap) := by
  refine ⟨List.nodup_nil, fun a => ?_⟩
  show (heap a).focused = true ↔ a ∈ []
  simp [h a]


theorem focus_runReadyInteractiveLoop (K : Constants) (fuel : Nat) :
    ∀ (s : ActivityManager) (ran : Bool),
      (runReadyInteractiveLoop K fuel s ran).1.heap = s.heap ∧
      (runReadyInteractiveLoop K fuel s ran).1.m_focusedActivities = s.m_focusedActivities := by
  induction fuel with
  | zero => intro s ran; exact ⟨rfl, rfl⟩
  | succ fuel ih =>
    intro s ran
    unfold runReadyInteractiveLoop
    split
    · split
      · exact ⟨rfl, rfl⟩
      · rename_i front _ _
        obtain ⟨h1, h2⟩ := ih (s.RunReadyBackgroundInteractiveActivity front) true
        rw [h1, h2]
        unfold RunReadyBackgroundInteractiveActivity
        simp only [evict_eq_unlink]
        exact ⟨rfl, rfl⟩
    · exact ⟨rfl, rfl⟩

theorem focus_runReadyLoop (K : Constants) (fuel : Nat) :
    ∀ (s : ActivityManager),
      (runReadyLoop K fuel s).heap = s.heap ∧
      (runReadyLoop K fuel s).m_focusedActivities = s.m_focusedActivities := by
  induction fuel with
  | zero => intro s; exact ⟨rfl, rfl⟩
  | succ fuel ih =>
    intro s
    unfold runReadyLoop
    split
    · split
      · exact ⟨rfl, rfl⟩
      · rename_i front _ _
        obtain ⟨h1, h2⟩ := ih (s.RunReadyBackgroundActivity front)
        rw [h1, h2]
        unfold RunReadyBackgroundActivity
        simp only [evict_eq_unlink]
        exact ⟨rfl, rfl⟩
    · exact ⟨rfl, rfl⟩

theorem focus_checkReadyQueue (K : Constants) (s : ActivityManager) :
    (s.CheckReadyQueue K).heap = s.heap ∧
    (s.CheckReadyQueue K).m_focusedActivities = s.m_focusedActivities := by
  unfold CheckReadyQueue
  obtain ⟨h1, h2⟩ := focus_runReadyInteractiveLoop K
    (s.m_runQueue RunQueueReadyInteractive).length s false
  simp only
  rw [(focus_runReadyLoop K _ _).1, (focus_runReadyLoop K _ _).2]
  split
  · split
    · exact ⟨h1, h2⟩
    · split
      · exact ⟨h1, h2⟩
      · exact ⟨h1, h2⟩
  · split
    · exact ⟨h1, h2⟩
    · exact ⟨h1, h2⟩

theorem focus_scheduleAllLoop (fuel : Nat) :
    ∀ (s : ActivityManager),
      (scheduleAllLoop fuel s).heap = s.heap ∧
      (scheduleAllLoop fuel s).m_focusedActivities = s.m_focusedActivities := by
  induction fuel with
  | zero => intro s; exact ⟨rfl, rfl⟩
  | succ fuel ih =>
    intro s
    unfold scheduleAllLoop
    split
    · exact ⟨rfl, rfl⟩
    · rw [(ih _).1, (ih _).2]
      exact ⟨rfl, rfl⟩

theorem focusInv_step (K : Constants) (s : ActivityManager) (h : FocusInv s) (op : Op) :
    FocusInv (step K s op) := by
  cases op with
  | InformActivityInitialized act =>
    refine focusInv_congr s _ ?_ ?_ h
    · show (s.InformActivityInitialized K act).m_focusedActivities = _
      unfold InformActivityInitialized
      simp only [evict_eq_unlink]
      split <;> rfl
    · intro a
      show ((s.InformActivityInitialized K act).heap a).focused = _
      unfold InformActivityInitialized
      simp only [evict_eq_unlink]
      split <;> rfl
  | InformActivityReady act =>
    refine focusInv_congr s _ ?_ ?_ h
    · show (s.InformActivityReady K act).m_focusedActivities = _
      unfold InformActivityReady
      simp only [evict_eq_unlink]
      split
      · rfl
      · rw [(focus_checkReadyQueue K _).2]
        split <;> rfl
    · intro a
      show ((s.InformActivityReady K act).heap a).focused = _
      unfold InformActivityReady
      simp only [evict_eq_unlink]
      split
      · rfl
      · rw [(focus_checkReadyQueue K _).1]
        split <;> rfl
  | InformActivityNotReady act =>
    refine focusInv_congr s _ ?_ ?_ h
    · show (s.InformActivityNotReady act).m_focusedActivities = _
      unfold InformActivityNotReady
      simp only [evict_eq_unlink]
      rfl
    · intro a
      show ((s.InformActivityNotReady act).heap a).focused = _
      unfold InformActivityNotReady
      simp only [evict_eq_unlink]
      rfl
  | InformActivityEnd act =>
    refine focusInv_congr s _ ?_ ?_ h
    · show (s.InformActivityEnd K act).m_focusedActivities = _
      unfold InformActivityEnd
      simp only [evict_eq_unlink]
      rw [(focus_checkReadyQueue K _).2]
      rfl
    · intro a
      show ((s.InformActivityEnd K act).heap a).focused = _
      unfold InformActivityEnd
      simp only [evict_eq_unlink]
      rw [(focus_checkReadyQueue K _).1]
      rfl
  | ReleaseActivity act =>
    refine focusInv_congr s _ ?_ ?_ h
    · show (s.ReleaseActivity K act).m_focusedActivities = _
      unfold ReleaseActivity EvictQueue
      simp only [evict_eq_unlink]
      rw [(focus_checkReadyQueue K _).2]
      split
      · rfl
      · split <;> rfl
    · intro a
      show ((s.ReleaseActivity K act).heap a).focused = _
      unfold ReleaseActivity EvictQueue
      simp only [evict_eq_unlink]
      rw [(focus_checkReadyQueue K _).1]
      split
      · rfl
      · split <;> rfl
  | Enable mask =>
    refine focusInv_congr s _ ?_ ?_ h
    · show (s.Enable K mask).m_focusedActivities = _
      unfold Enable ScheduleAllActivities
      simp only
      split
      · rw [(focus_scheduleAllLoop _ _).2]
      · rfl
    · intro a
      show ((s.Enable K mask).heap a).focused = _
      unfold Enable ScheduleAllActivities
      simp only
      split
      · rw [(focus_scheduleAllLoop _ _).1]
      · rfl
  | Disable mask => exact focusInv_congr s _ rfl (fun _ => rfl) h
  | InteractiveYieldTimeout =>
    refine focusInv_congr s _ ?_ ?_ h
    · show s.InteractiveYieldTimeout.m_focusedActivities = _
      unfold InteractiveYieldTimeout
      split
      · rfl
      · simp only
        split
        · split <;> rfl
        · rfl
    · intro a
      show (s.InteractiveYieldTimeout.heap a).focused = _
      unfold InteractiveYieldTimeout
      split
      · rfl
      · simp only
        split
        · split <;> rfl
        · rfl
  | FocusActivity act => exact focusInv_focusActivity s act h
  | UnfocusActivity act => exact focusInv_unfocusActivity s act h
  | AddFocus source target => exact focusInv_addFocus s source target h
  | activityChanged act i u y =>
    refine focusInv_congr s _ rfl ?_ h
    intro a
    show ((if a = act then { s.heap a with immediate := i, userInitiated := u, yielding := y }
      else s.heap a).focused) = _
    split <;> rfl

theorem focusInv_run (K : Constants) (heap : ActivityPtr → Activity)
    (h : ∀ a, (heap a).focused = false) (ops : List Op) : FocusInv (run K heap ops) :=
  foldl_step_induction K FocusInv (fun s op hs => focusInv_step K s hs op) ops _
    (focusInv_new K heap h)

theorem length_filter_front_lt (a : ActivityPtr) (rest : List ActivityPtr) :
    ((a :: rest).filter (fun x => x != a)).length < (a :: rest).length := by
  have h : (a :: rest).filter (fun x => x != a) = rest.filter (fun x => x != a) := by
    simp [List.filter_cons]
  rw [h, List.length_cons]
  exact Nat.lt_succ_of_le (List.length_filter_le _ _)

/-- One unit of fuel per queued activity is enough for the first loop of
`CheckReadyQueue`: more fuel gives the same result, in every state. -/
theorem runReadyInteractiveLoop_fuel (K : Constants) (fuel : Nat) :
    ∀ (s : ActivityManager) (ran : Bool),
      (s.m_runQueue RunQueueReadyInteractive).length ≤ fuel →
      runReadyInteractiveLoop K (fuel + 1) s ran = runReadyInteractiveLoop K fuel s ran := by
  induction fuel with
  | zero =>
    intro s ran hlen
    have hnil : s.m_runQueue RunQueueReadyInteractive = [] :=
      List.length_eq_zero.1 (Nat.le_zero.1 hlen)
    simp [runReadyInteractiveLoop, hnil]
  | succ fuel ih =>
    intro s ran hlen
    rw [runReadyInteractiveLoop, runReadyInteractiveLoop]
    split
    · cases hq : s.m_runQueue RunQueueReadyInteractive with
      | nil => rfl
      | cons a rest =>
        simp only
        apply ih
        have hlt := length_filter_front_lt a rest
        rw [hq] at hlen
        have : (s.RunReadyBackgroundInteractiveActivity a).m_runQueue RunQueueReadyInteractive
            = (a :: rest).filter (fun x => x != a) := by
          unfold RunReadyBackgroundInteractiveActivity
          simp only [evict_eq_unlink]
          simp [RunActivity, call, push_back, unlink, hq]
        rw [this]
        omega
    · rfl

/-- One unit of fuel per queued activity is enough for the second loop of
`CheckReadyQueue`. -/
theorem runReadyLoop_fuel (K : Constants) (fuel : Nat) :
    ∀ (s : ActivityManager), (s.m_runQueue RunQueueReady).length ≤ fuel →
      runReadyLoop K (fuel + 1) s = runReadyLoop K fuel s := by
  induction fuel with
  | zero =>
    intro s hlen
    have hnil : s.m_runQueue RunQueueReady = [] :=
      List.length_eq_zero.1 (Nat.le_zero.1 hlen)
    simp [runReadyLoop, hnil]
  | succ fuel ih =>
    intro s hlen
    rw [runReadyLoop, runReadyLoop]
    split
    · cases hq : s.m_runQueue RunQueueReady with
      | nil => rfl
      | cons a rest =>
        simp only
        apply ih
        have hlt := length_filter_front_lt a rest
        rw [hq] at hlen
        have : (s.RunReadyBackgroundActivity a).m_runQueue RunQueueReady
            = (a :: rest).filter (fun x => x != a) := by
          unfold RunReadyBackgroundActivity
          simp only [evict_eq_unlink]
          simp [RunActivity, call, push_back, unlink, hq]
        rw [this]
        omega
    · rfl

/-- One unit of fuel per activity on initialized is enough for the loop of
`ScheduleAllActivities`. -/
theorem scheduleAllLoop_fuel (fuel : Nat) :
    ∀ (s : ActivityManager), (s.m_runQueue RunQueueInitialized).length ≤ fuel →
      scheduleAllLoop (fuel + 1) s = scheduleAllLoop fuel s := by
  induction fuel with
  | zero =>
    intro s hlen
    have hnil : s.m_runQueue RunQueueInitialized = [] :=
      List.length_eq_zero.1 (Nat.le_zero.1 hlen)
    simp [scheduleAllLoop, hnil]
  | succ fuel ih =>
    intro s hlen
    rw [scheduleAllLoop, scheduleAllLoop]
    cases hq : s.m_runQueue RunQueueInitialized with
    | nil => rfl
    | cons a rest =>
      simp only
      apply ih
      have hlt := length_filter_front_lt a rest
      rw [hq] at hlen
      have : (((s.unlink a).push_back RunQueueScheduled a).call
          (Call.ScheduleActivity a)).m_runQueue RunQueueInitialized
          = (a :: rest).filter (fun x => x != a) := by
        simp [call, push_back, unlink, hq]
      rw [this]
      omega

theorem unfocusActivity_focused (s : ActivityManager) (act : ActivityPtr)
    (hinv : FocusInv s) (h : (s.heap act).focused = true) :
    s.UnfocusActivity act =
      (MojErr.MojErrNone,
        { s with
            heap := fun p => if p = act then { s.heap p with focused := false } else s.heap p,
            m_focusedActivities := s.m_focusedActivities.filter (fun x => x != act),
            calls := s.calls ++ [Call.UpdateAssociations act] }) := by
  have hmem : act ∈ s.m_focusedActivities := (hinv.2 act).1 h
  unfold UnfocusActivity
  simp [h, SetFocus, call, hmem]

theorem focus_informActivityEnd (K : Constants) (s : ActivityManager) (act : ActivityPtr) :
    (s.InformActivityEnd K act).heap = s.heap ∧
    (s.InformActivityEnd K act).m_focusedActivities = s.m_focusedActivities := by
  unfold InformActivityEnd
  simp only [evict_eq_unlink]
  rw [(focus_checkReadyQueue K _).1, (focus_checkReadyQueue K _).2]
  exact ⟨rfl, rfl⟩

theorem focus_releaseActivity (K : Constants) (s : ActivityManager) (act : ActivityPtr) :
    (s.ReleaseActivity K act).heap = s.heap ∧
    (s.ReleaseActivity K act).m_focusedActivities = s.m_focusedActivities := by
  unfold ReleaseActivity EvictQueue
  simp only [evict_eq_unlink]
  rw [(focus_checkReadyQueue K _).1, (focus_checkReadyQueue K _).2]
  split
  · exact ⟨rfl, rfl⟩
  · split <;> exact ⟨rfl, rfl⟩

theorem mem_insertBefore {α : Type} (stop : α → Bool) (x z : α) (l : List α) :
    z ∈ insertBefore stop x l ↔ z = x ∨ z ∈ l := by
  induction l with
  | nil => simp [insertBefore]
  | cons y l ih =>
    unfold insertBefore
    split
    · simp
    · simp only [List.mem_cons, ih]
      constructor
      · rintro (h | h | h)
        · exact Or.inr (Or.inl h)
        · exact Or.inl h
        · exact Or.inr (Or.inr h)
      · rintro (h | h | h)
        · exact Or.inr (Or.inl h)
        · exact Or.inl h
        · exact Or.inr (Or.inr h)

theorem insertBefore_perm {α : Type} (stop : α → Bool) (x : α) (l : List α) :
    (insertBefore stop x l).Perm (x :: l) := by
  induction l with
  | nil => exact List.Perm.refl _
  | cons y l ih =>
    unfold insertBefore
    split
    · exact List.Perm.refl _
    · exact (List.Perm.cons y ih).trans (List.Perm.swap x y l)

/-- In a list ordered by `key`, the first element whose key is not less than `n` has the
key `n` exactly when `n` is among the keys. -/
theorem lowerBound_key {α : Type} (key : α → Nat) (n : Nat) (l : List α)
    (hs : (l.map key).Pairwise (fun a b => a ≤ b)) :
    (l.find? (fun e => !decide (key e < n))).map key = some n ↔ n ∈ l.map key := by
  induction l with
  | nil => simp
  | cons e rest ih =>
    rw [List.map_cons, List.pairwise_cons] at hs
    by_cases hlt : key e < n
    · have : (!decide (key e < n)) = false := by simp [hlt]
      rw [List.find?_cons, this]
      simp only [List.map_cons, List.mem_cons]
      rw [ih hs.2]
      constructor
      · exact Or.inr
      · rintro (h | h)
        · omega
        · exact h
    · have : (!decide (key e < n)) = true := by simp [hlt]
      rw [List.find?_cons, this]
      simp only [Option.map_some', Option.some.injEq, List.map_cons, List.mem_cons]
      constructor
      · intro h; exact Or.inl h.symm
      · rintro (h | h)
        · exact h.symm
        · have := hs.1 n h
          omega

theorem interval_length_le (a b : Nat) (l : List Nat)
    (h : ∀ j, a ≤ j → j < b → j ∈ l) : b - a ≤ l.length := by
  have hsub : List.range' a (b - a) ⊆ l := by
    intro j hj
    rw [List.mem_range'_1] at hj
    exact h j hj.1 (by omega)
  have := (List.subperm_of_subset (List.nodup_range' a (b - a)) hsub).length_le
  simpa using this

theorem idTable_condition (s : ActivityManager) (hs : IdTableSorted s) (n : Nat) :
    (s.idTableLowerBound n = none ∨
      (s.idTableLowerBound n).map (fun e => (s.heap e).id) ≠ some n) ↔ n ∉ s.idTableIds := by
  have hkey := lowerBound_key (fun e => (s.heap e).id) n s.m_idTable hs
  unfold idTableLowerBound idTableIds
  rw [← hkey]
  constructor
  · rintro (h | h)
    · rw [h]; simp
    · exact h
  · intro h; exact Or.inr h

/-- The result of the loop of `GetNewActivity()` when `free` is the least unused id
at or above the counter `n`: the loop has fuel left, allocates `free` and leaves the
counter behind it. -/
theorem getNewActivityLoop_eq (p : ActivityPtr) (init : Activity) (s : ActivityManager)
    (hs : IdTableSorted s) (free : Nat) (hw : free < ID_WIDTH) (hfree : free ∉ s.idTableIds)
    (fuel : Nat) :
    ∀ n : Nat, n ≤ free → (∀ j, n ≤ j → j < free → j ∈ s.idTableIds) → free - n < fuel →
      getNewActivityLoop p init fuel { s with m_nextActivityId := n } =
        some (p,
          { s with
              heap := fun q => if q = p then { init with id := free } else s.heap q,
              m_nextActivityId := (free + 1) % ID_WIDTH,
              m_idTable := insertBefore
                (fun e => !decide ((if e = p then { init with id := free } else s.heap e).id
                  < free)) p s.m_idTable }) := by
  induction fuel with
  | zero => intro n _ _ h; omega
  | succ fuel ih =>
    intro n hle hbelow hfuel
    unfold getNewActivityLoop
    have hcond := idTable_condition { s with m_nextActivityId := n } hs n
    have hids : idTableIds { s with m_nextActivityId := n } = s.idTableIds := rfl
    rw [hids] at hcond
    by_cases hin : n ∈ s.idTableIds
    · have hne : n ≠ free := fun e => hfree (e ▸ hin)
      have hlt : n < free := by omega
      have hmod : (n + 1) % ID_WIDTH = n + 1 := Nat.mod_eq_of_lt (by omega)
      simp only
      rw [if_neg (fun h => (hcond.1 h) hin), hmod]
      exact ih (n + 1) (by omega) (fun j h1 h2 => hbelow j (by omega) h2) (by omega)
    · have heq : n = free := by
        by_contra hne
        have hlt : n < free := by omega
        exact hin (hbelow _ (Nat.le_refl _) hlt)
      subst heq
      simp only
      rw [if_pos (hcond.2 hin)]
      rfl

theorem getNewActivity_eq (p : ActivityPtr) (init : Activity) (s : ActivityManager)
    (hs : IdTableSorted s) (free : Nat) (hw : free < ID_WIDTH) (hfree : free ∉ s.idTableIds)
    (hle : free ≥ s.m_nextActivityId)
    (hbelow : ∀ j : Nat, j ≥ s.m_nextActivityId → j < free → j ∈ s.idTableIds) :
    s.GetNewActivity p init =
      some (p,
        { s with
            heap := fun q => if q = p then { init with id := free } else s.heap q,
            m_nextActivityId := (free + 1) % ID_WIDTH,
            m_idTable := insertBefore
              (fun e => !decide ((if e = p then { init with id := free } else s.heap e).id
                < free)) p s.m_idTable }) := by
  have hlen : free - s.m_nextActivityId ≤ s.idTableIds.length :=
    interval_length_le _ _ _ (fun j h1 h2 => hbelow j h1 h2)
  have hlen2 : s.idTableIds.length = s.m_idTable.length := by
    unfold idTableIds; simp
  have := getNewActivityLoop_eq p init s hs free hw hfree (s.m_idTable.length + 1)
    s.m_nextActivityId hle (fun j h1 h2 => hbelow j h1 h2) (by omega)
  exact this

/-- Among the ids at or above `n` that are not in `l` there is a least one. -/
theorem exists_least_free (l : List Nat) (n bound : Nat)
    (h : ∃ f, n ≤ f ∧ f < bound ∧ f ∉ l) :
    ∃ free, n ≤ free ∧ free < bound ∧ free ∉ l ∧ ∀ j, n ≤ j → j < free → j ∈ l := by
  classical
  have h2 : ∃ f, n ≤ f ∧ f ∉ l := by
    obtain ⟨f, h1, _, h3⟩ := h
    exact ⟨f, h1, h3⟩
  refine ⟨Nat.find h2, (Nat.find_spec h2).1, ?_, (Nat.find_spec h2).2, ?_⟩
  · obtain ⟨f, h1, hb, h3⟩ := h
    exact Nat.lt_of_le_of_lt (Nat.find_min' h2 ⟨h1, h3⟩) hb
  · intro j hj hlt
    by_contra hnot
    exact Nat.find_min h2 hlt ⟨hj, hnot⟩


theorem tables_runReadyInteractiveLoop (K : Constants) (fuel : Nat) :
    ∀ (s : ActivityManager) (ran : Bool),
      (runReadyInteractiveLoop K fuel s ran).1.m_activities = s.m_activities ∧
      (runReadyInteractiveLoop K fuel s ran).1.m_idTable = s.m_idTable ∧
      (runReadyInteractiveLoop K fuel s ran).1.m_nameTable = s.m_nameTable ∧
      (runReadyInteractiveLoop K fuel s ran).1.m_nextActivityId = s.m_nextActivityId := by
  induction fuel with
  | zero => intro s ran; exact ⟨rfl, rfl, rfl, rfl⟩
  | succ fuel ih =>
    intro s ran
    unfold runReadyInteractiveLoop
    split
    · split
      · exact ⟨rfl, rfl, rfl, rfl⟩
      · rename_i front _ _
        obtain ⟨h1, h2, h3, h4⟩ := ih (s.RunReadyBackgroundInteractiveActivity front) true
        rw [h1, h2, h3, h4]
        unfold RunReadyBackgroundInteractiveActivity
        simp only [evict_eq_unlink]
        exact ⟨rfl, rfl, rfl, rfl⟩
    · exact ⟨rfl, rfl, rfl, rfl⟩

theorem tables_runReadyLoop (K : Constants) (fuel : Nat) :
    ∀ (s : ActivityManager),
      (runReadyLoop K fuel s).m_activities = s.m_activities ∧
      (runReadyLoop K fuel s).m_idTable = s.m_idTable ∧
      (runReadyLoop K fuel s).m_nameTable = s.m_nameTable ∧
      (runReadyLoop K fuel s).m_nextActivityId = s.m_nextActivityId := by
  induction fuel with
  | zero => intro s; exact ⟨rfl, rfl, rfl, rfl⟩
  | succ fuel ih =>
    intro s
    unfold runReadyLoop
    split
    · split
      · exact ⟨rfl, rfl, rfl, rfl⟩
      · rename_i front _ _
        obtain ⟨h1, h2, h3, h4⟩ := ih (s.RunReadyBackgroundActivity front)
        rw [h1, h2, h3, h4]
        unfold RunReadyBackgroundActivity
        simp only [evict_eq_unlink]
        exact ⟨rfl, rfl, rfl, rfl⟩
    · exact ⟨rfl, rfl, rfl, rfl⟩

/-- `CheckReadyQueue` touches neither the map of live activities nor the id table,
the name table or the id counter. -/
theorem tables_checkReadyQueue (K : Constants) (s : ActivityManager) :
    (s.CheckReadyQueue K).m_activities = s.m_activities ∧
    (s.CheckReadyQueue K).m_idTable = s.m_idTable ∧
    (s.CheckReadyQueue K).m_nameTable = s.m_nameTable ∧
    (s.CheckReadyQueue K).m_nextActivityId = s.m_nextActivityId := by
  unfold CheckReadyQueue
  obtain ⟨h1, h2, h3, h4⟩ := tables_runReadyInteractiveLoop K
    (s.m_runQueue RunQueueReadyInteractive).length s false
  simp only
  rw [(tables_runReadyLoop K _ _).1, (tables_runReadyLoop K _ _).2.1,
    (tables_runReadyLoop K _ _).2.2.1, (tables_runReadyLoop K _ _).2.2.2]
  split
  · split
    · exact ⟨h1, h2, h3, h4⟩
    · split
      · exact ⟨h1, h2, h3, h4⟩
      · exact ⟨h1, h2, h3, h4⟩
  · split
    · exact ⟨h1, h2, h3, h4⟩
    · exact ⟨h1, h2, h3, h4⟩

/-- In a map with unique keys the lookup of the key of an entry finds that entry. -/
theorem find_key_of_mem (l : List (activityId_t × ActivityPtr))
    (hnd : (l.map Prod.fst).Nodup) (e : activityId_t × ActivityPtr) (he : e ∈ l) :
    l.find? (fun x => x.1 == e.1) = some e := by
  induction l with
  | nil => exact absurd he (List.not_mem_nil e)
  | cons y rest ih =>
    rw [List.map_cons, List.nodup_cons] at hnd
    rw [List.find?_cons]
    rcases List.mem_cons.1 he with h | h
    · subst h
      simp
    · have hne : y.1 ≠ e.1 := by
        intro heq
        exact hnd.1 (heq ▸ List.mem_map_of_mem Prod.fst h)
      have : (y.1 == e.1) = false := by simpa using hne
      rw [this]
      exact ih hnd.2 h

theorem find_key_none (l : List (activityId_t × ActivityPtr)) (id : activityId_t) :
    l.find? (fun x => x.1 == id) = none ↔ ∀ e ∈ l, e.1 ≠ id := by
  rw [List.find?_eq_none]
  constructor
  · intro h e he heq
    exact h e he (by simpa using heq)
  · intro h e he heq
    exact h e he (by simpa using heq)

/-- The entries of the map of live activities after `ReleaseActivity`. -/
theorem releaseActivity_activities (K : Constants) (s : ActivityManager) (act : ActivityPtr) :
    (s.ReleaseActivity K act).m_activities =
      (match s.m_activities.find? (fun e => e.1 == (s.heap act).id) with
        | none => s.m_activities
        | some e => if e.2 = act then s.m_activities.erase e else s.m_activities) ∧
    (s.ReleaseActivity K act).m_idTable = s.m_idTable ∧
    (s.ReleaseActivity K act).m_nameTable = s.m_nameTable ∧
    (s.ReleaseActivity K act).m_nextActivityId = s.m_nextActivityId ∧
    (s.ReleaseActivity K act).heap = s.heap := by
  unfold ReleaseActivity EvictQueue
  simp only [evict_eq_unlink]
  rw [(tables_checkReadyQueue K _).1, (tables_checkReadyQueue K _).2.1,
    (tables_checkReadyQueue K _).2.2.1, (tables_checkReadyQueue K _).2.2.2,
    (focus_checkReadyQueue K _).1]
  have hA : (s.unlink act).m_activities = s.m_activities := rfl
  have hH : (s.unlink act).heap = s.heap := rfl
  rw [hA, hH]
  cases hfind : s.m_activities.find? (fun e => e.1 == (s.heap act).id) with
  | none => exact ⟨rfl, rfl, rfl, rfl, rfl⟩
  | some e =>
    simp only
    split
    · exact ⟨rfl, rfl, rfl, rfl, rfl⟩
    · exact ⟨rfl, rfl, rfl, rfl, rfl⟩

theorem mapInv_registerActivityId (s : ActivityManager) (act : ActivityPtr) (h : MapInv s) :
    MapInv (s.RegisterActivityId act).2 := by
  unfold RegisterActivityId
  cases hfind : s.m_activities.find? (fun e => e.1 == (s.heap act).id) with
  | some e => exact h
  | none =>
    show ((insertBefore _ ((s.heap act).id, act) s.m_activities).map Prod.fst).Nodup
    have hperm := (insertBefore_perm (fun e => decide ((s.heap act).id < e.1))
      ((s.heap act).id, act) s.m_activities).map Prod.fst
    rw [hperm.nodup_iff, List.map_cons, List.nodup_cons]
    refine ⟨?_, h⟩
    intro hmem
    rw [List.mem_map] at hmem
    obtain ⟨e, he, heq⟩ := hmem
    exact (find_key_none _ _).1 hfind e he heq

theorem mapInv_releaseActivity (K : Constants) (s : ActivityManager) (act : ActivityPtr)
    (h : MapInv s) : MapInv (s.ReleaseActivity K act) := by
  unfold MapInv
  rw [(releaseActivity_activities K s act).1]
  split
  · exact h
  · split
    · exact h.sublist ((List.erase_sublist _ _).map Prod.fst)
    · exact h

theorem idTableInsert_eq (K : Constants) (s : ActivityManager) (p : ActivityPtr)
    (init : Activity) (id : activityId_t) (hp : p ∉ s.m_idTable) :
    (K.idTableUnique = true → id ∈ s.idTableIds →
      idTableInsert K (s.makeActivity p init id) p = s.m_idTable) ∧
    ((K.idTableUnique = false ∨ id ∉ s.idTableIds) →
      (idTableInsert K (s.makeActivity p init id) p).Perm (p :: s.m_idTable)) := by
  have hany : (s.makeActivity p init id).m_idTable.any
      (fun e => !(s.makeActivity p init id).ActivityIdComp p e &&
        !(s.makeActivity p init id).ActivityIdComp e p) = true ↔ id ∈ s.idTableIds := by
    show s.m_idTable.any _ = true ↔ _
    rw [List.any_eq_true]
    unfold idTableIds
    rw [List.mem_map]
    constructor
    · rintro ⟨e, he, h⟩
      have hne : e ≠ p := fun h => hp (h ▸ he)
      refine ⟨e, he, ?_⟩
      simp only [ActivityIdComp, makeActivity, hne, if_true, if_false, Bool.and_eq_true,
        Bool.not_eq_true', decide_eq_false_iff_not] at h
      unfold activityId_t at *
      omega
    · rintro ⟨e, he, h⟩
      have hne : e ≠ p := fun h => hp (h ▸ he)
      refine ⟨e, he, ?_⟩
      simp only [ActivityIdComp, makeActivity, hne, if_true, if_false, Bool.and_eq_true,
        Bool.not_eq_true', decide_eq_false_iff_not]
      unfold activityId_t at *
      omega
  constructor
  · intro hu hin
    unfold idTableInsert
    rw [if_pos ⟨hu, hany.2 hin⟩]
    rfl
  · intro h
    unfold idTableInsert
    rw [if_neg]
    · exact insertBefore_perm _ _ _
    · rintro ⟨hu, ha⟩
      rcases h with h | h
      · rw [hu] at h; exact absurd h (by decide)
      · exact h (hany.1 ha)

/-- Two activities are equivalent for `ActivityNameComp` exactly when they have the
same name and the same creator, provided `BusId::operator<` puts any two different
identities in one order or the other. -/
theorem nameComp_equiv (busLess : BusId → BusId → Bool)
    (htotal : ∀ a b, (busLess a b = false ∧ busLess b a = false) ↔ a = b)
    (s : ActivityManager) (a e : ActivityPtr) :
    (!ActivityNameComp busLess s a e && !ActivityNameComp busLess s e a) = true ↔
      ((s.heap e).name = (s.heap a).name ∧ (s.heap e).creator = (s.heap a).creator) := by
  unfold ActivityNameComp
  by_cases hn : (s.heap a).name = (s.heap e).name
  · have hn2 : ¬ (s.heap e).name ≠ (s.heap a).name := fun h => h hn.symm
    rw [if_neg (fun h => h hn), if_neg hn2]
    simp only [Bool.and_eq_true, Bool.not_eq_true']
    rw [htotal]
    constructor
    · intro h; exact ⟨hn.symm, h.symm⟩
    · intro h; exact h.2.symm
  · have hn2 : (s.heap e).name ≠ (s.heap a).name := fun h => hn h.symm
    rw [if_pos hn, if_pos hn2]
    simp only [Bool.and_eq_true, Bool.not_eq_true', decide_eq_false_iff_not]
    constructor
    · rintro ⟨h1, h2⟩
      rcases lt_or_gt_of_ne hn with h | h
      · exact absurd h h1
      · exact absurd h h2
    · intro h
      exact absurd h.1.symm hn

theorem exampleBusLess_total (a b : BusId) :
    (exampleBusLess a b = false ∧ exampleBusLess b a = false) ↔ a = b := by
  obtain ⟨ta, ia⟩ := a
  obtain ⟨tb, ib⟩ := b
  constructor
  · rintro ⟨h1, h2⟩
    cases ta <;> cases tb
    · have h1 : ¬ ia < ib := by simpa only [exampleBusLess, decide_eq_false_iff_not] using h1
      have h2 : ¬ ib < ia := by simpa only [exampleBusLess, decide_eq_false_iff_not] using h2
      rw [le_antisymm (not_lt.1 h2) (not_lt.1 h1)]
    · exact absurd h1 (by simp [exampleBusLess])
    · exact absurd h2 (by simp [exampleBusLess])
    · have h1 : ¬ ia < ib := by simpa only [exampleBusLess, decide_eq_false_iff_not] using h1
      have h2 : ¬ ib < ia := by simpa only [exampleBusLess, decide_eq_false_iff_not] using h2
      rw [le_antisymm (not_lt.1 h2) (not_lt.1 h1)]
  · intro h
    rw [BusId.mk.injEq] at h
    obtain ⟨rfl, rfl⟩ := h
    cases ta <;> simp [exampleBusLess]

theorem nameTable_getNewActivityLoop (p : ActivityPtr) (init : Activity) (fuel : Nat) :
    ∀ (s : ActivityManager) (r : ActivityPtr × ActivityManager),
      getNewActivityLoop p init fuel s = some r →
      r.2.m_nameTable = s.m_nameTable ∧ r.2.m_activities = s.m_activities := by
  induction fuel with
  | zero => intro s r h; exact absurd h (by simp [getNewActivityLoop])
  | succ fuel ih =>
    intro s r h
    unfold getNewActivityLoop at h
    simp only at h
    split at h
    · rw [Option.some.injEq] at h
      rw [← h]
      exact ⟨rfl, rfl⟩
    · have h2 := ih { s with m_nextActivityId := (s.m_nextActivityId + 1) % ID_WIDTH } r h
      exact h2

theorem nameTable_registryStep (K : Constants) (busLess : BusId → BusId → Bool)
    (s : ActivityManager) (op : RegistryOp) (a : ActivityPtr) (h : a ∈ s.m_nameTable) :
    a ∈ (registryStep K busLess s op).m_nameTable := by
  cases op with
  | GetNewActivity p init =>
    show a ∈ (match s.GetNewActivity p init with
      | some r => r.2
      | none => s).m_nameTable
    cases hr : s.GetNewActivity p init with
    | none => exact h
    | some r =>
      simp only
      rw [(nameTable_getNewActivityLoop p init _ s r hr).1]
      exact h
  | GetNewActivity_id id p init => exact h
  | RegisterActivityId act =>
    show a ∈ (s.RegisterActivityId act).2.m_nameTable
    unfold RegisterActivityId
    split <;> exact h
  | RegisterActivityName act =>
    show a ∈ (s.RegisterActivityName busLess act).2.m_nameTable
    unfold RegisterActivityName
    split
    · exact h
    · exact (mem_insertBefore _ _ _ _).2 (Or.inr h)
  | ReleaseActivity act =>
    show a ∈ (s.ReleaseActivity K act).m_nameTable
    rw [(releaseActivity_activities K s act).2.2.1]
    exact h

theorem timer_runReadyInteractiveLoop (K : Constants) (fuel : Nat) :
    ∀ (s : ActivityManager) (ran : Bool),
      (runReadyInteractiveLoop K fuel s ran).1.m_interactiveYieldTimeout =
        s.m_interactiveYieldTimeout := by
  induction fuel with
  | zero => intro s ran; rfl
  | succ n ih =>
    intro s ran
    unfold runReadyInteractiveLoop
    split
    · split
      · rfl
      · rw [ih]
        simp only [RunReadyBackgroundInteractiveActivity, evict_eq_unlink]
        rfl
    · rfl

theorem timer_runReadyLoop (K : Constants) (fuel : Nat) :
    ∀ (s : ActivityManager), RunQueueInv s →
      (runReadyLoop K fuel s).m_interactiveYieldTimeout = s.m_interactiveYieldTimeout ∧
      (runReadyLoop K fuel s).m_runQueue RunQueueReadyInteractive =
        s.m_runQueue RunQueueReadyInteractive := by
  induction fuel with
  | zero => intro s _; exact ⟨rfl, rfl⟩
  | succ n ih =>
    intro s hinv
    unfold runReadyLoop
    split
    · split
      · exact ⟨rfl, rfl⟩
      · rename_i front rest h0
        have hrun := runReadyBackground_front s hinv front rest h0
        have h := ih (s.RunReadyBackgroundActivity front)
          (runQueueInv_runReadyBackground s hinv front)
        rw [h.1, h.2, hrun]
        refine ⟨rfl, ?_⟩
        simp [moveFront]
    · exact ⟨rfl, rfl⟩

theorem runReadyInteractiveLoop_enough (K : Constants) (s : ActivityManager) (ran : Bool) :
    ∀ fuel, (s.m_runQueue RunQueueReadyInteractive).length ≤ fuel →
      runReadyInteractiveLoop K fuel s ran =
        runReadyInteractiveLoop K (s.m_runQueue RunQueueReadyInteractive).length s ran := by
  intro fuel hle
  induction fuel with
  | zero =>
    have h0 : (s.m_runQueue RunQueueReadyInteractive).length = 0 := by omega
    rw [h0]
  | succ n ih =>
    by_cases hn : (s.m_runQueue RunQueueReadyInteractive).length ≤ n
    · rw [runReadyInteractiveLoop_fuel K n s ran hn]
      exact ih hn
    · have heq : (s.m_runQueue RunQueueReadyInteractive).length = n + 1 := by omega
      rw [heq]

theorem runReadyLoop_enough (K : Constants) (t : ActivityManager) :
    ∀ fuel, (t.m_runQueue RunQueueReady).length ≤ fuel →
      runReadyLoop K fuel t = runReadyLoop K (t.m_runQueue RunQueueReady).length t := by
  intro fuel hle
  induction fuel with
  | zero =>
    have h0 : (t.m_runQueue RunQueueReady).length = 0 := by omega
    rw [h0]
  | succ n ih =>
    by_cases hn : (t.m_runQueue RunQueueReady).length ≤ n
    · rw [runReadyLoop_fuel K n t hn]
      exact ih hn
    · have heq : (t.m_runQueue RunQueueReady).length = n + 1 := by omega
      rw [heq]

theorem and_or_eq_iff (m a b : Nat) :
    m &&& (a ||| b) = a ||| b ↔ m &&& a = a ∧ m &&& b = b := by
  constructor
  · intro h
    have hbit : ∀ i, (m.testBit i && (a.testBit i || b.testBit i)) =
        (a.testBit i || b.testBit i) := by
      intro i
      have := congrArg (fun x => x.testBit i) h
      simpa only [Nat.testBit_and, Nat.testBit_or] using this
    constructor
    · apply Nat.eq_of_testBit_eq
      intro i
      rw [Nat.testBit_and]
      have := hbit i
      revert this
      cases m.testBit i <;> cases a.testBit i <;> cases b.testBit i <;> simp
    · apply Nat.eq_of_testBit_eq
      intro i
      rw [Nat.testBit_and]
      have := hbit i
      revert this
      cases m.testBit i <;> cases a.testBit i <;> cases b.testBit i <;> simp
  · rintro ⟨h1, h2⟩
    have hbit1 : ∀ i, (m.testBit i && a.testBit i) = a.testBit i := by
      intro i
      have := congrArg (fun x => x.testBit i) h1
      simpa only [Nat.testBit_and] using this
    have hbit2 : ∀ i, (m.testBit i && b.testBit i) = b.testBit i := by
      intro i
      have := congrArg (fun x => x.testBit i) h2
      simpa only [Nat.testBit_and] using this
    apply Nat.eq_of_testBit_eq
    intro i
    rw [Nat.testBit_and, Nat.testBit_or]
    have := hbit1 i
    have := hbit2 i
    revert this
    revert this
    cases m.testBit i <;> cases a.testBit i <;> cases b.testBit i <;> simp

theorem informActivityInitialized_enabled (K : Constants) (s : ActivityManager)
    (act : ActivityPtr) (h : IsEnabled K s = true) :
    s.InformActivityInitialized K act =
      { s with
          m_runQueue := fun q =>
            if q = RunQueueScheduled
              then (s.m_runQueue q).filter (fun x => x != act) ++ [act]
              else (s.m_runQueue q).filter (fun x => x != act),
          calls := s.calls ++ [Call.ScheduleActivity act] } := by
  unfold InformActivityInitialized
  rw [evict_eq_unlink]
  have h1 : IsEnabled K (s.unlink act) = true := h
  simp only [h1, if_true]
  rfl

theorem workConserving_checkReadyQueue (K : Constants) (t : ActivityManager)
    (hinv : RunQueueInv t)
    (hlb : t.m_backgroundConcurrencyLevel ≠ K.UnlimitedBackgroundConcurrency)
    (hli : t.m_backgroundInteractiveConcurrencyLevel ≠ K.UnlimitedBackgroundConcurrency)
    (hfit : t.running + (t.m_runQueue RunQueueReadyInteractive).length +
      (t.m_runQueue RunQueueReady).length < UINT_WIDTH) :
    WorkConserving (t.CheckReadyQueue K) := by
  have hki := admitted_le t.m_backgroundInteractiveConcurrencyLevel
    K.UnlimitedBackgroundConcurrency t.running (t.m_runQueue RunQueueReadyInteractive).length
  have hkb := admitted_le t.m_backgroundConcurrencyLevel K.UnlimitedBackgroundConcurrency
    (t.running + admitted t.m_backgroundInteractiveConcurrencyLevel
      K.UnlimitedBackgroundConcurrency t.running (t.m_runQueue RunQueueReadyInteractive).length)
    (t.m_runQueue RunQueueReady).length
  rw [checkReadyQueue_eq K t hinv _ _ rfl rfl (Or.inr (by omega)) (Or.inr (by omega))]
  unfold admitted at hki hkb ⊢
  rw [if_neg hli] at hki hkb ⊢
  rw [if_neg hlb] at hkb ⊢
  unfold WorkConserving running at *
  simp only [moveFront, reduceCtorEq, if_false, if_true, List.length_append, List.length_take,
    List.length_drop, ne_eq, ← List.length_eq_zero]
  constructor
  · intro h
    omega
  · intro h
    omega

theorem running_unlink_eq (s : ActivityManager) (a : ActivityPtr)
    (h1 : a ∉ s.m_runQueue RunQueueBackground)
    (h2 : a ∉ s.m_runQueue RunQueueBackgroundInteractive) :
    (s.unlink a).running = s.running := by
  unfold running unlink
  simp only [filter_ne_eq_self _ _ h1, filter_ne_eq_self _ _ h2]

theorem length_filter_ne_le (l : List ActivityPtr) (a : ActivityPtr) :
    (l.filter (fun x => x != a)).length ≤ l.length :=
  List.length_filter_le _ _

theorem workConserving_relink (s : ActivityManager) (a : ActivityPtr) (q : RunQueueId)
    (hq1 : q ≠ RunQueueReady) (hq2 : q ≠ RunQueueReadyInteractive)
    (hq3 : q ≠ RunQueueBackground) (hq4 : q ≠ RunQueueBackgroundInteractive)
    (h1 : a ∉ s.m_runQueue RunQueueBackground)
    (h2 : a ∉ s.m_runQueue RunQueueBackgroundInteractive)
    (h : WorkConserving s) : WorkConserving ((s.unlink a).push_back q a) := by
  have hrun : ((s.unlink a).push_back q a).running = s.running := by
    rw [running_push_back _ _ _ hq3 hq4, running_unlink_eq s a h1 h2]
  unfold WorkConserving at *
  rw [hrun]
  have hr : ((s.unlink a).push_back q a).m_runQueue RunQueueReady =
      (s.m_runQueue RunQueueReady).filter (fun x => x != a) := by
    simp [push_back, unlink, Ne.symm hq1]
  have hri : ((s.unlink a).push_back q a).m_runQueue RunQueueReadyInteractive =
      (s.m_runQueue RunQueueReadyInteractive).filter (fun x => x != a) := by
    simp [push_back, unlink, Ne.symm hq2]
  rw [hr, hri]
  constructor
  · intro hne
    apply h.1
    intro h0
    rw [h0] at hne
    exact hne rfl
  · intro hne
    apply h.2
    intro h0
    rw [h0] at hne
    exact hne rfl

theorem fit_enqueue (s : ActivityManager) (a : ActivityPtr) (q : RunQueueId)
    (hq3 : q ≠ RunQueueBackground) (hq4 : q ≠ RunQueueBackgroundInteractive)
    (hfit : s.running + (s.m_runQueue RunQueueReadyInteractive).length +
      (s.m_runQueue RunQueueReady).length + 1 < UINT_WIDTH) :
    ((s.unlink a).push_back q a).running +
      (((s.unlink a).push_back q a).m_runQueue RunQueueReadyInteractive).length +
      (((s.unlink a).push_back q a).m_runQueue RunQueueReady).length < UINT_WIDTH := by
  have hrun : ((s.unlink a).push_back q a).running ≤ s.running := by
    rw [running_push_back _ _ _ hq3 hq4]
    exact running_unlink_le s a
  have h1 := length_filter_ne_le (s.m_runQueue RunQueueReadyInteractive) a
  have h2 := length_filter_ne_le (s.m_runQueue RunQueueReady) a
  by_cases hr : q = RunQueueReady
  · subst hr
    simp only [push_back, unlink, reduceCtorEq, if_false, if_true, List.length_append,
      List.length_singleton]
    simp only [push_back, unlink] at hrun
    omega
  · by_cases hri : q = RunQueueReadyInteractive
    · subst hri
      simp only [push_back, unlink, reduceCtorEq, if_false, if_true, List.length_append,
        List.length_singleton]
      simp only [push_back, unlink] at hrun
      omega
    · simp only [push_back, unlink, Ne.symm hr, Ne.symm hri, if_false]
      simp only [push_back, unlink] at hrun
      omega

theorem workConserving_congr (s t : ActivityManager) (hq : t.m_runQueue = s.m_runQueue)
    (h1 : t.m_backgroundConcurrencyLevel = s.m_backgroundConcurrencyLevel)
    (h2 : t.m_backgroundInteractiveConcurrencyLevel = s.m_backgroundInteractiveConcurrencyLevel)
    (h : WorkConserving s) : WorkConserving t := by
  unfold WorkConserving running at *
  rw [hq, h1, h2]
  exact h

theorem fit_unlink (s : ActivityManager) (a : ActivityPtr)
    (hfit : s.running + (s.m_runQueue RunQueueReadyInteractive).length +
      (s.m_runQueue RunQueueReady).length + 1 < UINT_WIDTH) :
    (s.unlink a).running + ((s.unlink a).m_runQueue RunQueueReadyInteractive).length +
      ((s.unlink a).m_runQueue RunQueueReady).length < UINT_WIDTH := by
  have hrun := running_unlink_le s a
  have h1 := length_filter_ne_le (s.m_runQueue RunQueueReadyInteractive) a
  have h2 := length_filter_ne_le (s.m_runQueue RunQueueReady) a
  simp only [unlink] at hrun ⊢
  omega

theorem set_difference_sorted (less : ActivityPtr → ActivityPtr → Bool)
    (hirr : ∀ a, less a a = false)
    (htrans : ∀ a b c, less a b = true → less b c = true → less a c = true)
    (htri : ∀ a b, less a b = false → less b a = false → a = b) :
    ∀ xs ys : List ActivityPtr, xs.Pairwise (fun a b => less a b = true) →
      ys.Pairwise (fun a b => less a b = true) →
      set_difference less xs ys = xs.filter (fun a => decide (a ∉ ys)) := by
  have hne : ∀ a b, less a b = true → a ≠ b := by
    intro a b h hab
    rw [hab, hirr] at h
    exact absurd h (by simp)
  intro xs
  induction xs with
  | nil => intro ys _ _; rfl
  | cons x xs ih =>
    intro ys hxs hys
    rw [List.pairwise_cons] at hxs
    obtain ⟨hx, hxs⟩ := hxs
    show set_difference_step less x (set_difference less xs) ys = _
    induction ys with
    | nil =>
      show x :: set_difference less xs [] = _
      rw [ih [] hxs List.Pairwise.nil]
      simp
    | cons y ys ihy =>
      rw [List.pairwise_cons] at hys
      obtain ⟨hy, hys⟩ := hys
      unfold set_difference_step
      by_cases h1 : less x y = true
      · rw [if_pos h1, ih (y :: ys) hxs (List.pairwise_cons.2 ⟨hy, hys⟩)]
        have hxn : x ∉ y :: ys := by
          intro hmem
          rcases List.mem_cons.1 hmem with h | h
          · exact hne x y h1 h
          · exact hne x x (htrans x y x h1 (hy x h)) rfl
        rw [List.filter_cons_of_pos (by simpa using hxn)]
      · rw [if_neg h1]
        by_cases h2 : less y x = true
        · rw [if_pos h2, ihy hys]
          apply List.filter_congr
          intro a ha
          have hya : a ≠ y := by
            rcases List.mem_cons.1 ha with h | h
            · rw [h]
              exact (hne y x h2).symm
            · exact (hne y a (htrans y x a h2 (hx a h))).symm
          simp [hya]
        · rw [if_neg h2]
          have hxy : x = y := htri x y (by simpa using h1) (by simpa using h2)
          subst hxy
          rw [ih ys hxs hys]
          rw [List.filter_cons_of_neg (by simp)]
          apply List.filter_congr
          intro a ha
          have hax : a ≠ x := (hne x a (hx a ha)).symm
          simp [hax]

theorem find_replaced (key : String) (val : MojObject) (kv : List (String × MojObject))
    (hany : kv.any (fun e => e.1 == key) = true) :
    ((kv.map (fun e => if e.1 == key then (key, val) else e)).find?
      (fun e => e.1 == key)).map Prod.snd = some val := by
  induction kv with
  | nil => simp at hany
  | cons e rest ih =>
    by_cases he : (e.1 == key) = true
    · simp [List.find?, he]
    · simp only [List.any_cons, he, Bool.false_or] at hany
      simp only [List.map_cons, he, List.find?, Bool.false_eq_true, if_false]
      exact ih hany

theorem find_appended (key : String) (val : MojObject) (kv : List (String × MojObject))
    (hany : kv.any (fun e => e.1 == key) = false) :
    ((kv ++ [(key, val)]).find? (fun e => e.1 == key)).map Prod.snd = some val := by
  induction kv with
  | nil => simp [List.find?]
  | cons e rest ih =>
    simp only [List.any_cons, Bool.or_eq_false_iff] at hany
    simp only [List.cons_append, List.find?, hany.1]
    exact ih hany.2

theorem find_replaced_other (key other : String) (val : MojObject)
    (kv : List (String × MojObject)) (hk : (key == other) = false) :
    ((kv.map (fun e => if e.1 == key then (key, val) else e)).find?
      (fun e => e.1 == other)).map Prod.snd =
      (kv.find? (fun e => e.1 == other)).map Prod.snd := by
  induction kv with
  | nil => rfl
  | cons e rest ih =>
    by_cases he : (e.1 == key) = true
    · have heo : (e.1 == other) = false := by
        rw [beq_iff_eq] at he
        rw [he]
        exact hk
      simp only [List.map_cons, he, if_true, List.find?, hk, heo]
      exact ih
    · simp only [List.map_cons, he, Bool.false_eq_true, if_false, List.find?]
      cases e.1 == other
      · exact ih
      · rfl

theorem find_appended_other (key other : String) (val : MojObject)
    (kv : List (String × MojObject)) (hk : (key == other) = false) :
    ((kv ++ [(key, val)]).find? (fun e => e.1 == other)).map Prod.snd =
      (kv.find? (fun e => e.1 == other)).map Prod.snd := by
  induction kv with
  | nil => simp [List.find?, hk]
  | cons e rest ih =>
    simp only [List.cons_append, List.find?]
    cases e.1 == other
    · exact ih
    · rfl

theorem get_put_same (o : MojObject) (key : String) (val : MojObject) :
    (o.put key val).get key = some val := by
  cases o with
  | object kv =>
    simp only [MojObject.put]
    by_cases hany : kv.any (fun e => e.1 == key) = true
    · rw [if_pos hany]
      exact find_replaced key val kv hany
    · rw [if_neg hany]
      exact find_appended key val kv (Bool.eq_false_iff.2 hany)
  | undefined => simp [MojObject.put, MojObject.get, List.find?]
  | null => simp [MojObject.put, MojObject.get, List.find?]
  | bool b => simp [MojObject.put, MojObject.get, List.find?]
  | int n => simp [MojObject.put, MojObject.get, List.find?]
  | decimal d => simp [MojObject.put, MojObject.get, List.find?]
  | str s => simp [MojObject.put, MojObject.get, List.find?]
  | array xs => simp [MojObject.put, MojObject.get, List.find?]

theorem get_put_other (o : MojObject) (key other : String) (val : MojObject)
    (hne : other ≠ key) : (o.put key val).get other = o.get other := by
  have hk : (key == other) = false := by
    rw [beq_eq_false_iff_ne]
    exact fun h => hne h.symm
  cases o with
  | object kv =>
    simp only [MojObject.put]
    by_cases hany : kv.any (fun e => e.1 == key) = true
    · rw [if_pos hany]
      exact find_replaced_other key other val kv hk
    · rw [if_neg hany]
      exact find_appended_other key other val kv hk
  | undefined => simp [MojObject.put, MojObject.get, List.find?, hk]
  | null => simp [MojObject.put, MojObject.get, List.find?, hk]
  | bool b => simp [MojObject.put, MojObject.get, List.find?, hk]
  | int n => simp [MojObject.put, MojObject.get, List.find?, hk]
  | decimal d => simp [MojObject.put, MojObject.get, List.find?, hk]
  | str s => simp [MojObject.put, MojObject.get, List.find?, hk]
  | array xs => simp [MojObject.put, MojObject.get, List.find?, hk]

theorem infoToJson_leakedActivities (ptrLess : ActivityPtr → ActivityPtr → Bool)
    (identity : ActivityPtr → MojObject) (s : ActivityManager) (rep : MojObject) :
    (leaked ptrLess s ≠ [] →
      (InfoToJson ptrLess identity s rep).get "leakedActivities" =
        some (MojObject.array ((leaked ptrLess s).map identity))) ∧
    (leaked ptrLess s = [] →
      (InfoToJson ptrLess identity s rep).get "leakedActivities" =
        rep.get "leakedActivities") := by
  constructor
  · intro h
    unfold InfoToJson
    have h1 : (!(leaked ptrLess s).isEmpty) = true := by
      cases hl : leaked ptrLess s with
      | nil => exact absurd hl h
      | cons a l => rfl
    simp only [h1, if_true]
    exact get_put_same _ _ _
  · intro h
    unfold InfoToJson
    rw [h]
    simp only [List.isEmpty_nil, Bool.not_true, Bool.false_eq_true, if_false]
    split
    · exact get_put_other _ _ _ _ (by decide)
    · rfl

theorem armedSeconds_append (l1 l2 : List Call) :
    armedSeconds (l1 ++ l2) = armedSeconds l1 ++ armedSeconds l2 := by
  induction l1 with
  | nil => rfl
  | cons c l ih =>
    cases c <;> simp [armedSeconds, ih]

theorem armedSeconds_runCalls (l : List ActivityPtr) : armedSeconds (runCalls l) = [] := by
  induction l with
  | nil => rfl
  | cons a l ih => simp [runCalls, armedSeconds, ih]

theorem callsSince_append (s s1 : ActivityManager) (d : List Call)
    (h : s1.calls = s.calls ++ d) : callsSince s s1 = d := by
  unfold callsSince
  rw [h, List.drop_left]

theorem calls_runReadyInteractiveLoop (K : Constants) (fuel : Nat) :
    ∀ (s : ActivityManager) (ran : Bool), RunQueueInv s →
      ∃ k, k ≤ (s.m_runQueue RunQueueReadyInteractive).length ∧
        (runReadyInteractiveLoop K fuel s ran).1.m_runQueue RunQueueReadyInteractive =
          (s.m_runQueue RunQueueReadyInteractive).drop k ∧
        (runReadyInteractiveLoop K fuel s ran).2 = (ran || decide (0 < k)) ∧
        (runReadyInteractiveLoop K fuel s ran).1.calls =
          s.calls ++ runCalls ((s.m_runQueue RunQueueReadyInteractive).take k) ∧
        (runReadyInteractiveLoop K fuel s ran).1.m_yieldTimeoutSeconds =
          s.m_yieldTimeoutSeconds := by
  induction fuel with
  | zero =>
    intro s ran _
    exact ⟨0, Nat.zero_le _, rfl, by simp [runReadyInteractiveLoop],
      by simp [runReadyInteractiveLoop, runCalls], rfl⟩
  | succ n ih =>
    intro s ran hinv
    unfold runReadyInteractiveLoop
    split
    · split
      · exact ⟨0, Nat.zero_le _, rfl, by simp, by simp [runCalls], rfl⟩
      · rename_i front rest h0
        have hrun := runReadyBackgroundInteractive_front s hinv front rest h0
        obtain ⟨k, hk, h1, h2, h3, h4⟩ := ih (s.RunReadyBackgroundInteractiveActivity front)
          true (runQueueInv_runReadyBackgroundInteractive s hinv front)
        have hq : (s.RunReadyBackgroundInteractiveActivity front).m_runQueue
            RunQueueReadyInteractive = rest := by
          rw [hrun]
          simp [moveFront, h0]
        have hc : (s.RunReadyBackgroundInteractiveActivity front).calls =
            s.calls ++ runCalls [front] := by
          rw [hrun]
        have hy : (s.RunReadyBackgroundInteractiveActivity front).m_yieldTimeoutSeconds =
            s.m_yieldTimeoutSeconds := by
          rw [hrun]
        rw [hq] at hk h1 h3
        refine ⟨k + 1, ?_, ?_, ?_, ?_, ?_⟩
        · rw [h0]
          simp only [List.length_cons]
          omega
        · rw [h1, h0]
          rfl
        · rw [h2]
          simp
        · rw [h3, hc, h0, List.take_succ_cons, List.append_assoc, ← runCalls_append]
          rfl
        · rw [h4, hy]
    · exact ⟨0, Nat.zero_le _, rfl, by simp, by simp [runCalls], rfl⟩

theorem calls_runReadyLoop (K : Constants) (fuel : Nat) :
    ∀ (s : ActivityManager), RunQueueInv s →
      ∃ l, (runReadyLoop K fuel s).calls = s.calls ++ runCalls l := by
  induction fuel with
  | zero =>
    intro s _
    exact ⟨[], by simp [runReadyLoop, runCalls]⟩
  | succ n ih =>
    intro s hinv
    unfold runReadyLoop
    split
    · split
      · exact ⟨[], by simp [runCalls]⟩
      · rename_i front rest h0
        have hrun := runReadyBackground_front s hinv front rest h0
        obtain ⟨l, hl⟩ := ih (s.RunReadyBackgroundActivity front)
          (runQueueInv_runReadyBackground s hinv front)
        have hc : (s.RunReadyBackgroundActivity front).calls = s.calls ++ runCalls [front] := by
          rw [hrun]
        refine ⟨front :: l, ?_⟩
        rw [hl, hc, List.append_assoc, ← runCalls_append]
        rfl
    · exact ⟨[], by simp [runCalls]⟩

/-- The calls of `CheckReadyQueue`: the calls that run the `k` activities admitted
from readyInteractive, the call that arms a new timeout when an activity still
waits there and one was admitted or there was no timeout, and the calls that run
the activities admitted from ready. -/
theorem checkReadyQueue_calls (K : Constants) (s : ActivityManager) (hinv : RunQueueInv s) :
    ∃ k l, k ≤ (s.m_runQueue RunQueueReadyInteractive).length ∧
      (s.CheckReadyQueue K).m_runQueue RunQueueReadyInteractive =
        (s.m_runQueue RunQueueReadyInteractive).drop k ∧
      (s.CheckReadyQueue K).calls =
        s.calls ++ (runCalls ((s.m_runQueue RunQueueReadyInteractive).take k) ++
          (if (s.m_runQueue RunQueueReadyInteractive).drop k ≠ [] ∧
              (0 < k ∨ s.m_interactiveYieldTimeout = false)
            then [Call.ArmTimeout s.m_yieldTimeoutSeconds] else []) ++ runCalls l) := by
  unfold CheckReadyQueue
  have hinv1 := runQueueInv_runReadyInteractiveLoop K
    (s.m_runQueue RunQueueReadyInteractive).length s false hinv
  obtain ⟨k, hk, h1, h2, h3, h4⟩ := calls_runReadyInteractiveLoop K
    (s.m_runQueue RunQueueReadyInteractive).length s false hinv
  have h5 := timer_runReadyInteractiveLoop K
    (s.m_runQueue RunQueueReadyInteractive).length s false
  generalize runReadyInteractiveLoop K (s.m_runQueue RunQueueReadyInteractive).length s false
    = r at hinv1 h1 h2 h3 h4 h5
  simp only [Bool.false_or] at h2
  simp only []
  by_cases hne : r.1.m_runQueue RunQueueReadyInteractive ≠ []
  · rw [if_pos hne]
    have hne1 : (s.m_runQueue RunQueueReadyInteractive).drop k ≠ [] := by
      rw [← h1]
      exact hne
    by_cases hran : r.2 = true
    · rw [if_pos hran]
      have hk0 : 0 < k := by
        rw [h2] at hran
        simpa using hran
      obtain ⟨l, hl⟩ := calls_runReadyLoop K
        (r.1.UpdateYieldTimeout.m_runQueue RunQueueReady).length r.1.UpdateYieldTimeout hinv1
      have h := timer_runReadyLoop K
        (r.1.UpdateYieldTimeout.m_runQueue RunQueueReady).length r.1.UpdateYieldTimeout hinv1
      refine ⟨k, l, hk, ?_, ?_⟩
      · rw [h.2]
        exact h1
      · rw [hl, if_pos ⟨hne1, Or.inl hk0⟩]
        show r.1.calls ++ [Call.ArmTimeout r.1.m_yieldTimeoutSeconds] ++ runCalls l = _
        rw [h3, h4]
        simp only [List.append_assoc]
    · rw [if_neg hran]
      have hk0 : ¬ 0 < k := by
        intro hpos
        apply hran
        rw [h2]
        simpa using hpos
      by_cases ht : (!r.1.m_interactiveYieldTimeout) = true
      · rw [if_pos ht]
        obtain ⟨l, hl⟩ := calls_runReadyLoop K
          (r.1.UpdateYieldTimeout.m_runQueue RunQueueReady).length r.1.UpdateYieldTimeout hinv1
        have h := timer_runReadyLoop K
          (r.1.UpdateYieldTimeout.m_runQueue RunQueueReady).length r.1.UpdateYieldTimeout hinv1
        have hf : s.m_interactiveYieldTimeout = false := by
          rw [← h5]
          simpa using ht
        refine ⟨k, l, hk, ?_, ?_⟩
        · rw [h.2]
          exact h1
        · rw [hl, if_pos ⟨hne1, Or.inr hf⟩]
          show r.1.calls ++ [Call.ArmTimeout r.1.m_yieldTimeoutSeconds] ++ runCalls l = _
          rw [h3, h4]
          simp only [List.append_assoc]
      · rw [if_neg ht]
        obtain ⟨l, hl⟩ := calls_runReadyLoop K (r.1.m_runQueue RunQueueReady).length r.1 hinv1
        have h := timer_runReadyLoop K (r.1.m_runQueue RunQueueReady).length r.1 hinv1
        have hf : ¬ s.m_interactiveYieldTimeout = false := by
          rw [← h5]
          simpa using ht
        refine ⟨k, l, hk, ?_, ?_⟩
        · rw [h.2]
          exact h1
        · rw [hl, if_neg (fun hc => hc.2.elim hk0 hf), h3]
          simp only [List.append_assoc, List.append_nil]
  · rw [if_neg hne]
    have hne1 : ¬ ((s.m_runQueue RunQueueReadyInteractive).drop k ≠ []) := by
      rw [← h1]
      exact hne
    by_cases ht : r.1.m_interactiveYieldTimeout = true
    · rw [if_pos ht]
      obtain ⟨l, hl⟩ := calls_runReadyLoop K
        (r.1.CancelYieldTimeout.m_runQueue RunQueueReady).length r.1.CancelYieldTimeout hinv1
      have h := timer_runReadyLoop K
        (r.1.CancelYieldTimeout.m_runQueue RunQueueReady).length r.1.CancelYieldTimeout hinv1
      refine ⟨k, l, hk, ?_, ?_⟩
      · rw [h.2]
        exact h1
      · rw [hl, if_neg (fun hc => hne1 hc.1)]
        show r.1.calls ++ runCalls l = _
        rw [h3]
        simp only [List.append_assoc, List.append_nil]
    · rw [if_neg ht]
      obtain ⟨l, hl⟩ := calls_runReadyLoop K (r.1.m_runQueue RunQueueReady).length r.1 hinv1
      have h := timer_runReadyLoop K (r.1.m_runQueue RunQueueReady).length r.1 hinv1
      refine ⟨k, l, hk, ?_, ?_⟩
      · rw [h.2]
        exact h1
      · rw [hl, if_neg (fun hc => hne1 hc.1), h3]
        simp only [List.append_assoc, List.append_nil]

/-- The flag of the yield timeout after `CheckReadyQueue`: it is set exactly when an
activity still waits on readyInteractive. -/
theorem checkReadyQueue_timeout (K : Constants) (s : ActivityManager) (hinv : RunQueueInv s) :
    (s.CheckReadyQueue K).m_interactiveYieldTimeout = true ↔
      (s.CheckReadyQueue K).m_runQueue RunQueueReadyInteractive ≠ [] := by
  unfold CheckReadyQueue
  have hinv1 := runQueueInv_runReadyInteractiveLoop K
    (s.m_runQueue RunQueueReadyInteractive).length s false hinv
  generalize runReadyInteractiveLoop K (s.m_runQueue RunQueueReadyInteractive).length s false
    = r at hinv1
  simp only []
  by_cases hne : r.1.m_runQueue RunQueueReadyInteractive ≠ []
  · rw [if_pos hne]
    by_cases hran : r.2 = true
    · rw [if_pos hran]
      have h := timer_runReadyLoop K
        (r.1.UpdateYieldTimeout.m_runQueue RunQueueReady).length r.1.UpdateYieldTimeout hinv1
      rw [h.1, h.2]
      exact ⟨fun _ => hne, fun _ => rfl⟩
    · rw [if_neg hran]
      by_cases ht : (!r.1.m_interactiveYieldTimeout) = true
      · rw [if_pos ht]
        have h := timer_runReadyLoop K
          (r.1.UpdateYieldTimeout.m_runQueue RunQueueReady).length r.1.UpdateYieldTimeout hinv1
        rw [h.1, h.2]
        exact ⟨fun _ => hne, fun _ => rfl⟩
      · rw [if_neg ht]
        have h := timer_runReadyLoop K (r.1.m_runQueue RunQueueReady).length r.1 hinv1
        rw [h.1, h.2]
        simp only [Bool.not_eq_true', Bool.not_eq_false] at ht
        exact ⟨fun _ => hne, fun _ => ht⟩
  · rw [if_neg hne]
    simp only [ne_eq, not_not] at hne
    by_cases ht : r.1.m_interactiveYieldTimeout = true
    · rw [if_pos ht]
      have h := timer_runReadyLoop K
        (r.1.CancelYieldTimeout.m_runQueue RunQueueReady).length r.1.CancelYieldTimeout hinv1
      rw [h.1, h.2]
      constructor
      · intro h1
        exact absurd h1 (by simp [CancelYieldTimeout])
      · intro h1
        exact absurd hne h1
    · rw [if_neg ht]
      have h := timer_runReadyLoop K (r.1.m_runQueue RunQueueReady).length r.1 hinv1
      rw [h.1, h.2]
      constructor
      · intro h1
        exact absurd h1 ht
      · intro h1
        exact absurd hne h1

theorem enabled_runReadyBackgroundInteractive (s : ActivityManager) (e : Nat)
    (a : ActivityPtr) :
    ({ s with m_enabled := e }).RunReadyBackgroundInteractiveActivity a =
      { s.RunReadyBackgroundInteractiveActivity a with m_enabled := e } := by
  simp only [RunReadyBackgroundInteractiveActivity, evict_eq_unlink]
  rfl

theorem enabled_runReadyBackground (s : ActivityManager) (e : Nat) (a : ActivityPtr) :
    ({ s with m_enabled := e }).RunReadyBackgroundActivity a =
      { s.RunReadyBackgroundActivity a with m_enabled := e } := by
  simp only [RunReadyBackgroundActivity, evict_eq_unlink]
  rfl

theorem enabled_runReadyInteractiveLoop (K : Constants) (e : Nat) (fuel : Nat) :
    ∀ (s : ActivityManager) (ran : Bool),
      runReadyInteractiveLoop K fuel { s with m_enabled := e } ran =
        ({ (runReadyInteractiveLoop K fuel s ran).1 with m_enabled := e },
          (runReadyInteractiveLoop K fuel s ran).2) := by
  induction fuel with
  | zero => intro s ran; rfl
  | succ n ih =>
    intro s ran
    have hL : runReadyInteractiveLoop K (n + 1) { s with m_enabled := e } ran =
        if s.GetRunningBackgroundActivitiesCount < s.m_backgroundInteractiveConcurrencyLevel
            ∨ s.m_backgroundInteractiveConcurrencyLevel = K.UnlimitedBackgroundConcurrency then
          match s.m_runQueue RunQueueReadyInteractive with
          | [] => ({ s with m_enabled := e }, ran)
          | front :: _ =>
            runReadyInteractiveLoop K n
              (({ s with m_enabled := e }).RunReadyBackgroundInteractiveActivity front) true
        else ({ s with m_enabled := e }, ran) := rfl
    have hR : runReadyInteractiveLoop K (n + 1) s ran =
        if s.GetRunningBackgroundActivitiesCount < s.m_backgroundInteractiveConcurrencyLevel
            ∨ s.m_backgroundInteractiveConcurrencyLevel = K.UnlimitedBackgroundConcurrency then
          match s.m_runQueue RunQueueReadyInteractive with
          | [] => (s, ran)
          | front :: _ =>
            runReadyInteractiveLoop K n (s.RunReadyBackgroundInteractiveActivity front) true
        else (s, ran) := rfl
    rw [hL, hR]
    by_cases hc : s.GetRunningBackgroundActivitiesCount < s.m_backgroundInteractiveConcurrencyLevel
        ∨ s.m_backgroundInteractiveConcurrencyLevel = K.UnlimitedBackgroundConcurrency
    · rw [if_pos hc, if_pos hc]
      cases s.m_runQueue RunQueueReadyInteractive with
      | nil => rfl
      | cons front rest =>
        simp only
        rw [enabled_runReadyBackgroundInteractive, ih]
    · rw [if_neg hc, if_neg hc]

theorem enabled_runReadyLoop (K : Constants) (e : Nat) (fuel : Nat) :
    ∀ (s : ActivityManager),
      runReadyLoop K fuel { s with m_enabled := e } =
        { runReadyLoop K fuel s with m_enabled := e } := by
  induction fuel with
  | zero => intro s; rfl
  | succ n ih =>
    intro s
    have hL : runReadyLoop K (n + 1) { s with m_enabled := e } =
        if s.GetRunningBackgroundActivitiesCount < s.m_backgroundConcurrencyLevel
            ∨ s.m_backgroundConcurrencyLevel = K.UnlimitedBackgroundConcurrency then
          match s.m_runQueue RunQueueReady with
          | [] => { s with m_enabled := e }
          | front :: _ =>
            runReadyLoop K n (({ s with m_enabled := e }).RunReadyBackgroundActivity front)
        else { s with m_enabled := e } := rfl
    have hR : runReadyLoop K (n + 1) s =
        if s.GetRunningBackgroundActivitiesCount < s.m_backgroundConcurrencyLevel
            ∨ s.m_backgroundConcurrencyLevel = K.UnlimitedBackgroundConcurrency then
          match s.m_runQueue RunQueueReady with
          | [] => s
          | front :: _ => runReadyLoop K n (s.RunReadyBackgroundActivity front)
        else s := rfl
    rw [hL, hR]
    by_cases hc : s.GetRunningBackgroundActivitiesCount < s.m_backgroundConcurrencyLevel
        ∨ s.m_backgroundConcurrencyLevel = K.UnlimitedBackgroundConcurrency
    · rw [if_pos hc, if_pos hc]
      cases s.m_runQueue RunQueueReady with
      | nil => rfl
      | cons front rest =>
        simp only
        rw [enabled_runReadyBackground, ih]
    · rw [if_neg hc, if_neg hc]

/-- `CheckReadyQueue` does not read the enable bits: with other bits it makes the
same moves and the same calls, and it leaves the bits as they are. -/
theorem enabled_checkReadyQueue (K : Constants) (s : ActivityManager) (e : Nat) :
    ({ s with m_enabled := e }).CheckReadyQueue K =
      { s.CheckReadyQueue K with m_enabled := e } := by
  have hL : ({ s with m_enabled := e }).CheckReadyQueue K =
      (let r := runReadyInteractiveLoop K (s.m_runQueue RunQueueReadyInteractive).length
          { s with m_enabled := e } false
       let s1 := r.1
       let ranInteractive := r.2
       let s2 :=
         if s1.m_runQueue RunQueueReadyInteractive ≠ [] then
           if ranInteractive then s1.UpdateYieldTimeout
           else if !s1.m_interactiveYieldTimeout then s1.UpdateYieldTimeout
           else s1
         else
           if s1.m_interactiveYieldTimeout then s1.CancelYieldTimeout else s1
       runReadyLoop K (s2.m_runQueue RunQueueReady).length s2) := rfl
  rw [hL, enabled_runReadyInteractiveLoop]
  unfold CheckReadyQueue
  generalize runReadyInteractiveLoop K (s.m_runQueue RunQueueReadyInteractive).length s false
    = r
  simp only []
  have hq : ({ r.1 with m_enabled := e }).m_runQueue = r.1.m_runQueue := rfl
  have ht : ({ r.1 with m_enabled := e }).m_interactiveYieldTimeout =
      r.1.m_interactiveYieldTimeout := rfl
  rw [hq, ht]
  by_cases hne : r.1.m_runQueue RunQueueReadyInteractive ≠ []
  · rw [if_pos hne, if_pos hne]
    by_cases hran : r.2 = true
    · rw [if_pos hran, if_pos hran]
      exact enabled_runReadyLoop K e _ r.1.UpdateYieldTimeout
    · rw [if_neg hran, if_neg hran]
      by_cases hto : (!r.1.m_interactiveYieldTimeout) = true
      · rw [if_pos hto, if_pos hto]
        exact enabled_runReadyLoop K e _ r.1.UpdateYieldTimeout
      · rw [if_neg hto, if_neg hto]
        exact enabled_runReadyLoop K e _ r.1
  · rw [if_neg hne, if_neg hne]
    by_cases hto : r.1.m_interactiveYieldTimeout = true
    · rw [if_pos hto, if_pos hto]
      exact enabled_runReadyLoop K e _ r.1.CancelYieldTimeout
    · rw [if_neg hto, if_neg hto]
      exact enabled_runReadyLoop K e _ r.1

theorem enabled_informActivityReady (K : Constants) (s : ActivityManager) (e : Nat)
    (act : ActivityPtr) :
    ({ s with m_enabled := e }).InformActivityReady K act =
      { s.InformActivityReady K act with m_enabled := e } := by
  simp only [InformActivityReady, evict_eq_unlink]
  have hh : (({ s with m_enabled := e }).unlink act).heap = (s.unlink act).heap := rfl
  rw [hh]
  by_cases hi : ((s.unlink act).heap act).immediate = true
  · rw [if_pos hi, if_pos hi]
    rfl
  · rw [if_neg hi, if_neg hi]
    by_cases hu : ((s.unlink act).heap act).userInitiated = true
    · rw [if_pos hu, if_pos hu]
      exact enabled_checkReadyQueue K ((s.unlink act).push_back RunQueueReadyInteractive act) e
    · rw [if_neg hu, if_neg hu]
      exact enabled_checkReadyQueue K ((s.unlink act).push_back RunQueueReady act) e

theorem enabled_informActivityEnd (K : Constants) (s : ActivityManager) (e : Nat)
    (act : ActivityPtr) :
    ({ s with m_enabled := e }).InformActivityEnd K act =
      { s.InformActivityEnd K act with m_enabled := e } := by
  simp only [InformActivityEnd, evict_eq_unlink]
  exact enabled_checkReadyQueue K
    (((s.unlink act).push_back RunQueueEnded act).call (Call.Dissociate act)) e

theorem heap_getNewActivityLoop (p : ActivityPtr) (init : Activity) (fuel : Nat) :
    ∀ (s : ActivityManager) (r : ActivityPtr × ActivityManager),
      getNewActivityLoop p init fuel s = some r →
      ∀ e, e ≠ p → r.2.heap e = s.heap e := by
  induction fuel with
  | zero => intro s r h; exact absurd h (by simp [getNewActivityLoop])
  | succ fuel ih =>
    intro s r h
    unfold getNewActivityLoop at h
    simp only at h
    split at h
    · rw [Option.some.injEq] at h
      rw [← h]
      intro e he
      show (if e = p then { init with id := s.m_nextActivityId } else s.heap e) = s.heap e
      rw [if_neg he]
    · exact ih { s with m_nextActivityId := (s.m_nextActivityId + 1) % ID_WIDTH } r h

theorem namedAreLive_new (K : Constants) (heap : ActivityPtr → Activity) :
    NamedAreLive (ActivityManager.new K heap) := by
  intro a ha
  exact absurd ha (List.not_mem_nil a)

theorem namedAreLive_tableStep (K : Constants) (busLess : BusId → BusId → Bool)
    (s : ActivityManager) (op : TableOp) (h : NamedAreLive s) (hp : op.paired s = true) :
    NamedAreLive (tableStep K busLess s op) := by
  cases op with
  | GetNewActivity p init =>
    have hp1 : p ∉ s.m_nameTable := by simpa [TableOp.paired] using hp
    show NamedAreLive (match s.GetNewActivity p init with
      | some r => r.2
      | none => s)
    cases hr : s.GetNewActivity p init with
    | none => exact h
    | some r =>
      simp only
      have ht := nameTable_getNewActivityLoop p init _ s r hr
      have hh := heap_getNewActivityLoop p init _ s r hr
      intro a ha
      rw [ht.1] at ha
      have hne : a ≠ p := fun hap => hp1 (hap ▸ ha)
      rw [ht.2, hh a hne]
      exact h a ha
  | GetNewActivity_id id p init =>
    have hp1 : p ∉ s.m_nameTable := by simpa [TableOp.paired] using hp
    intro a ha
    have ha1 : a ∈ s.m_nameTable := ha
    have hne : a ≠ p := fun hap => hp1 (hap ▸ ha1)
    show (((if a = p then { init with id := id } else s.heap a).id, a) ∈ s.m_activities)
    rw [if_neg hne]
    exact h a ha1
  | RegisterActivityId act =>
    show NamedAreLive (s.RegisterActivityId act).2
    unfold RegisterActivityId
    split
    · exact h
    · intro a ha
      exact (mem_insertBefore _ _ _ _).2 (Or.inr (h a ha))
  | RegisterActivityName act =>
    have hp1 : ((s.heap act).id, act) ∈ s.m_activities := by simpa [TableOp.paired] using hp
    show NamedAreLive (s.RegisterActivityName busLess act).2
    unfold RegisterActivityName
    split
    · exact h
    · intro a ha
      rcases (mem_insertBefore _ _ _ _).1 ha with heq | hold
      · rw [heq]
        exact hp1
      · exact h a hold
  | UnregisterActivityName act =>
    show NamedAreLive (s.UnregisterActivityName act).2
    unfold UnregisterActivityName
    split
    · intro a ha
      exact h a (List.mem_of_mem_filter ha)
    · exact h
  | ReleaseActivity act =>
    have hp1 : act ∉ s.m_nameTable := by simpa [TableOp.paired] using hp
    show NamedAreLive (s.ReleaseActivity K act)
    have hrel := releaseActivity_activities K s act
    intro a ha
    rw [hrel.2.2.1] at ha
    have hne : a ≠ act := fun hap => hp1 (hap ▸ ha)
    rw [hrel.2.2.2.2, hrel.1]
    split
    · exact h a ha
    · rename_i e _
      split
      · rename_i he
        apply (List.mem_erase_of_ne _).2 (h a ha)
        intro heq
        apply hne
        rw [← he, ← heq]
      · exact h a ha

theorem namedAreLive_pairedRun (K : Constants) (busLess : BusId → BusId → Bool)
    (ops : List TableOp) :
    ∀ (s s1 : ActivityManager), NamedAreLive s → pairedRun K busLess ops s = some s1 →
      NamedAreLive s1 := by
  induction ops with
  | nil =>
    intro s s1 h hrun
    simp only [pairedRun, Option.some.injEq] at hrun
    rw [← hrun]
    exact h
  | cons op ops ih =>
    intro s s1 h hrun
    simp only [pairedRun] at hrun
    by_cases hp : op.paired s = true
    · rw [if_pos hp] at hrun
      exact ih _ s1 (namedAreLive_tableStep K busLess s op h hp) hrun
    · rw [if_neg hp] at hrun
      exact absurd hrun (by simp)

/-- After `ReleaseActivity` of an activity that the map holds under its id, the id is
the key of no entry of the map. -/
theorem releaseActivity_id_gone (K : Constants) (s : ActivityManager) (act : ActivityPtr)
    (hmap : MapInv s) (hmem : ((s.heap act).id, act) ∈ s.m_activities) :
    (s.heap act).id ∉ (s.ReleaseActivity K act).m_activities.map Prod.fst := by
  have hrel := releaseActivity_activities K s act
  rw [hrel.1, find_key_of_mem s.m_activities hmap _ hmem]
  simp only [if_true]
  intro hin
  rw [List.mem_map] at hin
  obtain ⟨e, he, heq⟩ := hin
  have hnd := hmap
  unfold MapInv at hnd
  have hne : e ≠ ((s.heap act).id, act) := by
    intro h
    rw [h] at he
    exact ((List.Nodup.mem_erase_iff (List.Nodup.of_map Prod.fst hnd)).1 he).1 rfl
  have he2 : e ∈ s.m_activities := List.mem_of_mem_erase he
  exact hne (List.inj_on_of_nodup_map hnd he2 hmem heq)

theorem armedSeconds_ne_nil (d1 d2 : List Call) (seconds : Nat) :
    armedSeconds (d1 ++ Call.ArmTimeout seconds :: d2) ≠ [] := by
  rw [armedSeconds_append]
  simp [armedSeconds]

/-- When `CheckReadyQueue` leaves a timeout, there was one in the state before or the
calls hold the `ArmTimeout` of a new one. -/
theorem armed_checkReadyQueue (K : Constants) (s t : ActivityManager) (d0 : List Call)
    (hinv : RunQueueInv t) (hc : t.calls = s.calls ++ d0)
    (hf : t.m_interactiveYieldTimeout = s.m_interactiveYieldTimeout)
    (h : (t.CheckReadyQueue K).m_interactiveYieldTimeout = true) :
    s.m_interactiveYieldTimeout = true ∨
      armedSeconds (callsSince s (t.CheckReadyQueue K)) ≠ [] := by
  cases hs : s.m_interactiveYieldTimeout with
  | true => exact Or.inl rfl
  | false =>
    right
    obtain ⟨k, l, _, hri, hcalls⟩ := checkReadyQueue_calls K t hinv
    have hne := (checkReadyQueue_timeout K t hinv).1 h
    rw [hri] at hne
    rw [if_pos ⟨hne, Or.inr (hf.trans hs)⟩, hc] at hcalls
    have hd : (t.CheckReadyQueue K).calls = s.calls ++
        ((d0 ++ runCalls ((t.m_runQueue RunQueueReadyInteractive).take k)) ++
          Call.ArmTimeout t.m_yieldTimeoutSeconds :: runCalls l) := by
      rw [hcalls]
      simp only [List.append_assoc, List.singleton_append]
    rw [callsSince_append s _ _ hd]
    exact armedSeconds_ne_nil _ _ _

theorem armed_step (K : Constants) (s : ActivityManager) (hinv : RunQueueInv s) (op : Op)
    (h : (step K s op).m_interactiveYieldTimeout = true) :
    s.m_interactiveYieldTimeout = true ∨ armedSeconds (callsSince s (step K s op)) ≠ [] := by
  cases op with
  | InformActivityInitialized act =>
    left
    have h1 : (s.InformActivityInitialized K act).m_interactiveYieldTimeout = true := h
    cases he : IsEnabled K s with
    | true =>
      rw [informActivityInitialized_enabled K s act he] at h1
      exact h1
    | false =>
      rw [informActivityInitialized_not_enabled K s act he] at h1
      exact h1
  | InformActivityReady act =>
    have h1 : (s.InformActivityReady K act).m_interactiveYieldTimeout = true := h
    show s.m_interactiveYieldTimeout = true ∨
      armedSeconds (callsSince s (s.InformActivityReady K act)) ≠ []
    simp only [InformActivityReady, evict_eq_unlink] at h1 ⊢
    by_cases hi : ((s.unlink act).heap act).immediate = true
    · rw [if_pos hi] at h1
      exact Or.inl h1
    · rw [if_neg hi] at h1 ⊢
      by_cases hu : ((s.unlink act).heap act).userInitiated = true
      · rw [if_pos hu] at h1 ⊢
        exact armed_checkReadyQueue K s ((s.unlink act).push_back RunQueueReadyInteractive act)
          [] (runQueueInv_relink s hinv _ act) (by simp [push_back, unlink]) rfl h1
      · rw [if_neg hu] at h1 ⊢
        exact armed_checkReadyQueue K s ((s.unlink act).push_back RunQueueReady act)
          [] (runQueueInv_relink s hinv _ act) (by simp [push_back, unlink]) rfl h1
  | InformActivityNotReady act =>
    left
    have h1 : (s.InformActivityNotReady act).m_interactiveYieldTimeout = true := h
    simp only [InformActivityNotReady, evict_eq_unlink] at h1
    exact h1
  | InformActivityEnd act =>
    have h1 : (s.InformActivityEnd K act).m_interactiveYieldTimeout = true := h
    show s.m_interactiveYieldTimeout = true ∨
      armedSeconds (callsSince s (s.InformActivityEnd K act)) ≠ []
    simp only [InformActivityEnd, evict_eq_unlink] at h1 ⊢
    exact armed_checkReadyQueue K s
      (((s.unlink act).push_back RunQueueEnded act).call (Call.Dissociate act))
      [Call.Dissociate act]
      ((runQueueInv_congr _ _ rfl).2 (runQueueInv_relink s hinv RunQueueEnded act))
      rfl rfl h1
  | ReleaseActivity act =>
    have h1 : (s.ReleaseActivity K act).m_interactiveYieldTimeout = true := h
    show s.m_interactiveYieldTimeout = true ∨
      armedSeconds (callsSince s (s.ReleaseActivity K act)) ≠ []
    unfold ReleaseActivity EvictQueue at h1 ⊢
    simp only [evict_eq_unlink] at h1 ⊢
    have hu : RunQueueInv (s.unlink act) := runQueueInv_unlink s hinv act
    cases hfind : (s.unlink act).m_activities.find?
        (fun e => e.1 == ((s.unlink act).heap act).id) with
    | none =>
      rw [hfind] at h1
      simp only at h1 ⊢
      exact armed_checkReadyQueue K s (s.unlink act) [] hu (by simp [unlink]) rfl h1
    | some e =>
      rw [hfind] at h1
      simp only at h1 ⊢
      by_cases he : e.2 = act
      · rw [if_pos he] at h1 ⊢
        exact armed_checkReadyQueue K s _ []
          ((runQueueInv_congr (s.unlink act) _ rfl).2 hu) (by simp [unlink]) rfl h1
      · rw [if_neg he] at h1 ⊢
        exact armed_checkReadyQueue K s (s.unlink act) [] hu (by simp [unlink]) rfl h1
  | Enable mask =>
    left
    have h1 : (s.Enable K mask).m_interactiveYieldTimeout = true := h
    unfold Enable at h1
    simp only at h1
    split at h1
    · rw [scheduleAllActivities_eq { s with m_enabled := s.m_enabled ||| (mask &&& K.ENABLE_MASK) }
        ((runQueueInv_congr s _ rfl).2 hinv)] at h1
      exact h1
    · exact h1
  | Disable mask => exact Or.inl h
  | InteractiveYieldTimeout =>
    have h1 : s.InteractiveYieldTimeout.m_interactiveYieldTimeout = true := h
    show s.m_interactiveYieldTimeout = true ∨
      armedSeconds (callsSince s s.InteractiveYieldTimeout) ≠ []
    unfold InteractiveYieldTimeout at h1 ⊢
    by_cases hq : s.m_runQueue RunQueueReadyInteractive = []
    · rw [if_pos hq] at h1
      exact absurd h1 (by simp [CancelYieldTimeout])
    · rw [if_neg hq]
      right
      simp only
      split
      · split
        · rename_i victim _
          have hd : ((s.call (Call.YieldActivity victim)).UpdateYieldTimeout).calls =
              s.calls ++ ([Call.YieldActivity victim] ++
                Call.ArmTimeout s.m_yieldTimeoutSeconds :: []) := by
            simp [UpdateYieldTimeout, call]
          rw [callsSince_append s _ _ hd]
          exact armedSeconds_ne_nil _ _ _
        · have hd : (s.UpdateYieldTimeout).calls =
              s.calls ++ ([] ++ Call.ArmTimeout s.m_yieldTimeoutSeconds :: []) := by
            simp [UpdateYieldTimeout]
          rw [callsSince_append s _ _ hd]
          exact armedSeconds_ne_nil _ _ _
      · have hd : (s.UpdateYieldTimeout).calls =
            s.calls ++ ([] ++ Call.ArmTimeout s.m_yieldTimeoutSeconds :: []) := by
          simp [UpdateYieldTimeout]
        rw [callsSince_append s _ _ hd]
        exact armedSeconds_ne_nil _ _ _
  | FocusActivity act =>
    left
    have h1 : (s.FocusActivity act).2.m_interactiveYieldTimeout = true := h
    unfold FocusActivity at h1
    split at h1
    · exact h1
    · simp only at h1
      rw [removeOldFocus_eq] at h1
      exact h1
  | UnfocusActivity act =>
    left
    have h1 : (s.UnfocusActivity act).2.m_interactiveYieldTimeout = true := h
    unfold UnfocusActivity at h1
    split at h1
    · exact h1
    · simp only at h1
      split at h1
      · exact h1
      · exact h1
  | AddFocus source target =>
    left
    have h1 : (s.AddFocus source target).2.m_interactiveYieldTimeout = true := h
    unfold AddFocus at h1
    split at h1
    · exact h1
    · split at h1
      · exact h1
      · exact h1
  | activityChanged act immediate userInitiated yielding => exact Or.inl h

/-- One operation keeps the reading of the timer in step with the timeout: the timer
is armed after the operation exactly when the timeout exists. -/
theorem yieldTimerArmed_step (K : Constants) (s : ActivityManager) (hinv : RunQueueInv s)
    (op : Op) :
    yieldTimerArmed s.m_interactiveYieldTimeout s (step K s op) =
      (step K s op).m_interactiveYieldTimeout := by
  unfold yieldTimerArmed
  cases hf : (step K s op).m_interactiveYieldTimeout with
  | false => rfl
  | true =>
    rcases armed_step K s hinv op hf with h | h
    · rw [h]
      simp
    · cases hl : armedSeconds (callsSince s (step K s op)) with
      | nil => exact absurd hl h
      | cons a l => rfl

theorem armedAfter_eq (K : Constants) (ops : List Op) :
    ∀ s : ActivityManager, RunQueueInv s →
      armedAfter K s.m_interactiveYieldTimeout s ops =
        (ops.foldl (step K) s).m_interactiveYieldTimeout := by
  induction ops with
  | nil => intro s _; rfl
  | cons op ops ih =>
    intro s hinv
    show armedAfter K (yieldTimerArmed s.m_interactiveYieldTimeout s (step K s op))
      (step K s op) ops = _
    rw [yieldTimerArmed_step K s hinv op]
    exact ih (step K s op) (runQueueInv_step K s hinv op)

/-! ## Verified properties -/

/-- C1, counterexample: with the finite background level 1 and the interactive
level 3, two user-initiated activities that become ready are both admitted, so
two activities run while the background level is 1. -/
theorem background_limit_counterexample :
    twoInteractiveReady.m_backgroundConcurrencyLevel = 1 ∧
    twoInteractiveReady.m_backgroundConcurrencyLevel
      ≠ specConstants.UnlimitedBackgroundConcurrency ∧
    twoInteractiveReady.m_runQueue RunQueueBackgroundInteractive = [10, 11] ∧
    ¬ ((twoInteractiveReady.m_runQueue RunQueueBackground).length +
        (twoInteractiveReady.m_runQueue RunQueueBackgroundInteractive).length
      ≤ twoInteractiveReady.m_backgroundConcurrencyLevel) := by
  decide

/-- C1 (amended): when both levels are finite and the interactive level is at most
the background level, every state reached from a fresh manager by lifecycle
operations has at most backgroundConcurrencyLevel activities on the background and
backgroundInteractive queues together. -/
theorem background_limit_of_run (K : Constants) (heap : ActivityPtr → Activity)
    (ops : List Op)
    (hlb : K.DefaultBackgroundConcurrencyLevel ≠ K.UnlimitedBackgroundConcurrency)
    (hli : K.DefaultBackgroundInteractiveConcurrencyLevel ≠ K.UnlimitedBackgroundConcurrency)
    (hle : K.DefaultBackgroundInteractiveConcurrencyLevel ≤ K.DefaultBackgroundConcurrencyLevel)
    (hfit : K.DefaultBackgroundConcurrencyLevel < UINT_WIDTH) :
    ((run K heap ops).m_runQueue RunQueueBackground).length +
        ((run K heap ops).m_runQueue RunQueueBackgroundInteractive).length
      ≤ (run K heap ops).m_backgroundConcurrencyLevel := by
  obtain ⟨_, h2, _, h4⟩ := bounded_run K heap hlb hli K.DefaultBackgroundConcurrencyLevel
    (Nat.le_refl _) hle hfit ops
  rw [h2]
  exact h4

/-- C1 (amended), witness: with both levels 3, after five activities have become
ready three of them run. -/
theorem background_limit_of_run_witness :
    equalLevelConstants.DefaultBackgroundConcurrencyLevel
      ≠ equalLevelConstants.UnlimitedBackgroundConcurrency ∧
    equalLevelConstants.DefaultBackgroundInteractiveConcurrencyLevel
      ≠ equalLevelConstants.UnlimitedBackgroundConcurrency ∧
    equalLevelConstants.DefaultBackgroundInteractiveConcurrencyLevel
      ≤ equalLevelConstants.DefaultBackgroundConcurrencyLevel ∧
    equalLevelConstants.DefaultBackgroundConcurrencyLevel < UINT_WIDTH ∧
    ((run equalLevelConstants exampleHeap
        [Op.InformActivityReady 10, Op.InformActivityReady 1, Op.InformActivityReady 11,
         Op.InformActivityReady 2, Op.InformActivityReady 12]).m_runQueue
          RunQueueBackground).length +
      ((run equalLevelConstants exampleHeap
        [Op.InformActivityReady 10, Op.InformActivityReady 1, Op.InformActivityReady 11,
         Op.InformActivityReady 2, Op.InformActivityReady 12]).m_runQueue
          RunQueueBackgroundInteractive).length
      ≤ (run equalLevelConstants exampleHeap
        [Op.InformActivityReady 10, Op.InformActivityReady 1, Op.InformActivityReady 11,
         Op.InformActivityReady 2, Op.InformActivityReady 12]).m_backgroundConcurrencyLevel :=
  ⟨by decide, by decide, by decide, by decide,
   background_limit_of_run equalLevelConstants exampleHeap _
     (by decide) (by decide) (by decide) (by decide)⟩


/-- C2: every operation that moves an activity between run-queues keeps the
run-queue invariant, by which an activity is on at most one of the nine run-queues
and at most once on it. -/
theorem run_queue_membership_exclusive (K : Constants) (s : ActivityManager)
    (act : ActivityPtr) (h : RunQueueInv s) :
    RunQueueInv (s.InformActivityInitialized K act) ∧
    RunQueueInv (s.InformActivityReady K act) ∧
    RunQueueInv (s.InformActivityNotReady act) ∧
    RunQueueInv (s.InformActivityEnd K act) ∧
    RunQueueInv s.ScheduleAllActivities ∧
    RunQueueInv (s.CheckReadyQueue K) ∧
    RunQueueInv (s.ReleaseActivity K act) :=
  ⟨runQueueInv_informActivityInitialized K s h act,
   runQueueInv_informActivityReady K s h act,
   runQueueInv_informActivityNotReady s h act,
   runQueueInv_informActivityEnd K s h act,
   runQueueInv_scheduleAllActivities s h,
   runQueueInv_checkReadyQueue K s h,
   runQueueInv_releaseActivity K s h act⟩

/-- C2, witness: the invariant holds in the example state and after each of the
operations applied to activity 11 there. -/
theorem run_queue_membership_exclusive_witness :
    RunQueueInv admissionExample ∧
    (RunQueueInv (admissionExample.InformActivityInitialized specConstants 11) ∧
    RunQueueInv (admissionExample.InformActivityReady specConstants 11) ∧
    RunQueueInv (admissionExample.InformActivityNotReady 11) ∧
    RunQueueInv (admissionExample.InformActivityEnd specConstants 11) ∧
    RunQueueInv admissionExample.ScheduleAllActivities ∧
    RunQueueInv (admissionExample.CheckReadyQueue specConstants) ∧
    RunQueueInv (admissionExample.ReleaseActivity specConstants 11)) :=
  ⟨by decide, run_queue_membership_exclusive specConstants admissionExample 11 (by decide)⟩

/-- C3: `CheckReadyQueue` admits in FIFO order from the heads of the ready queues.
With `c` activities running it moves the first `ki` activities of readyInteractive
to the tail of backgroundInteractive, then the first `kb` activities of ready to
the tail of background, and leaves the other queues as they are. -/
theorem checkReadyQueue_admits_fifo (K : Constants) (s : ActivityManager)
    (hinv : RunQueueInv s)
    (hfit : s.running + (s.m_runQueue RunQueueReadyInteractive).length +
      (s.m_runQueue RunQueueReady).length < UINT_WIDTH) :
    let c := (s.m_runQueue RunQueueBackground).length +
      (s.m_runQueue RunQueueBackgroundInteractive).length
    let ki := if s.m_backgroundInteractiveConcurrencyLevel = K.UnlimitedBackgroundConcurrency
      then (s.m_runQueue RunQueueReadyInteractive).length
      else min (s.m_runQueue RunQueueReadyInteractive).length
        (s.m_backgroundInteractiveConcurrencyLevel - c)
    let kb := if s.m_backgroundConcurrencyLevel = K.UnlimitedBackgroundConcurrency
      then (s.m_runQueue RunQueueReady).length
      else min (s.m_runQueue RunQueueReady).length (s.m_backgroundConcurrencyLevel - c - ki)
    (s.CheckReadyQueue K).m_runQueue RunQueueReadyInteractive =
      (s.m_runQueue RunQueueReadyInteractive).drop ki ∧
    (s.CheckReadyQueue K).m_runQueue RunQueueBackgroundInteractive =
      s.m_runQueue RunQueueBackgroundInteractive ++
        (s.m_runQueue RunQueueReadyInteractive).take ki ∧
    (s.CheckReadyQueue K).m_runQueue RunQueueReady = (s.m_runQueue RunQueueReady).drop kb ∧
    (s.CheckReadyQueue K).m_runQueue RunQueueBackground =
      s.m_runQueue RunQueueBackground ++ (s.m_runQueue RunQueueReady).take kb ∧
    ∀ q, q ≠ RunQueueReadyInteractive → q ≠ RunQueueBackgroundInteractive →
      q ≠ RunQueueReady → q ≠ RunQueueBackground →
      (s.CheckReadyQueue K).m_runQueue q = s.m_runQueue q := by
  intro c ki kb
  have hki : ki = admitted s.m_backgroundInteractiveConcurrencyLevel
      K.UnlimitedBackgroundConcurrency s.running
      (s.m_runQueue RunQueueReadyInteractive).length := rfl
  have hkb : kb = admitted s.m_backgroundConcurrencyLevel
      K.UnlimitedBackgroundConcurrency (s.running + ki)
      (s.m_runQueue RunQueueReady).length := by
    show (if _ then _ else _) = (if _ then _ else _)
    rw [Nat.sub_sub]
    rfl
  have hle1 := admitted_le s.m_backgroundInteractiveConcurrencyLevel
      K.UnlimitedBackgroundConcurrency s.running
      (s.m_runQueue RunQueueReadyInteractive).length
  have hle2 := admitted_le s.m_backgroundConcurrencyLevel
      K.UnlimitedBackgroundConcurrency (s.running + ki)
      (s.m_runQueue RunQueueReady).length
  rw [← hki] at hle1
  rw [← hkb] at hle2
  rw [checkReadyQueue_eq K s hinv ki kb hki hkb (Or.inr (by omega)) (Or.inr (by omega))]
  simp only [moveFront]
  refine ⟨by simp, by simp, by simp, by simp, ?_⟩
  intro q h1 h2 h3 h4
  simp [h1, h2, h3, h4]

/-- C3, witness: in the example state one activity runs, the interactive level 3
lets in 11 and 12, and the background level 4 then lets in 1. -/
theorem checkReadyQueue_admits_fifo_witness :
    RunQueueInv admissionExample ∧
    admissionExample.running + (admissionExample.m_runQueue RunQueueReadyInteractive).length +
      (admissionExample.m_runQueue RunQueueReady).length < UINT_WIDTH ∧
    (admissionExample.CheckReadyQueue specConstants).m_runQueue RunQueueReadyInteractive = [13] ∧
    (admissionExample.CheckReadyQueue specConstants).m_runQueue RunQueueBackgroundInteractive
      = [10, 11, 12] ∧
    (admissionExample.CheckReadyQueue specConstants).m_runQueue RunQueueReady = [2] ∧
    (admissionExample.CheckReadyQueue specConstants).m_runQueue RunQueueBackground = [1] ∧
    ∀ q, q ≠ RunQueueReadyInteractive → q ≠ RunQueueBackgroundInteractive →
      q ≠ RunQueueReady → q ≠ RunQueueBackground →
      (admissionExample.CheckReadyQueue specConstants).m_runQueue q
        = admissionExample.m_runQueue q :=
  ⟨by decide, by decide,
   checkReadyQueue_admits_fifo specConstants admissionExample (by decide) (by decide)⟩

/-- C4: from empty run-queues and a finite background level `n`, making the
distinct non-interactive, non-immediate activities `acts` ready one after another
leaves the first `n` of them on background and the others on ready, in their
order; releasing an activity that is on background then moves the head of ready,
if there is one, to the tail of background. -/
theorem ready_then_release (K : Constants) (s0 : ActivityManager) (acts : List ActivityPtr)
    (hempty : ∀ q, s0.m_runQueue q = [])
    (hfin : s0.m_backgroundConcurrencyLevel ≠ K.UnlimitedBackgroundConcurrency)
    (hfit : s0.m_backgroundConcurrencyLevel < UINT_WIDTH)
    (hnd : acts.Nodup)
    (hflags : ∀ a ∈ acts, (s0.heap a).immediate = false ∧ (s0.heap a).userInitiated = false) :
    (acts.foldl (fun t a => t.InformActivityReady K a) s0).m_runQueue RunQueueBackground =
        acts.take s0.m_backgroundConcurrencyLevel ∧
    (acts.foldl (fun t a => t.InformActivityReady K a) s0).m_runQueue RunQueueReady =
        acts.drop s0.m_backgroundConcurrencyLevel ∧
    ∀ x ∈ acts.take s0.m_backgroundConcurrencyLevel,
      ((acts.foldl (fun t a => t.InformActivityReady K a) s0).ReleaseActivity K x).m_runQueue
          RunQueueBackground =
        (acts.take s0.m_backgroundConcurrencyLevel).erase x ++
          (acts.drop s0.m_backgroundConcurrencyLevel).take 1 ∧
      ((acts.foldl (fun t a => t.InformActivityReady K a) s0).ReleaseActivity K x).m_runQueue
          RunQueueReady =
        (acts.drop s0.m_backgroundConcurrencyLevel).drop 1 := by
  have hs0 : s0.m_runQueue = readyQueues s0.m_backgroundConcurrencyLevel [] := by
    funext q
    simp [readyQueues, hempty]
  obtain ⟨e1, e2, _⟩ := foldl_informActivityReady_readyQueues K acts s0 [] hs0 hfin hfit
    (by simpa using hnd) hflags
  rw [List.nil_append] at e1
  refine ⟨by rw [e1]; simp [readyQueues], by rw [e1]; simp [readyQueues], ?_⟩
  intro x hx
  have := releaseActivity_readyQueues K _ acts x (by rw [e2]; exact e1)
    (by rw [e2]; exact hfin) (by rw [e2]; exact hfit) hnd (by rw [e2]; exact hx)
  rw [e2] at this
  exact this

/-- C4, witness (S1): with level 2 and activities 1, 2, 3 made ready in turn, 1 and
2 are on background and 3 is on ready; after 1 is released, 3 is on background. -/
theorem ready_then_release_witness :
    (∀ q, levelTwoManager.m_runQueue q = []) ∧
    levelTwoManager.m_backgroundConcurrencyLevel
      ≠ specConstants.UnlimitedBackgroundConcurrency ∧
    levelTwoManager.m_backgroundConcurrencyLevel < UINT_WIDTH ∧
    [1, 2, 3].Nodup ∧
    (∀ a ∈ [1, 2, 3], (levelTwoManager.heap a).immediate = false ∧
      (levelTwoManager.heap a).userInitiated = false) ∧
    ([1, 2, 3].foldl (fun t a => t.InformActivityReady specConstants a)
      levelTwoManager).m_runQueue RunQueueBackground = [1, 2] ∧
    ([1, 2, 3].foldl (fun t a => t.InformActivityReady specConstants a)
      levelTwoManager).m_runQueue RunQueueReady = [3] ∧
    (([1, 2, 3].foldl (fun t a => t.InformActivityReady specConstants a)
      levelTwoManager).ReleaseActivity specConstants 1).m_runQueue RunQueueBackground
        = [2, 3] ∧
    (([1, 2, 3].foldl (fun t a => t.InformActivityReady specConstants a)
      levelTwoManager).ReleaseActivity specConstants 1).m_runQueue RunQueueReady = [] :=
  have h := ready_then_release specConstants levelTwoManager [1, 2, 3] (fun _ => rfl)
    (by decide) (by decide) (by decide) (by decide)
  ⟨fun _ => rfl, by decide, by decide, by decide, by decide, h.1, h.2.1,
   (h.2.2 1 (by decide)).1, (h.2.2 1 (by decide)).2⟩

/-- C5: an immediate activity that becomes ready leaves the queue it was on, goes
to the tail of the immediate queue and is run at once, whatever the levels and the
number of running activities; it is on none of ready, readyInteractive, background
and backgroundInteractive afterwards, the running queues do not grow, and the
running count is unchanged when the activity was not running before. -/
theorem immediate_bypasses_admission (K : Constants) (s : ActivityManager) (act : ActivityPtr)
    (h : (s.heap act).immediate = true) :
    (s.InformActivityReady K act).m_runQueue RunQueueImmediate =
      (s.m_runQueue RunQueueImmediate).filter (fun x => x != act) ++ [act] ∧
    (∀ q, q ≠ RunQueueImmediate →
      (s.InformActivityReady K act).m_runQueue q =
        (s.m_runQueue q).filter (fun x => x != act)) ∧
    (∀ q, q ≠ RunQueueImmediate → act ∉ (s.InformActivityReady K act).m_runQueue q) ∧
    (s.InformActivityReady K act).calls =
      s.calls ++ [Call.Associate act, Call.RunActivity act] ∧
    ((s.InformActivityReady K act).m_runQueue RunQueueBackground).length
      ≤ (s.m_runQueue RunQueueBackground).length ∧
    ((s.InformActivityReady K act).m_runQueue RunQueueBackgroundInteractive).length
      ≤ (s.m_runQueue RunQueueBackgroundInteractive).length ∧
    (act ∉ s.m_runQueue RunQueueBackground →
      act ∉ s.m_runQueue RunQueueBackgroundInteractive →
      (s.InformActivityReady K act).GetRunningBackgroundActivitiesCount =
        s.GetRunningBackgroundActivitiesCount) := by
  rw [informActivityReady_immediate K s act h]
  refine ⟨by simp, ?_, ?_, rfl, ?_, ?_, ?_⟩
  · intro q hq
    simp [hq]
  · intro q hq
    simp [hq, List.mem_filter]
  · simp only [reduceCtorEq, if_false]
    exact List.length_filter_le _ _
  · simp only [reduceCtorEq, if_false]
    exact List.length_filter_le _ _
  · intro h1 h2
    unfold GetRunningBackgroundActivitiesCount
    simp only [reduceCtorEq, if_false]
    rw [filter_ne_eq_self _ _ h1, filter_ne_eq_self _ _ h2]

/-- C5, witness: in the example state, where four activities wait and one runs, the
immediate activity 20 is put on the immediate queue and run; no other queue
changes. -/
theorem immediate_bypasses_admission_witness :
    (admissionExample.heap 20).immediate = true ∧
    (admissionExample.InformActivityReady specConstants 20).m_runQueue RunQueueImmediate
      = [20] ∧
    (admissionExample.InformActivityReady specConstants 20).m_runQueue
      RunQueueBackgroundInteractive = [10] ∧
    (admissionExample.InformActivityReady specConstants 20).m_runQueue
      RunQueueReadyInteractive = [11, 12, 13] ∧
    (admissionExample.InformActivityReady specConstants 20).calls
      = [Call.Associate 20, Call.RunActivity 20] :=
  have h := immediate_bypasses_admission specConstants admissionExample 20 (by decide)
  ⟨by decide, h.1, h.2.1 RunQueueBackgroundInteractive (by decide),
   h.2.1 RunQueueReadyInteractive (by decide), h.2.2.2.1⟩

/-- C6: the yield timeout.  With readyInteractive empty the timeout is cancelled and
nobody is asked to yield.  Otherwise the timeout is armed again and, when fewer
activities of backgroundInteractive are yielding than wait on readyInteractive, the
first activity of backgroundInteractive that is not yielding, if there is one, is
the one activity asked to yield; in the other cases nobody is asked. -/
theorem interactiveYieldTimeout_policy (s : ActivityManager)
    (hfit : (s.m_runQueue RunQueueReadyInteractive).length < UINT_WIDTH) :
    (s.m_runQueue RunQueueReadyInteractive = [] →
      s.InteractiveYieldTimeout = { s with m_interactiveYieldTimeout := false }) ∧
    (s.m_runQueue RunQueueReadyInteractive ≠ [] →
      (∀ victim,
        (s.m_runQueue RunQueueBackgroundInteractive).countP (fun a => (s.heap a).yielding)
          < (s.m_runQueue RunQueueReadyInteractive).length →
        (s.m_runQueue RunQueueBackgroundInteractive).find? (fun a => !(s.heap a).yielding)
          = some victim →
        s.InteractiveYieldTimeout =
          { s with m_interactiveYieldTimeout := true,
                   calls := s.calls ++ [Call.YieldActivity victim,
                     Call.ArmTimeout s.m_yieldTimeoutSeconds] }) ∧
      ((¬ (s.m_runQueue RunQueueBackgroundInteractive).countP (fun a => (s.heap a).yielding)
            < (s.m_runQueue RunQueueReadyInteractive).length ∨
          (s.m_runQueue RunQueueBackgroundInteractive).find? (fun a => !(s.heap a).yielding)
            = none) →
        s.InteractiveYieldTimeout =
          { s with m_interactiveYieldTimeout := true,
                   calls := s.calls ++ [Call.ArmTimeout s.m_yieldTimeoutSeconds] })) := by
  constructor
  · intro h
    unfold InteractiveYieldTimeout
    rw [if_pos h]
    rfl
  · intro h
    have hpos : 0 < (s.m_runQueue RunQueueReadyInteractive).length :=
      List.length_pos.2 h
    have hmod : (s.m_runQueue RunQueueReadyInteractive).length % UINT_WIDTH =
        (s.m_runQueue RunQueueReadyInteractive).length := Nat.mod_eq_of_lt hfit
    obtain ⟨h1, h2⟩ := yieldScan_eq s (s.m_runQueue RunQueueReadyInteractive).length hfit
      (s.m_runQueue RunQueueBackgroundInteractive) 0 none hpos
    rw [Nat.zero_add] at h1
    constructor
    · intro victim hlt hv
      unfold InteractiveYieldTimeout
      rw [if_neg h, hmod]
      have e1 : (yieldScan s (s.m_runQueue RunQueueReadyInteractive).length
          (s.m_runQueue RunQueueBackgroundInteractive) 0 none).1 = true := by
        rw [h1]; exact decide_eq_true hlt
      have e2 := h2 e1
      simp only [Option.isNone_none, if_true] at e2
      simp only [e1, e2, hv, if_true]
      simp [UpdateYieldTimeout, call]
    · intro hor
      unfold InteractiveYieldTimeout
      rw [if_neg h, hmod]
      by_cases hlt : (s.m_runQueue RunQueueBackgroundInteractive).countP
          (fun a => (s.heap a).yielding) < (s.m_runQueue RunQueueReadyInteractive).length
      · have hnone := hor.resolve_left (not_not.2 hlt)
        have e1 : (yieldScan s (s.m_runQueue RunQueueReadyInteractive).length
            (s.m_runQueue RunQueueBackgroundInteractive) 0 none).1 = true := by
          rw [h1]; exact decide_eq_true hlt
        have e2 := h2 e1
        simp only [Option.isNone_none, if_true] at e2
        simp only [e1, e2, hnone, if_true]
        simp [UpdateYieldTimeout]
      · have e1 : (yieldScan s (s.m_runQueue RunQueueReadyInteractive).length
            (s.m_runQueue RunQueueBackgroundInteractive) 0 none).1 = false := by
          rw [h1]; exact decide_eq_false hlt
        simp only [e1, Bool.false_eq_true, if_false]
        simp [UpdateYieldTimeout]

/-- C6, witness (S2): with interactive level 1, activity 10 on backgroundInteractive
and activity 11 on readyInteractive, the timeout asks 10 to yield and is armed
again. -/
theorem interactiveYieldTimeout_policy_witness :
    (yieldExample.m_runQueue RunQueueReadyInteractive).length < UINT_WIDTH ∧
    yieldExample.m_runQueue RunQueueBackgroundInteractive = [10] ∧
    yieldExample.m_runQueue RunQueueReadyInteractive = [11] ∧
    yieldExample.InteractiveYieldTimeout =
      { yieldExample with
          m_interactiveYieldTimeout := true,
          calls := yieldExample.calls ++ [Call.YieldActivity 10,
            Call.ArmTimeout yieldExample.m_yieldTimeoutSeconds] } :=
  ⟨by decide, by decide, by decide,
   ((interactiveYieldTimeout_policy yieldExample (by decide)).2 (by decide)).1 10
     (by decide) (by decide)⟩

/-- C7: after `Enable(mask)`, if the manager is enabled (all bits of the enable mask
are set) the initialized queue is empty, scheduled is its previous content followed
by the previous content of initialized, the other queues are as before, and each
drained activity was told once, in queue order, to schedule itself; if the manager
is still not enabled, no run-queue changed and no call was made. -/
theorem enable_drains_initialized (K : Constants) (s : ActivityManager) (mask : Nat)
    (hinv : RunQueueInv s) :
    (IsEnabled K (s.Enable K mask) = true →
      (s.Enable K mask).m_runQueue RunQueueInitialized = [] ∧
      (s.Enable K mask).m_runQueue RunQueueScheduled =
        s.m_runQueue RunQueueScheduled ++ s.m_runQueue RunQueueInitialized ∧
      (∀ q, q ≠ RunQueueInitialized → q ≠ RunQueueScheduled →
        (s.Enable K mask).m_runQueue q = s.m_runQueue q) ∧
      (s.Enable K mask).calls =
        s.calls ++ (s.m_runQueue RunQueueInitialized).map Call.ScheduleActivity) ∧
    (IsEnabled K (s.Enable K mask) = false →
      (s.Enable K mask).m_runQueue = s.m_runQueue ∧ (s.Enable K mask).calls = s.calls) := by
  unfold Enable
  simp only
  generalize hs1 : ({ s with m_enabled := s.m_enabled ||| (mask &&& K.ENABLE_MASK) } :
    ActivityManager) = s1
  have h1q : s1.m_runQueue = s.m_runQueue := by rw [← hs1]
  have h1c : s1.calls = s.calls := by rw [← hs1]
  have hinv1 : RunQueueInv s1 := (runQueueInv_congr s s1 h1q).2 hinv
  split
  · rename_i hen
    constructor
    · intro _
      rw [scheduleAllActivities_eq s1 hinv1]
      simp only [moveFront, h1q, h1c]
      refine ⟨by simp, by simp, ?_, trivial⟩
      intro q h1 h2
      simp [h1, h2]
    · intro h
      rw [isEnabled_scheduleAllActivities, hen] at h
      exact absurd h (by decide)
  · rename_i hen
    constructor
    · intro h
      exact absurd h hen
    · intro _
      exact ⟨h1q, h1c⟩

/-- C7, witness: with 3 on scheduled and 1, 2 on initialized, setting the UI bit
enables the manager, which moves 1 and 2 behind 3 and tells each to schedule. -/
theorem enable_drains_initialized_witness :
    RunQueueInv parkedExample ∧
    parkedExample.m_runQueue RunQueueInitialized = [1, 2] ∧
    IsEnabled specConstants (parkedExample.Enable specConstants 2) = true ∧
    (parkedExample.Enable specConstants 2).m_runQueue RunQueueInitialized = [] ∧
    (parkedExample.Enable specConstants 2).m_runQueue RunQueueScheduled = [3, 1, 2] ∧
    (parkedExample.Enable specConstants 2).calls =
      parkedExample.calls ++ [Call.ScheduleActivity 1, Call.ScheduleActivity 2] :=
  have h := (enable_drains_initialized specConstants parkedExample 2 (by decide)).1 (by decide)
  ⟨by decide, by decide, by decide, h.1, h.2.1, h.2.2.2⟩

/-- C8, counterexample: the manager of the example is not enabled, activity 2 waits
on ready and activity 1 runs; when activity 1 ends, `InformActivityEnd` admits
activity 2 from ready onto background although the UI bit is still clear. -/
theorem disable_admission_counterexample :
    IsEnabled specConstants disabledExample = false ∧
    disabledExample.m_runQueue RunQueueReady = [2] ∧
    disabledExample.m_runQueue RunQueueBackground = [1] ∧
    IsEnabled specConstants (disabledExample.InformActivityEnd specConstants 1) = false ∧
    (disabledExample.InformActivityEnd specConstants 1).m_runQueue RunQueueReady = [] ∧
    (disabledExample.InformActivityEnd specConstants 1).m_runQueue RunQueueBackground = [2] := by
  decide

/-- C8 (amended): `Disable` with a mask that holds an enable bit leaves the manager
not enabled and changes no run-queue, so the running activities stay where they
are; in every state in which the manager is not enabled,
`InformActivityInitialized` parks the activity at the tail of initialized and does
not tell it to schedule itself.  Admission does not depend on the enable bits:
`CheckReadyQueue`, and `InformActivityReady` and `InformActivityEnd`, which call it,
give the same state whatever the bits are and leave the bits as they are, so after
`Disable` they move the same activities and make the same calls as without it. -/
theorem disable_parks_initialized (K : Constants) (s : ActivityManager) (mask : Nat)
    (act : ActivityPtr) (hE : K.ENABLE_MASK < UINT_WIDTH)
    (hbit : mask &&& K.ENABLE_MASK ≠ 0) :
    IsEnabled K (s.Disable mask) = false ∧
    (s.Disable mask).m_runQueue = s.m_runQueue ∧
    (s.Disable mask).calls = s.calls ∧
    (∀ t : ActivityManager, IsEnabled K t = false →
      (t.InformActivityInitialized K act).m_runQueue RunQueueInitialized =
        (t.m_runQueue RunQueueInitialized).filter (fun x => x != act) ++ [act] ∧
      (∀ q, q ≠ RunQueueInitialized →
        (t.InformActivityInitialized K act).m_runQueue q =
          (t.m_runQueue q).filter (fun x => x != act)) ∧
      (t.InformActivityInitialized K act).calls = t.calls) ∧
    (∀ (t : ActivityManager) (e : Nat),
      ({ t with m_enabled := e }).CheckReadyQueue K =
        { t.CheckReadyQueue K with m_enabled := e } ∧
      ({ t with m_enabled := e }).InformActivityReady K act =
        { t.InformActivityReady K act with m_enabled := e } ∧
      ({ t with m_enabled := e }).InformActivityEnd K act =
        { t.InformActivityEnd K act with m_enabled := e }) ∧
    ((s.Disable mask).CheckReadyQueue K).m_runQueue = (s.CheckReadyQueue K).m_runQueue ∧
    ((s.Disable mask).CheckReadyQueue K).calls = (s.CheckReadyQueue K).calls ∧
    ((s.Disable mask).InformActivityReady K act).m_runQueue =
      (s.InformActivityReady K act).m_runQueue ∧
    ((s.Disable mask).InformActivityReady K act).calls =
      (s.InformActivityReady K act).calls ∧
    ((s.Disable mask).InformActivityEnd K act).m_runQueue =
      (s.InformActivityEnd K act).m_runQueue ∧
    ((s.Disable mask).InformActivityEnd K act).calls =
      (s.InformActivityEnd K act).calls := by
  have hc : (s.Disable mask).CheckReadyQueue K =
      { s.CheckReadyQueue K with
        m_enabled := s.m_enabled &&& ((UINT_WIDTH - 1) ^^^ (mask % UINT_WIDTH)) } :=
    enabled_checkReadyQueue K s _
  have hr : (s.Disable mask).InformActivityReady K act =
      { s.InformActivityReady K act with
        m_enabled := s.m_enabled &&& ((UINT_WIDTH - 1) ^^^ (mask % UINT_WIDTH)) } :=
    enabled_informActivityReady K s _ act
  have he : (s.Disable mask).InformActivityEnd K act =
      { s.InformActivityEnd K act with
        m_enabled := s.m_enabled &&& ((UINT_WIDTH - 1) ^^^ (mask % UINT_WIDTH)) } :=
    enabled_informActivityEnd K s _ act
  refine ⟨isEnabled_disable K s mask hE hbit, rfl, rfl, ?_,
    fun t e => ⟨enabled_checkReadyQueue K t e, enabled_informActivityReady K t e act,
      enabled_informActivityEnd K t e act⟩, by rw [hc], by rw [hc], by rw [hr], by rw [hr],
    by rw [he], by rw [he]⟩
  intro t ht
  rw [informActivityInitialized_not_enabled K t act ht]
  refine ⟨by simp, ?_, rfl⟩
  intro q hq
  simp [hq]

/-- C8 (amended), witness: clearing the UI bit of an enabled manager on which
activity 1 runs leaves 1 on background, and activity 5, initialized afterwards, is
parked on initialized.  When activity 5 becomes ready on the manager with the level 2
it is admitted onto background, after `Disable` as without it. -/
theorem disable_parks_initialized_witness :
    specConstants.ENABLE_MASK < UINT_WIDTH ∧
    2 &&& specConstants.ENABLE_MASK ≠ 0 ∧
    IsEnabled specConstants
      ((run specConstants exampleHeap [Op.Enable 2, Op.InformActivityReady 1]).Disable 2)
        = false ∧
    ((run specConstants exampleHeap [Op.Enable 2, Op.InformActivityReady 1]).Disable 2).m_runQueue
        RunQueueBackground = [1] ∧
    (disabledExample.InformActivityInitialized specConstants 5).m_runQueue
        RunQueueInitialized = [5] ∧
    (disabledExample.InformActivityInitialized specConstants 5).calls
        = disabledExample.calls ∧
    (((run specConstants exampleHeap [Op.Enable 2, Op.InformActivityReady 1]).Disable
        2).InformActivityReady specConstants 5).m_runQueue =
      ((run specConstants exampleHeap
        [Op.Enable 2, Op.InformActivityReady 1]).InformActivityReady specConstants 5).m_runQueue ∧
    ((levelTwoManager.Disable 1).InformActivityReady specConstants 5).m_runQueue
        RunQueueBackground = [5] ∧
    IsEnabled specConstants ((levelTwoManager.Disable 1).InformActivityReady specConstants 5)
        = false :=
  have h := disable_parks_initialized specConstants
    (run specConstants exampleHeap [Op.Enable 2, Op.InformActivityReady 1]) 2 5
    (by decide) (by decide)
  ⟨by decide, by decide, h.1, by rw [h.2.1]; decide,
   (h.2.2.2.1 disabledExample (by decide)).1, (h.2.2.2.1 disabledExample (by decide)).2.2,
   h.2.2.2.2.2.2.2.1, by decide, by decide⟩

/-- C9, counterexample: activities 1 and 2 share the focus; `FocusActivity` on 1,
which is focused already, changes nothing, so the focused list still holds 2 and
the flag of 2 is still set. -/
theorem focusActivity_counterexample :
    sharedFocusExample.m_focusedActivities = [1, 2] ∧
    (sharedFocusExample.FocusActivity 1).1 = MojErr.MojErrNone ∧
    (sharedFocusExample.FocusActivity 1).2.m_focusedActivities = [1, 2] ∧
    ((sharedFocusExample.FocusActivity 1).2.heap 2).focused = true := by
  decide

/-- C9 (amended): `FocusActivity` on an activity that is not focused makes it the
only focused activity: its flag is set, the focused list is exactly that activity,
and the flag of every other activity is clear.  On an activity that is focused
already the call returns OK and changes nothing. -/
theorem focusActivity_exclusive (s : ActivityManager) (act : ActivityPtr)
    (hinv : FocusInv s) :
    ((s.heap act).focused = true → s.FocusActivity act = (MojErr.MojErrNone, s)) ∧
    ((s.heap act).focused = false →
      (s.FocusActivity act).1 = MojErr.MojErrNone ∧
      ((s.FocusActivity act).2.heap act).focused = true ∧
      (s.FocusActivity act).2.m_focusedActivities = [act] ∧
      ∀ other, other ≠ act → ((s.FocusActivity act).2.heap other).focused = false) := by
  refine ⟨focusActivity_focused s act, ?_⟩
  intro h
  have hinv2 := focusInv_focusActivity s act hinv
  rw [focusActivity_not_focused s act h] at hinv2 ⊢
  refine ⟨rfl, ?_, rfl, ?_⟩
  · exact (hinv2.2 act).2 (List.mem_singleton.2 rfl)
  · intro other hne
    cases hf : ((fun p =>
        if p ∈ s.m_focusedActivities then
          { (if p = act then { s.heap p with focused := true } else s.heap p)
            with focused := false }
        else if p = act then { s.heap p with focused := true } else s.heap p) other).focused with
    | false => rfl
    | true => exact absurd (List.mem_singleton.1 ((hinv2.2 other).1 hf)) hne

/-- C9 (amended), witness (S6): after Focus 1, Focus 2 takes the focus from 1: the
flag of 1 is clear, the flag of 2 is set and the focused list is [2]. -/
theorem focusActivity_exclusive_witness :
    FocusInv (run specConstants exampleHeap [Op.FocusActivity 1]) ∧
    ((run specConstants exampleHeap [Op.FocusActivity 1]).heap 2).focused = false ∧
    (((run specConstants exampleHeap [Op.FocusActivity 1]).FocusActivity 2).2.heap 2).focused
      = true ∧
    ((run specConstants exampleHeap [Op.FocusActivity 1]).FocusActivity 2).2.m_focusedActivities
      = [2] ∧
    (((run specConstants exampleHeap [Op.FocusActivity 1]).FocusActivity 2).2.heap 1).focused
      = false :=
  have hinv := focusInv_run specConstants exampleHeap (fun _ => rfl) [Op.FocusActivity 1]
  have h := (focusActivity_exclusive (run specConstants exampleHeap [Op.FocusActivity 1]) 2
    hinv).2 (by decide)
  ⟨hinv, by decide, h.2.1, h.2.2.1, h.2.2.2 1 (by decide)⟩

/-- C10: `AddFocus` from a source that is not focused returns InvalidArg and leaves
the state as it is.  From a focused source it returns OK; the focused list is then
the previous list, with the target appended when it was not on it, so the target is
on it once; the flag of the target is set and the flag of every other activity is
unchanged. -/
theorem addFocus_joins_focused (s : ActivityManager) (source target : ActivityPtr)
    (hinv : FocusInv s) :
    ((s.heap source).focused = false →
      s.AddFocus source target = (MojErr.MojErrInvalidArg, s)) ∧
    ((s.heap source).focused = true →
      (s.AddFocus source target).1 = MojErr.MojErrNone ∧
      (s.AddFocus source target).2.m_focusedActivities =
        (if target ∈ s.m_focusedActivities then s.m_focusedActivities
          else s.m_focusedActivities ++ [target]) ∧
      (∀ a, a ∈ (s.AddFocus source target).2.m_focusedActivities ↔
        a ∈ s.m_focusedActivities ∨ a = target) ∧
      (s.AddFocus source target).2.m_focusedActivities.count target = 1 ∧
      ((s.AddFocus source target).2.heap target).focused = true ∧
      ∀ other, other ≠ target →
        ((s.AddFocus source target).2.heap other).focused = (s.heap other).focused) := by
  constructor
  · intro h
    unfold AddFocus
    simp [h]
  · intro h
    have hinv2 := focusInv_addFocus s source target hinv
    have hlist : (s.AddFocus source target).2.m_focusedActivities =
        (if target ∈ s.m_focusedActivities then s.m_focusedActivities
          else s.m_focusedActivities ++ [target]) := by
      unfold AddFocus
      simp only [h, Bool.not_true, Bool.false_eq_true, if_false]
      by_cases ht : (s.heap target).focused = true
      · rw [if_pos ht, if_pos ((hinv.2 target).1 ht)]
      · rw [if_neg ht, if_neg (fun hm => ht ((hinv.2 target).2 hm))]
        rfl
    have hmem : target ∈ (s.AddFocus source target).2.m_focusedActivities := by
      rw [hlist]
      split
      · assumption
      · simp
    refine ⟨?_, hlist, ?_, ?_, (hinv2.2 target).2 hmem, ?_⟩
    · unfold AddFocus
      simp only [h, Bool.not_true, Bool.false_eq_true, if_false]
      split <;> rfl
    · intro a
      rw [hlist]
      split
      · rename_i hm
        constructor
        · exact Or.inl
        · rintro (h1 | h1)
          · exact h1
          · exact h1 ▸ hm
      · simp
    · exact List.count_eq_one_of_mem hinv2.1 hmem
    · intro other hne
      unfold AddFocus
      simp only [h, Bool.not_true, Bool.false_eq_true, if_false]
      split
      · rfl
      · show (if other = target then { s.heap other with focused := true }
          else s.heap other).focused = _
        rw [if_neg hne]

/-- C10, witness (S6): with the focused list [2], `AddFocus(2, 3)` returns OK and
gives the focused list [2, 3]. -/
theorem addFocus_joins_focused_witness :
    FocusInv focusExample ∧
    focusExample.m_focusedActivities = [2] ∧
    (focusExample.heap 2).focused = true ∧
    (focusExample.AddFocus 2 3).1 = MojErr.MojErrNone ∧
    (focusExample.AddFocus 2 3).2.m_focusedActivities = [2, 3] ∧
    ((focusExample.AddFocus 2 3).2.heap 3).focused = true :=
  have hinv : FocusInv focusExample := focusInv_run specConstants exampleHeap (fun _ => rfl) _
  have h := (addFocus_joins_focused focusExample 2 3 hinv).2 (by decide)
  ⟨hinv, by decide, by decide, h.1, h.2.1, h.2.2.2.2.1⟩

/-- C11: from a fresh manager on which no activity is focused, every sequence of
operations, those of `FocusActivity`, `UnfocusActivity` and `AddFocus` among them,
leads to a state in which the focused flag of an activity is set exactly when the
activity is on the focused list, and a focused activity is on the list once.
`UnfocusActivity` on a focused activity returns OK, clears its flag and takes it
off the focused list, and changes no other flag. -/
theorem focus_flag_iff_listed (K : Constants) (heap : ActivityPtr → Activity)
    (ops : List Op) (h0 : ∀ a, (heap a).focused = false) :
    (∀ a, ((run K heap ops).heap a).focused = true ↔
      a ∈ (run K heap ops).m_focusedActivities) ∧
    (∀ a, ((run K heap ops).heap a).focused = true →
      (run K heap ops).m_focusedActivities.count a = 1) ∧
    (∀ a, ((run K heap ops).heap a).focused = true →
      ((run K heap ops).UnfocusActivity a).1 = MojErr.MojErrNone ∧
      ((((run K heap ops).UnfocusActivity a).2.heap a).focused = false) ∧
      a ∉ ((run K heap ops).UnfocusActivity a).2.m_focusedActivities ∧
      (∀ b, b ≠ a →
        (b ∈ ((run K heap ops).UnfocusActivity a).2.m_focusedActivities ↔
          b ∈ (run K heap ops).m_focusedActivities) ∧
        (((run K heap ops).UnfocusActivity a).2.heap b).focused =
          ((run K heap ops).heap b).focused)) := by
  have hinv := focusInv_run K heap h0 ops
  refine ⟨hinv.2, ?_, ?_⟩
  · intro a ha
    exact List.count_eq_one_of_mem hinv.1 ((hinv.2 a).1 ha)
  · intro a ha
    rw [unfocusActivity_focused _ a hinv ha]
    refine ⟨rfl, by simp, by simp [List.mem_filter], ?_⟩
    intro b hb
    constructor
    · simp [List.mem_filter, hb]
    · simp [hb]

/-- C11, witness: after Focus 1, AddFocus(1, 2), Focus 3 and AddFocus(3, 1) the
focused list is [3, 1], and unfocusing 3 leaves [1]. -/
theorem focus_flag_iff_listed_witness :
    (∀ a, (exampleHeap a).focused = false) ∧
    (run specConstants exampleHeap
      [Op.FocusActivity 1, Op.AddFocus 1 2, Op.FocusActivity 3,
       Op.AddFocus 3 1]).m_focusedActivities = [3, 1] ∧
    (∀ a, ((run specConstants exampleHeap
        [Op.FocusActivity 1, Op.AddFocus 1 2, Op.FocusActivity 3,
         Op.AddFocus 3 1]).heap a).focused = true ↔
      a ∈ (run specConstants exampleHeap
        [Op.FocusActivity 1, Op.AddFocus 1 2, Op.FocusActivity 3,
         Op.AddFocus 3 1]).m_focusedActivities) ∧
    ((run specConstants exampleHeap
        [Op.FocusActivity 1, Op.AddFocus 1 2, Op.FocusActivity 3,
         Op.AddFocus 3 1]).UnfocusActivity 3).2.m_focusedActivities = [1] :=
  ⟨fun _ => rfl, by decide,
   (focus_flag_iff_listed specConstants exampleHeap
      [Op.FocusActivity 1, Op.AddFocus 1 2, Op.FocusActivity 3, Op.AddFocus 3 1]
      (fun _ => rfl)).1,
   by decide⟩

/-- C12, counterexample: activity 1 is focused; after `InformActivityEnd` it is on
the ended queue, and it is still on the focused list with its flag set. -/
theorem end_keeps_focus_counterexample :
    (focusedOne.heap 1).focused = true ∧
    focusedOne.m_focusedActivities = [1] ∧
    (focusedOne.InformActivityEnd specConstants 1).m_runQueue RunQueueEnded = [1] ∧
    (focusedOne.InformActivityEnd specConstants 1).m_focusedActivities = [1] ∧
    ((focusedOne.InformActivityEnd specConstants 1).heap 1).focused = true ∧
    ((focusedOne.InformActivityEnd specConstants 1).ReleaseActivity specConstants 1).m_focusedActivities
      = [1] := by
  decide

/-- C12 (amended): `InformActivityEnd` and `ReleaseActivity` change neither the
focused list nor a focused flag: an activity that is focused when it ends is still
on the focused list, with its flag set, afterwards. -/
theorem end_and_release_keep_focus (K : Constants) (s : ActivityManager) (act : ActivityPtr) :
    (s.InformActivityEnd K act).m_focusedActivities = s.m_focusedActivities ∧
    (∀ a, ((s.InformActivityEnd K act).heap a).focused = (s.heap a).focused) ∧
    (s.ReleaseActivity K act).m_focusedActivities = s.m_focusedActivities ∧
    (∀ a, ((s.ReleaseActivity K act).heap a).focused = (s.heap a).focused) := by
  refine ⟨(focus_informActivityEnd K s act).2, ?_, (focus_releaseActivity K s act).2, ?_⟩
  · intro a
    rw [(focus_informActivityEnd K s act).1]
  · intro a
    rw [(focus_releaseActivity K s act).1]

/-- C14, counterexample: the id 2 belongs to the live activity at the address 102.
The forced allocation of the id 2 returns a second activity, at the address 105,
that has the id 2 as well; nothing is thrown, and the activity registered under 2
is still the one at 102. -/
theorem forced_allocation_counterexample :
    (registryExample.GetActivity 2).1 = Checked.ok 102 ∧
    (registryExample.heap 102).id = 2 ∧
    (registryExample.GetNewActivity_id specConstants 2 105 freshActivity).1 = 105 ∧
    (((registryExample.GetNewActivity_id specConstants 2 105 freshActivity).2.heap 105).id
      = 2) ∧
    (((registryExample.GetNewActivity_id specConstants 2 105 freshActivity).2.heap 102).id
      = 2) ∧
    ((registryExample.GetNewActivity_id specConstants 2 105 freshActivity).2.GetActivity 2).1
      = Checked.ok 102 := by
  decide

/-- C14 (amended): the forced allocation `GetNewActivity(id)` always returns a new
activity with the id asked for, also when the id belongs to a live activity; it
leaves the map of live activities and the name table as they are.  The id table
keeps its content when it refuses equal ids and holds the id already, and takes the
new activity otherwise. -/
theorem forced_allocation_always_allocates (K : Constants) (s : ActivityManager)
    (id : activityId_t) (p : ActivityPtr) (init : Activity) (hp : p ∉ s.m_idTable) :
    (s.GetNewActivity_id K id p init).1 = p ∧
    ((s.GetNewActivity_id K id p init).2.heap p).id = id ∧
    (∀ e, e ≠ p → (s.GetNewActivity_id K id p init).2.heap e = s.heap e) ∧
    (s.GetNewActivity_id K id p init).2.m_activities = s.m_activities ∧
    (s.GetNewActivity_id K id p init).2.m_nameTable = s.m_nameTable ∧
    (K.idTableUnique = true → id ∈ s.idTableIds →
      (s.GetNewActivity_id K id p init).2.m_idTable = s.m_idTable) ∧
    ((K.idTableUnique = false ∨ id ∉ s.idTableIds) →
      (s.GetNewActivity_id K id p init).2.m_idTable.Perm (p :: s.m_idTable)) := by
  refine ⟨rfl, ?_, ?_, rfl, rfl, (idTableInsert_eq K s p init id hp).1,
    (idTableInsert_eq K s p init id hp).2⟩
  · show (if p = p then { init with id := id } else s.heap p).id = id
    rw [if_pos rfl]
  · intro e he
    show (if e = p then { init with id := id } else s.heap e) = s.heap e
    rw [if_neg he]

/-- C14 (amended), witness: the forced allocation of the id 2, which the activity at
102 holds, at the fresh address 105. -/
theorem forced_allocation_always_allocates_witness :
    105 ∉ registryExample.m_idTable ∧
    2 ∈ registryExample.idTableIds ∧
    (registryExample.GetNewActivity_id specConstants 2 105 freshActivity).1 = 105 ∧
    ((registryExample.GetNewActivity_id specConstants 2 105 freshActivity).2.heap 105).id = 2 ∧
    (registryExample.GetNewActivity_id specConstants 2 105 freshActivity).2.m_activities
      = registryExample.m_activities ∧
    (registryExample.GetNewActivity_id specConstants 2 105 freshActivity).2.m_idTable
      = registryExample.m_idTable :=
  have h := forced_allocation_always_allocates specConstants registryExample 2 105
    freshActivity (by decide)
  ⟨by decide, by decide, h.1, h.2.1, h.2.2.2.1, h.2.2.2.2.2.1 rfl (by decide)⟩

/-- C15: `RegisterActivityId` throws and leaves the state as it is when the map of
live activities holds the id of the activity, and otherwise adds the one entry for
the activity and changes nothing else.  `RegisterActivityName` throws and leaves the
state as it is when the name table holds an activity with the same name and the
same creator, and otherwise adds the activity to the name table and changes
nothing else. -/
theorem register_id_and_name (busLess : BusId → BusId → Bool) (s : ActivityManager)
    (act : ActivityPtr)
    (htotal : ∀ a b, (busLess a b = false ∧ busLess b a = false) ↔ a = b) :
    ((∃ e ∈ s.m_activities, e.1 = (s.heap act).id) →
      s.RegisterActivityId act = (Checked.thrown "Activity ID is already registered", s)) ∧
    ((∀ e ∈ s.m_activities, e.1 ≠ (s.heap act).id) →
      (s.RegisterActivityId act).1 = Checked.ok () ∧
      (s.RegisterActivityId act).2.m_activities.Perm
        (((s.heap act).id, act) :: s.m_activities) ∧
      (s.RegisterActivityId act).2 =
        { s with m_activities := (s.RegisterActivityId act).2.m_activities }) ∧
    ((∃ e ∈ s.m_nameTable, (s.heap e).name = (s.heap act).name ∧
        (s.heap e).creator = (s.heap act).creator) →
      s.RegisterActivityName busLess act =
        (Checked.thrown "Activity name is already registed", s)) ∧
    ((∀ e ∈ s.m_nameTable, ¬ ((s.heap e).name = (s.heap act).name ∧
        (s.heap e).creator = (s.heap act).creator)) →
      (s.RegisterActivityName busLess act).1 = Checked.ok () ∧
      (s.RegisterActivityName busLess act).2.m_nameTable.Perm (act :: s.m_nameTable) ∧
      (s.RegisterActivityName busLess act).2 =
        { s with m_nameTable := (s.RegisterActivityName busLess act).2.m_nameTable }) := by
  refine ⟨?_, ?_, ?_, ?_⟩
  · rintro ⟨e, he, heq⟩
    unfold RegisterActivityId
    cases hfind : s.m_activities.find? (fun e => e.1 == (s.heap act).id) with
    | some x => rfl
    | none => exact absurd heq ((find_key_none _ _).1 hfind e he)
  · intro h
    unfold RegisterActivityId
    rw [(find_key_none _ _).2 h]
    exact ⟨rfl, insertBefore_perm _ _ _, rfl⟩
  · rintro ⟨e, he, heq⟩
    unfold RegisterActivityName
    rw [if_pos]
    rw [List.any_eq_true]
    exact ⟨e, he, (nameComp_equiv busLess htotal s act e).2 heq⟩
  · intro h
    unfold RegisterActivityName
    rw [if_neg]
    · exact ⟨rfl, insertBefore_perm _ _ _, rfl⟩
    · rw [List.any_eq_true]
      rintro ⟨e, he, heq⟩
      exact h e he ((nameComp_equiv busLess htotal s act e).1 heq)

/-- C15, witness: on the example manager the activity at 101 cannot be registered a
second time by id or by name, and the activity at 104, whose id 4 is not
registered, gets its entry. -/
theorem register_id_and_name_witness :
    (∀ a b, (exampleBusLess a b = false ∧ exampleBusLess b a = false) ↔ a = b) ∧
    namedExample.RegisterActivityId 101 =
      (Checked.thrown "Activity ID is already registered", namedExample) ∧
    namedExample.RegisterActivityName exampleBusLess 101 =
      (Checked.thrown "Activity name is already registed", namedExample) ∧
    (registryExample.RegisterActivityId 104).1 = Checked.ok () ∧
    (registryExample.RegisterActivityId 104).2.m_activities = [(1, 101), (2, 102), (4, 104)] :=
  have h1 := register_id_and_name exampleBusLess namedExample 101 exampleBusLess_total
  ⟨exampleBusLess_total, h1.1 ⟨(1, 101), by decide, by decide⟩,
   h1.2.2.1 ⟨101, by decide, by decide⟩, by decide, by decide⟩

/-- C16: `GetActivity(id)` returns the activity registered under the id, when there
is one, and throws otherwise, and leaves the state as it is.  After a successful
`RegisterActivityId` of an activity it returns that activity for its id; after
`ReleaseActivity` of an activity registered under its id it throws for that id. -/
theorem getActivity_by_id (K : Constants) (s : ActivityManager) (hmap : MapInv s) :
    (∀ id act, (id, act) ∈ s.m_activities → s.GetActivity id = (Checked.ok act, s)) ∧
    (∀ id, (∀ e ∈ s.m_activities, e.1 ≠ id) →
      s.GetActivity id = (Checked.thrown "activityId not found", s)) ∧
    (∀ act, (s.RegisterActivityId act).1 = Checked.ok () →
      (s.RegisterActivityId act).2.GetActivity (s.heap act).id =
        (Checked.ok act, (s.RegisterActivityId act).2)) ∧
    (∀ act, ((s.heap act).id, act) ∈ s.m_activities →
      (s.ReleaseActivity K act).GetActivity (s.heap act).id =
        (Checked.thrown "activityId not found", s.ReleaseActivity K act)) := by
  have hget : ∀ (t : ActivityManager), MapInv t → ∀ id act, (id, act) ∈ t.m_activities →
      t.GetActivity id = (Checked.ok act, t) := by
    intro t ht id act hmem
    unfold GetActivity
    rw [find_key_of_mem t.m_activities ht (id, act) hmem]
  have hnone : ∀ (t : ActivityManager) id, (∀ e ∈ t.m_activities, e.1 ≠ id) →
      t.GetActivity id = (Checked.thrown "activityId not found", t) := by
    intro t id h
    unfold GetActivity
    rw [(find_key_none _ _).2 h]
  refine ⟨hget s hmap, hnone s, ?_, ?_⟩
  · intro act hok
    apply hget _ (mapInv_registerActivityId s act hmap)
    unfold RegisterActivityId at hok ⊢
    cases hfind : s.m_activities.find? (fun e => e.1 == (s.heap act).id) with
    | some x => rw [hfind] at hok; exact absurd hok (by simp)
    | none =>
      show ((s.heap act).id, act) ∈ insertBefore _ ((s.heap act).id, act) s.m_activities
      exact (mem_insertBefore _ _ _ _).2 (Or.inl rfl)
  · intro act hmem
    apply hnone
    have hrel := releaseActivity_activities K s act
    rw [hrel.1, find_key_of_mem s.m_activities hmap _ hmem]
    simp only [if_true]
    intro e he heq
    have hnd := hmap
    unfold MapInv at hnd
    have hne : e ≠ ((s.heap act).id, act) := by
      intro h
      rw [h] at he
      exact (List.Nodup.mem_erase_iff (by
        exact List.Nodup.of_map Prod.fst hnd)).1 he |>.1 rfl
    have he2 : e ∈ s.m_activities := List.mem_of_mem_erase he
    have := List.inj_on_of_nodup_map hnd he2 hmem heq
    exact hne this

/-- C16, witness: on the example manager the id 2 is registered for the activity at
102; `GetActivity(2)` returns it, and throws after the activity was released. -/
theorem getActivity_by_id_witness :
    MapInv registryExample ∧
    registryExample.GetActivity 2 = (Checked.ok 102, registryExample) ∧
    ((registryExample.ReleaseActivity specConstants 102).GetActivity 2).1
      = Checked.thrown "activityId not found" ∧
    (registryExample.GetActivity 7).1 = Checked.thrown "activityId not found" :=
  have hmap : MapInv registryExample := by
    unfold MapInv
    decide
  have h := getActivity_by_id specConstants registryExample hmap
  ⟨hmap, h.1 2 102 (by decide),
   by
    have := h.2.2.2 102 (by decide)
    exact congrArg Prod.fst this,
   congrArg Prod.fst (h.2.1 7 (by decide))⟩

/-- C17, counterexample: the activity at 101 is allocated with the id 1, registered
by id and by name and released.  The map of live activities is then empty, while
the name table still holds the activity with the id 1.  The same holds when the
activity is registered by name without being registered by id. -/
theorem tables_disagree_counterexample :
    ([RegistryOp.GetNewActivity_id 1 101 namedActivity, RegistryOp.RegisterActivityId 101,
      RegistryOp.RegisterActivityName 101, RegistryOp.ReleaseActivity 101].foldl
        (registryStep specConstants exampleBusLess)
        (new specConstants exampleHeap)).m_activities.map Prod.fst = [] ∧
    ([RegistryOp.GetNewActivity_id 1 101 namedActivity, RegistryOp.RegisterActivityId 101,
      RegistryOp.RegisterActivityName 101, RegistryOp.ReleaseActivity 101].foldl
        (registryStep specConstants exampleBusLess)
        (new specConstants exampleHeap)).m_nameTable = [101] ∧
    (([RegistryOp.GetNewActivity_id 1 101 namedActivity, RegistryOp.RegisterActivityId 101,
      RegistryOp.RegisterActivityName 101, RegistryOp.ReleaseActivity 101].foldl
        (registryStep specConstants exampleBusLess)
        (new specConstants exampleHeap)).heap 101).id = 1 ∧
    namedExample.m_activities.map Prod.fst = [1] ∧
    namedExample.m_nameTable = [101] ∧
    ([RegistryOp.GetNewActivity_id 1 101 namedActivity, RegistryOp.RegisterActivityName 101].foldl
        (registryStep specConstants exampleBusLess)
        (new specConstants exampleHeap)).m_activities.map Prod.fst = [] ∧
    ([RegistryOp.GetNewActivity_id 1 101 namedActivity, RegistryOp.RegisterActivityName 101].foldl
        (registryStep specConstants exampleBusLess)
        (new specConstants exampleHeap)).m_nameTable = [101] := by
  decide

/-- C17 (amended): over every sequence of allocations, registrations and
unregistrations and releases in which the calls on the two tables are paired (the
name of an activity is registered while the map of live activities holds the
activity under its id, and an activity is released when it is not in the name
table), every activity of the name table is in the map under its id, so that the
ids of the name table are ids of the map; this holds for the constructed manager.
The pairing is not enforced: `ReleaseActivity` and `RegisterActivityId` leave the
name table as it is, `RegisterActivityName` and `UnregisterActivityName` leave the map
as it is, a registration that succeeds puts the activity into its table, an activity
of the name table stays there over every sequence of allocations, registrations and
releases, and `ReleaseActivity` of an activity that is in both tables takes its id
out of the map and leaves the activity, with that id, in the name table. -/
theorem name_table_outlives_release (K : Constants) (busLess : BusId → BusId → Bool)
    (s : ActivityManager) (ops : List RegistryOp) :
    (∀ a, a ∈ s.m_nameTable → a ∈ (ops.foldl (registryStep K busLess) s).m_nameTable) ∧
    (∀ act, (s.ReleaseActivity K act).m_nameTable = s.m_nameTable) ∧
    (∀ act, (s.RegisterActivityId act).2.m_nameTable = s.m_nameTable) ∧
    (∀ act, (s.RegisterActivityName busLess act).2.m_activities = s.m_activities) ∧
    (∀ act, (s.UnregisterActivityName act).2.m_activities = s.m_activities) ∧
    (∀ heap, NamedAreLive (ActivityManager.new K heap)) ∧
    (∀ act, (s.RegisterActivityId act).1 = Checked.ok () →
      ((s.heap act).id, act) ∈ (s.RegisterActivityId act).2.m_activities) ∧
    (∀ act, (s.RegisterActivityName busLess act).1 = Checked.ok () →
      act ∈ (s.RegisterActivityName busLess act).2.m_nameTable) ∧
    (∀ (tops : List TableOp) (s1 : ActivityManager), NamedAreLive s →
      pairedRun K busLess tops s = some s1 →
      NamedAreLive s1 ∧
      ∀ a ∈ s1.m_nameTable, (s1.heap a).id ∈ s1.m_activities.map Prod.fst) ∧
    (∀ act, MapInv s → ((s.heap act).id, act) ∈ s.m_activities → act ∈ s.m_nameTable →
      (s.heap act).id ∉ (s.ReleaseActivity K act).m_activities.map Prod.fst ∧
      act ∈ (s.ReleaseActivity K act).m_nameTable ∧
      ((s.ReleaseActivity K act).heap act).id = (s.heap act).id) := by
  refine ⟨?_, fun act => (releaseActivity_activities K s act).2.2.1, ?_, ?_, ?_,
    fun heap => namedAreLive_new K heap, ?_, ?_, ?_, ?_⟩
  · intro a
    induction ops generalizing s with
    | nil => intro h; exact h
    | cons op ops ih =>
      intro h
      exact ih _ (nameTable_registryStep K busLess s op a h)
  · intro act
    unfold RegisterActivityId
    split <;> rfl
  · intro act
    unfold RegisterActivityName
    split <;> rfl
  · intro act
    unfold UnregisterActivityName
    split <;> rfl
  · intro act hok
    unfold RegisterActivityId at hok ⊢
    cases hfind : s.m_activities.find? (fun e => e.1 == (s.heap act).id) with
    | some x => rw [hfind] at hok; exact absurd hok (by simp)
    | none =>
      show ((s.heap act).id, act) ∈ insertBefore _ ((s.heap act).id, act) s.m_activities
      exact (mem_insertBefore _ _ _ _).2 (Or.inl rfl)
  · intro act hok
    unfold RegisterActivityName at hok ⊢
    split
    · rename_i hany
      rw [if_pos hany] at hok
      exact absurd hok (by simp)
    · exact (mem_insertBefore _ _ _ _).2 (Or.inl rfl)
  · intro tops s1 h hrun
    have h1 := namedAreLive_pairedRun K busLess tops s s1 h hrun
    refine ⟨h1, ?_⟩
    intro a ha
    rw [List.mem_map]
    exact ⟨((s1.heap a).id, a), h1 a ha, rfl⟩
  · intro act hmap hmem hname
    refine ⟨releaseActivity_id_gone K s act hmap hmem, ?_, ?_⟩
    · rw [(releaseActivity_activities K s act).2.2.1]
      exact hname
    · rw [(releaseActivity_activities K s act).2.2.2.2]

/-- C17 (amended), witness: the activity at 101 is allocated with the id 1 and
registered by id and by name, which gives the state `namedExample`, where the name
table and the map hold it; unregistered and released, it is in neither table.  The
release without the unregistration is not paired; it takes the id 1 out of the map
and leaves the activity in the name table. -/
theorem name_table_outlives_release_witness :
    NamedAreLive (ActivityManager.new specConstants exampleHeap) ∧
    (pairedRun specConstants exampleBusLess (pairedExample.take 3)
      (ActivityManager.new specConstants exampleHeap)).map
        (fun t => (t.m_activities, t.m_nameTable)) = some ([(1, 101)], [101]) ∧
    (∀ s1, pairedRun specConstants exampleBusLess (pairedExample.take 3)
        (ActivityManager.new specConstants exampleHeap) = some s1 →
      NamedAreLive s1 ∧
      ∀ a ∈ s1.m_nameTable, (s1.heap a).id ∈ s1.m_activities.map Prod.fst) ∧
    (pairedRun specConstants exampleBusLess pairedExample
      (ActivityManager.new specConstants exampleHeap)).map
        (fun t => (t.m_activities, t.m_nameTable)) = some ([], []) ∧
    (pairedRun specConstants exampleBusLess [TableOp.ReleaseActivity 101] namedExample).isNone
      = true ∧
    MapInv namedExample ∧
    ((namedExample.heap 101).id, 101) ∈ namedExample.m_activities ∧
    101 ∈ namedExample.m_nameTable ∧
    ((namedExample.heap 101).id ∉
        (namedExample.ReleaseActivity specConstants 101).m_activities.map Prod.fst ∧
      101 ∈ (namedExample.ReleaseActivity specConstants 101).m_nameTable ∧
      ((namedExample.ReleaseActivity specConstants 101).heap 101).id =
        (namedExample.heap 101).id) :=
  have hmap : MapInv namedExample := by
    unfold MapInv
    decide
  ⟨by decide, by decide,
    fun s1 h1 =>
      (name_table_outlives_release specConstants exampleBusLess
        (ActivityManager.new specConstants exampleHeap) []).2.2.2.2.2.2.2.2.1
        (pairedExample.take 3) s1 (by decide) h1,
    by decide, by decide, hmap, by decide, by decide,
    (name_table_outlives_release specConstants exampleBusLess namedExample
      []).2.2.2.2.2.2.2.2.2 101 hmap (by decide) (by decide)⟩

/-- C32: for every scheduler state (in which no activity is linked twice), after
`CheckReadyQueue` has returned the yield timeout exists if and only if readyInteractive
is not empty, and the timeout that exists is armed.  `CheckReadyQueue` creates a
timeout, and arms it by the one call `ArmTimeout` with the yield seconds, exactly when
an activity still waits on readyInteractive and one was admitted from there or there
was no timeout; otherwise it makes no `ArmTimeout` call, and the timeout of the state
before, which was armed, is kept when an activity waits and is reset when none does.
A timeout is armed whenever there is one: after every sequence of operations on a
constructed manager the timer is armed exactly when the timeout exists.  The two
loops have ended, since more fuel gives the same state. -/
theorem yield_timer_iff_waiting (K : Constants) (s : ActivityManager) (hinv : RunQueueInv s) :
    ((s.CheckReadyQueue K).m_interactiveYieldTimeout = true ↔
      (s.CheckReadyQueue K).m_runQueue RunQueueReadyInteractive ≠ []) ∧
    (∀ fuel, (s.m_runQueue RunQueueReadyInteractive).length ≤ fuel →
      runReadyInteractiveLoop K fuel s false =
        runReadyInteractiveLoop K (s.m_runQueue RunQueueReadyInteractive).length s false) ∧
    (∀ t fuel, (t.m_runQueue RunQueueReady).length ≤ fuel →
      runReadyLoop K fuel t = runReadyLoop K (t.m_runQueue RunQueueReady).length t) ∧
    (s.CheckReadyQueue K).calls = s.calls ++ callsSince s (s.CheckReadyQueue K) ∧
    armedSeconds (callsSince s (s.CheckReadyQueue K)) =
      (if (s.CheckReadyQueue K).m_runQueue RunQueueReadyInteractive ≠ [] ∧
          (((s.CheckReadyQueue K).m_runQueue RunQueueReadyInteractive).length <
              (s.m_runQueue RunQueueReadyInteractive).length ∨
            s.m_interactiveYieldTimeout = false)
        then [s.m_yieldTimeoutSeconds] else []) ∧
    (∀ before : Bool, (s.m_interactiveYieldTimeout = true → before = true) →
      (yieldTimerArmed before s (s.CheckReadyQueue K) = true ↔
        (s.CheckReadyQueue K).m_runQueue RunQueueReadyInteractive ≠ [])) ∧
    (∀ (heap : ActivityPtr → Activity) (ops : List Op),
      armedAfter K false (ActivityManager.new K heap) ops =
        (run K heap ops).m_interactiveYieldTimeout) := by
  have hflag := checkReadyQueue_timeout K s hinv
  obtain ⟨k, l, hk, hri, hcalls⟩ := checkReadyQueue_calls K s hinv
  have hsince := callsSince_append s (s.CheckReadyQueue K) _ hcalls
  have hlen : ((s.CheckReadyQueue K).m_runQueue RunQueueReadyInteractive).length =
      (s.m_runQueue RunQueueReadyInteractive).length - k := by
    rw [hri, List.length_drop]
  have harm : armedSeconds (callsSince s (s.CheckReadyQueue K)) =
      (if (s.CheckReadyQueue K).m_runQueue RunQueueReadyInteractive ≠ [] ∧
          (((s.CheckReadyQueue K).m_runQueue RunQueueReadyInteractive).length <
              (s.m_runQueue RunQueueReadyInteractive).length ∨
            s.m_interactiveYieldTimeout = false)
        then [s.m_yieldTimeoutSeconds] else []) := by
    rw [hsince, armedSeconds_append, armedSeconds_append, armedSeconds_runCalls,
      armedSeconds_runCalls, List.nil_append, List.append_nil, ← hri]
    by_cases hne : (s.CheckReadyQueue K).m_runQueue RunQueueReadyInteractive ≠ []
    · have hpos : 0 < ((s.CheckReadyQueue K).m_runQueue RunQueueReadyInteractive).length :=
        List.length_pos.2 hne
      by_cases hc : 0 < k ∨ s.m_interactiveYieldTimeout = false
      · rw [if_pos ⟨hne, hc⟩, if_pos ⟨hne, hc.imp (fun h => by omega) id⟩]
        rfl
      · rw [if_neg (fun h => hc h.2),
          if_neg (fun h => hc (h.2.imp (fun h1 => by omega) id))]
        rfl
    · rw [if_neg (fun h => hne h.1), if_neg (fun h => hne h.1)]
      rfl
  refine ⟨hflag, runReadyInteractiveLoop_enough K s false, runReadyLoop_enough K, ?_, harm, ?_,
    fun heap ops => armedAfter_eq K ops (ActivityManager.new K heap) (runQueueInv_new K heap)⟩
  · rw [hsince]
    exact hcalls
  · intro before hbefore
    unfold yieldTimerArmed
    rw [harm]
    by_cases hne : (s.CheckReadyQueue K).m_runQueue RunQueueReadyInteractive ≠ []
    · rw [hflag.2 hne]
      refine ⟨fun _ => hne, fun _ => ?_⟩
      by_cases hc : ((s.CheckReadyQueue K).m_runQueue RunQueueReadyInteractive).length <
          (s.m_runQueue RunQueueReadyInteractive).length ∨ s.m_interactiveYieldTimeout = false
      · rw [if_pos ⟨hne, hc⟩]
        rfl
      · rw [if_neg (fun h => hc h.2)]
        have ht : s.m_interactiveYieldTimeout = true := by
          cases hb : s.m_interactiveYieldTimeout with
          | false => exact absurd (Or.inr hb) hc
          | true => rfl
        rw [ht, hbefore ht]
        rfl
    · have hf : (s.CheckReadyQueue K).m_interactiveYieldTimeout = false := by
        cases hb : (s.CheckReadyQueue K).m_interactiveYieldTimeout with
        | false => rfl
        | true => exact absurd (hflag.1 hb) hne
      rw [hf]
      constructor
      · intro h
        exact absurd h (by simp)
      · intro h
        exact absurd h hne

/-- C32, witness: in the example state three user-initiated activities wait and the
interactive level is 3 with one running, so two are admitted, one still waits and a
timeout is armed with the 2 seconds of the example; in the state after the
user-initiated activities 10 and 11 became ready under the level 3 nobody waits and
there is no timeout.  In the state with a timeout in which nobody is admitted the
timeout is kept without a new call, and it is armed only if it was.  On a constructed
manager with the interactive level 3 the timer is armed once a fourth user-initiated
activity waits, and it is not after the first has ended and the fourth was admitted. -/
theorem yield_timer_iff_waiting_witness :
    RunQueueInv admissionExample ∧
    ((admissionExample.CheckReadyQueue specConstants).m_interactiveYieldTimeout = true ↔
      (admissionExample.CheckReadyQueue specConstants).m_runQueue RunQueueReadyInteractive
        ≠ []) ∧
    (admissionExample.CheckReadyQueue specConstants).m_runQueue RunQueueReadyInteractive
      = [13] ∧
    (admissionExample.CheckReadyQueue specConstants).m_interactiveYieldTimeout = true ∧
    (twoInteractiveReady.CheckReadyQueue specConstants).m_runQueue RunQueueReadyInteractive
      = [] ∧
    (twoInteractiveReady.CheckReadyQueue specConstants).m_interactiveYieldTimeout = false ∧
    (yieldTimerArmed true admissionExample (admissionExample.CheckReadyQueue specConstants)
        = true ↔
      (admissionExample.CheckReadyQueue specConstants).m_runQueue RunQueueReadyInteractive
        ≠ []) ∧
    callsSince admissionExample (admissionExample.CheckReadyQueue specConstants) =
      [Call.Associate 11, Call.RunActivity 11, Call.Associate 12, Call.RunActivity 12,
       Call.ArmTimeout 2, Call.Associate 1, Call.RunActivity 1] ∧
    armedSeconds (callsSince admissionExample (admissionExample.CheckReadyQueue specConstants))
      = [2] ∧
    (waitingExample.CheckReadyQueue specConstants).m_runQueue RunQueueReadyInteractive
      = [11] ∧
    callsSince waitingExample (waitingExample.CheckReadyQueue specConstants) = [] ∧
    yieldTimerArmed true waitingExample (waitingExample.CheckReadyQueue specConstants)
      = true ∧
    yieldTimerArmed false waitingExample (waitingExample.CheckReadyQueue specConstants)
      = false ∧
    armedAfter specConstants false (ActivityManager.new specConstants exampleHeap)
      [Op.InformActivityReady 10, Op.InformActivityReady 11, Op.InformActivityReady 12,
       Op.InformActivityReady 13] = true ∧
    armedAfter specConstants false (ActivityManager.new specConstants exampleHeap)
      [Op.InformActivityReady 10, Op.InformActivityReady 11, Op.InformActivityReady 12,
       Op.InformActivityReady 13, Op.InformActivityEnd 10] = false :=
  ⟨by decide, (yield_timer_iff_waiting specConstants admissionExample (by decide)).1,
    by decide, by decide, by decide, by decide,
    (yield_timer_iff_waiting specConstants admissionExample (by decide)).2.2.2.2.2.1 true
      (fun _ => rfl),
    by decide, by decide, by decide, by decide, by decide, by decide, by decide, by decide⟩

/-- C33: `InformActivityInitialized` takes the activity off every run-queue; when
the manager is enabled it puts it at the tail of scheduled and tells it to schedule
itself, and otherwise it puts it at the tail of initialized and makes no call.  With
the enable mask made of the bits EXTERNAL and UI, the manager is enabled exactly when
both bits are set. -/
theorem initialized_scheduled_iff_enabled (K : Constants) (s : ActivityManager)
    (act : ActivityPtr) (hmask : K.ENABLE_MASK = K.EXTERNAL_ENABLE ||| K.UI_ENABLE) :
    (IsEnabled K s = true ↔
      s.m_enabled &&& K.EXTERNAL_ENABLE = K.EXTERNAL_ENABLE ∧
        s.m_enabled &&& K.UI_ENABLE = K.UI_ENABLE) ∧
    (IsEnabled K s = true →
      (s.InformActivityInitialized K act).m_runQueue RunQueueScheduled =
        (s.m_runQueue RunQueueScheduled).filter (fun x => x != act) ++ [act] ∧
      (∀ q, q ≠ RunQueueScheduled →
        (s.InformActivityInitialized K act).m_runQueue q =
          (s.m_runQueue q).filter (fun x => x != act)) ∧
      (s.InformActivityInitialized K act).calls = s.calls ++ [Call.ScheduleActivity act]) ∧
    (IsEnabled K s = false →
      (s.InformActivityInitialized K act).m_runQueue RunQueueInitialized =
        (s.m_runQueue RunQueueInitialized).filter (fun x => x != act) ++ [act] ∧
      (∀ q, q ≠ RunQueueInitialized →
        (s.InformActivityInitialized K act).m_runQueue q =
          (s.m_runQueue q).filter (fun x => x != act)) ∧
      (s.InformActivityInitialized K act).calls = s.calls) := by
  refine ⟨?_, ?_, ?_⟩
  · unfold IsEnabled
    rw [beq_iff_eq, hmask]
    exact and_or_eq_iff _ _ _
  · intro h
    rw [informActivityInitialized_enabled K s act h]
    refine ⟨by simp, ?_, rfl⟩
    intro q hq
    simp [hq]
  · intro h
    rw [informActivityInitialized_not_enabled K s act h]
    refine ⟨by simp, ?_, rfl⟩
    intro q hq
    simp [hq]

/-- C33, witness: on the manager that was enabled with both bits, the activity 5 goes
from nowhere to the tail of scheduled and is told to schedule itself; on the manager
whose UI bit was cleared it goes to the tail of initialized and no call is made. -/
theorem initialized_scheduled_iff_enabled_witness :
    specConstants.ENABLE_MASK = specConstants.EXTERNAL_ENABLE ||| specConstants.UI_ENABLE ∧
    (IsEnabled specConstants parkedExample = true ↔
      parkedExample.m_enabled &&& specConstants.EXTERNAL_ENABLE = specConstants.EXTERNAL_ENABLE ∧
        parkedExample.m_enabled &&& specConstants.UI_ENABLE = specConstants.UI_ENABLE) ∧
    IsEnabled specConstants parkedExample = false ∧
    (parkedExample.InformActivityInitialized specConstants 3).m_runQueue
      RunQueueInitialized = [1, 2, 3] ∧
    (parkedExample.InformActivityInitialized specConstants 3).m_runQueue RunQueueScheduled = [] ∧
    ((parkedExample.Enable specConstants 2).InformActivityInitialized specConstants 5).m_runQueue
      RunQueueScheduled = [3, 1, 2, 5] ∧
    ((parkedExample.Enable specConstants 2).InformActivityInitialized specConstants 5).calls =
      (parkedExample.Enable specConstants 2).calls ++ [Call.ScheduleActivity 5] :=
  ⟨by decide,
    (initialized_scheduled_iff_enabled specConstants parkedExample 3 (by decide)).1,
    by decide, by decide, by decide, by decide, by decide⟩

/-- C37: with both concurrency levels finite, in every state that operations of the
manager lead to from the constructed manager the number of activities on background
and backgroundInteractive together is at most the larger of the two levels, and the
levels are those of the constructed manager. -/
theorem running_le_larger_level (K : Constants) (heap : ActivityPtr → Activity)
    (ops : List Op)
    (hlb : K.DefaultBackgroundConcurrencyLevel ≠ K.UnlimitedBackgroundConcurrency)
    (hli : K.DefaultBackgroundInteractiveConcurrencyLevel ≠ K.UnlimitedBackgroundConcurrency)
    (hfitb : K.DefaultBackgroundConcurrencyLevel < UINT_WIDTH)
    (hfiti : K.DefaultBackgroundInteractiveConcurrencyLevel < UINT_WIDTH) :
    ((run K heap ops).m_runQueue RunQueueBackground).length +
        ((run K heap ops).m_runQueue RunQueueBackgroundInteractive).length
      ≤ max (run K heap ops).m_backgroundConcurrencyLevel
          (run K heap ops).m_backgroundInteractiveConcurrencyLevel ∧
    (run K heap ops).m_backgroundConcurrencyLevel = K.DefaultBackgroundConcurrencyLevel ∧
    (run K heap ops).m_backgroundInteractiveConcurrencyLevel =
      K.DefaultBackgroundInteractiveConcurrencyLevel := by
  have h := bounded_run K heap hlb hli
    (max K.DefaultBackgroundConcurrencyLevel K.DefaultBackgroundInteractiveConcurrencyLevel)
    (le_max_left _ _) (le_max_right _ _) (max_lt hfitb hfiti) ops
  obtain ⟨_, h1, h2, h3⟩ := h
  rw [h1, h2]
  exact ⟨h3, rfl, rfl⟩

/-- C37, witness: with the levels 1 (background) and 3 (interactive), after three
user-initiated and two other activities became ready, one ended and the yield timeout
fired, three activities run, which is the larger level. -/
theorem running_le_larger_level_witness :
    specConstants.DefaultBackgroundConcurrencyLevel ≠
      specConstants.UnlimitedBackgroundConcurrency ∧
    specConstants.DefaultBackgroundInteractiveConcurrencyLevel ≠
      specConstants.UnlimitedBackgroundConcurrency ∧
    specConstants.DefaultBackgroundConcurrencyLevel < UINT_WIDTH ∧
    specConstants.DefaultBackgroundInteractiveConcurrencyLevel < UINT_WIDTH ∧
    ((run specConstants exampleHeap
        [Op.InformActivityReady 10, Op.InformActivityReady 1, Op.InformActivityReady 11,
         Op.InformActivityReady 2, Op.InformActivityReady 12, Op.InformActivityReady 13,
         Op.InformActivityEnd 10, Op.InteractiveYieldTimeout]).m_runQueue
          RunQueueBackground).length +
      ((run specConstants exampleHeap
        [Op.InformActivityReady 10, Op.InformActivityReady 1, Op.InformActivityReady 11,
         Op.InformActivityReady 2, Op.InformActivityReady 12, Op.InformActivityReady 13,
         Op.InformActivityEnd 10, Op.InteractiveYieldTimeout]).m_runQueue
          RunQueueBackgroundInteractive).length
      ≤ max (run specConstants exampleHeap
        [Op.InformActivityReady 10, Op.InformActivityReady 1, Op.InformActivityReady 11,
         Op.InformActivityReady 2, Op.InformActivityReady 12, Op.InformActivityReady 13,
         Op.InformActivityEnd 10, Op.InteractiveYieldTimeout]).m_backgroundConcurrencyLevel
        (run specConstants exampleHeap
        [Op.InformActivityReady 10, Op.InformActivityReady 1, Op.InformActivityReady 11,
         Op.InformActivityReady 2, Op.InformActivityReady 12, Op.InformActivityReady 13,
         Op.InformActivityEnd 10,
         Op.InteractiveYieldTimeout]).m_backgroundInteractiveConcurrencyLevel ∧
    (run specConstants exampleHeap
        [Op.InformActivityReady 10, Op.InformActivityReady 1, Op.InformActivityReady 11,
         Op.InformActivityReady 2, Op.InformActivityReady 12, Op.InformActivityReady 13,
         Op.InformActivityEnd 10, Op.InteractiveYieldTimeout]).m_runQueue
          RunQueueBackgroundInteractive = [11, 12, 13] ∧
    (run specConstants exampleHeap
        [Op.InformActivityReady 10, Op.InformActivityReady 1, Op.InformActivityReady 11,
         Op.InformActivityReady 2, Op.InformActivityReady 12, Op.InformActivityReady 13,
         Op.InformActivityEnd 10, Op.InteractiveYieldTimeout]).m_runQueue
          RunQueueBackground = [] :=
  ⟨by decide, by decide, by decide, by decide,
    (running_le_larger_level specConstants exampleHeap _ (by decide) (by decide) (by decide)
      (by decide)).1,
    by decide, by decide⟩

/-- C38, counterexample: with the levels 1 and 3 the activity 1 runs and the
activity 2 waits on ready; after `InformActivityNotReady` of the activity 1, and
likewise after `InformActivityInitialized` of it and after `InformActivityReady` of
it when it has become immediate, nothing runs on the background queues and the
activity 2 still waits on ready. -/
theorem not_ready_leaves_slot_counterexample :
    (run specConstants exampleHeap
      [Op.InformActivityReady 1, Op.InformActivityReady 2,
        Op.activityChanged 1 true false false,
        Op.InformActivityReady 1]).m_runQueue RunQueueReady = [2] ∧
    (run specConstants exampleHeap
      [Op.InformActivityReady 1, Op.InformActivityReady 2,
        Op.activityChanged 1 true false false, Op.InformActivityReady 1]).running = 0 ∧
    (run specConstants exampleHeap
      [Op.InformActivityReady 1, Op.InformActivityReady 2]).m_runQueue RunQueueBackground
      = [1] ∧
    (run specConstants exampleHeap
      [Op.InformActivityReady 1, Op.InformActivityReady 2,
        Op.InformActivityNotReady 1]).m_backgroundConcurrencyLevel = 1 ∧
    specConstants.UnlimitedBackgroundConcurrency = 0 ∧
    (run specConstants exampleHeap
      [Op.InformActivityReady 1, Op.InformActivityReady 2,
        Op.InformActivityNotReady 1]).m_runQueue RunQueueReady = [2] ∧
    (run specConstants exampleHeap
      [Op.InformActivityReady 1, Op.InformActivityReady 2,
        Op.InformActivityNotReady 1]).running = 0 ∧
    (run specConstants exampleHeap
      [Op.InformActivityReady 1, Op.InformActivityReady 2,
        Op.InformActivityInitialized 1]).m_runQueue RunQueueReady = [2] ∧
    (run specConstants exampleHeap
      [Op.InformActivityReady 1, Op.InformActivityReady 2,
        Op.InformActivityInitialized 1]).running = 0 ∧
    ¬ ((run specConstants exampleHeap
      [Op.InformActivityReady 1, Op.InformActivityReady 2,
        Op.InformActivityNotReady 1]).m_runQueue RunQueueReady ≠ [] →
      (run specConstants exampleHeap
        [Op.InformActivityReady 1, Op.InformActivityReady 2,
          Op.InformActivityNotReady 1]).m_backgroundConcurrencyLevel ≤
        ((run specConstants exampleHeap
          [Op.InformActivityReady 1, Op.InformActivityReady 2,
            Op.InformActivityNotReady 1]).m_runQueue RunQueueBackground).length +
        ((run specConstants exampleHeap
          [Op.InformActivityReady 1, Op.InformActivityReady 2,
            Op.InformActivityNotReady 1]).m_runQueue RunQueueBackgroundInteractive).length) := by
  decide

/-- C38 (amended): with finite levels, after `InformActivityReady` of an activity
that is not immediate, after `InformActivityEnd` and after `ReleaseActivity` no
activity waits on ready while fewer activities run than the background level allows,
and none waits on readyInteractive while fewer run than the interactive level allows.
`InformActivityInitialized`, `InformActivityNotReady` and `InformActivityReady` of an
immediate activity do not check the ready queues: after them this holds when it held
before and the activity was not on background or backgroundInteractive. -/
theorem work_conserving_after_check (K : Constants) (s : ActivityManager) (act : ActivityPtr)
    (hinv : RunQueueInv s)
    (hlb : s.m_backgroundConcurrencyLevel ≠ K.UnlimitedBackgroundConcurrency)
    (hli : s.m_backgroundInteractiveConcurrencyLevel ≠ K.UnlimitedBackgroundConcurrency)
    (hfit : s.running + (s.m_runQueue RunQueueReadyInteractive).length +
      (s.m_runQueue RunQueueReady).length + 1 < UINT_WIDTH) :
    ((s.heap act).immediate = false → WorkConserving (s.InformActivityReady K act)) ∧
    WorkConserving (s.InformActivityEnd K act) ∧
    WorkConserving (s.ReleaseActivity K act) ∧
    (WorkConserving s → act ∉ s.m_runQueue RunQueueBackground →
      act ∉ s.m_runQueue RunQueueBackgroundInteractive →
      WorkConserving (s.InformActivityInitialized K act) ∧
      WorkConserving (s.InformActivityNotReady act) ∧
      ((s.heap act).immediate = true → WorkConserving (s.InformActivityReady K act))) := by
  have key : ∀ t : ActivityManager, RunQueueInv t →
      t.m_backgroundConcurrencyLevel = s.m_backgroundConcurrencyLevel →
      t.m_backgroundInteractiveConcurrencyLevel = s.m_backgroundInteractiveConcurrencyLevel →
      t.running + (t.m_runQueue RunQueueReadyInteractive).length +
        (t.m_runQueue RunQueueReady).length < UINT_WIDTH →
      WorkConserving (t.CheckReadyQueue K) := by
    intro t h1 h2 h3 h4
    exact workConserving_checkReadyQueue K t h1 (by rw [h2]; exact hlb) (by rw [h3]; exact hli) h4
  refine ⟨?_, ?_, ?_, ?_⟩
  · intro himm
    unfold InformActivityReady
    simp only [evict_eq_unlink]
    have h0 : ((s.unlink act).heap act).immediate = false := himm
    rw [h0]
    simp only [Bool.false_eq_true, if_false]
    split
    · exact key _ (runQueueInv_relink s hinv _ act) rfl rfl
        (fit_enqueue s act _ (by decide) (by decide) hfit)
    · exact key _ (runQueueInv_relink s hinv _ act) rfl rfl
        (fit_enqueue s act _ (by decide) (by decide) hfit)
  · unfold InformActivityEnd
    simp only [evict_eq_unlink]
    exact key _ ((runQueueInv_congr _ _ rfl).2 (runQueueInv_relink s hinv _ act)) rfl rfl
      (fit_enqueue s act RunQueueEnded (by decide) (by decide) hfit)
  · unfold ReleaseActivity EvictQueue
    simp only [evict_eq_unlink]
    have h1 := runQueueInv_unlink s hinv act
    have h2 := fit_unlink s act hfit
    split
    · exact key _ h1 rfl rfl h2
    · split
      · exact key _ ((runQueueInv_congr _ _ rfl).2 h1) rfl rfl h2
      · exact key _ h1 rfl rfl h2
  · intro hwc hbg hbgi
    refine ⟨?_, ?_, ?_⟩
    · unfold InformActivityInitialized
      simp only [evict_eq_unlink]
      split
      · exact workConserving_congr ((s.unlink act).push_back RunQueueScheduled act) _ rfl rfl rfl
          (workConserving_relink s act RunQueueScheduled (by decide) (by decide) (by decide)
            (by decide) hbg hbgi hwc)
      · exact workConserving_relink s act _ (by decide) (by decide) (by decide) (by decide)
          hbg hbgi hwc
    · unfold InformActivityNotReady
      simp only [evict_eq_unlink]
      exact workConserving_relink s act _ (by decide) (by decide) (by decide) (by decide)
        hbg hbgi hwc
    · intro himm
      unfold InformActivityReady
      simp only [evict_eq_unlink]
      have h0 : ((s.unlink act).heap act).immediate = true := himm
      rw [h0]
      simp only [if_true]
      exact workConserving_congr ((s.unlink act).push_back RunQueueImmediate act) _ rfl rfl rfl
        (workConserving_relink s act RunQueueImmediate (by decide) (by decide) (by decide)
          (by decide) hbg hbgi hwc)

/-- C38, witness: with the levels 1 and 3 the activity 1 runs and the activity 2
waits on ready; after `InformActivityEnd` of the activity 1 the activity 2 runs and
nobody waits. -/
theorem work_conserving_after_check_witness :
    RunQueueInv (run specConstants exampleHeap
      [Op.InformActivityReady 1, Op.InformActivityReady 2]) ∧
    (run specConstants exampleHeap
      [Op.InformActivityReady 1, Op.InformActivityReady 2]).m_runQueue RunQueueReady = [2] ∧
    WorkConserving ((run specConstants exampleHeap
      [Op.InformActivityReady 1, Op.InformActivityReady 2]).InformActivityEnd specConstants 1) ∧
    ((run specConstants exampleHeap
      [Op.InformActivityReady 1, Op.InformActivityReady 2]).InformActivityEnd
        specConstants 1).m_runQueue RunQueueBackground = [2] ∧
    ((run specConstants exampleHeap
      [Op.InformActivityReady 1, Op.InformActivityReady 2]).InformActivityEnd
        specConstants 1).m_runQueue RunQueueReady = [] :=
  ⟨by decide, by decide,
    (work_conserving_after_check specConstants (run specConstants exampleHeap
      [Op.InformActivityReady 1, Op.InformActivityReady 2]) 1 (by decide) (by decide)
      (by decide) (by decide)).2.1,
    by decide, by decide⟩

/-- C39: under the sequential id policy, when the id table is ordered by id and some
id from the counter on (below 2^64) is not in it, the search loop of
`GetNewActivity()` ends within one pass per activity of the table and one more, and
any larger number of passes allowed gives the same result; the new activity has the
least id that is at or above the counter and not in the table, and the counter is
left at that id plus one in the arithmetic of `activityId_t`. -/
theorem getNewActivity_least_free (s : ActivityManager) (p : ActivityPtr) (init : Activity)
    (hs : IdTableSorted s)
    (hfree : ∃ f : Nat, f ≥ s.m_nextActivityId ∧ f < ID_WIDTH ∧ f ∉ s.idTableIds) :
    ∃ free s', s.GetNewActivity p init = some (p, s') ∧
      (∀ fuel, s.m_idTable.length < fuel → getNewActivityLoop p init fuel s = some (p, s')) ∧
      (s'.heap p).id = free ∧ s.m_nextActivityId ≤ free ∧ free ∉ s.idTableIds ∧
      (∀ j : Nat, s.m_nextActivityId ≤ j → j < free → j ∈ s.idTableIds) ∧
      s'.m_nextActivityId = (free + 1) % ID_WIDTH ∧
      (free + 1 < ID_WIDTH → s'.m_nextActivityId = free + 1) := by
  obtain ⟨free, h1, h2, h3, h4⟩ := exists_least_free s.idTableIds s.m_nextActivityId ID_WIDTH
    (by
      obtain ⟨f, a, b, c⟩ := hfree
      exact ⟨f, a, b, c⟩)
  have heq := getNewActivity_eq p init s hs free h2 h3 h1 (fun j a b => h4 j a b)
  refine ⟨free, _, heq, ?_, ?_, h1, h3, h4, rfl, ?_⟩
  · intro fuel hfuel
    have hlen := interval_length_le s.m_nextActivityId free s.idTableIds h4
    have hl : s.idTableIds.length = s.m_idTable.length := by
      unfold idTableIds
      rw [List.length_map]
    exact getNewActivityLoop_eq p init s hs free h2 h3 fuel s.m_nextActivityId h1 h4
      (by omega)
  · show (if p = p then { init with id := free } else s.heap p).id = free
    rw [if_pos rfl]
  · intro hlt
    show (free + 1) % ID_WIDTH = free + 1
    exact Nat.mod_eq_of_lt hlt

/-- C39, witness: the table holds the ids 1, 2 and 4 and the counter is 1; the loop
passes the ids 1 and 2, the new activity gets the id 3 and the counter is left at
4. -/
theorem getNewActivity_least_free_witness :
    IdTableSorted registryExample ∧ registryExample.m_nextActivityId = 1 ∧
    registryExample.idTableIds = [1, 2, 4] ∧
    (∃ free s', registryExample.GetNewActivity 100 freshActivity = some (100, s') ∧
      (∀ fuel, registryExample.m_idTable.length < fuel →
        getNewActivityLoop 100 freshActivity fuel registryExample = some (100, s')) ∧
      (s'.heap 100).id = free ∧ registryExample.m_nextActivityId ≤ free ∧
      free ∉ registryExample.idTableIds ∧
      (∀ j : Nat, registryExample.m_nextActivityId ≤ j → j < free →
        j ∈ registryExample.idTableIds) ∧
      s'.m_nextActivityId = (free + 1) % ID_WIDTH ∧
      (free + 1 < ID_WIDTH → s'.m_nextActivityId = free + 1)) ∧
    (registryExample.GetNewActivity 100 freshActivity).map (fun r => (r.2.heap 100).id)
      = some 3 ∧
    (registryExample.GetNewActivity 100 freshActivity).map (fun r => r.2.m_nextActivityId)
      = some 4 :=
  have hs : IdTableSorted registryExample := by
    unfold IdTableSorted
    decide
  ⟨hs, by decide, by decide,
    getNewActivity_least_free registryExample 100 freshActivity hs
      ⟨3, by decide, by decide, by decide⟩,
    by rfl, by rfl⟩

/-- C35: when the id table and the map of live activities are both in the order of
the shared pointers (`ptrLess`, a strict total order), the vector `leaked` of
`InfoToJson` holds exactly the activities of the id table that are not in the map, in
table order; `leakedActivities` is the array of their identities, and when there is
none `InfoToJson` does not put the field.  Both tables are kept in the order of the
ids, so the hypothesis asks that the shared pointers are ordered as the ids are. -/
theorem leaked_exact_when_pointer_ordered (ptrLess : ActivityPtr → ActivityPtr → Bool)
    (identity : ActivityPtr → MojObject) (s : ActivityManager) (rep : MojObject)
    (hirr : ∀ a, ptrLess a a = false)
    (htrans : ∀ a b c, ptrLess a b = true → ptrLess b c = true → ptrLess a c = true)
    (htri : ∀ a b, ptrLess a b = false → ptrLess b a = false → a = b)
    (hid : s.m_idTable.Pairwise (fun a b => ptrLess a b = true))
    (hmap : (s.m_activities.map Prod.snd).Pairwise (fun a b => ptrLess a b = true)) :
    leaked ptrLess s =
      s.m_idTable.filter (fun a => decide (a ∉ s.m_activities.map Prod.snd)) ∧
    (∀ a, a ∈ leaked ptrLess s ↔ a ∈ s.m_idTable ∧ a ∉ s.m_activities.map Prod.snd) ∧
    (leaked ptrLess s ≠ [] →
      (InfoToJson ptrLess identity s rep).get "leakedActivities" =
        some (MojObject.array ((leaked ptrLess s).map identity))) ∧
    (leaked ptrLess s = [] →
      (InfoToJson ptrLess identity s rep).get "leakedActivities" =
        rep.get "leakedActivities") := by
  have h := set_difference_sorted ptrLess hirr htrans htri s.m_idTable
    (s.m_activities.map Prod.snd) hid hmap
  have hl : leaked ptrLess s =
      s.m_idTable.filter (fun a => decide (a ∉ s.m_activities.map Prod.snd)) := h
  refine ⟨hl, ?_, (infoToJson_leakedActivities ptrLess identity s rep).1,
    (infoToJson_leakedActivities ptrLess identity s rep).2⟩
  intro a
  rw [hl, List.mem_filter, decide_eq_true_iff]

/-- C35, witness: with the activities allocated at addresses in the order of their
ids, the leaked activity (id 1, address 100) is reported and the live one is not.
With the activity of the id 1 at the address 200 and the activity of the id 2 at the
lower address 100, of which only the second is live, `InfoToJson` reports both as
leaked. -/
theorem leaked_exact_when_pointer_ordered_witness :
    leakOrdered.m_idTable = [100, 200] ∧ leakOrdered.m_activities = [(2, 200)] ∧
    leaked addressLess leakOrdered = [100] ∧
    (InfoToJson addressLess addressJson leakOrdered MojObject.undefined).get "leakedActivities"
      = some (MojObject.array [MojObject.int 100]) ∧
    leakExample.m_idTable = [200, 100] ∧ leakExample.idTableIds = [1, 2] ∧
    leakExample.m_activities = [(2, 100)] ∧
    leaked addressLess leakExample = [200, 100] ∧
    (InfoToJson addressLess addressJson leakExample MojObject.undefined).get "leakedActivities"
      = some (MojObject.array [MojObject.int 200, MojObject.int 100]) ∧
    ¬ (∀ a, a ∈ leaked addressLess leakExample ↔
      a ∈ leakExample.m_idTable ∧ a ∉ leakExample.m_activities.map Prod.snd) :=
  have hirr : ∀ a, addressLess a a = false := fun a => by simp [addressLess]
  have htrans : ∀ a b c, addressLess a b = true → addressLess b c = true →
      addressLess a c = true := by
    intro a b c
    simp only [addressLess, decide_eq_true_iff]
    unfold ActivityPtr
    omega
  have htri : ∀ a b, addressLess a b = false → addressLess b a = false → a = b := by
    intro a b
    simp only [addressLess, decide_eq_false_iff_not]
    unfold ActivityPtr
    omega
  ⟨by decide, by decide,
    (leaked_exact_when_pointer_ordered addressLess addressJson leakOrdered MojObject.undefined
      hirr htrans htri (by decide) (by decide)).1.trans (by decide),
    rfl, by decide, by decide, by decide, by decide, rfl,
    fun h => absurd ((h 100).1 (by decide)).2 (by decide)⟩

end ActivityManager

/-! ## Lemmas on the where-matcher -/

namespace WhereMatcher

open MatchMode MatchResult

theorem loopResults_and (rs : List (Checked MatchResult)) :
    loopResults AndMode rs = Checked.ok Matched ↔ ∀ r ∈ rs, r = Checked.ok Matched := by
  induction rs with
  | nil => simp [loopResults]
  | cons r rs ih =>
    cases r with
    | ok result =>
      cases result <;> simp [loopResults, ih]
    | thrown what => simp [loopResults]
    | outOfFuel => simp [loopResults]

theorem loopResults_or_imp (rs : List (Checked MatchResult)) :
    loopResults OrMode rs = Checked.ok Matched → Checked.ok Matched ∈ rs := by
  induction rs with
  | nil => simp [loopResults]
  | cons r rs ih =>
    cases r with
    | ok result =>
      cases result <;> simp [loopResults] <;> exact ih
    | thrown what => simp [loopResults]
    | outOfFuel => simp [loopResults]

theorem loopResults_or (rs : List (Checked MatchResult))
    (hret : ∀ r ∈ rs, ∃ v, r = Checked.ok v) :
    loopResults OrMode rs = Checked.ok Matched ↔ Checked.ok Matched ∈ rs := by
  induction rs with
  | nil => simp [loopResults]
  | cons r rs ih =>
    have ih2 := ih (fun r hr => hret r (List.mem_cons_of_mem _ hr))
    obtain ⟨v, hv⟩ := hret r (List.mem_cons_self _ _)
    subst hv
    cases v <;> simp [loopResults, ih2]

theorem loopResults_returns (mode : MatchMode) (rs : List (Checked MatchResult))
    (hret : ∀ r ∈ rs, ∃ v, r = Checked.ok v) :
    loopResults mode rs = Checked.ok Matched ∨ loopResults mode rs = Checked.ok NotMatched := by
  induction rs with
  | nil => cases mode <;> simp [loopResults]
  | cons r rs ih =>
    have ih2 := ih (fun r hr => hret r (List.mem_cons_of_mem _ hr))
    obtain ⟨v, hv⟩ := hret r (List.mem_cons_self _ _)
    subst hv
    cases mode <;> cases v <;> simp [loopResults, ih2]

theorem descend_walk (E : MojEnv) (rest : List MojObject) (pre : List String) :
    ∀ (response onion : MojObject), pre.foldlM MojObject.get response = some onion →
      descend E (pre.map MojObject.str ++ rest) response = descend E rest onion := by
  induction pre with
  | nil =>
    intro response onion h
    simp only [List.foldlM, pure, Option.some.injEq] at h
    subst h
    rfl
  | cons k pre ih =>
    intro response onion h
    rw [List.foldlM_cons] at h
    cases hg : response.get k with
    | none => rw [hg] at h; exact absurd h (by simp)
    | some next =>
      rw [hg] at h
      have h2 := ih next onion h
      cases response with
      | object kv =>
        simp only [List.map_cons, List.cons_append, descend, MojObject.stringValue, hg]
        exact h2
      | _ => exact absurd hg (by simp [MojObject.get])

theorem descend_array (E : MojEnv) (rest xs : List MojObject) (h : rest ≠ []) :
    descend E rest (MojObject.array xs) = Descent.atArray rest xs := by
  cases rest with
  | nil => exact absurd rfl h
  | cons k ks => rfl

theorem descend_absent (E : MojEnv) (k : String) (rest : List MojObject) (onion : MojObject)
    (harr : ∀ ys, onion ≠ MojObject.array ys) (hget : onion.get k = none) :
    descend E (MojObject.str k :: rest) onion = Descent.noProperty := by
  cases onion with
  | array ys => exact absurd rfl (harr ys)
  | object kv => simp only [descend, MojObject.stringValue, hget]
  | _ => rfl

/-- The evaluation of a comparison clause is the evaluation of `checkProperty` on
its three entries. -/
theorem checkClause_comparison (E : MojEnv) (kv : List (String × MojObject))
    (prop op val response : MojObject) (mode : MatchMode) (fuel : Nat)
    (hand : (MojObject.object kv).contains "and" = false)
    (hor : (MojObject.object kv).contains "or" = false)
    (hprop : (MojObject.object kv).get "prop" = some prop)
    (hop : (MojObject.object kv).get "op" = some op)
    (hval : (MojObject.object kv).get "val" = some val) :
    checkClause E (fuel + 1) (MojObject.object kv) response mode =
      checkProperty E fuel prop response op val mode := by
  simp only [checkClause, hand, hor, hprop, hop, hval, Bool.false_eq_true, if_false]

theorem contains_iff (c : MojObject) (key : String) :
    c.contains key = true ↔ ∃ v, c.get key = some v := by
  unfold MojObject.contains
  cases c.get key <;> simp

theorem object_of_get (c : MojObject) (key : String) (v : MojObject)
    (h : c.get key = some v) : ∃ kv, c = MojObject.object kv := by
  cases c with
  | object kv => exact ⟨kv, rfl⟩
  | _ => simp [MojObject.get] at h

theorem size_entries_find (kv : List (String × MojObject)) (p : String × MojObject → Bool)
    (e : String × MojObject) (h : kv.find? p = some e) :
    MojObject.size e.2 ≤ MojObject.sizeEntries kv := by
  induction kv with
  | nil => simp at h
  | cons a kv ih =>
    obtain ⟨k, x⟩ := a
    rw [List.find?_cons] at h
    simp only [MojObject.sizeEntries]
    split at h
    · rw [Option.some.injEq] at h
      subst h
      exact Nat.le_add_right _ _
    · exact le_trans (ih h) (Nat.le_add_left _ _)

theorem size_get (c : MojObject) (key : String) (v : MojObject) (h : c.get key = some v) :
    MojObject.size v < MojObject.size c := by
  cases c with
  | object kv =>
    simp only [MojObject.get, Option.map_eq_some'] at h
    obtain ⟨e, he, hv⟩ := h
    subst hv
    simp only [MojObject.size]
    exact Nat.lt_succ_of_le (size_entries_find kv _ e he)
  | _ => simp [MojObject.get] at h

theorem size_mem (xs : List MojObject) (c : MojObject) (h : c ∈ xs) :
    MojObject.size c < MojObject.size (MojObject.array xs) := by
  simp only [MojObject.size]
  apply Nat.lt_succ_of_le
  induction xs with
  | nil => exact absurd h (List.not_mem_nil _)
  | cons x xs ih =>
    simp only [MojObject.sizeList]
    rcases List.mem_cons.1 h with h1 | h1
    · subst h1
      exact Nat.le_add_right _ _
    · exact le_trans (ih h1) (Nat.le_add_left _ _)

theorem size_pos (c : MojObject) : 0 < MojObject.size c := by
  cases c <;> simp [MojObject.size]

/-- The grammar of a clause, case by case on which of `and`, `or` and `prop` the
clause contains. -/
theorem grammarClause_iff (c : MojObject) :
    GrammarClause c ↔
      (c.contains "and" = true ∧ c.contains "or" = false ∧ c.contains "prop" = false ∧
        GrammarClauses ((c.get "and").getD MojObject.undefined)) ∨
      (c.contains "and" = false ∧ c.contains "or" = true ∧ c.contains "prop" = false ∧
        GrammarClauses ((c.get "or").getD MojObject.undefined)) ∨
      (c.contains "and" = false ∧ c.contains "or" = false ∧ c.contains "prop" = true ∧
        GrammarKey ((c.get "prop").getD MojObject.undefined) ∧ c.contains "val" = true ∧
        ∃ op, c.get "op" = some (MojObject.str op) ∧ op ∈ grammarOps ∧
          (op = "where" → GrammarClauses ((c.get "val").getD MojObject.undefined))) := by
  constructor
  · intro h
    cases h with
    | and kv clauses hand hor hprop hg =>
      left
      refine ⟨(contains_iff _ _).2 ⟨_, hand⟩, hor, hprop, ?_⟩
      rw [hand]
      exact hg
    | or kv clauses hand hor hprop hg =>
      right; left
      refine ⟨hand, (contains_iff _ _).2 ⟨_, hor⟩, hprop, ?_⟩
      rw [hor]
      exact hg
    | prop kv key val op hand hor hprop hkey hval hop hmem hwhere =>
      right; right
      refine ⟨hand, hor, (contains_iff _ _).2 ⟨_, hprop⟩, ?_, (contains_iff _ _).2 ⟨_, hval⟩,
        op, hop, hmem, ?_⟩
      · rw [hprop]
        exact hkey
      · rw [hval]
        exact hwhere
  · rintro (⟨hand, hor, hprop, hg⟩ | ⟨hand, hor, hprop, hg⟩ |
      ⟨hand, hor, hprop, hkey, hval, op, hop, hmem, hwhere⟩)
    · obtain ⟨v, hv⟩ := (contains_iff _ _).1 hand
      obtain ⟨kv, hkv⟩ := object_of_get c _ v hv
      subst hkv
      rw [hv] at hg
      exact GrammarClause.and kv v hv hor hprop hg
    · obtain ⟨v, hv⟩ := (contains_iff _ _).1 hor
      obtain ⟨kv, hkv⟩ := object_of_get c _ v hv
      subst hkv
      rw [hv] at hg
      exact GrammarClause.or kv v hand hv hprop hg
    · obtain ⟨key, hk⟩ := (contains_iff _ _).1 hprop
      obtain ⟨val, hvl⟩ := (contains_iff _ _).1 hval
      obtain ⟨kv, hkv⟩ := object_of_get c _ key hk
      subst hkv
      rw [hk] at hkey
      rw [hvl] at hwhere
      exact GrammarClause.prop kv key val op hand hor hk hkey hvl hop hmem hwhere

theorem grammarClauses_iff (w : MojObject) :
    GrammarClauses w ↔
      ((∃ kv, w = MojObject.object kv) ∧ GrammarClause w) ∨
      ∃ xs, w = MojObject.array xs ∧ ∀ c, c ∈ xs → GrammarClause c := by
  constructor
  · intro h
    cases h with
    | single kv h => exact Or.inl ⟨⟨kv, rfl⟩, h⟩
    | many xs h => exact Or.inr ⟨xs, rfl, h⟩
  · rintro (⟨⟨kv, hkv⟩, h⟩ | ⟨xs, hxs, h⟩)
    · subst hkv
      exact GrammarClauses.single kv h
    · subst hxs
      exact GrammarClauses.many xs h

theorem grammarClause_object (c : MojObject) (h : GrammarClause c) :
    ∃ kv, c = MojObject.object kv := by
  cases h with
  | and kv _ _ _ _ _ => exact ⟨kv, rfl⟩
  | or kv _ _ _ _ _ => exact ⟨kv, rfl⟩
  | prop kv _ _ _ _ _ _ _ _ _ _ _ => exact ⟨kv, rfl⟩

theorem decides_congr (r : Checked Unit) (G G1 : Prop) (en en1 : Prop)
    (h : r.Decides G en) (hG : G ↔ G1) (hen : en1 → en) : r.Decides G1 en1 :=
  ⟨fun hr => hG.1 (h.1 hr), fun what hr hg => h.2.1 what hr (hG.2 hg), fun he => h.2.2 (hen he)⟩

theorem decides_ok (G en : Prop) (h : G) : (Checked.ok ()).Decides G en :=
  ⟨fun _ => h, fun _ hr => by simp at hr, fun _ => by simp⟩

theorem decides_thrown (what : String) (G en : Prop) (h : ¬ G) :
    (Checked.thrown what : Checked Unit).Decides G en :=
  ⟨fun hr => by simp at hr, fun _ _ => h, fun _ => by simp⟩

theorem decides_bind (r1 r2 : Checked Unit) (G1 G2 en1 en2 : Prop)
    (h1 : r1.Decides G1 en1) (h2 : r2.Decides G2 en2) :
    (r1.bind (fun _ => r2)).Decides (G1 ∧ G2) (en1 ∧ en2) := by
  cases r1 with
  | ok u =>
    simp only [Checked.bind]
    exact ⟨fun hr => ⟨h1.1 rfl, h2.1 hr⟩, fun what hr hg => h2.2.1 what hr hg.2,
      fun he => h2.2.2 he.2⟩
  | thrown what =>
    simp only [Checked.bind]
    exact ⟨fun hr => by simp at hr, fun w _ hg => h1.2.1 what rfl hg.1, fun _ => by simp⟩
  | outOfFuel =>
    simp only [Checked.bind]
    exact ⟨fun hr => by simp at hr, fun w hr => by simp at hr, fun he => absurd rfl (h1.2.2 he.1)⟩

theorem decides_firstThrown (f : MojObject → Checked Unit) (G en : MojObject → Prop)
    (xs : List MojObject) (h : ∀ c, c ∈ xs → (f c).Decides (G c) (en c)) :
    (firstThrown (xs.map f)).Decides (∀ c, c ∈ xs → G c) (∀ c, c ∈ xs → en c) := by
  induction xs with
  | nil => exact decides_ok _ _ (fun c hc => absurd hc (List.not_mem_nil _))
  | cons x xs ih =>
    have hx := h x (List.mem_cons_self _ _)
    have ih2 := ih (fun c hc => h c (List.mem_cons_of_mem _ hc))
    simp only [List.map_cons]
    cases hfx : f x with
    | ok u =>
      rw [hfx] at hx
      simp only [firstThrown]
      refine ⟨fun hr c hc => ?_, fun what hr hg => ?_, fun he => ?_⟩
      · rcases List.mem_cons.1 hc with h1 | h1
        · rw [h1]
          exact hx.1 rfl
        · exact ih2.1 hr c h1
      · exact ih2.2.1 what hr (fun c hc => hg c (List.mem_cons_of_mem _ hc))
      · exact ih2.2.2 (fun c hc => he c (List.mem_cons_of_mem _ hc))
    | thrown what =>
      rw [hfx] at hx
      simp only [firstThrown]
      exact ⟨fun hr => by simp at hr,
        fun _ _ hg => hx.2.1 what rfl (hg x (List.mem_cons_self _ _)), fun _ => by simp⟩
    | outOfFuel =>
      rw [hfx] at hx
      simp only [firstThrown]
      exact ⟨fun hr => by simp at hr, fun w hr => by simp at hr,
        fun he => absurd rfl (hx.2.2 (he x (List.mem_cons_self _ _)))⟩

theorem decides_validateKey (key : MojObject) (en : Prop) :
    (validateKey key).Decides (GrammarKey key) en := by
  cases key with
  | str s => exact decides_ok _ _ trivial
  | array xs =>
    simp only [validateKey]
    have hall : (xs.all (fun keyObj => match keyObj with
        | MojObject.str _ => true
        | _ => false)) = true ↔ GrammarKey (MojObject.array xs) := by
      simp only [List.all_eq_true, GrammarKey]
      constructor
      · intro h k hk
        have := h k hk
        cases k with
        | str s => exact ⟨s, rfl⟩
        | _ => simp at this
      · intro h k hk
        obtain ⟨s, hs⟩ := h k hk
        subst hs
        rfl
    split
    · rename_i h
      exact decides_ok _ _ (hall.1 h)
    · rename_i h
      exact decides_thrown _ _ _ (fun hg => h (hall.2 hg))
  | undefined => exact decides_thrown _ _ _ (fun h => h)
  | null => exact decides_thrown _ _ _ (fun h => h)
  | bool _ => exact decides_thrown _ _ _ (fun h => h)
  | int _ => exact decides_thrown _ _ _ (fun h => h)
  | decimal _ => exact decides_thrown _ _ _ (fun h => h)
  | object _ => exact decides_thrown _ _ _ (fun h => h)

theorem decides_validateOp_step (E : MojEnv) (fuel : Nat)
    (ih : ∀ w, (validateClauses E fuel w).Decides (GrammarClauses w)
      (3 * MojObject.size w ≤ fuel)) (op val : MojObject) :
    (validateOp E (fuel + 1) op val).Decides
      (∃ s, op = MojObject.str s ∧ s ∈ grammarOps ∧ (s = "where" → GrammarClauses val))
      (3 * MojObject.size val + 1 ≤ fuel + 1) := by
  cases op with
  | str s =>
    simp only [validateOp, MojObject.stringValue]
    have hcond : (s ≠ "<" ∧ s ≠ "<=" ∧ s ≠ "=" ∧ s ≠ ">=" ∧ s ≠ ">" ∧ s ≠ "!=" ∧ s ≠ "where") ↔
        s ∉ grammarOps := by
      simp only [grammarOps, List.mem_cons, List.mem_singleton, List.not_mem_nil, or_false,
        not_or, ne_eq]
      tauto
    split
    · rename_i h
      apply decides_thrown
      rintro ⟨s1, hs1, hmem, _⟩
      rw [MojObject.str.injEq] at hs1
      subst hs1
      exact hcond.1 h hmem
    · rename_i h
      have hmem : s ∈ grammarOps := by
        by_contra hn
        exact h (hcond.2 hn)
      split
      · rename_i hw
        refine decides_congr _ _ _ _ _ (ih val) ?_ (fun he => by omega)
        constructor
        · intro hg
          exact ⟨s, rfl, hmem, fun _ => hg⟩
        · rintro ⟨s1, hs1, _, hg⟩
          rw [MojObject.str.injEq] at hs1
          subst hs1
          exact hg hw
      · rename_i hw
        exact decides_ok _ _ ⟨s, rfl, hmem, fun h1 => absurd h1 hw⟩
  | undefined => exact decides_thrown _ _ _ (by rintro ⟨s, hs, _⟩; cases hs)
  | null => exact decides_thrown _ _ _ (by rintro ⟨s, hs, _⟩; cases hs)
  | bool _ => exact decides_thrown _ _ _ (by rintro ⟨s, hs, _⟩; cases hs)
  | int _ => exact decides_thrown _ _ _ (by rintro ⟨s, hs, _⟩; cases hs)
  | decimal _ => exact decides_thrown _ _ _ (by rintro ⟨s, hs, _⟩; cases hs)
  | array _ => exact decides_thrown _ _ _ (by rintro ⟨s, hs, _⟩; cases hs)
  | object _ => exact decides_thrown _ _ _ (by rintro ⟨s, hs, _⟩; cases hs)

theorem size_getD (c : MojObject) (key : String) (h : c.contains key = true) :
    MojObject.size ((c.get key).getD MojObject.undefined) < MojObject.size c := by
  obtain ⟨v, hv⟩ := (contains_iff c key).1 h
  rw [hv]
  exact size_get c key v hv

theorem decides_validateClause_step (E : MojEnv) (fuel : Nat)
    (ih1 : ∀ w, (validateClauses E fuel w).Decides (GrammarClauses w)
      (3 * MojObject.size w ≤ fuel))
    (ih3 : ∀ op val, (validateOp E fuel op val).Decides
      (∃ s, op = MojObject.str s ∧ s ∈ grammarOps ∧ (s = "where" → GrammarClauses val))
      (3 * MojObject.size val + 1 ≤ fuel)) (c : MojObject) :
    (validateClause E (fuel + 1) c).Decides (GrammarClause c)
      (3 * MojObject.size c ≤ fuel + 1 + 1) := by
  have hb1 : (if c.contains "and" then
        validateClauses E fuel ((c.get "and").getD MojObject.undefined)
      else Checked.ok ()).Decides
      (c.contains "and" = true → GrammarClauses ((c.get "and").getD MojObject.undefined))
      (3 * MojObject.size c ≤ fuel + 1 + 1) := by
    split
    · rename_i h
      refine decides_congr _ _ _ _ _ (ih1 _) ⟨fun hg _ => hg, fun hg => hg h⟩ ?_
      intro he
      have := size_getD c "and" h
      omega
    · rename_i h
      exact decides_ok _ _ (fun h1 => absurd h1 h)
  have hb2 : (if c.contains "or" then
        if c.contains "and" then Checked.thrown onlyOneOf
        else validateClauses E fuel ((c.get "or").getD MojObject.undefined)
      else Checked.ok ()).Decides
      (c.contains "or" = true → c.contains "and" = false ∧
        GrammarClauses ((c.get "or").getD MojObject.undefined))
      (3 * MojObject.size c ≤ fuel + 1 + 1) := by
    split
    · rename_i h
      split
      · rename_i h2
        exact decides_thrown _ _ _ (fun hg => by
          have h3 := (hg h).1
          rw [h2] at h3
          exact absurd h3 (by simp))
      · rename_i h2
        refine decides_congr _ _ _ _ _ (ih1 _)
          ⟨fun hg _ => ⟨by simpa using h2, hg⟩, fun hg => (hg h).2⟩ ?_
        intro he
        have := size_getD c "or" h
        omega
    · rename_i h
      exact decides_ok _ _ (fun h1 => absurd h1 h)
  have hb4 : (if !c.contains "val" then
        (Checked.thrown "Each where clause must contain a value to test against" : Checked Unit)
      else if !c.contains "op" then
        Checked.thrown "Each where clause must contain a test operation to perform"
      else
        validateOp E fuel ((c.get "op").getD MojObject.undefined)
          ((c.get "val").getD MojObject.undefined)).Decides
      (c.contains "val" = true ∧ ∃ op, c.get "op" = some (MojObject.str op) ∧ op ∈ grammarOps ∧
          (op = "where" → GrammarClauses ((c.get "val").getD MojObject.undefined)))
      (3 * MojObject.size c ≤ fuel + 1 + 1) := by
    split
    · rename_i h
      exact decides_thrown _ _ _ (fun hg => by simp [hg.1] at h)
    · rename_i h
      have hval : c.contains "val" = true := by simpa using h
      split
      · rename_i h2
        apply decides_thrown
        rintro ⟨_, op, hop, _⟩
        have : c.contains "op" = true := (contains_iff _ _).2 ⟨_, hop⟩
        simp [this] at h2
      · rename_i h2
        have hopc : c.contains "op" = true := by simpa using h2
        obtain ⟨opv, hopv⟩ := (contains_iff _ _).1 hopc
        refine decides_congr _ _ _ _ _ (ih3 _ _) ?_ ?_
        · rw [hopv]
          simp only [Option.getD_some]
          constructor
          · rintro ⟨s, hs, hmem, hw⟩
            exact ⟨hval, s, by rw [hs], hmem, hw⟩
          · rintro ⟨_, s, hs, hmem, hw⟩
            rw [Option.some.injEq] at hs
            exact ⟨s, hs, hmem, hw⟩
        · intro he
          have := size_getD c "val" hval
          omega
  have hb3 : (if !c.contains "prop" then
        if !(c.contains "and" || c.contains "or") then
          (Checked.thrown
            "Each where clause must contain \"or\", \"and\", or a \"prop\"erty to compare against" :
            Checked Unit)
        else Checked.ok ()
      else if (c.contains "and" || c.contains "or") then Checked.thrown onlyOneOf
      else
        (validateKey ((c.get "prop").getD MojObject.undefined)).bind (fun _ =>
        if !c.contains "val" then
          Checked.thrown "Each where clause must contain a value to test against"
        else if !c.contains "op" then
          Checked.thrown "Each where clause must contain a test operation to perform"
        else
          validateOp E fuel ((c.get "op").getD MojObject.undefined)
            ((c.get "val").getD MojObject.undefined))).Decides
      ((c.contains "prop" = false ∧ (c.contains "and" = true ∨ c.contains "or" = true)) ∨
        (c.contains "prop" = true ∧ c.contains "and" = false ∧ c.contains "or" = false ∧
          GrammarKey ((c.get "prop").getD MojObject.undefined) ∧ c.contains "val" = true ∧
          ∃ op, c.get "op" = some (MojObject.str op) ∧ op ∈ grammarOps ∧
            (op = "where" → GrammarClauses ((c.get "val").getD MojObject.undefined))))
      (3 * MojObject.size c ≤ fuel + 1 + 1) := by
    cases hP : c.contains "prop" <;> cases hA : c.contains "and" <;> cases hO : c.contains "or"
    · exact decides_thrown _ _ _ (by simp)
    · exact decides_ok _ _ (by simp)
    · exact decides_ok _ _ (by simp)
    · exact decides_ok _ _ (by simp)
    · simp only [Bool.not_true, Bool.false_eq_true, if_false, Bool.or_self]
      refine decides_congr _ _ _ _ _
        (decides_bind _ _ _ _ _ _ (decides_validateKey _ (3 * MojObject.size c ≤ fuel + 1 + 1))
          hb4) ?_ (fun he => ⟨he, he⟩)
      simp
    · exact decides_thrown _ _ _ (by simp)
    · exact decides_thrown _ _ _ (by simp)
    · exact decides_thrown _ _ _ (by simp)
  have hall := decides_bind _ _ _ _ _ _ hb1 (decides_bind _ _ _ _ _ _ hb2 hb3)
  have hiff : ((c.contains "and" = true →
        GrammarClauses ((c.get "and").getD MojObject.undefined)) ∧
      (c.contains "or" = true → c.contains "and" = false ∧
        GrammarClauses ((c.get "or").getD MojObject.undefined)) ∧
      ((c.contains "prop" = false ∧ (c.contains "and" = true ∨ c.contains "or" = true)) ∨
        (c.contains "prop" = true ∧ c.contains "and" = false ∧ c.contains "or" = false ∧
          GrammarKey ((c.get "prop").getD MojObject.undefined) ∧ c.contains "val" = true ∧
          ∃ op, c.get "op" = some (MojObject.str op) ∧ op ∈ grammarOps ∧
            (op = "where" → GrammarClauses ((c.get "val").getD MojObject.undefined))))) ↔
      GrammarClause c := by
    rw [grammarClause_iff]
    cases hP : c.contains "prop" <;> cases hA : c.contains "and" <;>
      cases hO : c.contains "or" <;> simp
  have key := decides_congr _ _ (GrammarClause c) _ (3 * MojObject.size c ≤ fuel + 1 + 1) hall
    hiff (fun he => ⟨he, he, he⟩)
  unfold validateClause
  exact key

theorem decides_validateClauses_step (E : MojEnv) (fuel : Nat)
    (ih2 : ∀ c, (validateClause E fuel c).Decides (GrammarClause c)
      (3 * MojObject.size c ≤ fuel + 1)) (w : MojObject) :
    (validateClauses E (fuel + 1) w).Decides (GrammarClauses w)
      (3 * MojObject.size w ≤ fuel + 1) := by
  have hnot : ∀ w : MojObject, (∀ kv, w ≠ MojObject.object kv) → (∀ xs, w ≠ MojObject.array xs) →
      ¬ GrammarClauses w := by
    intro w h1 h2 hg
    cases hg with
    | single kv _ => exact h1 kv rfl
    | many xs _ => exact h2 xs rfl
  cases w with
  | object kv =>
    simp only [validateClauses]
    refine decides_congr _ _ _ _ _ (ih2 _) ?_ (fun he => he)
    rw [grammarClauses_iff]
    constructor
    · intro h
      exact Or.inl ⟨⟨kv, rfl⟩, h⟩
    · rintro (⟨_, h⟩ | ⟨xs, hxs, _⟩)
      · exact h
      · cases hxs
  | array xs =>
    simp only [validateClauses]
    have helem : ∀ c, c ∈ xs → (match c with
        | MojObject.object _ => validateClause E fuel c
        | _ => Checked.thrown "where statement array must consist of valid clauses").Decides
        (GrammarClause c) (3 * MojObject.size c ≤ fuel + 1) := by
      intro c _
      cases c with
      | object kv => exact ih2 _
      | undefined => exact decides_thrown _ _ _ (fun h => by cases h)
      | null => exact decides_thrown _ _ _ (fun h => by cases h)
      | bool _ => exact decides_thrown _ _ _ (fun h => by cases h)
      | int _ => exact decides_thrown _ _ _ (fun h => by cases h)
      | decimal _ => exact decides_thrown _ _ _ (fun h => by cases h)
      | str _ => exact decides_thrown _ _ _ (fun h => by cases h)
      | array _ => exact decides_thrown _ _ _ (fun h => by cases h)
    refine decides_congr _ _ _ _ _ (decides_firstThrown _ _ _ xs helem) ?_ ?_
    · rw [grammarClauses_iff]
      constructor
      · intro h
        exact Or.inr ⟨xs, rfl, h⟩
      · rintro (⟨⟨kv, hkv⟩, _⟩ | ⟨ys, hys, h⟩)
        · cases hkv
        · rw [MojObject.array.injEq] at hys
          subst hys
          exact h
    · intro he c hc
      have := size_mem xs c hc
      omega
  | undefined => exact decides_thrown _ _ _ (hnot _ (fun _ h => by cases h) (fun _ h => by cases h))
  | null => exact decides_thrown _ _ _ (hnot _ (fun _ h => by cases h) (fun _ h => by cases h))
  | bool _ => exact decides_thrown _ _ _ (hnot _ (fun _ h => by cases h) (fun _ h => by cases h))
  | int _ => exact decides_thrown _ _ _ (hnot _ (fun _ h => by cases h) (fun _ h => by cases h))
  | decimal _ =>
    exact decides_thrown _ _ _ (hnot _ (fun _ h => by cases h) (fun _ h => by cases h))
  | str _ => exact decides_thrown _ _ _ (hnot _ (fun _ h => by cases h) (fun _ h => by cases h))

/-- With every amount of fuel the three validation functions decide the grammar:
`ok` only for a value that follows it, an exception only for a value that does not,
and one of the two when the fuel is three times the size of the value. -/
theorem decides_validate (E : MojEnv) (fuel : Nat) :
    (∀ w, (validateClauses E fuel w).Decides (GrammarClauses w)
      (3 * MojObject.size w ≤ fuel)) ∧
    (∀ c, (validateClause E fuel c).Decides (GrammarClause c)
      (3 * MojObject.size c ≤ fuel + 1)) ∧
    (∀ op val, (validateOp E fuel op val).Decides
      (∃ s, op = MojObject.str s ∧ s ∈ grammarOps ∧ (s = "where" → GrammarClauses val))
      (3 * MojObject.size val + 1 ≤ fuel)) := by
  induction fuel with
  | zero =>
    refine ⟨fun w => ?_, fun c => ?_, fun op val => ?_⟩
    · refine ⟨fun h => ?_, fun what h => ?_, fun he => ?_⟩
      · simp [validateClauses] at h
      · simp [validateClauses] at h
      · have := size_pos w
        omega
    · refine ⟨fun h => ?_, fun what h => ?_, fun he => ?_⟩
      · simp [validateClause] at h
      · simp [validateClause] at h
      · have := size_pos c
        omega
    · refine ⟨fun h => ?_, fun what h => ?_, fun he => ?_⟩
      · simp [validateOp] at h
      · simp [validateOp] at h
      · omega
  | succ fuel ih =>
    obtain ⟨ih1, ih2, ih3⟩ := ih
    exact ⟨decides_validateClauses_step E fuel ih2,
      decides_validateClause_step E fuel ih1 ih3,
      decides_validateOp_step E fuel ih1⟩

theorem loopResults_mono {α : Type} (mode : MatchMode) (f g : α → Checked MatchResult)
    (xs : List α) (h : ∀ x ∈ xs, f x = Checked.outOfFuel ∨ g x = f x) :
    loopResults mode (xs.map f) = Checked.outOfFuel ∨
      loopResults mode (xs.map g) = loopResults mode (xs.map f) := by
  induction xs with
  | nil => exact Or.inr rfl
  | cons x xs ih =>
    have ih1 := ih (fun y hy => h y (List.mem_cons_of_mem x hy))
    rcases h x (List.mem_cons_self x xs) with hx | hx
    · left
      simp only [List.map_cons, hx, loopResults]
    · simp only [List.map_cons, hx]
      cases hf : f x with
      | ok result =>
        simp only [loopResults]
        split
        · split
          · exact Or.inr rfl
          · exact ih1
        · split
          · exact Or.inr rfl
          · exact ih1
      | thrown what => exact Or.inr rfl
      | outOfFuel => exact Or.inl rfl

theorem bind_mono {α β : Type} (a b : Checked α) (f : α → Checked β)
    (h : a = Checked.outOfFuel ∨ b = a) :
    a.bind f = Checked.outOfFuel ∨ b.bind f = a.bind f := by
  rcases h with h | h
  · left
    rw [h]
    rfl
  · right
    rw [h]

/-- More fuel does not change a result: each function of the matcher either ran out
of fuel or returns the same with one more unit. -/
theorem check_mono (E : MojEnv) (fuel : Nat) :
    (∀ c r mode, checkClauses E fuel c r mode = Checked.outOfFuel ∨
      checkClauses E (fuel + 1) c r mode = checkClauses E fuel c r mode) ∧
    (∀ c r mode, checkClause E fuel c r mode = Checked.outOfFuel ∨
      checkClause E (fuel + 1) c r mode = checkClause E fuel c r mode) ∧
    (∀ keys xs op val mode,
      checkProperty_responseIter E fuel keys xs op val mode = Checked.outOfFuel ∨
      checkProperty_responseIter E (fuel + 1) keys xs op val mode =
        checkProperty_responseIter E fuel keys xs op val mode) ∧
    (∀ keys r op val mode,
      checkProperty_keyIter E fuel keys r op val mode = Checked.outOfFuel ∨
      checkProperty_keyIter E (fuel + 1) keys r op val mode =
        checkProperty_keyIter E fuel keys r op val mode) ∧
    (∀ key r op val mode, checkProperty E fuel key r op val mode = Checked.outOfFuel ∨
      checkProperty E (fuel + 1) key r op val mode = checkProperty E fuel key r op val mode) ∧
    (∀ rhs op val, checkMatch E fuel rhs op val = Checked.outOfFuel ∨
      checkMatch E (fuel + 1) rhs op val = checkMatch E fuel rhs op val) := by
  induction fuel with
  | zero =>
    refine ⟨?_, ?_, ?_, ?_, ?_, ?_⟩ <;> intros <;> left <;> rfl
  | succ n ih =>
    obtain ⟨ih1, ih2, ih3, ih4, ih5, ih6⟩ := ih
    refine ⟨?_, ?_, ?_, ?_, ?_, ?_⟩
    · intro c r mode
      cases c with
      | object kv =>
        simp only [checkClauses]
        exact ih2 _ _ _
      | array xs =>
        simp only [checkClauses]
        exact loopResults_mono mode _ _ xs (fun x _ => ih2 x r mode)
      | undefined => exact Or.inr rfl
      | null => exact Or.inr rfl
      | bool _ => exact Or.inr rfl
      | int _ => exact Or.inr rfl
      | decimal _ => exact Or.inr rfl
      | str _ => exact Or.inr rfl
    · intro c r mode
      cases c with
      | array xs =>
        simp only [checkClause]
        exact ih1 _ _ _
      | object kv =>
        simp only [checkClause]
        split
        · exact ih2 _ _ _
        · split
          · exact ih2 _ _ _
          · split
            · exact Or.inr rfl
            · split
              · exact Or.inr rfl
              · split
                · exact Or.inr rfl
                · exact ih5 _ _ _ _ _
      | undefined => exact Or.inr rfl
      | null => exact Or.inr rfl
      | bool _ => exact Or.inr rfl
      | int _ => exact Or.inr rfl
      | decimal _ => exact Or.inr rfl
      | str _ => exact Or.inr rfl
    · intro keys xs op val mode
      simp only [checkProperty_responseIter]
      exact loopResults_mono mode _ _ xs (fun x _ => ih4 keys x op val mode)
    · intro keys r op val mode
      simp only [checkProperty_keyIter]
      split
      · exact ih3 _ _ _ _ _
      · exact Or.inr rfl
      · exact Or.inr rfl
      · exact ih6 _ _ _
    · intro key r op val mode
      cases key with
      | str s =>
        simp only [checkProperty]
        split
        · exact Or.inr rfl
        · split
          · exact Or.inr rfl
          · exact ih6 _ _ _
      | array keys =>
        simp only [checkProperty]
        exact ih4 _ _ _ _ _
      | undefined => exact Or.inr rfl
      | null => exact Or.inr rfl
      | bool _ => exact Or.inr rfl
      | int _ => exact Or.inr rfl
      | decimal _ => exact Or.inr rfl
      | object _ => exact Or.inr rfl
    · intro rhs op val
      simp only [checkMatch]
      split
      · exact Or.inr rfl
      · split
        · exact Or.inr rfl
        · split
          · exact Or.inr rfl
          · split
            · exact Or.inr rfl
            · split
              · exact Or.inr rfl
              · split
                · exact Or.inr rfl
                · split
                  · exact Or.inr rfl
                  · split
                    · exact bind_mono _ _ _ (ih2 _ _ _)
                    · exact Or.inr rfl

theorem checkClause_fuel (E : MojEnv) (c r : MojObject) (mode : MatchMode) (fuel : Nat)
    (h : checkClause E fuel c r mode ≠ Checked.outOfFuel) :
    ∀ more, checkClause E (fuel + more) c r mode = checkClause E fuel c r mode := by
  intro more
  induction more with
  | zero => rfl
  | succ k ih =>
    rcases (check_mono E (fuel + k)).2.1 c r mode with h1 | h1
    · rw [ih] at h1
      exact absurd h1 h
    · rw [← Nat.add_assoc, h1, ih]

theorem matchFuel_mono (v r1 r : Nat) (h : r1 ≤ r) : matchFuel v r1 ≤ matchFuel v r := by
  unfold matchFuel
  exact Nat.mul_le_mul_left _ (by omega)

theorem matchFuel_sub (v c r1 r : Nat) (h1 : v < c) (h2 : r1 ≤ r) :
    matchFuel v r1 + 3 * r + 6 ≤ matchFuel c r := by
  have ha := matchFuel_mono v r1 r h2
  unfold matchFuel at *
  have hb : 3 * (v + 1) * (r + 2) ≤ 3 * c * (r + 2) := Nat.mul_le_mul_right _ (by omega)
  have hc : 3 * (v + 1) * (r + 2) = 3 * v * (r + 2) + 3 * (r + 2) := by ring
  omega

theorem descend_cases (E : MojEnv) :
    ∀ (keys : List MojObject) (r : MojObject), (∀ k ∈ keys, ∃ s, k = MojObject.str s) →
      (∃ onion, descend E keys r = Descent.atEnd onion ∧
        MojObject.size onion ≤ MojObject.size r) ∨
      (∃ rest xs, descend E keys r = Descent.atArray rest xs ∧
        (∀ x ∈ xs, MojObject.size x < MojObject.size r) ∧
        (∀ k ∈ rest, ∃ s, k = MojObject.str s)) ∨
      descend E keys r = Descent.noProperty := by
  intro keys
  induction keys with
  | nil =>
    intro r _
    exact Or.inl ⟨r, rfl, le_refl _⟩
  | cons key keys ih =>
    intro r hk
    obtain ⟨s, hs⟩ := hk key (List.mem_cons_self _ _)
    subst hs
    have hk1 : ∀ k ∈ keys, ∃ s, k = MojObject.str s :=
      fun k h => hk k (List.mem_cons_of_mem _ h)
    cases r with
    | array xs =>
      right
      left
      exact ⟨MojObject.str s :: keys, xs, rfl, fun x hx => size_mem xs x hx, hk⟩
    | object kv =>
      simp only [descend, MojObject.stringValue]
      cases hg : (MojObject.object kv).get s with
      | none => exact Or.inr (Or.inr rfl)
      | some next =>
        have hlt := size_get _ _ _ hg
        rcases ih next hk1 with ⟨onion, h1, h2⟩ | ⟨rest, xs, h1, h2, h3⟩ | h1
        · exact Or.inl ⟨onion, h1, by omega⟩
        · exact Or.inr (Or.inl ⟨rest, xs, h1, fun x hx => by have := h2 x hx; omega, h3⟩)
        · exact Or.inr (Or.inr h1)
    | undefined => exact Or.inr (Or.inr rfl)
    | null => exact Or.inr (Or.inr rfl)
    | bool _ => exact Or.inr (Or.inr rfl)
    | int _ => exact Or.inr (Or.inr rfl)
    | decimal _ => exact Or.inr (Or.inr rfl)
    | str _ => exact Or.inr (Or.inr rfl)

theorem loopResults_ok (mode : MatchMode) (rs : List (Checked MatchResult))
    (hret : ∀ r ∈ rs, ∃ v, r = Checked.ok v) : ∃ res, loopResults mode rs = Checked.ok res := by
  rcases loopResults_returns mode rs hret with h | h
  · exact ⟨_, h⟩
  · exact ⟨_, h⟩

theorem checkMatch_ok (E : MojEnv) (fuel : Nat) (rhs val : MojObject) (op : String)
    (hop : op ∈ grammarOps)
    (hw : op = "where" → ∃ nested, checkClause E fuel val rhs AndMode = Checked.ok nested) :
    ∃ res, checkMatch E (fuel + 1) rhs (MojObject.str op) val = Checked.ok res := by
  simp only [grammarOps, List.mem_cons, List.mem_singleton, List.not_mem_nil, or_false] at hop
  rcases hop with h | h | h | h | h | h | h
  · subst h
    exact ⟨_, by simp [checkMatch, MojObject.stringValue, ofResult]; rfl⟩
  · subst h
    exact ⟨_, by simp [checkMatch, MojObject.stringValue, ofResult]; rfl⟩
  · subst h
    exact ⟨_, by simp [checkMatch, MojObject.stringValue, ofResult]; rfl⟩
  · subst h
    exact ⟨_, by simp [checkMatch, MojObject.stringValue, ofResult]; rfl⟩
  · subst h
    exact ⟨_, by simp [checkMatch, MojObject.stringValue, ofResult]; rfl⟩
  · subst h
    exact ⟨_, by simp [checkMatch, MojObject.stringValue, ofResult]; rfl⟩
  · subst h
    obtain ⟨nested, hn⟩ := hw rfl
    exact ⟨_, by simp [checkMatch, MojObject.stringValue, ofResult, hn, Checked.bind]; rfl⟩

/-- With the fuel of `matchFuel`, every function of the matcher returns a result on a
clause that follows the grammar: no exception is thrown and the fuel does not run
out. -/
theorem check_returns (E : MojEnv) (fuel : Nat) :
    (∀ c r mode, GrammarClauses c →
      matchFuel (MojObject.size c) (MojObject.size r) ≤ fuel →
      ∃ res, checkClause E fuel c r mode = Checked.ok res) ∧
    (∀ xs r mode, (∀ c ∈ xs, GrammarClause c) →
      matchFuel (MojObject.size (MojObject.array xs)) (MojObject.size r) ≤ fuel + 1 →
      ∃ res, checkClauses E fuel (MojObject.array xs) r mode = Checked.ok res) ∧
    (∀ key r op val mode, GrammarKey key → op ∈ grammarOps →
      (op = "where" → GrammarClauses val) →
      matchFuel (MojObject.size val) (MojObject.size r) + 2 * MojObject.size r + 3 ≤ fuel →
      ∃ res, checkProperty E fuel key r (MojObject.str op) val mode = Checked.ok res) ∧
    (∀ keys r op val mode, (∀ k ∈ keys, ∃ s, k = MojObject.str s) → op ∈ grammarOps →
      (op = "where" → GrammarClauses val) →
      matchFuel (MojObject.size val) (MojObject.size r) + 2 * MojObject.size r + 2 ≤ fuel →
      ∃ res, checkProperty_keyIter E fuel keys r (MojObject.str op) val mode = Checked.ok res) ∧
    (∀ keys xs n op val mode, (∀ k ∈ keys, ∃ s, k = MojObject.str s) → op ∈ grammarOps →
      (op = "where" → GrammarClauses val) → (∀ x ∈ xs, MojObject.size x < n) →
      matchFuel (MojObject.size val) n + 2 * n + 1 ≤ fuel →
      ∃ res, checkProperty_responseIter E fuel keys xs (MojObject.str op) val mode =
        Checked.ok res) ∧
    (∀ rhs op val, op ∈ grammarOps → (op = "where" → GrammarClauses val) →
      matchFuel (MojObject.size val) (MojObject.size rhs) + 1 ≤ fuel →
      ∃ res, checkMatch E fuel rhs (MojObject.str op) val = Checked.ok res) := by
  induction fuel with
  | zero =>
    refine ⟨?_, ?_, ?_, ?_, ?_, ?_⟩
    · intro c r mode _ h
      have h1 := matchFuel_sub 0 (MojObject.size c) 0 (MojObject.size r) (size_pos c)
        (Nat.zero_le _)
      omega
    · intro xs r mode _ h
      have h1 := matchFuel_sub 0 (MojObject.size (MojObject.array xs)) 0 (MojObject.size r)
        (size_pos _) (Nat.zero_le _)
      omega
    · intro key r op val mode _ _ _ h
      omega
    · intro keys r op val mode _ _ _ h
      omega
    · intro keys xs n op val mode _ _ _ _ h
      omega
    · intro rhs op val _ _ h
      omega
  | succ n ih =>
    obtain ⟨ihA, ihB, ihC, ihD, ihE, ihF⟩ := ih
    refine ⟨?_, ?_, ?_, ?_, ?_, ?_⟩
    · intro c r mode hg hf
      rcases (grammarClauses_iff c).1 hg with ⟨⟨kv, hkv⟩, hc⟩ | ⟨xs, hxs, hall⟩
      · subst hkv
        simp only [checkClause]
        rcases (grammarClause_iff _).1 hc with ⟨h1, _, _, h4⟩ | ⟨h1, h2, _, h4⟩ |
          ⟨h1, h2, h3, h4, h5, op, h6, h7, h8⟩
        · rw [if_pos h1]
          have hs := size_getD _ _ h1
          have hm := matchFuel_sub _ _ (MojObject.size r) (MojObject.size r) hs (le_refl _)
          exact ihA _ r AndMode h4 (by omega)
        · rw [if_neg (by rw [h1]; simp), if_pos h2]
          have hs := size_getD _ _ h2
          have hm := matchFuel_sub _ _ (MojObject.size r) (MojObject.size r) hs (le_refl _)
          exact ihA _ r OrMode h4 (by omega)
        · rw [if_neg (by rw [h1]; simp), if_neg (by rw [h2]; simp)]
          obtain ⟨key, hkey⟩ := (contains_iff _ _).1 h3
          obtain ⟨val, hval⟩ := (contains_iff _ _).1 h5
          rw [hkey] at h4
          rw [hval] at h8
          simp only [hkey, h6, hval]
          have hs := size_get _ _ _ hval
          have hm := matchFuel_sub _ _ (MojObject.size r) (MojObject.size r) hs (le_refl _)
          exact ihC key r op val mode h4 h7 h8 (by omega)
      · subst hxs
        simp only [checkClause]
        exact ihB xs r mode hall (by omega)
    · intro xs r mode hall hf
      simp only [checkClauses]
      apply loopResults_ok
      intro res hres
      obtain ⟨x, hx, hxr⟩ := List.mem_map.1 hres
      obtain ⟨kv, hkv⟩ := grammarClause_object x (hall x hx)
      have hg : GrammarClauses x := by
        rw [hkv]
        exact GrammarClauses.single kv (hkv ▸ hall x hx)
      have hs := size_mem xs x hx
      have hm := matchFuel_sub _ _ (MojObject.size r) (MojObject.size r) hs (le_refl _)
      obtain ⟨v, hv⟩ := ihA x r mode hg (by omega)
      exact ⟨v, by rw [← hxr, hv]⟩
    · intro key r op val mode hkey hop hw hf
      cases key with
      | str s =>
        simp only [checkProperty, MojObject.stringValue]
        cases hg : r.get s with
        | none => exact ⟨_, rfl⟩
        | some propVal =>
          have hs := size_get _ _ _ hg
          have hm := matchFuel_mono (MojObject.size val) (MojObject.size propVal)
            (MojObject.size r) (by omega)
          exact ihF propVal op val hop hw (by omega)
      | array keys =>
        simp only [checkProperty]
        exact ihD keys r op val mode hkey hop hw (by omega)
      | undefined => exact absurd hkey (by simp [GrammarKey])
      | null => exact absurd hkey (by simp [GrammarKey])
      | bool _ => exact absurd hkey (by simp [GrammarKey])
      | int _ => exact absurd hkey (by simp [GrammarKey])
      | decimal _ => exact absurd hkey (by simp [GrammarKey])
      | object _ => exact absurd hkey (by simp [GrammarKey])
    · intro keys r op val mode hkeys hop hw hf
      simp only [checkProperty_keyIter]
      have hpos := size_pos r
      rcases descend_cases E keys r hkeys with ⟨onion, h1, h2⟩ | ⟨rest, xs, h1, h2, h3⟩ | h1
      · rw [h1]
        have hm := matchFuel_mono (MojObject.size val) (MojObject.size onion)
          (MojObject.size r) h2
        exact ihF onion op val hop hw (by omega)
      · rw [h1]
        exact ihE rest xs (MojObject.size r) op val mode h3 hop hw h2 (by omega)
      · rw [h1]
        exact ⟨_, rfl⟩
    · intro keys xs m op val mode hkeys hop hw hlt hf
      simp only [checkProperty_responseIter]
      apply loopResults_ok
      intro res hres
      obtain ⟨x, hx, hxr⟩ := List.mem_map.1 hres
      have hs := hlt x hx
      have hm := matchFuel_mono (MojObject.size val) (MojObject.size x) m (by omega)
      obtain ⟨v, hv⟩ := ihD keys x op val mode hkeys hop hw (by omega)
      exact ⟨v, by rw [← hxr, hv]⟩
    · intro rhs op val hop hw hf
      apply checkMatch_ok E n rhs val op hop
      intro hwhere
      exact ihA val rhs AndMode (hw hwhere) (by omega)

theorem grammar_of_new (E : MojEnv) (w : MojObject) (fuel0 : Nat) (m : WhereMatcher)
    (hnew : WhereMatcher.new E fuel0 w = Checked.ok m) : GrammarClauses w ∧ m.m_where = w := by
  have hd := (decides_validate E fuel0).1 w
  unfold WhereMatcher.new at hnew
  cases hr : validateClauses E fuel0 w with
  | ok u =>
    rw [hr] at hnew
    simp only [Checked.bind, Checked.ok.injEq] at hnew
    exact ⟨hd.1 hr, by rw [← hnew]⟩
  | thrown what => rw [hr] at hnew; simp [Checked.bind] at hnew
  | outOfFuel => rw [hr] at hnew; simp [Checked.bind] at hnew

theorem checkProperty_path_one (E : MojEnv) (k : String) (op val response : MojObject)
    (mode : MatchMode) (harr : ∀ xs, response ≠ MojObject.array xs) (fuel : Nat) :
    checkProperty E (fuel + 1) (MojObject.array [MojObject.str k]) response op val mode =
      checkProperty E fuel (MojObject.str k) response op val mode := by
  cases fuel with
  | zero => rfl
  | succ f =>
    cases f with
    | zero =>
      simp only [checkProperty, checkProperty_keyIter, MojObject.stringValue]
      cases response with
      | array xs => exact absurd rfl (harr xs)
      | object kv =>
        simp only [descend, MojObject.stringValue]
        cases (MojObject.object kv).get k with
        | none => rfl
        | some next => rfl
      | undefined => rfl
      | null => rfl
      | bool _ => rfl
      | int _ => rfl
      | decimal _ => rfl
      | str _ => rfl
    | succ g =>
      simp only [checkProperty, checkProperty_keyIter, MojObject.stringValue]
      cases response with
      | array xs => exact absurd rfl (harr xs)
      | object kv =>
        simp only [descend, MojObject.stringValue]
        cases (MojObject.object kv).get k with
        | none => rfl
        | some next => rfl
      | undefined => rfl
      | null => rfl
      | bool _ => rfl
      | int _ => rfl
      | decimal _ => rfl
      | str _ => rfl

theorem checkClause_of_comparison (E : MojEnv) (key op val response : MojObject)
    (mode : MatchMode) (fuel : Nat) :
    checkClause E (fuel + 1) (comparison key op val) response mode =
      checkProperty E fuel key response op val mode :=
  checkClause_comparison E _ key op val response mode fuel rfl rfl rfl rfl rfl

/-! ## Verified properties of the where-matcher -/

/-- C18: when the path of a comparison clause reaches an array while keys remain, the
rest of the path is evaluated against each element of the array, and an element that
is an array is split again.  In and-mode the clause is `Matched` if and only if every
element yields `Matched`; in or-mode it is `Matched` only if at least one element
yields `Matched`, and, when every element yields a result, if and only if at least
one does.  When every element yields a result the clause is `Matched` or
`NotMatched`.  A clause wrapped in `or` is evaluated in or-mode. -/
theorem array_step_splits (E : MojEnv) (kv : List (String × MojObject))
    (op val response : MojObject) (pre : List String) (rest xs : List MojObject) (fuel : Nat)
    (hand : (MojObject.object kv).contains "and" = false)
    (hor : (MojObject.object kv).contains "or" = false)
    (hprop : (MojObject.object kv).get "prop" =
      some (MojObject.array (pre.map MojObject.str ++ rest)))
    (hop : (MojObject.object kv).get "op" = some op)
    (hval : (MojObject.object kv).get "val" = some val)
    (hrest : rest ≠ [])
    (hreach : pre.foldlM MojObject.get response = some (MojObject.array xs)) :
    (∀ mode, checkClause E (fuel + 4) (MojObject.object kv) response mode =
      loopResults mode (xs.map (fun x => checkProperty_keyIter E fuel rest x op val mode))) ∧
    (checkClause E (fuel + 4) (MojObject.object kv) response AndMode = Checked.ok Matched ↔
      ∀ x ∈ xs, checkProperty_keyIter E fuel rest x op val AndMode = Checked.ok Matched) ∧
    (checkClause E (fuel + 4) (MojObject.object kv) response OrMode = Checked.ok Matched →
      ∃ x ∈ xs, checkProperty_keyIter E fuel rest x op val OrMode = Checked.ok Matched) ∧
    ((∀ x ∈ xs, ∃ r, checkProperty_keyIter E fuel rest x op val OrMode = Checked.ok r) →
      (checkClause E (fuel + 4) (MojObject.object kv) response OrMode = Checked.ok Matched ↔
        ∃ x ∈ xs, checkProperty_keyIter E fuel rest x op val OrMode = Checked.ok Matched)) ∧
    (∀ mode, (∀ x ∈ xs, ∃ r, checkProperty_keyIter E fuel rest x op val mode = Checked.ok r) →
      checkClause E (fuel + 4) (MojObject.object kv) response mode = Checked.ok Matched ∨
      checkClause E (fuel + 4) (MojObject.object kv) response mode = Checked.ok NotMatched) ∧
    (∀ mode ys, checkProperty_keyIter E (fuel + 2) rest (MojObject.array ys) op val mode =
      loopResults mode (ys.map (fun y => checkProperty_keyIter E fuel rest y op val mode))) ∧
    (∀ mode, checkClause E (fuel + 5) (MojObject.object [("or", MojObject.object kv)])
      response mode = checkClause E (fuel + 4) (MojObject.object kv) response OrMode) := by
  have hd : descend E (pre.map MojObject.str ++ rest) response = Descent.atArray rest xs := by
    rw [descend_walk E rest pre response _ hreach]
    exact descend_array E rest xs hrest
  have hall : ∀ mode, checkClause E (fuel + 4) (MojObject.object kv) response mode =
      loopResults mode (xs.map (fun x => checkProperty_keyIter E fuel rest x op val mode)) := by
    intro mode
    rw [checkClause_comparison E kv _ op val response mode (fuel + 3) hand hor hprop hop hval]
    simp only [checkProperty, checkProperty_keyIter, hd, checkProperty_responseIter]
  have hrets : ∀ mode,
      (∀ x ∈ xs, ∃ r, checkProperty_keyIter E fuel rest x op val mode = Checked.ok r) →
      ∀ r ∈ xs.map (fun x => checkProperty_keyIter E fuel rest x op val mode),
        ∃ v, r = Checked.ok v := by
    intro mode hret r hr
    obtain ⟨x, hx, h⟩ := List.mem_map.1 hr
    obtain ⟨v, hv⟩ := hret x hx
    exact ⟨v, by rw [← h, hv]⟩
  refine ⟨hall, ?_, ?_, ?_, ?_, ?_, ?_⟩
  · rw [hall, loopResults_and]
    simp only [List.mem_map, forall_exists_index, and_imp, forall_apply_eq_imp_iff₂]
  · intro h
    rw [hall] at h
    obtain ⟨x, hx, hv⟩ := List.mem_map.1 (loopResults_or_imp _ h)
    exact ⟨x, hx, hv⟩
  · intro hret
    rw [hall, loopResults_or _ (hrets OrMode hret)]
    simp only [List.mem_map]
  · intro mode hret
    rw [hall]
    exact loopResults_returns mode _ (hrets mode hret)
  · intro mode ys
    simp only [checkProperty_keyIter, descend_array E rest ys hrest, checkProperty_responseIter]
  · intro mode
    rfl

/-- C18, witness: the scenario S5.  The path `items`, `state` compared with `done`
against two items of which only the first is done is `NotMatched` under the implicit
and, and `Matched` when the clause is wrapped in `or`. -/
theorem array_step_splits_witness :
    WhereMatcher.new exampleEnv 4 s5Clause = Checked.ok { m_where := s5Clause } ∧
    matchResponse exampleEnv 6 { m_where := s5Clause } s5Response = Checked.ok false ∧
    checkClause exampleEnv 6 s5Clause s5Response AndMode = Checked.ok NotMatched ∧
    checkClause exampleEnv 7 s5OrClause s5Response AndMode = Checked.ok Matched ∧
    matchResponse exampleEnv 7 { m_where := s5OrClause } s5Response = Checked.ok true ∧
    (checkClause exampleEnv 6 s5Clause s5Response OrMode = Checked.ok Matched ↔
      ∃ x ∈ [MojObject.object [("state", MojObject.str "done")],
          MojObject.object [("state", MojObject.str "pending")]],
        checkProperty_keyIter exampleEnv 2 [MojObject.str "state"] x (MojObject.str "=")
          (MojObject.str "done") OrMode = Checked.ok Matched) :=
  ⟨rfl, by decide, by decide, by decide, by decide,
    (array_step_splits exampleEnv
      [("prop", MojObject.array [MojObject.str "items", MojObject.str "state"]),
        ("op", MojObject.str "="), ("val", MojObject.str "done")]
      (MojObject.str "=") (MojObject.str "done") s5Response ["items"] [MojObject.str "state"]
      [MojObject.object [("state", MojObject.str "done")],
        MojObject.object [("state", MojObject.str "pending")]] 2
      (by decide) (by decide) rfl rfl rfl (by simp) rfl).2.2.2.1
      (by
        intro x hx
        simp only [List.mem_cons, List.mem_singleton, List.not_mem_nil, or_false] at hx
        rcases hx with h | h
        · exact ⟨Matched, by rw [h]; decide⟩
        · exact ⟨NotMatched, by rw [h]; decide⟩)⟩

/-- C19: a comparison clause whose property is absent from the payload (a string key
that the payload does not have, or a path of which a step is absent with no array
reached before it) evaluates to `NoProperty`, and `match` on a predicate that
consists of the clause returns false. -/
theorem absent_property_noProperty (E : MojEnv) (kv : List (String × MojObject))
    (prop op val response : MojObject) (mode : MatchMode) (fuel : Nat)
    (hand : (MojObject.object kv).contains "and" = false)
    (hor : (MojObject.object kv).contains "or" = false)
    (hprop : (MojObject.object kv).get "prop" = some prop)
    (hop : (MojObject.object kv).get "op" = some op)
    (hval : (MojObject.object kv).get "val" = some val)
    (habsent : (∃ k, prop = MojObject.str k ∧ response.get k = none) ∨
      (∃ (pre : List String) (k : String) (rest : List MojObject) (onion : MojObject),
        prop = MojObject.array (pre.map MojObject.str ++ MojObject.str k :: rest) ∧
        pre.foldlM MojObject.get response = some onion ∧ (∀ ys, onion ≠ MojObject.array ys) ∧
        onion.get k = none)) :
    checkClause E (fuel + 3) (MojObject.object kv) response mode = Checked.ok NoProperty ∧
    (∀ n m, WhereMatcher.new E n (MojObject.object kv) = Checked.ok m →
      matchResponse E (fuel + 3) m response = Checked.ok false) := by
  have hmode : ∀ mode, checkClause E (fuel + 3) (MojObject.object kv) response mode =
      Checked.ok NoProperty := by
    intro mode
    rw [checkClause_comparison E kv prop op val response mode (fuel + 2) hand hor hprop hop hval]
    rcases habsent with ⟨k, hk, hget⟩ | ⟨pre, k, rest, onion, hk, hwalk, harr, hget⟩
    · subst hk
      simp only [checkProperty, MojObject.stringValue, hget]
    · subst hk
      have hd : descend E (pre.map MojObject.str ++ MojObject.str k :: rest) response =
          Descent.noProperty := by
        rw [descend_walk E _ pre response onion hwalk]
        exact descend_absent E k rest onion harr hget
      simp only [checkProperty, checkProperty_keyIter, hd]
  refine ⟨hmode mode, ?_⟩
  intro n m hm
  have hw : m.m_where = MojObject.object kv := by
    unfold WhereMatcher.new at hm
    cases hv : validateClauses E n (MojObject.object kv) with
    | ok u =>
      rw [hv] at hm
      simp only [Checked.bind, Checked.ok.injEq] at hm
      rw [← hm]
    | thrown what => rw [hv] at hm; simp [Checked.bind] at hm
    | outOfFuel => rw [hv] at hm; simp [Checked.bind] at hm
  unfold matchResponse
  rw [hw, hmode AndMode]
  rfl

/-- C19, witness: the path `items`, `state` against a payload whose `items` is an
object without `state`. -/
theorem absent_property_noProperty_witness :
    WhereMatcher.new exampleEnv 4 s5Clause = Checked.ok { m_where := s5Clause } ∧
    checkClause exampleEnv 3 s5Clause noStateResponse AndMode = Checked.ok NoProperty ∧
    (∀ n m, WhereMatcher.new exampleEnv n s5Clause = Checked.ok m →
      matchResponse exampleEnv 3 m noStateResponse = Checked.ok false) :=
  ⟨rfl,
    absent_property_noProperty exampleEnv
      [("prop", MojObject.array [MojObject.str "items", MojObject.str "state"]),
        ("op", MojObject.str "="), ("val", MojObject.str "done")]
      (MojObject.array [MojObject.str "items", MojObject.str "state"])
      (MojObject.str "=") (MojObject.str "done") noStateResponse AndMode 0
      (by decide) (by decide) rfl rfl rfl
      (Or.inr ⟨["items"], "state", [], MojObject.object [("name", MojObject.str "n")], rfl, rfl,
        (by intro ys h; cases h), rfl⟩)⟩

/-- C20: for the operation `where`, `checkMatch` assigns the `MatchResult` of the
nested clause to a `bool`: the comparison is `Matched` exactly when the value of the
enumerator that the nested evaluation returns is not 0.  So when `NotMatched` and
`NoProperty` have different values, a valid nested clause that evaluates to
`NotMatched` or one that evaluates to `NoProperty` makes the comparison `Matched`. -/
theorem where_result_converted_to_bool (E : MojEnv)
    (hne : E.resultValue NotMatched ≠ E.resultValue NoProperty) :
    (∀ fuel rhs val, checkMatch E (fuel + 1) rhs (MojObject.str "where") val =
      (checkClause E fuel val rhs AndMode).bind
        (fun nested => ofResult (decide (E.resultValue nested ≠ 0)))) ∧
    WhereMatcher.new E 6 (whereClause emptyOrClause) =
      Checked.ok { m_where := whereClause emptyOrClause } ∧
    WhereMatcher.new E 6 (whereClause propAClause) =
      Checked.ok { m_where := whereClause propAClause } ∧
    checkClause E 3 emptyOrClause (MojObject.object [("b", MojObject.int 1)]) AndMode =
      Checked.ok NotMatched ∧
    checkClause E 3 propAClause (MojObject.object [("b", MojObject.int 1)]) AndMode =
      Checked.ok NoProperty ∧
    (checkClause E 6 (whereClause emptyOrClause) wherePayload AndMode = Checked.ok Matched ∨
      checkClause E 6 (whereClause propAClause) wherePayload AndMode = Checked.ok Matched) := by
  refine ⟨fun fuel rhs val => rfl, rfl, rfl, rfl, rfl, ?_⟩
  have h1 : checkClause E 6 (whereClause emptyOrClause) wherePayload AndMode =
      ofResult (decide (E.resultValue NotMatched ≠ 0)) := rfl
  have h2 : checkClause E 6 (whereClause propAClause) wherePayload AndMode =
      ofResult (decide (E.resultValue NoProperty ≠ 0)) := rfl
  rw [h1, h2]
  by_cases h : E.resultValue NotMatched = 0
  · right
    have h3 : E.resultValue NoProperty ≠ 0 := fun h0 => hne (h.trans h0.symm)
    simp [ofResult, h3]
  · left
    simp [ofResult, h]

/-- C20, witness: with the enumerators numbered 0, 1, 2 in the order `NoProperty`,
`Matched`, `NotMatched`, a nested clause that evaluates to `NotMatched` (the empty
disjunction, or the comparison of `a` with 1 against an `a` of 2) makes the
comparison `Matched` and `match` return true. -/
theorem where_result_converted_to_bool_witness :
    exampleEnv.resultValue NotMatched ≠ exampleEnv.resultValue NoProperty ∧
    checkClause exampleEnv 3 emptyOrClause (MojObject.object [("b", MojObject.int 1)]) AndMode =
      Checked.ok NotMatched ∧
    checkClause exampleEnv 6 (whereClause emptyOrClause) wherePayload AndMode =
      Checked.ok Matched ∧
    matchResponse exampleEnv 6 { m_where := whereClause emptyOrClause } wherePayload =
      Checked.ok true ∧
    checkClause exampleEnv 3 propAClause (MojObject.object [("a", MojObject.int 2)]) AndMode =
      Checked.ok NotMatched ∧
    matchResponse exampleEnv 6 { m_where := whereClause propAClause }
      (MojObject.object [("x", MojObject.object [("a", MojObject.int 2)])]) = Checked.ok true :=
  ⟨by decide, (where_result_converted_to_bool exampleEnv (by decide)).2.2.2.1, by decide,
    by decide, by decide, by decide⟩

/-- C21: constructing a `WhereMatcher` succeeds exactly when the predicate follows
the grammar: with some amount of fuel the constructor returns a matcher if and only
if the predicate is a clause object or an array of clause objects, each with exactly
one of `and`, `or` and `prop` and as the grammar prescribes below them.  With fuel
of three times the size of the predicate the constructor returns the matcher of a
predicate that follows the grammar and throws for every other value; the matcher
always holds the predicate it was given. -/
theorem construction_iff_grammar (E : MojEnv) (w : MojObject) :
    ((∃ fuel m, WhereMatcher.new E fuel w = Checked.ok m) ↔ GrammarClauses w) ∧
    (GrammarClauses w → ∀ fuel, 3 * MojObject.size w ≤ fuel →
      WhereMatcher.new E fuel w = Checked.ok { m_where := w }) ∧
    (¬ GrammarClauses w → ∀ fuel, 3 * MojObject.size w ≤ fuel →
      ∃ what, WhereMatcher.new E fuel w = Checked.thrown what) ∧
    (∀ fuel m, WhereMatcher.new E fuel w = Checked.ok m → m.m_where = w) := by
  have hok : GrammarClauses w → ∀ fuel, 3 * MojObject.size w ≤ fuel →
      WhereMatcher.new E fuel w = Checked.ok { m_where := w } := by
    intro hg fuel hf
    have hd := (decides_validate E fuel).1 w
    unfold WhereMatcher.new
    cases hr : validateClauses E fuel w with
    | ok u => rfl
    | thrown what => exact absurd hg (hd.2.1 what hr)
    | outOfFuel => exact absurd hr (hd.2.2 hf)
  refine ⟨⟨?_, fun hg => ⟨_, _, hok hg _ (le_refl _)⟩⟩, hok, ?_, ?_⟩
  · rintro ⟨fuel, m, hm⟩
    have hd := (decides_validate E fuel).1 w
    unfold WhereMatcher.new at hm
    cases hr : validateClauses E fuel w with
    | ok u => exact hd.1 hr
    | thrown what => rw [hr] at hm; simp [Checked.bind] at hm
    | outOfFuel => rw [hr] at hm; simp [Checked.bind] at hm
  · intro hg fuel hf
    have hd := (decides_validate E fuel).1 w
    unfold WhereMatcher.new
    cases hr : validateClauses E fuel w with
    | ok u => exact absurd (hd.1 hr) hg
    | thrown what => exact ⟨what, rfl⟩
    | outOfFuel => exact absurd hr (hd.2.2 hf)
  · intro fuel m hm
    unfold WhereMatcher.new at hm
    cases hr : validateClauses E fuel w with
    | ok u =>
      rw [hr] at hm
      simp only [Checked.bind, Checked.ok.injEq] at hm
      rw [← hm]
    | thrown what => rw [hr] at hm; simp [Checked.bind] at hm
    | outOfFuel => rw [hr] at hm; simp [Checked.bind] at hm

/-- C21, witness: the clause of the scenario S5 and the comparison with a nested
`where` clause are accepted and follow the grammar; the clause with the operation
`~` and the clause with both `and` and `prop` are refused and do not follow it. -/
theorem construction_iff_grammar_witness :
    WhereMatcher.new exampleEnv 4 s5Clause = Checked.ok { m_where := s5Clause } ∧
    GrammarClauses s5Clause ∧
    GrammarClauses (whereClause propAClause) ∧
    WhereMatcher.new exampleEnv 12 unknownOpClause =
      Checked.thrown "Operation must be one of '<', '<=', '=', '>=', '>', '!=', and 'where'" ∧
    ¬ GrammarClauses unknownOpClause ∧
    WhereMatcher.new exampleEnv 18 mixedClause = Checked.thrown onlyOneOf ∧
    ¬ GrammarClauses mixedClause ∧
    WhereMatcher.new exampleEnv 3 (MojObject.str "x") = Checked.thrown
      "where statement should consist of a single clause or array of valid clauses" :=
  ⟨rfl, ((construction_iff_grammar exampleEnv s5Clause).1).1 ⟨4, _, rfl⟩,
    ((construction_iff_grammar exampleEnv (whereClause propAClause)).1).1 ⟨6, _, rfl⟩,
    rfl,
    (fun hg => by
      have h := (construction_iff_grammar exampleEnv unknownOpClause).2.1 hg 12 (by decide)
      have h2 : WhereMatcher.new exampleEnv 12 unknownOpClause = Checked.thrown
          "Operation must be one of '<', '<=', '=', '>=', '>', '!=', and 'where'" := rfl
      rw [h2] at h
      cases h),
    rfl,
    (fun hg => by
      have h := (construction_iff_grammar exampleEnv mixedClause).2.1 hg 18 (by decide)
      have h2 : WhereMatcher.new exampleEnv 18 mixedClause = Checked.thrown onlyOneOf := rfl
      rw [h2] at h
      cases h),
    rfl⟩

/-- C36: for every predicate that the constructor of `WhereMatcher` accepts and every
response, `match` returns a boolean: with the fuel `matchFuel` and with every larger
amount the result is the same boolean, and with no amount of fuel is the result an
exception, so that no error branch of `checkClauses`, `checkClause`, `checkProperty`
and `checkMatch` is run. -/
theorem match_returns_boolean (E : MojEnv) (w response : MojObject) (fuel0 : Nat)
    (m : WhereMatcher) (hnew : WhereMatcher.new E fuel0 w = Checked.ok m) :
    (∃ b, ∀ fuel, matchFuel (MojObject.size w) (MojObject.size response) ≤ fuel →
      matchResponse E fuel m response = Checked.ok b) ∧
    (∀ fuel what, matchResponse E fuel m response ≠ Checked.thrown what) ∧
    (∀ fuel what mode, checkClause E fuel w response mode ≠ Checked.thrown what) := by
  obtain ⟨hg, hm⟩ := grammar_of_new E w fuel0 m hnew
  have hret : ∀ mode, ∃ res, ∀ fuel,
      matchFuel (MojObject.size w) (MojObject.size response) ≤ fuel →
      checkClause E fuel w response mode = Checked.ok res := by
    intro mode
    obtain ⟨res, hres⟩ := (check_returns E
      (matchFuel (MojObject.size w) (MojObject.size response))).1 w response mode hg (le_refl _)
    refine ⟨res, ?_⟩
    intro fuel hf
    obtain ⟨more, hmore⟩ := Nat.exists_eq_add_of_le hf
    rw [hmore, checkClause_fuel E w response mode _ (by rw [hres]; simp) more, hres]
  have hnothrow : ∀ fuel what mode, checkClause E fuel w response mode ≠ Checked.thrown what := by
    intro fuel what mode hth
    obtain ⟨res, hres⟩ := hret mode
    have h1 := checkClause_fuel E w response mode fuel (by rw [hth]; simp)
      (matchFuel (MojObject.size w) (MojObject.size response))
    rw [hres _ (by omega), hth] at h1
    exact absurd h1 (by simp)
  refine ⟨?_, ?_, hnothrow⟩
  · obtain ⟨res, hres⟩ := hret AndMode
    refine ⟨decide (res = Matched), ?_⟩
    intro fuel hf
    unfold matchResponse
    rw [hm, hres fuel hf]
    rfl
  · intro fuel what hth
    unfold matchResponse at hth
    rw [hm] at hth
    cases hc : checkClause E fuel w response AndMode with
    | ok r => rw [hc] at hth; simp [Checked.bind] at hth
    | thrown what1 => exact hnothrow fuel what1 AndMode hc
    | outOfFuel => rw [hc] at hth; simp [Checked.bind] at hth

/-- C36, witness: the matcher of the scenario S5 returns false for the payload of the
scenario with every amount of fuel from `matchFuel` on, and the matcher with a nested
`where` clause returns a boolean as well. -/
theorem match_returns_boolean_witness :
    WhereMatcher.new exampleEnv 4 s5Clause = Checked.ok { m_where := s5Clause } ∧
    (∃ b, ∀ fuel, matchFuel (MojObject.size s5Clause) (MojObject.size s5Response) ≤ fuel →
      matchResponse exampleEnv fuel { m_where := s5Clause } s5Response = Checked.ok b) ∧
    matchResponse exampleEnv 6 { m_where := s5Clause } s5Response = Checked.ok false ∧
    matchResponse exampleEnv 8 { m_where := s5OrClause } s5Response = Checked.ok true ∧
    matchResponse exampleEnv 6 { m_where := whereClause propAClause } wherePayload =
      Checked.ok false :=
  ⟨rfl, (match_returns_boolean exampleEnv s5Clause s5Response 4 _ rfl).1, by decide, by decide,
    by decide⟩

/-- C40: for every property name `k`, operation, value, mode and every response that
is not an array, the comparison with the key `k` and the comparison with the path of
the one key `k` evaluate to the same result: the second takes one more call, and with
that one more unit of fuel `checkProperty` and `checkClause` return the same, be it
`Matched`, `NotMatched`, `NoProperty` or an exception. -/
theorem string_key_same_as_path (E : MojEnv) (k : String) (op val response : MojObject)
    (mode : MatchMode) (harr : ∀ xs, response ≠ MojObject.array xs) :
    (∀ fuel,
      checkProperty E (fuel + 1) (MojObject.array [MojObject.str k]) response op val mode =
        checkProperty E fuel (MojObject.str k) response op val mode) ∧
    (∀ fuel,
      checkClause E (fuel + 1) (comparison (MojObject.array [MojObject.str k]) op val)
          response mode =
        checkClause E fuel (comparison (MojObject.str k) op val) response mode) ∧
    (∀ res,
      (∃ fuel, checkClause E fuel (comparison (MojObject.str k) op val) response mode =
        Checked.ok res) ↔
      (∃ fuel, checkClause E fuel (comparison (MojObject.array [MojObject.str k]) op val)
        response mode = Checked.ok res)) := by
  have h1 := checkProperty_path_one E k op val response mode harr
  have h2 : ∀ fuel,
      checkClause E (fuel + 1) (comparison (MojObject.array [MojObject.str k]) op val)
          response mode =
        checkClause E fuel (comparison (MojObject.str k) op val) response mode := by
    intro fuel
    cases fuel with
    | zero => rfl
    | succ f =>
      rw [checkClause_of_comparison, checkClause_of_comparison, h1]
  refine ⟨h1, h2, ?_⟩
  intro res
  constructor
  · rintro ⟨fuel, hf⟩
    exact ⟨fuel + 1, by rw [h2, hf]⟩
  · rintro ⟨fuel, hf⟩
    cases fuel with
    | zero => exact absurd hf (by simp [checkClause])
    | succ f => exact ⟨f, by rw [← h2, hf]⟩

/-- C40, witness: against a payload that has no property `state` both comparisons
give `NoProperty`, and against an object with the state `done` both give `Matched`.
Against an array of such objects the comparison with the string key gives
`NoProperty` and the comparison with the path looks into the elements. -/
theorem string_key_same_as_path_witness :
    (∀ xs, noStateResponse ≠ MojObject.array xs) ∧
    (∀ fuel,
      checkClause exampleEnv (fuel + 1)
          (comparison (MojObject.array [MojObject.str "state"]) (MojObject.str "=")
            (MojObject.str "done")) noStateResponse AndMode =
        checkClause exampleEnv fuel
          (comparison (MojObject.str "state") (MojObject.str "=") (MojObject.str "done"))
          noStateResponse AndMode) ∧
    checkClause exampleEnv 3
      (comparison (MojObject.str "state") (MojObject.str "=") (MojObject.str "done"))
      noStateResponse AndMode = Checked.ok NoProperty ∧
    checkClause exampleEnv 4
      (comparison (MojObject.array [MojObject.str "state"]) (MojObject.str "=")
        (MojObject.str "done")) noStateResponse AndMode = Checked.ok NoProperty ∧
    checkClause exampleEnv 3
      (comparison (MojObject.str "state") (MojObject.str "=") (MojObject.str "done"))
      (MojObject.object [("state", MojObject.str "done")]) AndMode = Checked.ok Matched ∧
    checkClause exampleEnv 4
      (comparison (MojObject.array [MojObject.str "state"]) (MojObject.str "=")
        (MojObject.str "done"))
      (MojObject.object [("state", MojObject.str "done")]) AndMode = Checked.ok Matched ∧
    checkClause exampleEnv 3
      (comparison (MojObject.str "state") (MojObject.str "=") (MojObject.str "done"))
      (MojObject.array [MojObject.object [("state", MojObject.str "done")]]) AndMode =
        Checked.ok NoProperty ∧
    checkClause exampleEnv 6
      (comparison (MojObject.array [MojObject.str "state"]) (MojObject.str "=")
        (MojObject.str "done"))
      (MojObject.array [MojObject.object [("state", MojObject.str "done")]]) AndMode =
        Checked.ok Matched :=
  have harr : ∀ xs, noStateResponse ≠ MojObject.array xs := by
    intro xs h
    cases h
  ⟨harr,
    (string_key_same_as_path exampleEnv "state" (MojObject.str "=") (MojObject.str "done")
      noStateResponse AndMode harr).2.1,
    by decide, by decide, by decide, by decide, by decide, by decide⟩

end WhereMatcher

/-! ## Lemmas on the connection manager proxy -/

namespace ConnectionManagerProxy

theorem frameOn_refl (S : CoreId → Bool) (s : ConnectionManagerProxy) : FrameOn S s s :=
  ⟨fun _ _ => ⟨rfl, rfl⟩, ⟨[], by simp, by simp⟩, rfl⟩

theorem frameOn_trans (S : CoreId → Bool) (s s1 s2 : ConnectionManagerProxy)
    (h1 : FrameOn S s s1) (h2 : FrameOn S s1 s2) : FrameOn S s s2 := by
  obtain ⟨hc1, ⟨d1, hd1, hm1⟩, hcall1⟩ := h1
  obtain ⟨hc2, ⟨d2, hd2, hm2⟩, hcall2⟩ := h2
  refine ⟨fun id hid => ⟨((hc2 id hid).1).trans (hc1 id hid).1,
    ((hc2 id hid).2).trans (hc1 id hid).2⟩, ⟨d1 ++ d2, ?_, ?_⟩, hcall2.trans hcall1⟩
  · rw [hd2, hd1, List.append_assoc]
  · intro c hc
    rcases List.mem_append.1 hc with h | h
    · exact hm1 c h
    · exact hm2 c h

theorem frameOn_setCore (S : CoreId → Bool) (s : ConnectionManagerProxy) (id : CoreId)
    (core : RequirementCore) (hS : S id = true) : FrameOn S s (s.setCore id core) := by
  refine ⟨fun id' hid' => ⟨?_, rfl⟩, ⟨[], by simp [setCore], by simp⟩, rfl⟩
  have hne : id' ≠ id := fun h => by rw [h, hS] at hid'; exact absurd hid' (by simp)
  simp [setCore, Function.update_noteq hne]

theorem frameOn_forEach (S : CoreId → Bool) (s : ConnectionManagerProxy) (list : CoreId)
    (kind : Broadcast) (hS : S list = true) : FrameOn S s (s.forEach list kind) := by
  refine ⟨fun id' hid' => ⟨rfl, ?_⟩, ⟨_, rfl, ?_⟩, rfl⟩
  · have hne : id' ≠ list := fun h => by rw [h, hS] at hid'; exact absurd hid' (by simp)
    simp [forEach, Function.update_noteq hne]
  · intro c hc
    obtain ⟨r, _, hr⟩ := List.mem_map.1 hc
    exact ⟨kind, list, r.activity, hr.symm, hS⟩

theorem frameOn_updateRequirement (S : CoreId → Bool) (s : ConnectionManagerProxy)
    (id : CoreId) (available updated : Bool) (hS : S id = true) :
    FrameOn S s (s.updateRequirement id available updated) := by
  unfold updateRequirement
  split
  · split
    · exact frameOn_trans S _ _ _ (frameOn_setCore S s id _ hS) (frameOn_forEach S _ id _ hS)
    · split
      · exact frameOn_forEach S s id _ hS
      · exact frameOn_refl S s
  · split
    · exact frameOn_trans S _ _ _ (frameOn_setCore S s id _ hS) (frameOn_forEach S _ id _ hS)
    · exact frameOn_refl S s

theorem frameOn_updateConfidenceLevel (S : CoreId → Bool) (E : MojEnv)
    (confidenceCores : Nat → CoreId) (confidence : Int) (confidenceName : String)
    (s : ConnectionManagerProxy) (i : Nat) (hS : S (confidenceCores i) = true) :
    FrameOn S s (updateConfidenceLevel E confidenceCores confidence confidenceName s i) := by
  unfold updateConfidenceLevel
  simp only
  have h1 := frameOn_setCore S s (confidenceCores i)
    ((s.cores (confidenceCores i)).SetCurrentValue E (MojObject.str confidenceName)).2 hS
  split
  · split
    · exact frameOn_trans S _ _ _ h1
        (frameOn_trans S _ _ _ (frameOn_setCore S _ _ _ hS) (frameOn_forEach S _ _ _ hS))
    · exact frameOn_trans S _ _ _ h1 (frameOn_forEach S _ _ _ hS)
  · split
    · exact frameOn_trans S _ _ _ h1
        (frameOn_trans S _ _ _ (frameOn_setCore S _ _ _ hS) (frameOn_forEach S _ _ _ hS))
    · exact frameOn_trans S _ _ _ h1 (frameOn_forEach S _ _ _ hS)

theorem frameOn_foldl_levels (S : CoreId → Bool) (E : MojEnv)
    (confidenceCores : Nat → CoreId) (confidence : Int) (confidenceName : String)
    (levels : List Nat) (hS : ∀ i ∈ levels, S (confidenceCores i) = true) :
    ∀ s : ConnectionManagerProxy, FrameOn S s
      (levels.foldl (updateConfidenceLevel E confidenceCores confidence confidenceName) s) := by
  induction levels with
  | nil => intro s; exact frameOn_refl S s
  | cons i levels ih =>
    intro s
    exact frameOn_trans S _ _ _
      (frameOn_updateConfidenceLevel S E confidenceCores confidence confidenceName s i
        (hS i (List.mem_cons_self _ _)))
      (ih (fun j hj => hS j (List.mem_cons_of_mem _ hj)) _)

theorem frameOn_updateConfidenceRequirements (S : CoreId → Bool) (K : ProxyConstants)
    (E : MojEnv) (s : ConnectionManagerProxy) (confidenceCores : Nat → CoreId)
    (confidence : Int) (hS : ∀ i, S (confidenceCores i) = true) :
    FrameOn S s (UpdateConfidenceRequirements K E s confidenceCores confidence) := by
  unfold UpdateConfidenceRequirements
  split
  · exact frameOn_refl S s
  · exact frameOn_foldl_levels S E confidenceCores confidence _ _ (fun i _ => hS i) s

theorem confidences_updateConfidenceLevel (E : MojEnv) (confidenceCores : Nat → CoreId)
    (confidence : Int) (confidenceName : String) (s : ConnectionManagerProxy) (i : Nat) :
    (updateConfidenceLevel E confidenceCores confidence confidenceName s i).m_internetConfidence
      = s.m_internetConfidence ∧
    (updateConfidenceLevel E confidenceCores confidence confidenceName s i).m_wifiConfidence
      = s.m_wifiConfidence ∧
    (updateConfidenceLevel E confidenceCores confidence confidenceName s i).m_wanConfidence
      = s.m_wanConfidence := by
  unfold updateConfidenceLevel
  simp only
  split <;> split <;> exact ⟨rfl, rfl, rfl⟩

theorem confidences_updateConfidenceRequirements (K : ProxyConstants) (E : MojEnv)
    (s : ConnectionManagerProxy) (confidenceCores : Nat → CoreId) (confidence : Int) :
    (UpdateConfidenceRequirements K E s confidenceCores confidence).m_internetConfidence
      = s.m_internetConfidence ∧
    (UpdateConfidenceRequirements K E s confidenceCores confidence).m_wifiConfidence
      = s.m_wifiConfidence ∧
    (UpdateConfidenceRequirements K E s confidenceCores confidence).m_wanConfidence
      = s.m_wanConfidence := by
  unfold UpdateConfidenceRequirements
  split
  · exact ⟨rfl, rfl, rfl⟩
  · generalize List.range K.ConnectionConfidenceMax = levels
    simp only
    generalize (if confidence = K.ConnectionConfidenceUnknown then ConnectionConfidenceUnknownName
      else (ConnectionConfidenceNames K).getD confidence.toNat "") = confidenceName
    induction levels generalizing s with
    | nil => exact ⟨rfl, rfl, rfl⟩
    | cons i levels ih =>
      have h1 := confidences_updateConfidenceLevel E confidenceCores confidence confidenceName s i
      have h2 := ih (updateConfidenceLevel E confidenceCores confidence confidenceName s i)
      simp only [List.foldl_cons]
      exact ⟨h2.1.trans h1.1, h2.2.1.trans h1.2.1, h2.2.2.trans h1.2.2⟩

theorem confidences_updateRequirement (s : ConnectionManagerProxy) (id : CoreId)
    (available updated : Bool) :
    (s.updateRequirement id available updated).m_internetConfidence = s.m_internetConfidence ∧
    (s.updateRequirement id available updated).m_wifiConfidence = s.m_wifiConfidence ∧
    (s.updateRequirement id available updated).m_wanConfidence = s.m_wanConfidence := by
  unfold updateRequirement
  split
  · split
    · exact ⟨rfl, rfl, rfl⟩
    · split <;> exact ⟨rfl, rfl, rfl⟩
  · split <;> exact ⟨rfl, rfl, rfl⟩

theorem setCurrentValue_met (E : MojEnv) (core : RequirementCore) (v : MojObject) :
    (core.SetCurrentValue E v).2.met = core.met := by
  unfold RequirementCore.SetCurrentValue
  split <;> rfl

/-- The broadcast that the loop of `UpdateConfidenceRequirements` sends to the
bindings of the level `i` whose core had the met state `met`. -/
theorem updateConfidenceLevel_at (E : MojEnv) (confidenceCores : Nat → CoreId)
    (confidence : Int) (confidenceName : String) (s : ConnectionManagerProxy) (i : Nat) :
    ((updateConfidenceLevel E confidenceCores confidence confidenceName s i).cores
      (confidenceCores i)).met = decide (¬ confidence < (i : Int)) ∧
    (updateConfidenceLevel E confidenceCores confidence confidenceName s i).requirements
      (confidenceCores i) = (s.requirements (confidenceCores i)).map (Requirement.receive
        (if confidence < (i : Int) then
          (if (s.cores (confidenceCores i)).met then Broadcast.Unmet else Broadcast.Updated)
        else (if (s.cores (confidenceCores i)).met then Broadcast.Updated else Broadcast.Met))) := by
  unfold updateConfidenceLevel
  simp only [RequirementCore.IsMet, setCore, Function.update_same, setCurrentValue_met]
  by_cases hc : confidence < (i : Int)
  · by_cases hm : (s.cores (confidenceCores i)).met = true
    · simp [hc, hm, forEach, RequirementCore.Unmet]
    · simp [hc, hm, forEach, setCurrentValue_met]
  · by_cases hm : (s.cores (confidenceCores i)).met = true
    · simp [hc, hm, forEach, setCurrentValue_met]
    · simp [hc, hm, forEach, RequirementCore.Met]

theorem foldl_levels_at (E : MojEnv) (confidenceCores : Nat → CoreId)
    (hinj : Function.Injective confidenceCores) (confidence : Int) (confidenceName : String)
    (i : Nat) (levels : List Nat) (hnd : levels.Nodup) (hi : i ∈ levels) :
    ∀ s : ConnectionManagerProxy,
      ((levels.foldl (updateConfidenceLevel E confidenceCores confidence confidenceName) s).cores
        (confidenceCores i)).met = decide (¬ confidence < (i : Int)) ∧
      (levels.foldl (updateConfidenceLevel E confidenceCores confidence confidenceName)
        s).requirements (confidenceCores i) =
        (s.requirements (confidenceCores i)).map (Requirement.receive
          (if confidence < (i : Int) then
            (if (s.cores (confidenceCores i)).met then Broadcast.Unmet else Broadcast.Updated)
          else (if (s.cores (confidenceCores i)).met then Broadcast.Updated
            else Broadcast.Met))) := by
  induction levels with
  | nil => exact absurd hi (List.not_mem_nil _)
  | cons j levels ih =>
    intro s
    rw [List.nodup_cons] at hnd
    simp only [List.foldl_cons]
    by_cases hij : i = j
    · subst hij
      have hframe := frameOn_foldl_levels
        (fun id => levels.any (fun l => decide (confidenceCores l = id))) E confidenceCores
        confidence confidenceName levels
        (fun l hl => List.any_eq_true.2 ⟨l, hl, by simp⟩)
        (updateConfidenceLevel E confidenceCores confidence confidenceName s i)
      have hout : (fun id => levels.any (fun l => decide (confidenceCores l = id)))
          (confidenceCores i) = false := by
        apply Bool.eq_false_iff.2
        intro h
        obtain ⟨l, hl, hdec⟩ := List.any_eq_true.1 h
        have : l = i := hinj (of_decide_eq_true hdec)
        exact hnd.1 (this ▸ hl)
      obtain ⟨hc, hr⟩ := hframe.1 (confidenceCores i) hout
      have hat := updateConfidenceLevel_at E confidenceCores confidence confidenceName s i
      rw [hc, hr]
      exact hat
    · have hi2 : i ∈ levels := by
        rcases List.mem_cons.1 hi with h | h
        · exact absurd h hij
        · exact h
      have hframe := frameOn_updateConfidenceLevel (fun id => decide (id = confidenceCores j)) E
        confidenceCores confidence confidenceName s j (by simp)
      have hout : (fun id => decide (id = confidenceCores j)) (confidenceCores i) = false := by
        simp only [decide_eq_false_iff_not]
        exact fun h => hij (hinj h)
      obtain ⟨hc, hr⟩ := hframe.1 (confidenceCores i) hout
      have := ih hnd.2 hi2 (updateConfidenceLevel E confidenceCores confidence confidenceName s j)
      rw [hc, hr] at this
      exact this

/-- The state of the level `i` after `UpdateConfidenceRequirements` with a
confidence that is unknown or the index of a level. -/
theorem updateConfidenceRequirements_at (K : ProxyConstants) (E : MojEnv)
    (s : ConnectionManagerProxy) (confidenceCores : Nat → CoreId)
    (hinj : Function.Injective confidenceCores) (confidence : Int)
    (hc : confidence = K.ConnectionConfidenceUnknown ∨
      (0 ≤ confidence ∧ confidence < (K.ConnectionConfidenceMax : Int)))
    (i : Nat) (hi : i < K.ConnectionConfidenceMax) :
    ((UpdateConfidenceRequirements K E s confidenceCores confidence).cores
      (confidenceCores i)).met = decide (¬ confidence < (i : Int)) ∧
    (UpdateConfidenceRequirements K E s confidenceCores confidence).requirements
      (confidenceCores i) = (s.requirements (confidenceCores i)).map (Requirement.receive
        (if confidence < (i : Int) then
          (if (s.cores (confidenceCores i)).met then Broadcast.Unmet else Broadcast.Updated)
        else (if (s.cores (confidenceCores i)).met then Broadcast.Updated else Broadcast.Met))) := by
  unfold UpdateConfidenceRequirements
  have hguard : ¬ ((confidence < 0 ∨ confidence ≥ (K.ConnectionConfidenceMax : Int)) ∧
      confidence ≠ K.ConnectionConfidenceUnknown) := by
    rintro ⟨h1, h2⟩
    rcases hc with h | ⟨h3, h4⟩
    · exact h2 h
    · rcases h1 with h | h
      · omega
      · omega
  rw [if_neg hguard]
  exact foldl_levels_at E confidenceCores hinj confidence _ i _ (List.nodup_range _)
    (List.mem_range.2 hi) s

theorem specRank_ge_iff (K : ProxyConstants) (confidence : Int) (i : Nat)
    (hunk : K.ConnectionConfidenceUnknown < 0)
    (hc : confidence = K.ConnectionConfidenceUnknown ∨ 0 ≤ confidence) :
    specRank K confidence ≥ specRank K (i : Int) ↔ ¬ confidence < (i : Int) := by
  have hi : (i : Int) ≠ K.ConnectionConfidenceUnknown := by omega
  unfold specRank
  rw [if_neg hi]
  rcases hc with h | h
  · rw [if_pos h]
    constructor
    · intro h2
      simp at h2
    · intro h2
      omega
  · have hne : confidence ≠ K.ConnectionConfidenceUnknown := by omega
    rw [if_neg hne]
    constructor
    · intro h2
      simp only [Int.toNat_ofNat, ge_iff_le, add_le_add_iff_right] at h2
      omega
    · intro h2
      simp only [Int.toNat_ofNat, ge_iff_le, add_le_add_iff_right]
      omega

theorem names_eq (K : ProxyConstants) (hmax : K.ConnectionConfidenceMax = 4) :
    ConnectionConfidenceNames K = nameStrings := by
  unfold ConnectionConfidenceNames
  rw [hmax]
  rfl

theorem confidenceToInt_str (K : ProxyConstants) (E : MojEnv)
    (hmax : K.ConnectionConfidenceMax = 4) (level : String) :
    ConfidenceToInt K E (MojObject.str level) =
      if nameStrings.indexOf level < 4 then ((nameStrings.indexOf level : Nat) : Int)
      else K.ConnectionConfidenceUnknown := by
  simp only [ConfidenceToInt, MojObject.stringValue, names_eq K hmax, hmax]

theorem confidenceToInt_name (K : ProxyConstants) (E : MojEnv)
    (hmax : K.ConnectionConfidenceMax = 4) (i : Nat) (hi : i < 4) :
    ConfidenceToInt K E (MojObject.str (nameStrings.getD i "")) = (i : Int) := by
  rw [confidenceToInt_str K E hmax]
  interval_cases i <;> rfl

theorem confidenceToInt_range (K : ProxyConstants) (E : MojEnv) (o : MojObject) :
    ConfidenceToInt K E o = K.ConnectionConfidenceUnknown ∨
    (0 ≤ ConfidenceToInt K E o ∧ ConfidenceToInt K E o < (K.ConnectionConfidenceMax : Int)) := by
  unfold ConfidenceToInt
  split
  · split
    · exact Or.inl rfl
    · simp only
      split
      · right
        constructor
        · exact Int.ofNat_nonneg _
        · exact Int.ofNat_lt.2 (by assumption)
      · exact Or.inl rfl
  · exact Or.inl rfl

theorem confidenceToInt_other (K : ProxyConstants) (E : MojEnv)
    (hmax : K.ConnectionConfidenceMax = 4) (value : MojObject)
    (h : ∀ level ∈ nameStrings, value ≠ MojObject.str level) :
    ConfidenceToInt K E value = K.ConnectionConfidenceUnknown := by
  cases value with
  | str level =>
    rw [confidenceToInt_str K E hmax]
    have hnot : level ∉ nameStrings := fun hm => h level hm rfl
    have : nameStrings.indexOf level = nameStrings.length := List.indexOf_eq_length.2 hnot
    rw [this]
    rfl
  | _ => rfl

theorem instantiateBasic_eq (s : ConnectionManagerProxy) (activity : activityId_t)
    (id : CoreId) (value : MojObject) (what : String) :
    (value = MojObject.bool true →
      s.instantiateBasic activity id value what =
        (Checked.ok (Requirement.mk activity id (s.cores id).met),
          s.push_back id (Requirement.mk activity id (s.cores id).met))) ∧
    (value ≠ MojObject.bool true →
      s.instantiateBasic activity id value what = (Checked.thrown what, s)) := by
  constructor
  · intro h
    subst h
    rfl
  · intro h
    unfold instantiateBasic
    split
    · exact absurd rfl h
    · rfl

theorem instantiateConfidence_failed (K : ProxyConstants) (E : MojEnv)
    (s : ConnectionManagerProxy) (activity : activityId_t) (confidenceCores : Nat → CoreId)
    (value : MojObject)
    (h : ∀ r, (InstantiateConfidenceRequirement K E s activity confidenceCores value).1 ≠
      Checked.ok r) :
    (InstantiateConfidenceRequirement K E s activity confidenceCores value).2 = s := by
  unfold InstantiateConfidenceRequirement at h ⊢
  simp only at h ⊢
  split
  · rfl
  · split
    · rfl
    · rename_i h1 h2
      rw [if_neg h1, if_neg h2] at h
      exact absurd rfl (h _)

theorem received_of_append (s s1 : ConnectionManagerProxy) (list : CoreId) (d : List ProxyCall)
    (h : s1.calls = s.calls ++ d) :
    received s s1 list = d.filter (ProxyCall.onList list) := by
  unfold received
  rw [h, List.drop_left]

theorem received_forEach (s : ConnectionManagerProxy) (list : CoreId) (kind : Broadcast) :
    received s (s.forEach list kind) list = s.toAll list kind := by
  rw [received_of_append s _ list (s.toAll list kind) rfl, List.filter_eq_self]
  intro c hc
  obtain ⟨r, _, hr⟩ := List.mem_map.1 hc
  subst hr
  simp [ProxyCall.onList]

theorem received_self (s : ConnectionManagerProxy) (list : CoreId) : received s s list = [] := by
  unfold received
  simp

theorem received_setCore_forEach (s : ConnectionManagerProxy) (id : CoreId)
    (core : RequirementCore) (kind : Broadcast) :
    received s ((s.setCore id core).forEach id kind) id = s.toAll id kind :=
  received_forEach (s.setCore id core) id kind

/-- What the block on a requirement core does: the core is met exactly when the
requirement is available, its current value stays, and its bindings receive `Met`
when it becomes met, `Unmet` when it becomes unmet, `Updated` when it stays met and
was updated, and nothing otherwise. -/
theorem updateRequirement_at (s : ConnectionManagerProxy) (id : CoreId)
    (available updated : Bool) :
    ((s.updateRequirement id available updated).cores id).met = available ∧
    ((s.updateRequirement id available updated).cores id).current = (s.cores id).current ∧
    received s (s.updateRequirement id available updated) id =
      (if available then
        (if (s.cores id).met then (if updated then s.toAll id Broadcast.Updated else [])
          else s.toAll id Broadcast.Met)
      else (if (s.cores id).met then s.toAll id Broadcast.Unmet else [])) ∧
    (s.updateRequirement id available updated).requirements id =
      (if available then
        (if (s.cores id).met then
          (if updated then (s.requirements id).map (Requirement.receive Broadcast.Updated)
            else s.requirements id)
          else (s.requirements id).map (Requirement.receive Broadcast.Met))
      else (if (s.cores id).met then (s.requirements id).map (Requirement.receive Broadcast.Unmet)
        else s.requirements id)) := by
  unfold updateRequirement
  cases available
  · cases hm : (s.cores id).met
    · simp only [RequirementCore.IsMet, hm, Bool.false_eq_true, if_false]
      refine ⟨?_, ?_, ?_, ?_⟩ <;> first | trivial | exact received_self s id
    · simp only [RequirementCore.IsMet, hm, Bool.false_eq_true, if_false, if_true]
      refine ⟨?_, ?_, received_setCore_forEach s id _ _, ?_⟩
      · simp [forEach, setCore, RequirementCore.Unmet]
      · simp [forEach, setCore, RequirementCore.Unmet]
      · simp [forEach, setCore]
  · cases hm : (s.cores id).met
    · simp only [RequirementCore.IsMet, hm, Bool.not_false, Bool.false_eq_true, if_false,
        if_true]
      refine ⟨?_, ?_, received_setCore_forEach s id _ _, ?_⟩
      · simp [forEach, setCore, RequirementCore.Met]
      · simp [forEach, setCore, RequirementCore.Met]
      · simp [forEach, setCore]
    · cases updated
      · simp only [RequirementCore.IsMet, hm, Bool.not_true, Bool.false_eq_true, if_false,
          if_true]
        refine ⟨?_, ?_, ?_, ?_⟩ <;> first | trivial | exact received_self s id
      · simp only [RequirementCore.IsMet, hm, Bool.not_true, Bool.false_eq_true, if_false,
          if_true]
        refine ⟨?_, ?_, ?_, ?_⟩ <;>
          first
          | trivial
          | exact received_forEach s id _
          | exact hm
          | rfl
          | simp [forEach]

theorem frameOn_of_eq (S : CoreId → Bool) (s s1 : ConnectionManagerProxy)
    (hc : s1.cores = s.cores) (hr : s1.requirements = s.requirements)
    (hcalls : s1.calls = s.calls) (hcall : s1.m_call = s.m_call) : FrameOn S s s1 :=
  ⟨fun _ _ => ⟨by rw [hc], by rw [hr]⟩, ⟨[], by simp [hcalls], by simp⟩, hcall⟩

/-- The end of `UpdateWifiStatus` leaves the wifi confidence at `confidence` and the
other confidences as they are; after the block on the wifi core it changes only the
wifi confidence levels. -/
theorem finishWifiStatus_at (K : ProxyConstants) (E : MojEnv) (s : ConnectionManagerProxy)
    (wifiAvailable updated : Bool) (confidence : Int) :
    (finishWifiStatus K E s wifiAvailable updated confidence).2.m_wifiConfidence = confidence ∧
    (finishWifiStatus K E s wifiAvailable updated confidence).2.m_wanConfidence
      = s.m_wanConfidence ∧
    (finishWifiStatus K E s wifiAvailable updated confidence).2.m_internetConfidence
      = s.m_internetConfidence ∧
    FrameOn (fun id => !decide (id = CoreId.wifi))
      (s.updateRequirement CoreId.wifi wifiAvailable updated)
      (finishWifiStatus K E s wifiAvailable updated confidence).2 ∧
    FrameOn CoreId.ofWifi s (finishWifiStatus K E s wifiAvailable updated confidence).2 := by
  have hu := confidences_updateRequirement s CoreId.wifi wifiAvailable updated
  have hfu := frameOn_updateRequirement CoreId.ofWifi s CoreId.wifi wifiAvailable updated rfl
  unfold finishWifiStatus
  simp only
  split
  · have hc := confidences_updateConfidenceRequirements K E
      { s.updateRequirement CoreId.wifi wifiAvailable updated with m_wifiConfidence := confidence }
      CoreId.wifiConfidence confidence
    have hf1 := frameOn_updateConfidenceRequirements (fun id => !decide (id = CoreId.wifi)) K E
      { s.updateRequirement CoreId.wifi wifiAvailable updated with m_wifiConfidence := confidence }
      CoreId.wifiConfidence confidence (fun i => by simp)
    have hf2 := frameOn_updateConfidenceRequirements CoreId.ofWifi K E
      { s.updateRequirement CoreId.wifi wifiAvailable updated with m_wifiConfidence := confidence }
      CoreId.wifiConfidence confidence (fun i => rfl)
    refine ⟨hc.2.1, hc.2.2.trans hu.2.2, hc.1.trans hu.1, ?_, ?_⟩
    · exact frameOn_trans _ _ _ _ (frameOn_of_eq _ _ _ rfl rfl rfl rfl) hf1
    · exact frameOn_trans _ _ _ _ hfu
        (frameOn_trans _ _ _ _ (frameOn_of_eq _ _ _ rfl rfl rfl rfl) hf2)
  · rename_i h
    refine ⟨?_, hu.2.2, hu.1, frameOn_refl _ _, hfu⟩
    exact not_not.1 h

/-- The end of `UpdateWANStatus` leaves the wan confidence at `confidence` and the
other confidences as they are; after the block on the wan core it changes only the
wan confidence levels. -/
theorem finishWANStatus_at (K : ProxyConstants) (E : MojEnv) (s : ConnectionManagerProxy)
    (wanAvailable updated : Bool) (confidence : Int) :
    (finishWANStatus K E s wanAvailable updated confidence).2.m_wanConfidence = confidence ∧
    (finishWANStatus K E s wanAvailable updated confidence).2.m_wifiConfidence
      = s.m_wifiConfidence ∧
    (finishWANStatus K E s wanAvailable updated confidence).2.m_internetConfidence
      = s.m_internetConfidence ∧
    FrameOn (fun id => !decide (id = CoreId.wan))
      (s.updateRequirement CoreId.wan wanAvailable updated)
      (finishWANStatus K E s wanAvailable updated confidence).2 ∧
    FrameOn CoreId.ofWan s (finishWANStatus K E s wanAvailable updated confidence).2 := by
  have hu := confidences_updateRequirement s CoreId.wan wanAvailable updated
  have hfu := frameOn_updateRequirement CoreId.ofWan s CoreId.wan wanAvailable updated rfl
  unfold finishWANStatus
  simp only
  split
  · have hc := confidences_updateConfidenceRequirements K E
      { s.updateRequirement CoreId.wan wanAvailable updated with m_wanConfidence := confidence }
      CoreId.wanConfidence confidence
    have hf1 := frameOn_updateConfidenceRequirements (fun id => !decide (id = CoreId.wan)) K E
      { s.updateRequirement CoreId.wan wanAvailable updated with m_wanConfidence := confidence }
      CoreId.wanConfidence confidence (fun i => by simp)
    have hf2 := frameOn_updateConfidenceRequirements CoreId.ofWan K E
      { s.updateRequirement CoreId.wan wanAvailable updated with m_wanConfidence := confidence }
      CoreId.wanConfidence confidence (fun i => rfl)
    refine ⟨hc.2.2, hc.2.1.trans hu.2.1, hc.1.trans hu.1, ?_, ?_⟩
    · exact frameOn_trans _ _ _ _ (frameOn_of_eq _ _ _ rfl rfl rfl rfl) hf1
    · exact frameOn_trans _ _ _ _ hfu
        (frameOn_trans _ _ _ _ (frameOn_of_eq _ _ _ rfl rfl rfl rfl) hf2)
  · rename_i h
    refine ⟨?_, hu.2.1, hu.1, frameOn_refl _ _, hfu⟩
    exact not_not.1 h

theorem getString_failed (E : MojEnv) (o : MojObject) (key : String)
    (h : o.getString E key = StringEntry.failed) : ∃ v, E.stringValue v = none := by
  unfold MojObject.getString at h
  split at h
  · exact absurd h (by simp)
  · rename_i v _
    split at h
    · rename_i hv
      cases v with
      | str s => simp [MojObject.stringValue] at hv
      | _ => exact ⟨_, hv⟩
    · exact absurd h (by simp)

theorem getConfidence_valid (K : ProxyConstants) (E : MojEnv) (spec : MojObject) :
    ValidConfidence K (GetConfidence K E spec) := by
  unfold GetConfidence
  split
  · exact Or.inl rfl
  · exact confidenceToInt_range K E _

theorem validConfidence_unknown (K : ProxyConstants) :
    ValidConfidence K K.ConnectionConfidenceUnknown :=
  Or.inl rfl

/-- The shape of `UpdateWifiStatus`: the current value of the wifi core is set when
the response has a `wifi` or a `wired` entry; then either a string conversion fails
and the call returns, or the end of the function runs with some availability and a
confidence that is unknown or a level. -/
theorem updateWifiStatus_shape (K : ProxyConstants) (E : MojEnv) (t : ConnectionManagerProxy)
    (response : MojObject) :
    ∃ t1 u, ((t1 = t ∧ u = false) ∨
        ∃ w, t1 = t.setCore CoreId.wifi ((t.cores CoreId.wifi).SetCurrentValue E w).2 ∧
          u = ((t.cores CoreId.wifi).SetCurrentValue E w).1) ∧
      ((UpdateWifiStatus K E t response = (false, t1) ∧ ∃ v, E.stringValue v = none) ∨
        ∃ a conf, ValidConfidence K conf ∧
          UpdateWifiStatus K E t response = finishWifiStatus K E t1 a u conf) := by
  unfold UpdateWifiStatus
  simp only
  split
  · rename_i wifi _
    refine ⟨_, _, Or.inr ⟨wifi, rfl, rfl⟩, ?_⟩
    split
    · rename_i hf
      exact Or.inl ⟨rfl, getString_failed E _ _ hf⟩
    · exact Or.inr ⟨_, _, validConfidence_unknown K, rfl⟩
    · split
      · split
        · rename_i hf
          exact Or.inl ⟨rfl, getString_failed E _ _ hf⟩
        · split
          · exact Or.inr ⟨_, _, getConfidence_valid K E _, rfl⟩
          · exact Or.inr ⟨_, _, validConfidence_unknown K, rfl⟩
      · exact Or.inr ⟨_, _, validConfidence_unknown K, rfl⟩
  · exact ⟨t, false, Or.inl ⟨rfl, rfl⟩, Or.inr ⟨_, _, validConfidence_unknown K, rfl⟩⟩

/-- The shape of `UpdateWANStatus`, as for `UpdateWifiStatus`. -/
theorem updateWANStatus_shape (K : ProxyConstants) (E : MojEnv) (t : ConnectionManagerProxy)
    (response : MojObject) :
    ∃ t1 u, ((t1 = t ∧ u = false) ∨
        ∃ w, t1 = t.setCore CoreId.wan ((t.cores CoreId.wan).SetCurrentValue E w).2 ∧
          u = ((t.cores CoreId.wan).SetCurrentValue E w).1) ∧
      ((UpdateWANStatus K E t response = (false, t1) ∧ ∃ v, E.stringValue v = none) ∨
        ∃ a conf, ValidConfidence K conf ∧
          UpdateWANStatus K E t response = finishWANStatus K E t1 a u conf) := by
  unfold UpdateWANStatus
  simp only
  split
  · rename_i wan _
    refine ⟨_, _, Or.inr ⟨wan, rfl, rfl⟩, ?_⟩
    split
    · rename_i hf
      exact Or.inl ⟨rfl, getString_failed E _ _ hf⟩
    · exact Or.inr ⟨_, _, validConfidence_unknown K, rfl⟩
    · split
      · split
        · rename_i hf
          exact Or.inl ⟨rfl, getString_failed E _ _ hf⟩
        · exact Or.inr ⟨_, _, validConfidence_unknown K, rfl⟩
        · split
          · split
            · rename_i hf
              exact Or.inl ⟨rfl, getString_failed E _ _ hf⟩
            · split
              · exact Or.inr ⟨_, _, getConfidence_valid K E _, rfl⟩
              · exact Or.inr ⟨_, _, validConfidence_unknown K, rfl⟩
          · exact Or.inr ⟨_, _, validConfidence_unknown K, rfl⟩
      · exact Or.inr ⟨_, _, validConfidence_unknown K, rfl⟩
  · exact ⟨t, false, Or.inl ⟨rfl, rfl⟩, Or.inr ⟨_, _, validConfidence_unknown K, rfl⟩⟩

theorem frameOn_setCurrentValue (S : CoreId → Bool) (E : MojEnv) (t : ConnectionManagerProxy)
    (c : CoreId) (hS : S c = true) (t1 : ConnectionManagerProxy) (u : Bool)
    (h : (t1 = t ∧ u = false) ∨
      ∃ w, t1 = t.setCore c ((t.cores c).SetCurrentValue E w).2 ∧
        u = ((t.cores c).SetCurrentValue E w).1) :
    FrameOn S t t1 ∧ t1.m_internetConfidence = t.m_internetConfidence ∧
    t1.m_wifiConfidence = t.m_wifiConfidence ∧ t1.m_wanConfidence = t.m_wanConfidence ∧
    t1.requirements = t.requirements ∧ t1.calls = t.calls ∧
    (t1.cores c).met = (t.cores c).met := by
  rcases h with ⟨h1, _⟩ | ⟨w, h1, _⟩
  · rw [h1]
    exact ⟨frameOn_refl S t, rfl, rfl, rfl, rfl, rfl, rfl⟩
  · rw [h1]
    refine ⟨frameOn_setCore S t c _ hS, rfl, rfl, rfl, rfl, rfl, ?_⟩
    simp [setCore, setCurrentValue_met]

/-- `UpdateWifiStatus` changes only the wifi core, the wifi confidence levels and
their lists; it leaves the other confidences, and a wifi confidence that it sets is
unknown or a level. -/
theorem updateWifiStatus_frame (K : ProxyConstants) (E : MojEnv) (t : ConnectionManagerProxy)
    (response : MojObject) :
    FrameOn CoreId.ofWifi t (UpdateWifiStatus K E t response).2 ∧
    (UpdateWifiStatus K E t response).2.m_internetConfidence = t.m_internetConfidence ∧
    (UpdateWifiStatus K E t response).2.m_wanConfidence = t.m_wanConfidence ∧
    ((UpdateWifiStatus K E t response).2.m_wifiConfidence = t.m_wifiConfidence ∨
      ValidConfidence K (UpdateWifiStatus K E t response).2.m_wifiConfidence) := by
  obtain ⟨t1, u, hpre, hres⟩ := updateWifiStatus_shape K E t response
  obtain ⟨hf, hi, hwifi, hwan, _, _, _⟩ := frameOn_setCurrentValue CoreId.ofWifi E t CoreId.wifi
    rfl t1 u hpre
  rcases hres with ⟨h, _⟩ | ⟨a, conf, hv, h⟩
  · rw [h]
    exact ⟨hf, hi, hwan, Or.inl hwifi⟩
  · rw [h]
    have hfin := finishWifiStatus_at K E t1 a u conf
    refine ⟨frameOn_trans _ _ _ _ hf hfin.2.2.2.2, hfin.2.2.1.trans hi, hfin.2.1.trans hwan, ?_⟩
    right
    rw [hfin.1]
    exact hv

/-- `UpdateWANStatus` changes only the wan core, the wan confidence levels and their
lists; it leaves the other confidences, and a wan confidence that it sets is unknown
or a level. -/
theorem updateWANStatus_frame (K : ProxyConstants) (E : MojEnv) (t : ConnectionManagerProxy)
    (response : MojObject) :
    FrameOn CoreId.ofWan t (UpdateWANStatus K E t response).2 ∧
    (UpdateWANStatus K E t response).2.m_internetConfidence = t.m_internetConfidence ∧
    (UpdateWANStatus K E t response).2.m_wifiConfidence = t.m_wifiConfidence ∧
    ((UpdateWANStatus K E t response).2.m_wanConfidence = t.m_wanConfidence ∨
      ValidConfidence K (UpdateWANStatus K E t response).2.m_wanConfidence) := by
  obtain ⟨t1, u, hpre, hres⟩ := updateWANStatus_shape K E t response
  obtain ⟨hf, hi, hwifi, hwan, _, _, _⟩ := frameOn_setCurrentValue CoreId.ofWan E t CoreId.wan
    rfl t1 u hpre
  rcases hres with ⟨h, _⟩ | ⟨a, conf, hv, h⟩
  · rw [h]
    exact ⟨hf, hi, hwifi, Or.inl hwan⟩
  · rw [h]
    have hfin := finishWANStatus_at K E t1 a u conf
    refine ⟨frameOn_trans _ _ _ _ hf hfin.2.2.2.2, hfin.2.2.1.trans hi, hfin.2.1.trans hwifi, ?_⟩
    right
    rw [hfin.1]
    exact hv

/-- The stages of a successful `ConnectionManagerUpdate`: the block on the internet
core, `UpdateWifiStatus`, `UpdateWANStatus`, and the update of the internet
confidence, which becomes the greater of the wifi and the wan confidence. -/
theorem update_stages (K : ProxyConstants) (E : MojEnv) (s : ConnectionManagerProxy)
    (response : MojObject) (permanent : Bool) :
    ∃ t1 u a s2,
      ((t1 = s ∧ u = false) ∨
        ∃ w, t1 = s.setCore CoreId.internet ((s.cores CoreId.internet).SetCurrentValue E w).2 ∧
          u = ((s.cores CoreId.internet).SetCurrentValue E w).1) ∧
      s2 = t1.updateRequirement CoreId.internet a u ∧
      FrameOn CoreId.ofInternetConfidence
        (UpdateWANStatus K E (UpdateWifiStatus K E s2 response).2 response).2
        (ConnectionManagerUpdate K E s response MojErr.MojErrNone permanent) ∧
      (ConnectionManagerUpdate K E s response MojErr.MojErrNone permanent).m_wifiConfidence =
        (UpdateWANStatus K E (UpdateWifiStatus K E s2 response).2 response).2.m_wifiConfidence ∧
      (ConnectionManagerUpdate K E s response MojErr.MojErrNone permanent).m_wanConfidence =
        (UpdateWANStatus K E (UpdateWifiStatus K E s2 response).2 response).2.m_wanConfidence ∧
      (ConnectionManagerUpdate K E s response MojErr.MojErrNone permanent).m_internetConfidence =
        max (UpdateWANStatus K E (UpdateWifiStatus K E s2 response).2 response).2.m_wifiConfidence
          (UpdateWANStatus K E (UpdateWifiStatus K E s2 response).2 response).2.m_wanConfidence := by
  refine ⟨s.setCore CoreId.internet ((s.cores CoreId.internet).SetCurrentValue E
      (internetObj E response (isInternetConnectionAvailable E response))).2,
    ((s.cores CoreId.internet).SetCurrentValue E
      (internetObj E response (isInternetConnectionAvailable E response))).1,
    isInternetConnectionAvailable E response, _, Or.inr ⟨_, rfl, rfl⟩, rfl, ?_⟩
  unfold ConnectionManagerUpdate
  simp only [ne_eq, not_true_eq_false, if_false]
  generalize (UpdateWANStatus K E (UpdateWifiStatus K E _ response).2 response).2 = s4
  have hmax : (if s4.m_wifiConfidence > s4.m_wanConfidence then s4.m_wifiConfidence
      else s4.m_wanConfidence) = max s4.m_wifiConfidence s4.m_wanConfidence := by
    split <;> omega
  rw [hmax]
  split
  · have hc := confidences_updateConfidenceRequirements K E
      { s4 with m_internetConfidence := max s4.m_wifiConfidence s4.m_wanConfidence }
      CoreId.internetConfidence (max s4.m_wifiConfidence s4.m_wanConfidence)
    have hf := frameOn_updateConfidenceRequirements CoreId.ofInternetConfidence K E
      { s4 with m_internetConfidence := max s4.m_wifiConfidence s4.m_wanConfidence }
      CoreId.internetConfidence (max s4.m_wifiConfidence s4.m_wanConfidence) (fun i => rfl)
    exact ⟨frameOn_trans _ _ _ _ (frameOn_of_eq _ _ _ rfl rfl rfl rfl) hf, hc.2.1, hc.2.2, hc.1⟩
  · rename_i h
    exact ⟨frameOn_refl _ _, rfl, rfl, not_not.1 h⟩

theorem specRank_max (K : ProxyConstants) (a b : Int)
    (hunk : K.ConnectionConfidenceUnknown < 0)
    (ha : ValidConfidence K a) (hb : ValidConfidence K b) :
    specRank K (max a b) = max (specRank K a) (specRank K b) := by
  unfold ValidConfidence at ha hb
  unfold specRank
  rcases ha with ha | ha <;> rcases hb with hb | hb
  · subst ha; subst hb
    simp
  · have h1 : max a b = b := by omega
    have h2 : b ≠ K.ConnectionConfidenceUnknown := by omega
    rw [h1, if_pos ha, if_neg h2]
    omega
  · have h1 : max a b = a := by omega
    have h2 : a ≠ K.ConnectionConfidenceUnknown := by omega
    rw [h1, if_pos hb, if_neg h2]
    omega
  · have h2 : a ≠ K.ConnectionConfidenceUnknown := by omega
    have h3 : b ≠ K.ConnectionConfidenceUnknown := by omega
    have h4 : max a b ≠ K.ConnectionConfidenceUnknown := by omega
    rw [if_neg h2, if_neg h3, if_neg h4]
    omega

theorem instantiateRequirement_state (K : ProxyConstants) (E : MojEnv)
    (s : ConnectionManagerProxy) (activity : activityId_t) (name : String) (value : MojObject) :
    (InstantiateRequirement K E s activity name value).2 = s ∨
    ∃ id req, (InstantiateRequirement K E s activity name value).2 = s.push_back id req := by
  have hb : ∀ id what, (s.instantiateBasic activity id value what).2 = s ∨
      ∃ l req, (s.instantiateBasic activity id value what).2 = s.push_back l req := by
    intro id what
    unfold instantiateBasic
    split
    · exact Or.inr ⟨id, ⟨activity, id, (s.cores id).IsMet⟩, rfl⟩
    · exact Or.inl rfl
  have hcf : ∀ fam, (InstantiateConfidenceRequirement K E s activity fam value).2 = s ∨
      ∃ l req, (InstantiateConfidenceRequirement K E s activity fam value).2
        = s.push_back l req := by
    intro fam
    unfold InstantiateConfidenceRequirement
    simp only
    split
    · exact Or.inl rfl
    · split
      · exact Or.inl rfl
      · exact Or.inr ⟨_, _, rfl⟩
  unfold InstantiateRequirement
  split
  · exact hb _ _
  · split
    · exact hcf _
    · split
      · exact hb _ _
      · split
        · exact hcf _
        · split
          · exact hb _ _
          · split
            · exact hcf _
            · exact Or.inl rfl

/-- Every operation keeps the internet confidence at the greater of the wifi and the
wan confidence, and the wifi and the wan confidence unknown or a level. -/
theorem maxInv_step (K : ProxyConstants) (E : MojEnv) (s : ConnectionManagerProxy) (op : Op)
    (h : s.m_internetConfidence = max s.m_wifiConfidence s.m_wanConfidence ∧
      ValidConfidence K s.m_wifiConfidence ∧ ValidConfidence K s.m_wanConfidence) :
    (step K E s op).m_internetConfidence =
      max (step K E s op).m_wifiConfidence (step K E s op).m_wanConfidence ∧
    ValidConfidence K (step K E s op).m_wifiConfidence ∧
    ValidConfidence K (step K E s op).m_wanConfidence := by
  cases op with
  | ConnectionManagerUpdate response err permanent =>
    cases err with
    | MojErrInvalidArg =>
      have hstep : step K E s (Op.ConnectionManagerUpdate response MojErr.MojErrInvalidArg
          permanent) = ConnectionManagerUpdate K E s response MojErr.MojErrInvalidArg permanent :=
        rfl
      rw [hstep]
      unfold ConnectionManagerUpdate
      cases permanent <;> exact h
    | MojErrNone =>
      have hstep : step K E s (Op.ConnectionManagerUpdate response MojErr.MojErrNone
          permanent) = ConnectionManagerUpdate K E s response MojErr.MojErrNone permanent := rfl
      rw [hstep]
      obtain ⟨t1, u, a, s2, hpre, hs2, _, hwifi, hwan, hint⟩ := update_stages K E s response permanent
      obtain ⟨_, _, h1wifi, h1wan, _, _, _⟩ := frameOn_setCurrentValue CoreId.ofInternet E s
        CoreId.internet rfl t1 u hpre
      have h2 := confidences_updateRequirement t1 CoreId.internet a u
      rw [← hs2] at h2
      have h3 := updateWifiStatus_frame K E s2 response
      have h4 := updateWANStatus_frame K E (UpdateWifiStatus K E s2 response).2 response
      have hvwifi : ValidConfidence K
          (UpdateWANStatus K E (UpdateWifiStatus K E s2 response).2 response).2.m_wifiConfidence := by
        rw [h4.2.2.1]
        rcases h3.2.2.2 with h5 | h5
        · rw [h5, h2.2.1, h1wifi]
          exact h.2.1
        · exact h5
      have hvwan : ValidConfidence K
          (UpdateWANStatus K E (UpdateWifiStatus K E s2 response).2 response).2.m_wanConfidence := by
        rcases h4.2.2.2 with h5 | h5
        · rw [h5, h3.2.2.1, h2.2.2, h1wan]
          exact h.2.2
        · exact h5
      rw [hint, hwifi, hwan]
      exact ⟨rfl, hvwifi, hvwan⟩
  | InstantiateRequirement activity name value =>
    have hstep : step K E s (Op.InstantiateRequirement activity name value) =
        (InstantiateRequirement K E s activity name value).2 := rfl
    rw [hstep]
    rcases instantiateRequirement_state K E s activity name value with h1 | ⟨id, req, h1⟩
    · rw [h1]
      exact h
    · rw [h1]
      exact h
  | Enable => exact h
  | Disable => exact h

theorem maxInv_run (K : ProxyConstants) (E : MojEnv) (ops : List Op) :
    (run K E ops).m_internetConfidence =
      max (run K E ops).m_wifiConfidence (run K E ops).m_wanConfidence ∧
    ValidConfidence K (run K E ops).m_wifiConfidence ∧
    ValidConfidence K (run K E ops).m_wanConfidence := by
  unfold run
  have h0 : (new K).m_internetConfidence = max (new K).m_wifiConfidence (new K).m_wanConfidence ∧
      ValidConfidence K (new K).m_wifiConfidence ∧ ValidConfidence K (new K).m_wanConfidence :=
    ⟨by simp [new], Or.inl rfl, Or.inl rfl⟩
  generalize new K = s at h0
  induction ops generalizing s with
  | nil => exact h0
  | cons op ops ih => exact ih _ (maxInv_step K E s op h0)

theorem updateWifiStatus_congr (K : ProxyConstants) (E : MojEnv) (t : ConnectionManagerProxy)
    (r r1 : MojObject)
    (h : wifiDescription r = wifiDescription r1) :
    UpdateWifiStatus K E t r = UpdateWifiStatus K E t r1 := by
  unfold UpdateWifiStatus
  simp only
  rw [h]

theorem updateWANStatus_congr (K : ProxyConstants) (E : MojEnv) (t : ConnectionManagerProxy)
    (r r1 : MojObject)
    (h : wanDescription r = wanDescription r1) :
    UpdateWANStatus K E t r = UpdateWANStatus K E t r1 := by
  unfold UpdateWANStatus
  simp only
  rw [h]

theorem connectionManagerUpdate_congr (K : ProxyConstants) (E : MojEnv)
    (s : ConnectionManagerProxy) (r r1 : MojObject) (err : MojErr) (permanent : Bool)
    (hb : isInternetConnectionAvailable E r = isInternetConnectionAvailable E r1)
    (ho : ∀ b, internetObj E r b = internetObj E r1 b)
    (hwifi : ∀ t, UpdateWifiStatus K E t r = UpdateWifiStatus K E t r1)
    (hwan : ∀ t, UpdateWANStatus K E t r = UpdateWANStatus K E t r1) :
    ConnectionManagerUpdate K E s r err permanent =
      ConnectionManagerUpdate K E s r1 err permanent := by
  unfold ConnectionManagerUpdate
  simp only [hb, ho, hwifi, hwan]

theorem wired_internetObj (E : MojEnv) (r r1 X : MojObject) (b : Bool)
    (hwired : r.get "wired" = some X) (hnowifi : r.get "wifi" = none)
    (hwifi1 : r1.get "wifi" = some X) (hnowired1 : r1.get "wired" = none)
    (hcell : r1.get "cellular" = r.get "cellular") :
    internetObj E r b = internetObj E r1 b := by
  unfold internetObj
  simp only [hwired, hnowifi, hwifi1, hnowired1, hcell, Option.isSome_none, Option.isSome_some,
    Option.getD_some, Option.getD_none, Bool.false_eq_true, false_or, true_or, or_true,
    if_true, if_false, false_and, true_and, not_false_eq_true, ne_eq, not_true_eq_false,
    or_false]
  simp

/-- With a wan description that is connected on an unusable network,
`UpdateWANStatus` runs its end with the wan not available and the confidence
unknown. -/
theorem updateWANStatus_unusable (K : ProxyConstants) (E : MojEnv) (t : ConnectionManagerProxy)
    (response X : MojObject) (hwan : wanDescription response = some X)
    (hstate : X.get "state" = some (MojObject.str "connected"))
    (hnet : X.get "network" = some (MojObject.str "unusable")) :
    UpdateWANStatus K E t response =
      finishWANStatus K E (t.setCore CoreId.wan ((t.cores CoreId.wan).SetCurrentValue E X).2)
        false ((t.cores CoreId.wan).SetCurrentValue E X).1 K.ConnectionConfidenceUnknown := by
  unfold UpdateWANStatus
  simp [hwan, MojObject.getString, hstate, hnet, MojObject.stringValue]

/-- With a wifi description that is connected and on the internet,
`UpdateWifiStatus` runs its end with the wifi available and the confidence of the
description. -/
theorem updateWifiStatus_available (K : ProxyConstants) (E : MojEnv)
    (t : ConnectionManagerProxy) (response W : MojObject)
    (hwifi : wifiDescription response = some W)
    (hstate : W.get "state" = some (MojObject.str "connected"))
    (hon : W.get "onInternet" = some (MojObject.str "yes")) :
    UpdateWifiStatus K E t response =
      finishWifiStatus K E (t.setCore CoreId.wifi ((t.cores CoreId.wifi).SetCurrentValue E W).2)
        true ((t.cores CoreId.wifi).SetCurrentValue E W).1 (GetConfidence K E W) := by
  unfold UpdateWifiStatus
  simp [hwifi, MojObject.getString, hstate, hon, MojObject.stringValue, StringEntry.value]

mutual

theorem same_refl : ∀ o : MojObject, o.same o = true
  | MojObject.undefined => rfl
  | MojObject.null => rfl
  | MojObject.bool _ => by simp [MojObject.same]
  | MojObject.int _ => by simp [MojObject.same]
  | MojObject.decimal _ => by simp [MojObject.same]
  | MojObject.str _ => by simp [MojObject.same]
  | MojObject.array xs => by
    rw [MojObject.same]
    exact sameList_refl xs
  | MojObject.object kv => by
    rw [MojObject.same]
    exact sameEntries_refl kv

theorem sameList_refl : ∀ xs : List MojObject, MojObject.sameList xs xs = true
  | [] => rfl
  | x :: xs => by
    rw [MojObject.sameList, same_refl x, sameList_refl xs]
    rfl

theorem sameEntries_refl : ∀ kv : List (String × MojObject), MojObject.sameEntries kv kv = true
  | [] => rfl
  | (k, x) :: kv => by
    rw [MojObject.sameEntries, same_refl x, sameEntries_refl kv]
    simp

end

theorem get_wifiPayload (key : String) (h1 : key ≠ "wifi") (h2 : key ≠ "wired") :
    wifiPayload.get key = wiredPayload.get key := by
  have e1 : ("wifi" == key) = false := beq_eq_false_iff_ne.2 (Ne.symm h1)
  have e2 : ("wired" == key) = false := beq_eq_false_iff_ne.2 (Ne.symm h2)
  simp [wifiPayload, wiredPayload, MojObject.get, List.find?, e1, e2]

theorem get_wanPayload (key : String) (h1 : key ≠ "wan") (h2 : key ≠ "cellular") :
    wanPayload.get key = cellularPayload.get key := by
  have e1 : ("wan" == key) = false := beq_eq_false_iff_ne.2 (Ne.symm h1)
  have e2 : ("cellular" == key) = false := beq_eq_false_iff_ne.2 (Ne.symm h2)
  simp [wanPayload, cellularPayload, MojObject.get, List.find?, e1, e2]

theorem getConfidence_fair (K : ProxyConstants) (E : MojEnv) (W : MojObject)
    (hmax : K.ConnectionConfidenceMax = 4)
    (hlevel : W.get "networkConfidenceLevel" = some (MojObject.str "fair")) :
    GetConfidence K E W = 2 := by
  unfold GetConfidence
  rw [hlevel]
  exact confidenceToInt_name K E hmax 2 (by decide)

/-- The wifi confidence levels after a successful update whose wifi description is
connected and on the internet with a confidence that differs from the wifi
confidence of the state: the core of the level `i` is met exactly when the
confidence is not below `i`, and the bindings of the level are told `Met`, `Unmet`
or `Updated`. -/
theorem wifi_levels_after_update (K : ProxyConstants) (E : MojEnv) (s : ConnectionManagerProxy)
    (response W : MojObject) (permanent : Bool)
    (hwifi : wifiDescription response = some W)
    (hstate : W.get "state" = some (MojObject.str "connected"))
    (hon : W.get "onInternet" = some (MojObject.str "yes"))
    (hne : s.m_wifiConfidence ≠ GetConfidence K E W) (i : Nat)
    (hi : i < K.ConnectionConfidenceMax) :
    (ConnectionManagerUpdate K E s response MojErr.MojErrNone permanent).m_wifiConfidence =
      GetConfidence K E W ∧
    ((ConnectionManagerUpdate K E s response MojErr.MojErrNone permanent).cores
      (CoreId.wifiConfidence i)).met = decide (¬ GetConfidence K E W < (i : Int)) ∧
    (ConnectionManagerUpdate K E s response MojErr.MojErrNone permanent).requirements
      (CoreId.wifiConfidence i) = (s.requirements (CoreId.wifiConfidence i)).map
        (Requirement.receive
          (if GetConfidence K E W < (i : Int) then
            (if (s.cores (CoreId.wifiConfidence i)).met then Broadcast.Unmet
              else Broadcast.Updated)
          else (if (s.cores (CoreId.wifiConfidence i)).met then Broadcast.Updated
            else Broadcast.Met))) := by
  obtain ⟨t1, u, a, s2, hpre, hs2, hfinal, hwific, _, _⟩ := update_stages K E s response permanent
  have hset := frameOn_setCurrentValue CoreId.ofInternet E s CoreId.internet rfl t1 u hpre
  have hs2f : FrameOn CoreId.ofInternet s s2 := by
    rw [hs2]
    exact frameOn_trans _ _ _ _ hset.1
      (frameOn_updateRequirement CoreId.ofInternet t1 CoreId.internet a u rfl)
  have hs2c : s2.m_wifiConfidence = s.m_wifiConfidence := by
    rw [hs2, (confidences_updateRequirement t1 CoreId.internet a u).2.1, hset.2.2.1]
  have hav := updateWifiStatus_available K E s2 response W hwifi hstate hon
  have hwanf := updateWANStatus_frame K E (UpdateWifiStatus K E s2 response).2 response
  -- the state in which the confidence levels are updated
  have hup := confidences_updateRequirement
    (s2.setCore CoreId.wifi ((s2.cores CoreId.wifi).SetCurrentValue E W).2) CoreId.wifi true
    ((s2.cores CoreId.wifi).SetCurrentValue E W).1
  have hfu := frameOn_updateRequirement (fun id => decide (id = CoreId.wifi))
    (s2.setCore CoreId.wifi ((s2.cores CoreId.wifi).SetCurrentValue E W).2) CoreId.wifi true
    ((s2.cores CoreId.wifi).SetCurrentValue E W).1 (by simp)
  have hfs := frameOn_setCore (fun id => decide (id = CoreId.wifi)) s2 CoreId.wifi
    ((s2.cores CoreId.wifi).SetCurrentValue E W).2 (by simp)
  have hconf := getConfidence_valid K E W
  have hfin : (UpdateWifiStatus K E s2 response).2 =
      UpdateConfidenceRequirements K E
        { (s2.setCore CoreId.wifi ((s2.cores CoreId.wifi).SetCurrentValue E W).2).updateRequirement
            CoreId.wifi true ((s2.cores CoreId.wifi).SetCurrentValue E W).1 with
          m_wifiConfidence := GetConfidence K E W }
        CoreId.wifiConfidence (GetConfidence K E W) := by
    rw [hav]
    unfold finishWifiStatus
    simp only
    rw [if_pos]
    rw [hup.2.1]
    exact fun h => hne (hs2c ▸ h)
  have hat := updateConfidenceRequirements_at K E
    { (s2.setCore CoreId.wifi ((s2.cores CoreId.wifi).SetCurrentValue E W).2).updateRequirement
        CoreId.wifi true ((s2.cores CoreId.wifi).SetCurrentValue E W).1 with
      m_wifiConfidence := GetConfidence K E W }
    CoreId.wifiConfidence (fun _ _ h => CoreId.wifiConfidence.inj h) (GetConfidence K E W) hconf i hi
  rw [← hfin] at hat
  have hcs := (confidences_updateConfidenceRequirements K E
    { (s2.setCore CoreId.wifi ((s2.cores CoreId.wifi).SetCurrentValue E W).2).updateRequirement
        CoreId.wifi true ((s2.cores CoreId.wifi).SetCurrentValue E W).1 with
      m_wifiConfidence := GetConfidence K E W }
    CoreId.wifiConfidence (GetConfidence K E W)).2.1
  rw [← hfin] at hcs
  obtain ⟨hc1, hr1⟩ := hfinal.1 (CoreId.wifiConfidence i) rfl
  obtain ⟨hc2, hr2⟩ := hwanf.1.1 (CoreId.wifiConfidence i) rfl
  obtain ⟨hc3, hr3⟩ := hfu.1 (CoreId.wifiConfidence i) (by simp)
  obtain ⟨hc4, hr4⟩ := hfs.1 (CoreId.wifiConfidence i) (by simp)
  obtain ⟨hc5, hr5⟩ := hs2f.1 (CoreId.wifiConfidence i) rfl
  refine ⟨?_, ?_, ?_⟩
  · rw [hwific, hwanf.2.2.1, hcs]
  · rw [hc1, hc2, hat.1]
  · rw [hr1, hr2, hat.2]
    show List.map _ (((s2.setCore CoreId.wifi _).updateRequirement CoreId.wifi true _).requirements
      (CoreId.wifiConfidence i)) = _
    rw [hr3, hr4, hr5]
    show List.map (Requirement.receive
      (if GetConfidence K E W < (i : Int) then
        (if (((s2.setCore CoreId.wifi _).updateRequirement CoreId.wifi true _).cores
          (CoreId.wifiConfidence i)).met then Broadcast.Unmet else Broadcast.Updated)
      else (if (((s2.setCore CoreId.wifi _).updateRequirement CoreId.wifi true _).cores
          (CoreId.wifiConfidence i)).met then Broadcast.Updated else Broadcast.Met))) _ = _
    rw [hc3, hc4, hc5]

theorem injective_internetConfidence : Function.Injective CoreId.internetConfidence :=
  fun _ _ h => CoreId.internetConfidence.inj h

theorem injective_wanConfidence : Function.Injective CoreId.wanConfidence :=
  fun _ _ h => CoreId.wanConfidence.inj h

theorem injective_wifiConfidence : Function.Injective CoreId.wifiConfidence :=
  fun _ _ h => CoreId.wifiConfidence.inj h

theorem getConfidence_level (K : ProxyConstants) (E : MojEnv) (W : MojObject)
    (hmax : K.ConnectionConfidenceMax = 4) (i : Nat) (hi : i < 4)
    (hlevel : W.get "networkConfidenceLevel" = some (MojObject.str (nameStrings.getD i ""))) :
    GetConfidence K E W = (i : Int) := by
  unfold GetConfidence
  rw [hlevel]
  exact confidenceToInt_name K E hmax i hi

theorem wifi_confidence_after_update (K : ProxyConstants) (E : MojEnv)
    (s : ConnectionManagerProxy) (response W : MojObject) (permanent : Bool)
    (hwifi : wifiDescription response = some W)
    (hstate : W.get "state" = some (MojObject.str "connected"))
    (hon : W.get "onInternet" = some (MojObject.str "yes")) :
    (ConnectionManagerUpdate K E s response MojErr.MojErrNone permanent).m_wifiConfidence =
      GetConfidence K E W ∧
    (ConnectionManagerUpdate K E s response MojErr.MojErrNone permanent).m_internetConfidence ≥
      GetConfidence K E W := by
  obtain ⟨t1, u, a, s2, _, _, _, hwific, _, hint⟩ := update_stages K E s response permanent
  have h1 := (updateWANStatus_frame K E (UpdateWifiStatus K E s2 response).2 response).2.2.1
  have h2 := updateWifiStatus_available K E s2 response W hwifi hstate hon
  have h3 := (finishWifiStatus_at K E
    (s2.setCore CoreId.wifi ((s2.cores CoreId.wifi).SetCurrentValue E W).2) true
    ((s2.cores CoreId.wifi).SetCurrentValue E W).1 (GetConfidence K E W)).1
  rw [← h2] at h3
  have h4 : (ConnectionManagerUpdate K E s response MojErr.MojErrNone permanent).m_wifiConfidence
      = GetConfidence K E W := by rw [hwific, h1, h3]
  refine ⟨h4, ?_⟩
  rw [hint, h1, h3]
  exact le_max_left _ _

/-! ## Verified properties of the connection manager proxy -/

/-- C22: after `UpdateConfidenceRequirements` with a current confidence that is
unknown or one of the levels, the core of the level `i` of the family is met if and
only if the current confidence is at or above the level in the order unknown, none,
poor, fair, excellent, whatever the state was before; this holds for the wifi, the
wan and the internet family. -/
theorem confidence_core_met_iff (K : ProxyConstants) (E : MojEnv) (s : ConnectionManagerProxy)
    (confidence : Int) (i : Nat)
    (hunk : K.ConnectionConfidenceUnknown < 0)
    (hc : confidence = K.ConnectionConfidenceUnknown ∨
      (0 ≤ confidence ∧ confidence < (K.ConnectionConfidenceMax : Int)))
    (hi : i < K.ConnectionConfidenceMax) :
    (((UpdateConfidenceRequirements K E s CoreId.wifiConfidence confidence).cores
      (CoreId.wifiConfidence i)).met = true ↔ specRank K confidence ≥ specRank K (i : Int)) ∧
    (((UpdateConfidenceRequirements K E s CoreId.wanConfidence confidence).cores
      (CoreId.wanConfidence i)).met = true ↔ specRank K confidence ≥ specRank K (i : Int)) ∧
    (((UpdateConfidenceRequirements K E s CoreId.internetConfidence confidence).cores
      (CoreId.internetConfidence i)).met = true ↔
        specRank K confidence ≥ specRank K (i : Int)) := by
  have hrank := specRank_ge_iff K confidence i hunk (hc.imp id And.left)
  refine ⟨?_, ?_, ?_⟩
  · rw [(updateConfidenceRequirements_at K E s _ injective_wifiConfidence confidence hc i hi).1,
      hrank, decide_eq_true_iff]
  · rw [(updateConfidenceRequirements_at K E s _ injective_wanConfidence confidence hc i hi).1,
      hrank, decide_eq_true_iff]
  · rw [(updateConfidenceRequirements_at K E s _ injective_internetConfidence confidence hc i
      hi).1, hrank, decide_eq_true_iff]

/-- C22, witness: with the current confidence fair (2) the core of the level poor (1)
is met. -/
theorem confidence_core_met_iff_witness :
    specProxyConstants.ConnectionConfidenceUnknown < 0 ∧
    (((UpdateConfidenceRequirements specProxyConstants exampleEnv s4Proxy CoreId.wifiConfidence
      2).cores (CoreId.wifiConfidence 1)).met = true ↔
        specRank specProxyConstants 2 ≥ specRank specProxyConstants ((1 : Nat) : Int)) ∧
    ((UpdateConfidenceRequirements specProxyConstants exampleEnv s4Proxy CoreId.wifiConfidence
      2).cores (CoreId.wifiConfidence 1)).met = true ∧
    ((UpdateConfidenceRequirements specProxyConstants exampleEnv s4Proxy CoreId.wifiConfidence
      2).cores (CoreId.wifiConfidence 3)).met = false ∧
    ((UpdateConfidenceRequirements specProxyConstants exampleEnv s4Proxy CoreId.wifiConfidence
      (-1)).cores (CoreId.wifiConfidence 0)).met = false :=
  ⟨by decide,
    (confidence_core_met_iff specProxyConstants exampleEnv s4Proxy 2 1 (by decide)
      (Or.inr ⟨by decide, by decide⟩) (by decide)).1,
    by decide, by decide, by decide⟩

/-- C23: `InstantiateConfidenceRequirement` succeeds if and only if the value is one
of the strings none, poor, fair and excellent.  It then returns a binding to the core
of that level whose met state is that of the core, and puts it on the list of that
level and on no other list.  For every other value (the string unknown, another
string, a value that is not a string) it throws and leaves the state as it is. -/
theorem instantiate_confidence_iff (K : ProxyConstants) (E : MojEnv)
    (s : ConnectionManagerProxy) (activity : activityId_t) (confidenceCores : Nat → CoreId)
    (value : MojObject) (hmax : K.ConnectionConfidenceMax = 4)
    (hunk : K.ConnectionConfidenceUnknown < 0) :
    (∀ i, i < 4 → value = MojObject.str (nameStrings.getD i "") →
      InstantiateConfidenceRequirement K E s activity confidenceCores value =
        (Checked.ok (Requirement.mk activity (confidenceCores i)
            (s.cores (confidenceCores i)).met),
          s.push_back (confidenceCores i) (Requirement.mk activity (confidenceCores i)
            (s.cores (confidenceCores i)).met))) ∧
    ((∃ r, (InstantiateConfidenceRequirement K E s activity confidenceCores value).1 =
      Checked.ok r) ↔ ∃ level ∈ nameStrings, value = MojObject.str level) ∧
    ((∀ level ∈ nameStrings, value ≠ MojObject.str level) →
      InstantiateConfidenceRequirement K E s activity confidenceCores value =
        (Checked.thrown "Invalid connection confidence level specified", s)) ∧
    (∀ id req, (s.push_back id req).requirements id = s.requirements id ++ [req] ∧
      (∀ other, other ≠ id → (s.push_back id req).requirements other = s.requirements other) ∧
      (s.push_back id req).cores = s.cores ∧ (s.push_back id req).calls = s.calls) := by
  have hok : ∀ i, i < 4 → value = MojObject.str (nameStrings.getD i "") →
      InstantiateConfidenceRequirement K E s activity confidenceCores value =
        (Checked.ok (Requirement.mk activity (confidenceCores i)
            (s.cores (confidenceCores i)).met),
          s.push_back (confidenceCores i) (Requirement.mk activity (confidenceCores i)
            (s.cores (confidenceCores i)).met)) := by
    intro i hi hv
    unfold InstantiateConfidenceRequirement
    simp only [hv, confidenceToInt_name K E hmax i hi]
    have h1 : ((i : Nat) : Int) ≠ K.ConnectionConfidenceUnknown := by omega
    have h2 : ¬ (((i : Nat) : Int) < 0 ∨ ((i : Nat) : Int) ≥ (K.ConnectionConfidenceMax : Int)) := by
      rw [hmax]
      omega
    rw [if_neg h1, if_neg h2]
    simp only [Int.toNat_ofNat, RequirementCore.IsMet]
  have hthrow : (∀ level ∈ nameStrings, value ≠ MojObject.str level) →
      InstantiateConfidenceRequirement K E s activity confidenceCores value =
        (Checked.thrown "Invalid connection confidence level specified", s) := by
    intro h
    unfold InstantiateConfidenceRequirement
    simp only [confidenceToInt_other K E hmax value h, if_true]
  refine ⟨hok, ⟨?_, ?_⟩, hthrow, ?_⟩
  · rintro ⟨r, hr⟩
    by_contra hno
    have h : ∀ level ∈ nameStrings, value ≠ MojObject.str level :=
      fun level hl hv => hno ⟨level, hl, hv⟩
    rw [hthrow h] at hr
    exact absurd hr (by simp)
  · rintro ⟨level, hl, hv⟩
    have hidx : nameStrings.indexOf level < 4 := List.indexOf_lt_length.2 hl
    have hget : nameStrings.getD (nameStrings.indexOf level) "" = level := by
      simp only [nameStrings, List.mem_cons, List.mem_singleton, List.not_mem_nil, or_false] at hl
      rcases hl with h | h | h | h <;> subst h <;> decide
    rw [hok _ hidx (by rw [hget]; exact hv)]
    exact ⟨_, rfl⟩
  · intro id req
    refine ⟨by simp [push_back], ?_, rfl, rfl⟩
    intro other hne
    simp [push_back, Function.update_noteq hne]

/-- C23, witness: on the proxy of the scenario S4 the value excellent gives a binding
on the list of the level 3, and the values unknown, good and true are refused. -/
theorem instantiate_confidence_iff_witness :
    specProxyConstants.ConnectionConfidenceMax = 4 ∧
    specProxyConstants.ConnectionConfidenceUnknown < 0 ∧
    ((∃ r, (InstantiateConfidenceRequirement specProxyConstants exampleEnv s4Proxy 7
      CoreId.wanConfidence (MojObject.str "excellent")).1 = Checked.ok r) ↔
      ∃ level ∈ nameStrings, MojObject.str "excellent" = MojObject.str level) ∧
    (InstantiateConfidenceRequirement specProxyConstants exampleEnv s4Proxy 7
      CoreId.wanConfidence (MojObject.str "excellent")).1 =
        Checked.ok (Requirement.mk 7 (CoreId.wanConfidence 3) false) ∧
    (InstantiateConfidenceRequirement specProxyConstants exampleEnv s4Proxy 7
      CoreId.wanConfidence (MojObject.str "excellent")).2.requirements (CoreId.wanConfidence 3) =
        [(Requirement.mk 7 (CoreId.wanConfidence 3) false)] ∧
    (InstantiateConfidenceRequirement specProxyConstants exampleEnv s4Proxy 7
      CoreId.wanConfidence (MojObject.str "unknown")).1 =
        Checked.thrown "Invalid connection confidence level specified" ∧
    (InstantiateConfidenceRequirement specProxyConstants exampleEnv s4Proxy 7
      CoreId.wanConfidence (MojObject.str "good")).1 =
        Checked.thrown "Invalid connection confidence level specified" ∧
    (InstantiateConfidenceRequirement specProxyConstants exampleEnv s4Proxy 7
      CoreId.wanConfidence (MojObject.bool true)).1 =
        Checked.thrown "Invalid connection confidence level specified" :=
  ⟨by decide, by decide,
    (instantiate_confidence_iff specProxyConstants exampleEnv s4Proxy 7 CoreId.wanConfidence
      (MojObject.str "excellent") (by decide) (by decide)).2.1,
    by decide, by decide, by decide, by decide, by decide⟩

/-- C24: `InstantiateRequirement` for the names internet, wifi and wan succeeds if and
only if the value is the boolean true, and then puts a binding to the core of that
name, with the met state of the core, on its list; for every other value it throws
and leaves the state as it is.  For a name that is none of the six requirement names
it throws, and every call that does not succeed leaves the state as it is. -/
theorem instantiate_requirement_true_only (K : ProxyConstants) (E : MojEnv)
    (s : ConnectionManagerProxy) (activity : activityId_t) (value : MojObject) :
    (∀ name id, (name, id) ∈ [("internet", CoreId.internet), ("wifi", CoreId.wifi),
        ("wan", CoreId.wan)] →
      ((∃ r, (InstantiateRequirement K E s activity name value).1 = Checked.ok r) ↔
        value = MojObject.bool true) ∧
      (value = MojObject.bool true →
        InstantiateRequirement K E s activity name value =
          (Checked.ok (Requirement.mk activity id (s.cores id).met),
            s.push_back id (Requirement.mk activity id (s.cores id).met))) ∧
      (value ≠ MojObject.bool true →
        ∃ what, InstantiateRequirement K E s activity name value = (Checked.thrown what, s))) ∧
    (∀ name, name ∉ ["internet", "wifi", "wan", "internetConfidence", "wifiConfidence",
        "wanConfidence"] →
      InstantiateRequirement K E s activity name value =
        (Checked.thrown "Attempt to instantiate unknown requirement", s)) ∧
    (∀ name, (∀ r, (InstantiateRequirement K E s activity name value).1 ≠ Checked.ok r) →
      (InstantiateRequirement K E s activity name value).2 = s) := by
  have hbasic : ∀ name id what,
      InstantiateRequirement K E s activity name value = s.instantiateBasic activity id value what →
      ((∃ r, (InstantiateRequirement K E s activity name value).1 = Checked.ok r) ↔
        value = MojObject.bool true) ∧
      (value = MojObject.bool true →
        InstantiateRequirement K E s activity name value =
          (Checked.ok (Requirement.mk activity id (s.cores id).met),
            s.push_back id (Requirement.mk activity id (s.cores id).met))) ∧
      (value ≠ MojObject.bool true →
        ∃ what, InstantiateRequirement K E s activity name value = (Checked.thrown what, s)) := by
    intro name id what heq
    rw [heq]
    have hb := instantiateBasic_eq s activity id value what
    refine ⟨⟨?_, ?_⟩, hb.1, fun h => ⟨what, hb.2 h⟩⟩
    · rintro ⟨r, hr⟩
      by_contra hv
      rw [hb.2 hv] at hr
      exact absurd hr (by simp)
    · intro hv
      rw [hb.1 hv]
      exact ⟨_, rfl⟩
  refine ⟨?_, ?_, ?_⟩
  · intro name id hmem
    simp only [List.mem_cons, Prod.mk.injEq, List.mem_singleton, List.not_mem_nil, or_false]
      at hmem
    rcases hmem with ⟨hn, hid⟩ | ⟨hn, hid⟩ | ⟨hn, hid⟩ <;> subst hn <;> subst hid
    · exact hbasic _ _ _ rfl
    · exact hbasic _ _ _ rfl
    · exact hbasic _ _ _ rfl
  · intro name hname
    simp only [List.mem_cons, List.mem_singleton, List.not_mem_nil, or_false, not_or] at hname
    obtain ⟨h1, h2, h3, h4, h5, h6⟩ := hname
    unfold InstantiateRequirement
    rw [if_neg h1, if_neg h4, if_neg h3, if_neg h6, if_neg h2, if_neg h5]
  · intro name hfail
    unfold InstantiateRequirement at hfail ⊢
    have hb : ∀ id what, (∀ r, (s.instantiateBasic activity id value what).1 ≠ Checked.ok r) →
        (s.instantiateBasic activity id value what).2 = s := by
      intro id what h
      by_cases hv : value = MojObject.bool true
      · rw [(instantiateBasic_eq s activity id value what).1 hv] at h
        exact absurd rfl (h _)
      · rw [(instantiateBasic_eq s activity id value what).2 hv]
    split
    · rename_i h1
      rw [if_pos h1] at hfail
      exact hb _ _ hfail
    · rename_i h1
      rw [if_neg h1] at hfail
      split
      · rename_i h2
        rw [if_pos h2] at hfail
        exact instantiateConfidence_failed K E s activity _ value hfail
      · rename_i h2
        rw [if_neg h2] at hfail
        split
        · rename_i h3
          rw [if_pos h3] at hfail
          exact hb _ _ hfail
        · rename_i h3
          rw [if_neg h3] at hfail
          split
          · rename_i h4
            rw [if_pos h4] at hfail
            exact instantiateConfidence_failed K E s activity _ value hfail
          · rename_i h4
            rw [if_neg h4] at hfail
            split
            · rename_i h5
              rw [if_pos h5] at hfail
              exact hb _ _ hfail
            · rename_i h5
              rw [if_neg h5] at hfail
              split
              · rename_i h6
                rw [if_pos h6] at hfail
                exact instantiateConfidence_failed K E s activity _ value hfail
              · rfl

/-- C24, witness: on the proxy of the scenario S4 the requirement wifi with the value
true gives a binding on the list of the wifi core; the values false and 1 and the
name bluetooth are refused and leave the lists as they are. -/
theorem instantiate_requirement_true_only_witness :
    ((∃ r, (InstantiateRequirement specProxyConstants exampleEnv s4Proxy 5 "wifi"
      (MojObject.bool true)).1 = Checked.ok r) ↔ MojObject.bool true = MojObject.bool true) ∧
    (InstantiateRequirement specProxyConstants exampleEnv s4Proxy 5 "wifi"
      (MojObject.bool true)).2.requirements CoreId.wifi = [Requirement.mk 5 CoreId.wifi false] ∧
    (InstantiateRequirement specProxyConstants exampleEnv s4Proxy 5 "wifi"
      (MojObject.bool false)).1 = Checked.thrown
        "If an 'wifi' requirement is specified, the only legal value is 'true'" ∧
    (InstantiateRequirement specProxyConstants exampleEnv s4Proxy 5 "wifi"
      (MojObject.bool false)).2.requirements CoreId.wifi = [] ∧
    (InstantiateRequirement specProxyConstants exampleEnv s4Proxy 5 "internet"
      (MojObject.int 1)).1 = Checked.thrown
        "If an 'internet' requirement is specified, the only legal value is 'true'" ∧
    (InstantiateRequirement specProxyConstants exampleEnv s4Proxy 5 "bluetooth"
      (MojObject.bool true)).1 = Checked.thrown "Attempt to instantiate unknown requirement" :=
  ⟨((instantiate_requirement_true_only specProxyConstants exampleEnv s4Proxy 5
      (MojObject.bool true)).1 "wifi" CoreId.wifi (by simp)).1,
    by decide, by decide, by decide, by decide, by decide⟩

/-- C25: in every state that operations on the proxy (updates from the connection
manager with or without an error, instantiations, `Enable` and `Disable`) lead to
from the constructed proxy, the internet confidence is the greater of the wifi and
the wan confidence, also in the order unknown, none, poor, fair, excellent of the
spec; each of the three is unknown or a level. -/
theorem internet_confidence_is_max (K : ProxyConstants) (E : MojEnv) (ops : List Op)
    (hunk : K.ConnectionConfidenceUnknown < 0) :
    (run K E ops).m_internetConfidence =
      max (run K E ops).m_wifiConfidence (run K E ops).m_wanConfidence ∧
    specRank K (run K E ops).m_internetConfidence =
      max (specRank K (run K E ops).m_wifiConfidence)
        (specRank K (run K E ops).m_wanConfidence) ∧
    ValidConfidence K (run K E ops).m_internetConfidence ∧
    ValidConfidence K (run K E ops).m_wifiConfidence ∧
    ValidConfidence K (run K E ops).m_wanConfidence := by
  obtain ⟨h1, h2, h3⟩ := maxInv_run K E ops
  refine ⟨h1, ?_, ?_, h2, h3⟩
  · rw [h1]
    exact specRank_max K _ _ hunk h2 h3
  · rw [h1]
    rcases le_total (run K E ops).m_wifiConfidence (run K E ops).m_wanConfidence with h | h
    · rw [max_eq_right h]
      exact h3
    · rw [max_eq_left h]
      exact h2

/-- C25, witness: after an update with a wifi description of the confidence fair and
no wan description the internet confidence is fair (2), the greater of fair and
unknown. -/
theorem internet_confidence_is_max_witness :
    specProxyConstants.ConnectionConfidenceUnknown < 0 ∧
    (run specProxyConstants exampleEnv
      [Op.ConnectionManagerUpdate wifiPayload MojErr.MojErrNone false,
        Op.ConnectionManagerUpdate offlinePayload MojErr.MojErrInvalidArg false]).m_internetConfidence
      = max (run specProxyConstants exampleEnv
        [Op.ConnectionManagerUpdate wifiPayload MojErr.MojErrNone false,
          Op.ConnectionManagerUpdate offlinePayload MojErr.MojErrInvalidArg false]).m_wifiConfidence
        (run specProxyConstants exampleEnv
          [Op.ConnectionManagerUpdate wifiPayload MojErr.MojErrNone false,
            Op.ConnectionManagerUpdate offlinePayload MojErr.MojErrInvalidArg
              false]).m_wanConfidence ∧
    (run specProxyConstants exampleEnv
      [Op.ConnectionManagerUpdate wifiPayload MojErr.MojErrNone false,
        Op.ConnectionManagerUpdate offlinePayload MojErr.MojErrInvalidArg false]).m_internetConfidence
      = 2 ∧
    (run specProxyConstants exampleEnv
      [Op.ConnectionManagerUpdate wifiPayload MojErr.MojErrNone false,
        Op.ConnectionManagerUpdate offlinePayload MojErr.MojErrInvalidArg false]).m_wanConfidence
      = -1 :=
  ⟨by decide,
    (internet_confidence_is_max specProxyConstants exampleEnv
      [Op.ConnectionManagerUpdate wifiPayload MojErr.MojErrNone false,
        Op.ConnectionManagerUpdate offlinePayload MojErr.MojErrInvalidArg false] (by decide)).1,
    by decide, by decide⟩

/-- C26: an update that carries a wan description under `wan` and the same update
with the description under `cellular` are the same to `UpdateWANStatus` and to
`UpdateWifiStatus`, and give the same availability of the internet; but the value
that `ConnectionManagerUpdate` stores in the internet core has the description under
`wan` only when the update carries it under `cellular`. -/
theorem cellular_only_in_internet_value (K : ProxyConstants) (E : MojEnv)
    (r r1 X : MojObject) (b : Bool)
    (hcell : r.get "cellular" = some X) (hnowan : r.get "wan" = none)
    (hwan1 : r1.get "wan" = some X) (hnocell1 : r1.get "cellular" = none)
    (hrest : ∀ key, key ≠ "wan" → key ≠ "cellular" → r1.get key = r.get key) :
    (∀ t, UpdateWANStatus K E t r = UpdateWANStatus K E t r1) ∧
    (∀ t, UpdateWifiStatus K E t r = UpdateWifiStatus K E t r1) ∧
    isInternetConnectionAvailable E r = isInternetConnectionAvailable E r1 ∧
    (internetObj E r b).get "wan" = some X ∧
    (internetObj E r1 b).get "wan" = none := by
  have hwifi : r1.get "wifi" = r.get "wifi" := hrest _ (by decide) (by decide)
  have hwired : r1.get "wired" = r.get "wired" := hrest _ (by decide) (by decide)
  refine ⟨?_, ?_, ?_, ?_, ?_⟩
  · intro t
    apply updateWANStatus_congr
    simp only [wanDescription, hcell, hnowan, hwan1, hnocell1]
  · intro t
    apply updateWifiStatus_congr
    simp only [wifiDescription, hwifi, hwired]
  · unfold isInternetConnectionAvailable
    rw [hrest _ (by decide) (by decide)]
  · unfold internetObj
    simp only [hcell, Option.isSome_some, Option.getD_some, if_true]
    cases hw : r.get "wifi" with
    | none => cases hd : r.get "wired" <;> simp [MojObject.put, MojObject.get, List.find?]
    | some w =>
      by_cases hconn : (w.getString E "state").value = "connected"
      · cases hd : r.get "wired" <;> simp [hconn, MojObject.put, MojObject.get, List.find?]
      · cases hd : r.get "wired" <;> simp [hconn, MojObject.put, MojObject.get, List.find?]
  · unfold internetObj
    simp only [hnocell1, hwifi, hwired, Option.isSome_none, Bool.false_eq_true, if_false]
    cases hw : r.get "wifi" with
    | none => cases hd : r.get "wired" <;> simp [MojObject.put, MojObject.get, List.find?]
    | some w =>
      by_cases hconn : (w.getString E "state").value = "connected"
      · cases hd : r.get "wired" <;> simp [hconn, MojObject.put, MojObject.get, List.find?]
      · cases hd : r.get "wired" <;> simp [hconn, MojObject.put, MojObject.get, List.find?]

/-- C26, witness: on the proxy whose internet requirement is met after an update
with the description under `wan`, the same update again changes nothing and tells
the binding nothing, while the update with the description under `cellular` stores
a value with a `wan` entry and tells the binding `Updated`. -/
theorem cellular_only_in_internet_value_witness :
    cellularPayload.get "cellular" = some wanGood ∧ cellularPayload.get "wan" = none ∧
    wanPayload.get "wan" = some wanGood ∧ wanPayload.get "cellular" = none ∧
    (internetObj structuralEnv cellularPayload true).get "wan" = some wanGood ∧
    (internetObj structuralEnv wanPayload true).get "wan" = none ∧
    (((ConnectionManagerUpdate specProxyConstants structuralEnv internetReady cellularPayload
      MojErr.MojErrNone false).cores CoreId.internet).current.get "wan").isSome = true ∧
    (((ConnectionManagerUpdate specProxyConstants structuralEnv internetReady wanPayload
      MojErr.MojErrNone false).cores CoreId.internet).current.get "wan").isSome = false ∧
    received internetReady (ConnectionManagerUpdate specProxyConstants structuralEnv
      internetReady cellularPayload MojErr.MojErrNone false) CoreId.internet =
      [ProxyCall.notify Broadcast.Updated CoreId.internet 1] ∧
    received internetReady (ConnectionManagerUpdate specProxyConstants structuralEnv
      internetReady wanPayload MojErr.MojErrNone false) CoreId.internet = [] :=
  ⟨rfl, rfl, rfl, rfl,
    (cellular_only_in_internet_value specProxyConstants structuralEnv cellularPayload wanPayload
      wanGood true rfl rfl rfl rfl get_wanPayload).2.2.2.1,
    (cellular_only_in_internet_value specProxyConstants structuralEnv cellularPayload wanPayload
      wanGood true rfl rfl rfl rfl get_wanPayload).2.2.2.2,
    by decide, by decide, by decide, by decide⟩

/-- C27: an update that has a `wired` entry and no `wifi` entry leads to the same
state, with the same calls on the bindings, as every update that has the entry under
`wifi`, no `wired` entry and the same other entries. -/
theorem wired_shown_as_wifi (K : ProxyConstants) (E : MojEnv) (s : ConnectionManagerProxy)
    (r r1 X : MojObject) (err : MojErr) (permanent : Bool)
    (hwired : r.get "wired" = some X) (hnowifi : r.get "wifi" = none)
    (hwifi1 : r1.get "wifi" = some X) (hnowired1 : r1.get "wired" = none)
    (hrest : ∀ key, key ≠ "wifi" → key ≠ "wired" → r1.get key = r.get key) :
    ConnectionManagerUpdate K E s r err permanent =
      ConnectionManagerUpdate K E s r1 err permanent ∧
    (∀ t, UpdateWifiStatus K E t r = UpdateWifiStatus K E t r1) ∧
    (∀ b, internetObj E r b = internetObj E r1 b) := by
  have hwifi : ∀ t, UpdateWifiStatus K E t r = UpdateWifiStatus K E t r1 := by
    intro t
    apply updateWifiStatus_congr
    simp only [wifiDescription, hwired, hnowifi, hwifi1]
  have hobj : ∀ b, internetObj E r b = internetObj E r1 b :=
    fun b => wired_internetObj E r r1 X b hwired hnowifi hwifi1 hnowired1
      (hrest _ (by decide) (by decide))
  refine ⟨connectionManagerUpdate_congr K E s r r1 err permanent ?_ hobj hwifi ?_, hwifi, hobj⟩
  · unfold isInternetConnectionAvailable
    rw [hrest _ (by decide) (by decide)]
  · intro t
    apply updateWANStatus_congr
    simp only [wanDescription, hrest "wan" (by decide) (by decide),
      hrest "cellular" (by decide) (by decide)]

/-- C27, witness: the update with a connected wired description of the confidence
fair makes the wifi requirement met, as the update with the description under
`wifi` does. -/
theorem wired_shown_as_wifi_witness :
    wiredPayload.get "wired" = some wifiFair ∧ wiredPayload.get "wifi" = none ∧
    wifiPayload.get "wifi" = some wifiFair ∧ wifiPayload.get "wired" = none ∧
    ConnectionManagerUpdate specProxyConstants exampleEnv s4Proxy wiredPayload MojErr.MojErrNone
      false = ConnectionManagerUpdate specProxyConstants exampleEnv s4Proxy wifiPayload
        MojErr.MojErrNone false ∧
    ((ConnectionManagerUpdate specProxyConstants exampleEnv s4Proxy wiredPayload MojErr.MojErrNone
      false).cores CoreId.wifi).met = true ∧
    (ConnectionManagerUpdate specProxyConstants exampleEnv s4Proxy wiredPayload MojErr.MojErrNone
      false).m_wifiConfidence = 2 :=
  ⟨rfl, rfl, rfl, rfl,
    (wired_shown_as_wifi specProxyConstants exampleEnv s4Proxy wiredPayload wifiPayload wifiFair
      MojErr.MojErrNone false rfl rfl rfl rfl get_wifiPayload).1,
    by decide, by decide⟩

/-- C28: after a successful update whose wan description (the `wan` entry, or the
`cellular` entry when there is no `wan` entry) is connected on the network
`unusable`, the wan requirement is unmet and the wan confidence is unknown, whatever
else the description says; a wan requirement that was met has its bindings told
`Unmet`. -/
theorem unusable_wan_is_unmet (K : ProxyConstants) (E : MojEnv) (s : ConnectionManagerProxy)
    (response X : MojObject) (permanent : Bool)
    (hwan : wanDescription response = some X)
    (hstate : X.get "state" = some (MojObject.str "connected"))
    (hnet : X.get "network" = some (MojObject.str "unusable")) :
    ((ConnectionManagerUpdate K E s response MojErr.MojErrNone permanent).cores CoreId.wan).met
      = false ∧
    (ConnectionManagerUpdate K E s response MojErr.MojErrNone permanent).m_wanConfidence
      = K.ConnectionConfidenceUnknown ∧
    ((s.cores CoreId.wan).met = true →
      (ConnectionManagerUpdate K E s response MojErr.MojErrNone permanent).requirements
        CoreId.wan = (s.requirements CoreId.wan).map (Requirement.receive Broadcast.Unmet)) := by
  obtain ⟨t1, u, a, s2, hpre, hs2, hfinal, _, hwanc, _⟩ := update_stages K E s response permanent
  have hu := updateWANStatus_unusable K E (UpdateWifiStatus K E s2 response).2 response X hwan
    hstate hnet
  have hfin := finishWANStatus_at K E
    ((UpdateWifiStatus K E s2 response).2.setCore CoreId.wan
      (((UpdateWifiStatus K E s2 response).2.cores CoreId.wan).SetCurrentValue E X).2) false
    (((UpdateWifiStatus K E s2 response).2.cores CoreId.wan).SetCurrentValue E X).1
    K.ConnectionConfidenceUnknown
  rw [← hu] at hfin
  have hat := updateRequirement_at
    ((UpdateWifiStatus K E s2 response).2.setCore CoreId.wan
      (((UpdateWifiStatus K E s2 response).2.cores CoreId.wan).SetCurrentValue E X).2)
    CoreId.wan false
    (((UpdateWifiStatus K E s2 response).2.cores CoreId.wan).SetCurrentValue E X).1
  obtain ⟨hc1, hr1⟩ := hfinal.1 CoreId.wan rfl
  obtain ⟨hc2, hr2⟩ := hfin.2.2.2.1.1 CoreId.wan (by simp)
  have hwifi := (updateWifiStatus_frame K E s2 response).1.1 CoreId.wan rfl
  have hset := frameOn_setCurrentValue CoreId.ofInternet E s CoreId.internet rfl t1 u hpre
  have hs2f : FrameOn CoreId.ofInternet s s2 := by
    rw [hs2]
    exact frameOn_trans _ _ _ _ hset.1
      (frameOn_updateRequirement CoreId.ofInternet t1 CoreId.internet a u rfl)
  have hs := hs2f.1 CoreId.wan rfl
  refine ⟨by rw [hc1, hc2, hat.1], by rw [hwanc, hfin.1], ?_⟩
  intro hmet
  have hmet2 : (((UpdateWifiStatus K E s2 response).2.setCore CoreId.wan
      (((UpdateWifiStatus K E s2 response).2.cores CoreId.wan).SetCurrentValue E X).2).cores
      CoreId.wan).met = true := by
    simp only [setCore, Function.update_same, setCurrentValue_met]
    rw [hwifi.1, hs.1]
    exact hmet
  rw [hr1, hr2, hat.2.2.2, hmet2]
  simp only [Bool.false_eq_true, if_false, if_true, setCore]
  rw [hwifi.2, hs.2]

/-- C28, witness: the wan requirement of the activity 2 is met with the confidence
excellent; after the update with the unusable network it is unmet, the confidence is
unknown and the binding was told `Unmet`. -/
theorem unusable_wan_is_unmet_witness :
    wanDescription unusablePayload = some wanUnusable ∧
    wanUnusable.get "state" = some (MojObject.str "connected") ∧
    wanUnusable.get "network" = some (MojObject.str "unusable") ∧
    (internetReady.cores CoreId.wan).met = true ∧ internetReady.m_wanConfidence = 3 ∧
    ((ConnectionManagerUpdate specProxyConstants structuralEnv internetReady unusablePayload
      MojErr.MojErrNone false).cores CoreId.wan).met = false ∧
    (ConnectionManagerUpdate specProxyConstants structuralEnv internetReady unusablePayload
      MojErr.MojErrNone false).m_wanConfidence = specProxyConstants.ConnectionConfidenceUnknown ∧
    received internetReady (ConnectionManagerUpdate specProxyConstants structuralEnv
      internetReady unusablePayload MojErr.MojErrNone false) CoreId.wan =
      [ProxyCall.notify Broadcast.Unmet CoreId.wan 2] :=
  ⟨rfl, rfl, rfl, by decide, by decide,
    (unusable_wan_is_unmet specProxyConstants structuralEnv internetReady unusablePayload
      wanUnusable false rfl rfl rfl).1,
    (unusable_wan_is_unmet specProxyConstants structuralEnv internetReady unusablePayload
      wanUnusable false rfl rfl rfl).2.1,
    by decide⟩

/-- C30, counterexample: the update reports wifi connected with the confidence fair
and does not say that the wifi is on the internet; the wifi confidence stays unknown
and the requirement of the level poor stays unmet. -/
theorem fair_wifi_offline_counterexample :
    s4Proxy.requirements (CoreId.wifiConfidence 1) =
      [Requirement.mk 1 (CoreId.wifiConfidence 1) false] ∧
    wifiFairOffline.get "state" = some (MojObject.str "connected") ∧
    wifiFairOffline.get "networkConfidenceLevel" = some (MojObject.str "fair") ∧
    ((ConnectionManagerUpdate specProxyConstants exampleEnv s4Proxy
      (MojObject.object [("wifi", wifiFairOffline)]) MojErr.MojErrNone false).cores
      (CoreId.wifiConfidence 1)).met = false ∧
    (ConnectionManagerUpdate specProxyConstants exampleEnv s4Proxy
      (MojObject.object [("wifi", wifiFairOffline)]) MojErr.MojErrNone false).requirements
      (CoreId.wifiConfidence 1) = [Requirement.mk 1 (CoreId.wifiConfidence 1) false] ∧
    (ConnectionManagerUpdate specProxyConstants exampleEnv s4Proxy
      (MojObject.object [("wifi", wifiFairOffline)]) MojErr.MojErrNone false).m_wifiConfidence
      = -1 :=
  ⟨by decide, rfl, rfl, by decide, by decide, by decide⟩

/-- C30 (amended): from a state in which the wifi confidence is unknown and the cores
of the levels poor and excellent are unmet (as in the constructed proxy with one
binding for each), a successful update whose wifi description is connected, on the
internet and of the confidence fair makes the wifi confidence fair, the core of the
level poor met and its bindings met, and leaves the core of the level excellent unmet
and its bindings as they are. -/
theorem fair_wifi_meets_poor (K : ProxyConstants) (E : MojEnv) (s : ConnectionManagerProxy)
    (response W : MojObject) (permanent : Bool)
    (hmax : K.ConnectionConfidenceMax = 4) (hunk : K.ConnectionConfidenceUnknown < 0)
    (h0 : s.m_wifiConfidence = K.ConnectionConfidenceUnknown)
    (hpoor : (s.cores (CoreId.wifiConfidence 1)).met = false)
    (hexcellent : (s.cores (CoreId.wifiConfidence 3)).met = false)
    (hwifi : wifiDescription response = some W)
    (hstate : W.get "state" = some (MojObject.str "connected"))
    (hon : W.get "onInternet" = some (MojObject.str "yes"))
    (hlevel : W.get "networkConfidenceLevel" = some (MojObject.str "fair")) :
    (ConnectionManagerUpdate K E s response MojErr.MojErrNone permanent).m_wifiConfidence = 2 ∧
    ((ConnectionManagerUpdate K E s response MojErr.MojErrNone permanent).cores
      (CoreId.wifiConfidence 1)).met = true ∧
    (ConnectionManagerUpdate K E s response MojErr.MojErrNone permanent).requirements
      (CoreId.wifiConfidence 1) = (s.requirements (CoreId.wifiConfidence 1)).map
        (fun r => { r with met := true }) ∧
    ((ConnectionManagerUpdate K E s response MojErr.MojErrNone permanent).cores
      (CoreId.wifiConfidence 3)).met = false ∧
    (ConnectionManagerUpdate K E s response MojErr.MojErrNone permanent).requirements
      (CoreId.wifiConfidence 3) = s.requirements (CoreId.wifiConfidence 3) := by
  have hconf := getConfidence_fair K E W hmax hlevel
  have hne : s.m_wifiConfidence ≠ GetConfidence K E W := by
    rw [hconf, h0]
    omega
  have h1 := wifi_levels_after_update K E s response W permanent hwifi hstate hon hne 1
    (by rw [hmax]; decide)
  have h3 := wifi_levels_after_update K E s response W permanent hwifi hstate hon hne 3
    (by rw [hmax]; decide)
  rw [hconf] at h1 h3
  refine ⟨h1.1, ?_, ?_, ?_, ?_⟩
  · rw [h1.2.1]
    decide
  · rw [h1.2.2, hpoor]
    rfl
  · rw [h3.2.1]
    decide
  · rw [h3.2.2, hexcellent]
    simp only [Nat.cast_ofNat, Int.reduceLT, if_true, Bool.false_eq_true, if_false]
    exact List.map_id _

/-- C30, witness: the scenario S4.  The activity 1 requires the wifi confidence poor
and the activity 2 the wifi confidence excellent; after the update with wifi
connected, on the internet and of the confidence fair the binding of the activity 1
is met and the binding of the activity 2 is unmet. -/
theorem fair_wifi_meets_poor_witness :
    specProxyConstants.ConnectionConfidenceMax = 4 ∧
    specProxyConstants.ConnectionConfidenceUnknown < 0 ∧
    s4Proxy.m_wifiConfidence = specProxyConstants.ConnectionConfidenceUnknown ∧
    wifiDescription wifiPayload = some wifiFair ∧
    ((ConnectionManagerUpdate specProxyConstants exampleEnv s4Proxy wifiPayload MojErr.MojErrNone
      false).cores (CoreId.wifiConfidence 1)).met = true ∧
    (ConnectionManagerUpdate specProxyConstants exampleEnv s4Proxy wifiPayload MojErr.MojErrNone
      false).requirements (CoreId.wifiConfidence 1) =
      [Requirement.mk 1 (CoreId.wifiConfidence 1) true] ∧
    (ConnectionManagerUpdate specProxyConstants exampleEnv s4Proxy wifiPayload MojErr.MojErrNone
      false).requirements (CoreId.wifiConfidence 3) =
      [Requirement.mk 2 (CoreId.wifiConfidence 3) false] ∧
    received s4Proxy (ConnectionManagerUpdate specProxyConstants exampleEnv s4Proxy wifiPayload
      MojErr.MojErrNone false) (CoreId.wifiConfidence 1) =
      [ProxyCall.notify Broadcast.Met (CoreId.wifiConfidence 1) 1] :=
  ⟨by decide, by decide, by decide, rfl,
    (fair_wifi_meets_poor specProxyConstants exampleEnv s4Proxy wifiPayload wifiFair false
      (by decide) (by decide) (by decide) (by decide) (by decide) rfl rfl rfl rfl).2.1,
    by decide, by decide, by decide⟩

/-- C34: an update that is delivered with an error leaves every requirement core,
every requirement list and the three confidences as they are and makes no call on a
binding; when the failure is permanent the subscription is dropped (`reset`), and
otherwise the subscription is kept and its call is issued again (`Call`). -/
theorem failed_update_keeps_state (K : ProxyConstants) (E : MojEnv)
    (s : ConnectionManagerProxy) (response : MojObject) (err : MojErr) (permanent : Bool)
    (herr : err ≠ MojErr.MojErrNone) :
    (ConnectionManagerUpdate K E s response err permanent).cores = s.cores ∧
    (ConnectionManagerUpdate K E s response err permanent).requirements = s.requirements ∧
    (ConnectionManagerUpdate K E s response err permanent).m_wifiConfidence =
      s.m_wifiConfidence ∧
    (ConnectionManagerUpdate K E s response err permanent).m_wanConfidence =
      s.m_wanConfidence ∧
    (ConnectionManagerUpdate K E s response err permanent).m_internetConfidence =
      s.m_internetConfidence ∧
    (∀ list, received s (ConnectionManagerUpdate K E s response err permanent) list = []) ∧
    (permanent = true →
      (ConnectionManagerUpdate K E s response err permanent).m_call = false ∧
      (ConnectionManagerUpdate K E s response err permanent).calls =
        s.calls ++ [ProxyCall.reset]) ∧
    (permanent = false →
      (ConnectionManagerUpdate K E s response err permanent).m_call = s.m_call ∧
      (ConnectionManagerUpdate K E s response err permanent).calls =
        s.calls ++ [ProxyCall.Call]) := by
  unfold ConnectionManagerUpdate
  rw [if_pos herr]
  cases permanent with
  | true =>
    refine ⟨rfl, rfl, rfl, rfl, rfl, ?_, fun _ => ⟨rfl, rfl⟩, fun h => absurd h (by simp)⟩
    intro list
    rw [received_of_append s _ list [ProxyCall.reset] (by simp)]
    rfl
  | false =>
    refine ⟨rfl, rfl, rfl, rfl, rfl, ?_, fun h => absurd h (by simp), fun _ => ⟨rfl, rfl⟩⟩
    intro list
    rw [received_of_append s _ list [ProxyCall.Call] (by simp)]
    rfl

/-- C34, witness: on the proxy whose internet and wan requirements are met, an update
with an error leaves the met states and the wan confidence, tells no binding anything
and issues the subscription call again. -/
theorem failed_update_keeps_state_witness :
    MojErr.MojErrInvalidArg ≠ MojErr.MojErrNone ∧
    (ConnectionManagerUpdate specProxyConstants structuralEnv internetReady offlinePayload
      MojErr.MojErrInvalidArg false).cores = internetReady.cores ∧
    ((ConnectionManagerUpdate specProxyConstants structuralEnv internetReady offlinePayload
      MojErr.MojErrInvalidArg false).cores CoreId.internet).met = true ∧
    (ConnectionManagerUpdate specProxyConstants structuralEnv internetReady offlinePayload
      MojErr.MojErrInvalidArg false).m_wanConfidence = 3 ∧
    received internetReady (ConnectionManagerUpdate specProxyConstants structuralEnv
      internetReady offlinePayload MojErr.MojErrInvalidArg false) CoreId.internet = [] ∧
    (ConnectionManagerUpdate specProxyConstants structuralEnv internetReady offlinePayload
      MojErr.MojErrInvalidArg true).m_call = false :=
  ⟨by decide,
    (failed_update_keeps_state specProxyConstants structuralEnv internetReady offlinePayload
      MojErr.MojErrInvalidArg false (by decide)).1,
    by decide, by decide, by decide, by decide⟩

/-- C31, counterexample: the update has a wired entry that is connected and on the
internet with the confidence excellent, and a wifi entry as well.  With a wifi entry
that is not connected the internet confidence is unknown after the update, and with a
connected wifi entry of the confidence poor it is poor: the wired entry is not read. -/
theorem wired_hidden_by_wifi_counterexample :
    wifiDownWiredUp.get "wired" = some wiredExcellent ∧
    wifiPoorWiredUp.get "wired" = some wiredExcellent ∧
    wiredExcellent.get "state" = some (MojObject.str "connected") ∧
    wiredExcellent.get "onInternet" = some (MojObject.str "yes") ∧
    wiredExcellent.get "networkConfidenceLevel" = some (MojObject.str "excellent") ∧
    (ConnectionManagerUpdate specProxyConstants exampleEnv (new specProxyConstants)
      wifiDownWiredUp MojErr.MojErrNone false).m_internetConfidence = -1 ∧
    (ConnectionManagerUpdate specProxyConstants exampleEnv (new specProxyConstants)
      wifiPoorWiredUp MojErr.MojErrNone false).m_internetConfidence = 1 ∧
    ¬ ((ConnectionManagerUpdate specProxyConstants exampleEnv (new specProxyConstants)
      wifiDownWiredUp MojErr.MojErrNone false).m_internetConfidence ≥ 3) ∧
    ¬ ((ConnectionManagerUpdate specProxyConstants exampleEnv (new specProxyConstants)
      wifiPoorWiredUp MojErr.MojErrNone false).m_internetConfidence ≥ 3) :=
  ⟨rfl, rfl, rfl, rfl, rfl, by decide, by decide, by decide, by decide⟩

/-- C31 (amended): for every successful update that has no wifi entry and whose wired
entry is connected and on the internet with the confidence level `i`, the wifi
confidence after the update is `i` and the internet confidence is at least `i`, as
integers and in the order unknown, none, poor, fair, excellent. -/
theorem wired_alone_counts_as_wifi (K : ProxyConstants) (E : MojEnv)
    (s : ConnectionManagerProxy) (response W : MojObject) (permanent : Bool) (i : Nat)
    (hmax : K.ConnectionConfidenceMax = 4) (hunk : K.ConnectionConfidenceUnknown < 0)
    (hi : i < 4)
    (hnowifi : response.get "wifi" = none) (hwired : response.get "wired" = some W)
    (hstate : W.get "state" = some (MojObject.str "connected"))
    (hon : W.get "onInternet" = some (MojObject.str "yes"))
    (hlevel : W.get "networkConfidenceLevel" = some (MojObject.str (nameStrings.getD i ""))) :
    (ConnectionManagerUpdate K E s response MojErr.MojErrNone permanent).m_wifiConfidence =
      (i : Int) ∧
    (ConnectionManagerUpdate K E s response MojErr.MojErrNone permanent).m_internetConfidence ≥
      (i : Int) ∧
    specRank K (ConnectionManagerUpdate K E s response MojErr.MojErrNone
      permanent).m_internetConfidence ≥ specRank K (i : Int) := by
  have hwifi : wifiDescription response = some W := by
    simp only [wifiDescription, hnowifi, hwired]
  have h := wifi_confidence_after_update K E s response W permanent hwifi hstate hon
  rw [getConfidence_level K E W hmax i hi hlevel] at h
  refine ⟨h.1, h.2, ?_⟩
  have h2 := h.2
  unfold specRank
  rw [if_neg (by omega), if_neg (by omega)]
  omega

/-- C31, witness: the update with the connected wired entry of the confidence
excellent and no wifi entry makes the internet confidence excellent (3). -/
theorem wired_alone_counts_as_wifi_witness :
    specProxyConstants.ConnectionConfidenceMax = 4 ∧
    specProxyConstants.ConnectionConfidenceUnknown < 0 ∧
    wiredOnly.get "wifi" = none ∧ wiredOnly.get "wired" = some wiredExcellent ∧
    (ConnectionManagerUpdate specProxyConstants exampleEnv (new specProxyConstants) wiredOnly
      MojErr.MojErrNone false).m_internetConfidence ≥ ((3 : Nat) : Int) ∧
    (ConnectionManagerUpdate specProxyConstants exampleEnv (new specProxyConstants) wiredOnly
      MojErr.MojErrNone false).m_internetConfidence = 3 :=
  ⟨by decide, by decide, rfl, rfl,
    (wired_alone_counts_as_wifi specProxyConstants exampleEnv (new specProxyConstants) wiredOnly
      wiredExcellent false 3 (by decide) (by decide) (by decide) rfl rfl rfl rfl rfl).2.1,
    by decide⟩

end ConnectionManagerProxy
